import Mathlib

/-! # OMX H.264 sample applications: buffer and port choreography

A shallow embedding of `omx.c` / `main.c` of the decoder and the encoder sample
application.  The hardware media component is a black box: it is a deterministic
automaton `Component σ` over an arbitrary state type `σ`, and every theorem is
quantified over all such automata.  Every call the application makes is appended
to `World.trace`, so that orderings and call counts can be stated on the trace.

Conventions
* `OMX_U32` values are natural numbers; no arithmetic that could wrap is
  performed by the functions embedded here.
* a pointer to a buffer header is a natural number address, `0` being `NULL`;
  the headers live in `World.heap`;
* an array `OMX_BUFFERHEADERTYPE **` is `Option (List BufPtr)`: `none` is `NULL`,
  `some l` is an array whose slots `0 .. l.length - 1` may be read.  Reading any
  other slot is the fault `Fault.invalidRead`;
* `malloc` never fails; `nSize` / `nVersion` bookkeeping of `OMX_INIT_STRUCTURE`
  is not represented;
* `printf` appends the format string and its arguments to `World.stdout`.
-/

namespace Omx

/-! ## OpenMAX IL types and constants (values of the OpenMAX IL 1.1.2 headers) -/

abbrev OMX_U32 := Nat
abbrev OMX_ERRORTYPE := Nat
abbrev OMX_STATETYPE := Nat
abbrev OMX_COMMANDTYPE := Nat
abbrev OMX_EVENTTYPE := Nat
abbrev BufPtr := Nat

def OMX_ErrorNone : OMX_ERRORTYPE := 0

def NULL : BufPtr := 0

def OMX_StateInvalid : OMX_STATETYPE := 0
def OMX_StateLoaded : OMX_STATETYPE := 1
def OMX_StateIdle : OMX_STATETYPE := 2
def OMX_StateExecuting : OMX_STATETYPE := 3
def OMX_StatePause : OMX_STATETYPE := 4
def OMX_StateWaitForResources : OMX_STATETYPE := 5

def OMX_CommandStateSet : OMX_COMMANDTYPE := 0
def OMX_CommandFlush : OMX_COMMANDTYPE := 1
def OMX_CommandPortDisable : OMX_COMMANDTYPE := 2
def OMX_CommandPortEnable : OMX_COMMANDTYPE := 3
def OMX_CommandMarkBuffer : OMX_COMMANDTYPE := 4

def OMX_EventCmdComplete : OMX_EVENTTYPE := 0
def OMX_EventError : OMX_EVENTTYPE := 1
def OMX_EventMark : OMX_EVENTTYPE := 2
def OMX_EventPortSettingsChanged : OMX_EVENTTYPE := 3
def OMX_EventBufferFlag : OMX_EVENTTYPE := 4

def OMX_BUFFERFLAG_EOS : OMX_U32 := 0x1
def OMX_BUFFERFLAG_ENDOFFRAME : OMX_U32 := 0x10

def OMX_COLOR_FormatYUV420SemiPlanar : Nat := 21
def OMX_VIDEO_CodingAVC : Nat := 7
def OMX_Video_ControlRateConstant : Nat := 2

/-- The fields of `OMX_PARAM_PORTDEFINITIONTYPE` that the applications touch
(`format.video.*` is flattened). -/
structure OMX_PARAM_PORTDEFINITIONTYPE where
  nPortIndex : OMX_U32
  nBufferCountActual : OMX_U32
  nBufferCountMin : OMX_U32
  nBufferSize : OMX_U32
  nFrameWidth : OMX_U32
  nFrameHeight : OMX_U32
  nStride : OMX_U32
  nSliceHeight : OMX_U32
  eColorFormat : Nat
  eCompressionFormat : Nat
deriving DecidableEq, Repr, Inhabited

/-- The fields of `OMX_VIDEO_PARAM_BITRATETYPE`. -/
structure OMX_VIDEO_PARAM_BITRATETYPE where
  nPortIndex : OMX_U32
  eControlRate : Nat
  nTargetBitrate : OMX_U32
deriving DecidableEq, Repr, Inhabited

/-- The fields of `OMXR_MC_VIDEO_PARAM_AVC_VUI_PROPERTY` set by the encoder. -/
structure OMXR_MC_VIDEO_PARAM_AVC_VUI_PROPERTY where
  nPortIndex : OMX_U32
  u32TimeScale : OMX_U32
  u32NumUnitsInTick : OMX_U32
  bFixedFrameRateFlag : Bool
  bTimingInfoPresentFlag : Bool
deriving DecidableEq, Repr, Inhabited

/-- The fields of `OMX_BUFFERHEADERTYPE` used by the applications: the payload
area `pBuffer` (a list of bytes), its capacity and the filled length / flags. -/
structure OMX_BUFFERHEADERTYPE where
  pBuffer : List Nat
  nAllocLen : OMX_U32
  nFilledLen : OMX_U32
  nFlags : OMX_U32
deriving DecidableEq, Repr, Inhabited

/-- The named binary signals (POSIX semaphores of `omx_data_t`). -/
inductive Gate where
  | smp_eos
  | smp_port_disabled
  | smp_port_enabled
  | smp_port_settings_changed
deriving DecidableEq, Repr

/-- Everything the application does that is visible outside the function that
does it, in the order it is done.  An OMX call is recorded with its arguments,
the error code `ret` the component answered and what it wrote through the
out-parameters. -/
inductive Call where
  | OMX_Init (ret : OMX_ERRORTYPE)
  | OMX_Deinit (ret : OMX_ERRORTYPE)
  | OMX_GetHandle (ret : OMX_ERRORTYPE)
  | OMX_FreeHandle (ret : OMX_ERRORTYPE)
  | OMX_GetState (ret : OMX_ERRORTYPE) (state : OMX_STATETYPE)
  | OMX_SendCommand (cmd : OMX_COMMANDTYPE) (param : OMX_U32) (ret : OMX_ERRORTYPE)
  | OMX_GetParameter_PortDefinition (q : OMX_PARAM_PORTDEFINITIONTYPE)
      (ret : OMX_ERRORTYPE) (out : OMX_PARAM_PORTDEFINITIONTYPE)
  | OMX_SetParameter_PortDefinition (d : OMX_PARAM_PORTDEFINITIONTYPE) (ret : OMX_ERRORTYPE)
  | OMX_GetParameter_VideoBitrate (q : OMX_VIDEO_PARAM_BITRATETYPE)
      (ret : OMX_ERRORTYPE) (out : OMX_VIDEO_PARAM_BITRATETYPE)
  | OMX_SetParameter_VideoBitrate (d : OMX_VIDEO_PARAM_BITRATETYPE) (ret : OMX_ERRORTYPE)
  | OMX_SetParameter_AVCVuiProperty (d : OMXR_MC_VIDEO_PARAM_AVC_VUI_PROPERTY)
      (ret : OMX_ERRORTYPE)
  | OMX_AllocateBuffer (port : OMX_U32) (size : OMX_U32) (ret : OMX_ERRORTYPE) (buf : BufPtr)
  | OMX_FreeBuffer (port : OMX_U32) (buf : BufPtr) (ret : OMX_ERRORTYPE)
  | OMX_EmptyThisBuffer (buf : BufPtr) (hdr : OMX_BUFFERHEADERTYPE) (ret : OMX_ERRORTYPE)
  | OMX_FillThisBuffer (buf : BufPtr) (hdr : OMX_BUFFERHEADERTYPE) (ret : OMX_ERRORTYPE)
  | malloc (slots : Nat)
  | free (arr : List BufPtr)
  | usleep (us : Nat)
  | sem_wait (g : Gate)
  | sem_post (g : Gate)
  | store_port_disabled (v : Bool)
  | store_eos (v : Bool)
deriving DecidableEq, Repr

/-- The media component (and the OMX IL core in front of it) as a black box:
for every entry point, the error code it answers, what it writes through the
out-parameters, and its next internal state. -/
structure Component (σ : Type) where
  init : σ → OMX_ERRORTYPE × σ
  deinit : σ → OMX_ERRORTYPE × σ
  getHandle : σ → OMX_ERRORTYPE × σ
  freeHandle : σ → OMX_ERRORTYPE × σ
  getState : σ → OMX_ERRORTYPE × OMX_STATETYPE × σ
  sendCommand : σ → OMX_COMMANDTYPE → OMX_U32 → OMX_ERRORTYPE × σ
  getPortDefinition : σ → OMX_PARAM_PORTDEFINITIONTYPE →
    OMX_ERRORTYPE × OMX_PARAM_PORTDEFINITIONTYPE × σ
  setPortDefinition : σ → OMX_PARAM_PORTDEFINITIONTYPE → OMX_ERRORTYPE × σ
  getVideoBitrate : σ → OMX_VIDEO_PARAM_BITRATETYPE →
    OMX_ERRORTYPE × OMX_VIDEO_PARAM_BITRATETYPE × σ
  setVideoBitrate : σ → OMX_VIDEO_PARAM_BITRATETYPE → OMX_ERRORTYPE × σ
  setAVCVuiProperty : σ → OMXR_MC_VIDEO_PARAM_AVC_VUI_PROPERTY → OMX_ERRORTYPE × σ
  allocateBuffer : σ → OMX_U32 → OMX_U32 → OMX_ERRORTYPE × BufPtr × σ
  freeBuffer : σ → OMX_U32 → BufPtr → OMX_ERRORTYPE × σ
  emptyThisBuffer : σ → BufPtr → OMX_BUFFERHEADERTYPE → OMX_ERRORTYPE × σ
  fillThisBuffer : σ → BufPtr → OMX_BUFFERHEADERTYPE → OMX_ERRORTYPE × σ

/-- An argument of a `printf` call. -/
inductive PrintfArg where
  | num (n : Nat)
  | str (s : String)
deriving DecidableEq, Repr

/-- A `FILE` opened for reading: its size, its bytes by offset, the file
position and the end-of-file indicator. -/
structure FILE where
  size : Nat
  byte : Nat → Nat
  pos : Nat
  eof : Bool

/-- The state outside the application's own variables. -/
structure World (σ : Type) where
  comp : σ
  trace : List Call
  heap : BufPtr → OMX_BUFFERHEADERTYPE
  stdout : List (String × List PrintfArg)

/-- Ways in which the C program stops without returning: a failed `assert`, a
read outside an array, a dereferenced `NULL`, a `sem_wait` on a gate nobody
posts, and a polling loop that is still polling after the given number of
rounds. -/
inductive Fault where
  | assertion
  | invalidRead
  | nullDeref
  | blocked
  | fuel
deriving DecidableEq, Repr

abbrev Outcome (σ α : Type) := Except Fault α × World σ

variable {σ : Type}

def World.log (w : World σ) (c : Call) : World σ :=
  { w with trace := w.trace ++ [c] }

def World.printf (w : World σ) (fmt : String) (args : List PrintfArg) : World σ :=
  { w with stdout := w.stdout ++ [(fmt, args)] }

/-! ## The OMX IL entry points, as seen from the application -/

def OMX_GetParameter_PortDefinition (C : Component σ) (w : World σ)
    (q : OMX_PARAM_PORTDEFINITIONTYPE) :
    OMX_ERRORTYPE × OMX_PARAM_PORTDEFINITIONTYPE × World σ :=
  let r := C.getPortDefinition w.comp q
  (r.1, r.2.1,
    { (w.log (Call.OMX_GetParameter_PortDefinition q r.1 r.2.1)) with comp := r.2.2 })

def OMX_SetParameter_PortDefinition (C : Component σ) (w : World σ)
    (d : OMX_PARAM_PORTDEFINITIONTYPE) : OMX_ERRORTYPE × World σ :=
  let r := C.setPortDefinition w.comp d
  (r.1, { (w.log (Call.OMX_SetParameter_PortDefinition d r.1)) with comp := r.2 })

def OMX_AllocateBuffer (C : Component σ) (w : World σ) (port size : OMX_U32) :
    OMX_ERRORTYPE × BufPtr × World σ :=
  let r := C.allocateBuffer w.comp port size
  (r.1, r.2.1, { (w.log (Call.OMX_AllocateBuffer port size r.1 r.2.1)) with comp := r.2.2 })

def OMX_FreeBuffer (C : Component σ) (w : World σ) (port : OMX_U32) (buf : BufPtr) :
    OMX_ERRORTYPE × World σ :=
  let r := C.freeBuffer w.comp port buf
  (r.1, { (w.log (Call.OMX_FreeBuffer port buf r.1)) with comp := r.2 })

def OMX_FillThisBuffer (C : Component σ) (w : World σ) (buf : BufPtr) :
    OMX_ERRORTYPE × World σ :=
  let r := C.fillThisBuffer w.comp buf (w.heap buf)
  (r.1, { (w.log (Call.OMX_FillThisBuffer buf (w.heap buf) r.1)) with comp := r.2 })

def OMX_EmptyThisBuffer (C : Component σ) (w : World σ) (buf : BufPtr) :
    OMX_ERRORTYPE × World σ :=
  let r := C.emptyThisBuffer w.comp buf (w.heap buf)
  (r.1, { (w.log (Call.OMX_EmptyThisBuffer buf (w.heap buf) r.1)) with comp := r.2 })

def OMX_SendCommand (C : Component σ) (w : World σ) (cmd : OMX_COMMANDTYPE)
    (param : OMX_U32) : OMX_ERRORTYPE × World σ :=
  let r := C.sendCommand w.comp cmd param
  (r.1, { (w.log (Call.OMX_SendCommand cmd param r.1)) with comp := r.2 })

def OMX_GetState (C : Component σ) (w : World σ) :
    OMX_ERRORTYPE × OMX_STATETYPE × World σ :=
  let r := C.getState w.comp
  (r.1, r.2.1, { (w.log (Call.OMX_GetState r.1 r.2.1)) with comp := r.2.2 })

def OMX_Init (C : Component σ) (w : World σ) : OMX_ERRORTYPE × World σ :=
  let r := C.init w.comp
  (r.1, { (w.log (Call.OMX_Init r.1)) with comp := r.2 })

def OMX_Deinit (C : Component σ) (w : World σ) : OMX_ERRORTYPE × World σ :=
  let r := C.deinit w.comp
  (r.1, { (w.log (Call.OMX_Deinit r.1)) with comp := r.2 })

def OMX_GetHandle (C : Component σ) (w : World σ) : OMX_ERRORTYPE × World σ :=
  let r := C.getHandle w.comp
  (r.1, { (w.log (Call.OMX_GetHandle r.1)) with comp := r.2 })

def OMX_FreeHandle (C : Component σ) (w : World σ) : OMX_ERRORTYPE × World σ :=
  let r := C.freeHandle w.comp
  (r.1, { (w.log (Call.OMX_FreeHandle r.1)) with comp := r.2 })

def OMX_GetParameter_VideoBitrate (C : Component σ) (w : World σ)
    (q : OMX_VIDEO_PARAM_BITRATETYPE) :
    OMX_ERRORTYPE × OMX_VIDEO_PARAM_BITRATETYPE × World σ :=
  let r := C.getVideoBitrate w.comp q
  (r.1, r.2.1,
    { (w.log (Call.OMX_GetParameter_VideoBitrate q r.1 r.2.1)) with comp := r.2.2 })

def OMX_SetParameter_VideoBitrate (C : Component σ) (w : World σ)
    (d : OMX_VIDEO_PARAM_BITRATETYPE) : OMX_ERRORTYPE × World σ :=
  let r := C.setVideoBitrate w.comp d
  (r.1, { (w.log (Call.OMX_SetParameter_VideoBitrate d r.1)) with comp := r.2 })

def OMX_SetParameter_AVCVuiProperty (C : Component σ) (w : World σ)
    (d : OMXR_MC_VIDEO_PARAM_AVC_VUI_PROPERTY) : OMX_ERRORTYPE × World σ :=
  let r := C.setAVCVuiProperty w.comp d
  (r.1, { (w.log (Call.OMX_SetParameter_AVCVuiProperty d r.1)) with comp := r.2 })

/-- The structure after `OMX_INIT_STRUCTURE`: all fields zero. -/
def OMX_INIT_STRUCTURE : OMX_PARAM_PORTDEFINITIONTYPE :=
  { nPortIndex := 0, nBufferCountActual := 0, nBufferCountMin := 0, nBufferSize := 0,
    nFrameWidth := 0, nFrameHeight := 0, nStride := 0, nSliceHeight := 0,
    eColorFormat := 0, eCompressionFormat := 0 }

/-! ## Decoder sample application: `omx-h264-decode-sample-app/omx.c` -/

namespace Decode

/-- `omx_get_port`: `p_port` is the caller's structure; the result carries the
returned flag and the structure afterwards. -/
def omx_get_port (C : Component σ) (w : World σ) (port_idx : OMX_U32)
    (p_port : OMX_PARAM_PORTDEFINITIONTYPE) :
    Bool × OMX_PARAM_PORTDEFINITIONTYPE × World σ :=
  let port := { OMX_INIT_STRUCTURE with nPortIndex := port_idx }
  match OMX_GetParameter_PortDefinition C w port with
  | (err, port1, w1) =>
    if OMX_ErrorNone ≠ err then
      (false, p_port, w1.printf "Error: Failed to get port at index '%d'\n" [.num port_idx])
    else
      (true, port1, w1)

/-- `omx_set_out_port_fmt` of the decoder. -/
def omx_set_out_port_fmt (C : Component σ) (w : World σ) (fmt : Nat)
    (uninit : OMX_PARAM_PORTDEFINITIONTYPE) : Bool × World σ :=
  match omx_get_port C w 1 uninit with
  | (true, out_port, w1) =>
    match OMX_SetParameter_PortDefinition C w1 { out_port with eColorFormat := fmt } with
    | (err, w2) =>
      if OMX_ErrorNone = err then (true, w2)
      else (false, w2.printf "Error: Failed to set output port\n" [])
  | (false, _, w1) => (false, w1.printf "Error: Failed to set output port\n" [])

/-- `omx_set_port_buf_cnt`; `uninit` is the content of the local `port` before
it is written. -/
def omx_set_port_buf_cnt (C : Component σ) (w : World σ) (port_idx buf_cnt : OMX_U32)
    (uninit : OMX_PARAM_PORTDEFINITIONTYPE) : Outcome σ Bool :=
  if ¬ (buf_cnt > 0) then (.error Fault.assertion, w)
  else
    match omx_get_port C w port_idx uninit with
    | (false, _, w1) => (.ok false, w1)
    | (true, port, w1) =>
      if buf_cnt < port.nBufferCountMin then
        (.ok false, w1.printf "Error: Port '%d' requires no less than '%d' buffers\n"
          [.num port_idx, .num port.nBufferCountMin])
      else
        match OMX_SetParameter_PortDefinition C w1
            { port with nBufferCountActual := buf_cnt } with
        | (err, w2) =>
          if OMX_ErrorNone ≠ err then
            (.ok false, w2.printf "Error: Failed to set port at index '%d'\n" [.num port_idx])
          else (.ok true, w2)

/-- The `for` loop of `omx_dealloc_port_bufs`; `remaining = count - index`. -/
def omx_dealloc_port_bufs_loop (C : Component σ) (port_idx : OMX_U32)
    (pp_bufs : List BufPtr) : Nat → Nat → World σ → Outcome σ Unit
  | 0, _, w => (.ok (), w)
  | remaining + 1, index, w =>
    match pp_bufs[index]? with
    | none => (.error Fault.invalidRead, w)
    | some p =>
      omx_dealloc_port_bufs_loop C port_idx pp_bufs remaining (index + 1)
        (OMX_FreeBuffer C w port_idx p).2

/-- `omx_dealloc_port_bufs`. -/
def omx_dealloc_port_bufs (C : Component σ) (w : World σ) (port_idx : OMX_U32)
    (pp_bufs : Option (List BufPtr)) (count : Nat) : Outcome σ Unit :=
  match pp_bufs with
  | none => (.error Fault.assertion, w)
  | some arr =>
    match omx_dealloc_port_bufs_loop C port_idx arr count 0 w with
    | (.ok _, w1) => (.ok (), w1.log (Call.free arr))
    | (.error f, w1) => (.error f, w1)

/-- The `for` loop of `omx_alloc_buffers`; `remaining = nBufferCountActual - index`,
`pp_bufs` holds the slots written so far.  The result is the final `index`. -/
def omx_alloc_buffers_loop (C : Component σ) (port_idx size : OMX_U32) :
    Nat → Nat → List BufPtr → World σ → Nat × List BufPtr × World σ
  | 0, index, pp_bufs, w => (index, pp_bufs, w)
  | remaining + 1, index, pp_bufs, w =>
    match OMX_AllocateBuffer C w port_idx size with
    | (err, p, w1) =>
      if OMX_ErrorNone ≠ err then
        (index, pp_bufs,
          w1.printf "Error: Failed to allocate buffers at index '%d'\n" [.num index])
      else
        omx_alloc_buffers_loop C port_idx size remaining (index + 1) (pp_bufs ++ [p]) w1

/-- `omx_alloc_buffers`; the result `none` is `NULL`. -/
def omx_alloc_buffers (C : Component σ) (w : World σ) (port_idx : OMX_U32)
    (uninit : OMX_PARAM_PORTDEFINITIONTYPE) : Outcome σ (Option (List BufPtr)) :=
  match omx_get_port C w port_idx uninit with
  | (false, _, w1) => (.ok none, w1)
  | (true, port, w1) =>
    match omx_alloc_buffers_loop C port_idx port.nBufferSize port.nBufferCountActual 0 []
        (w1.log (Call.malloc port.nBufferCountActual)) with
    | (index, pp_bufs, w2) =>
      if index < port.nBufferCountActual then
        match omx_dealloc_port_bufs C w2 port_idx (some pp_bufs) index with
        | (.ok _, w3) => (.ok none, w3)
        | (.error f, w3) => (.error f, w3)
      else (.ok (some pp_bufs), w2)

/-- `omx_dealloc_all_port_bufs`. -/
def omx_dealloc_all_port_bufs (C : Component σ) (w : World σ) (port_idx : OMX_U32)
    (pp_bufs : Option (List BufPtr)) (uninit : OMX_PARAM_PORTDEFINITIONTYPE) :
    Outcome σ Unit :=
  match pp_bufs with
  | none => (.error Fault.assertion, w)
  | some arr =>
    match omx_get_port C w port_idx uninit with
    | (true, port, w1) => omx_dealloc_port_bufs C w1 port_idx (some arr) port.nBufferCountActual
    | (false, _, w1) => (.ok (), w1)

/-- Body of the loop of `omx_fill_buffers`: `pp_bufs[index]->nFlags = 0;
pp_bufs[index]->nFilledLen = 0;`. -/
def resetHeader (w : World σ) (p : BufPtr) : World σ :=
  { w with heap := Function.update w.heap p { w.heap p with nFlags := 0, nFilledLen := 0 } }

/-- The `for` loop of `omx_fill_buffers`; `remaining = count - index`.  The
result is `is_success`. -/
def omx_fill_buffers_loop (C : Component σ) (pp_bufs : List BufPtr) :
    Nat → Nat → World σ → Outcome σ Bool
  | 0, _, w => (.ok true, w)
  | remaining + 1, index, w =>
    match pp_bufs[index]? with
    | none => (.error Fault.invalidRead, w)
    | some p =>
      if p = NULL then (.error Fault.nullDeref, w)
      else
        match OMX_FillThisBuffer C (resetHeader w p) p with
        | (err, w1) =>
          if err ≠ OMX_ErrorNone then
            (.ok false, w1.printf "Error: Failed to send buffer '%d' to output port\n" [.num index])
          else omx_fill_buffers_loop C pp_bufs remaining (index + 1) w1

/-- `omx_fill_buffers`. -/
def omx_fill_buffers (C : Component σ) (w : World σ) (pp_bufs : Option (List BufPtr))
    (count : Nat) : Outcome σ Bool :=
  match pp_bufs with
  | none => (.error Fault.assertion, w)
  | some arr =>
    if ¬ (count > 0) then (.error Fault.assertion, w)
    else omx_fill_buffers_loop C arr count 0 w

/-! ## Decoder sample application: `omx-h264-decode-sample-app/main.c` -/

/-- `omx_state_to_str`; `none` is `NULL`. -/
def omx_state_to_str (state : OMX_STATETYPE) : Option String :=
  ([ (OMX_StateInvalid, "OMX_StateInvalid"),
     (OMX_StateLoaded, "OMX_StateLoaded"),
     (OMX_StateIdle, "OMX_StateIdle"),
     (OMX_StateExecuting, "OMX_StateExecuting"),
     (OMX_StatePause, "OMX_StatePause"),
     (OMX_StateWaitForResources, "OMX_StateWaitForResources") ].find?
    (fun e => state = e.1)).map (fun e => e.2)

/-- `omx_wait_state`: the `while (true)` loop runs at most `fuel` rounds here;
`none` means it is still polling after `fuel` rounds. -/
def omx_wait_state (C : Component σ) : Nat → World σ → OMX_STATETYPE → Option (World σ)
  | 0, _, _ => none
  | fuel + 1, w, state =>
    match OMX_GetState C w with
    | (omx_error, omx_cur_state, w1) =>
      if omx_error ≠ OMX_ErrorNone then
        some (w1.printf "Error: Failed to get current state of media component\n" [])
      else if omx_cur_state = state then some w1
      else omx_wait_state C fuel (w1.log (Call.usleep 10000)) state

def IN_BUFFER_COUNT : Nat := 2

def OUT_BUFFER_COUNT : Nat := 3

/-- The decoder's `omx_data_t`.  A semaphore is its counter, `p_out_file` is
the list of bytes written so far and `p_appsink` the access units that the
GStreamer pipeline has still to hand out (`gst_app_sink_pull_sample` answers
`NULL` when there is none left). -/
structure omx_data_t where
  eos : Bool
  smp_eos : Nat
  port_disabled : Bool
  smp_port_disabled : Nat
  smp_port_enabled : Nat
  smp_port_settings_changed : Nat
  p_out_file : List Nat
  p_appsink : List (List Nat)
deriving DecidableEq, Repr

/-- `setup_in_buf`: the result is the returned `nFlags` and the appsink
afterwards.  `memcpy` writes the sample over the start of the payload area. -/
def setup_in_buf (w : World σ) (p_appsink : List (List Nat)) (p_in_buf : BufPtr) :
    OMX_U32 × List (List Nat) × World σ :=
  match p_appsink with
  | [] =>
    (OMX_BUFFERFLAG_EOS, [],
      { w with heap := (Function.update w.heap p_in_buf
          { w.heap p_in_buf with nFlags := OMX_BUFFERFLAG_EOS, nFilledLen := 0 }) })
  | sample :: rest =>
    (OMX_BUFFERFLAG_ENDOFFRAME, rest,
      { w with heap := (Function.update w.heap p_in_buf
          { w.heap p_in_buf with
              pBuffer := sample ++ (w.heap p_in_buf).pBuffer.drop sample.length,
              nFilledLen := sample.length,
              nFlags := OMX_BUFFERFLAG_ENDOFFRAME }) })

/-- `omx_event_handler` of the decoder. -/
def omx_event_handler (w : World σ) (p_data : omx_data_t)
    (eEvent : OMX_EVENTTYPE) (nData1 nData2 : OMX_U32) :
    OMX_ERRORTYPE × omx_data_t × World σ :=
  if eEvent = OMX_EventCmdComplete then
    if nData1 = OMX_CommandStateSet then
      match omx_state_to_str nData2 with
      | some p_state_str =>
        (OMX_ErrorNone, p_data, w.printf "OMX state: '%s'\n" [.str p_state_str])
      | none => (OMX_ErrorNone, p_data, w)
    else if nData1 = OMX_CommandPortEnable then
      if nData2 = 1 then
        (OMX_ErrorNone, { p_data with smp_port_enabled := p_data.smp_port_enabled + 1 },
          (w.printf "Output port is enabled\n" []).log (Call.sem_post Gate.smp_port_enabled))
      else (OMX_ErrorNone, p_data, w)
    else if nData1 = OMX_CommandPortDisable then
      if nData2 = 1 then
        (OMX_ErrorNone, { p_data with smp_port_disabled := p_data.smp_port_disabled + 1 },
          (w.printf "Output port is disabled\n" []).log (Call.sem_post Gate.smp_port_disabled))
      else (OMX_ErrorNone, p_data, w)
    else (OMX_ErrorNone, p_data, w)
  else if eEvent = OMX_EventPortSettingsChanged then
    if nData1 = 1 then
      (OMX_ErrorNone,
        { p_data with smp_port_settings_changed := p_data.smp_port_settings_changed + 1 },
        (w.printf "OMX event: 'Output port settings changed'\n" []).log
          (Call.sem_post Gate.smp_port_settings_changed))
    else (OMX_ErrorNone, p_data, w)
  else if eEvent = OMX_EventBufferFlag then
    if nData1 = OMX_BUFFERFLAG_EOS then
      (OMX_ErrorNone, { p_data with smp_eos := p_data.smp_eos + 1, eos := true },
        ((w.printf "OMX event: 'End-of-Stream'\n" []).log (Call.sem_post Gate.smp_eos)).log
          (Call.store_eos true))
    else (OMX_ErrorNone, p_data, w)
  else (OMX_ErrorNone, p_data, w)

/-- `omx_empty_buffer_done` of the decoder; `pAppData = none` is a `NULL`
pointer. -/
def omx_empty_buffer_done (C : Component σ) (w : World σ) (pAppData : Option omx_data_t)
    (pBuffer : BufPtr) : Outcome σ (OMX_ERRORTYPE × omx_data_t) :=
  match pAppData with
  | none => (.error Fault.assertion, w)
  | some p_data =>
    if p_data.eos = false ∧ pBuffer ≠ NULL then
      match setup_in_buf w p_data.p_appsink pBuffer with
      | (_, appsink1, w1) =>
        match OMX_EmptyThisBuffer C w1 pBuffer with
        | (err, w2) =>
          if err = OMX_ErrorNone then
            (.ok (OMX_ErrorNone, { p_data with p_appsink := appsink1 }),
              w2.printf "EmptyBufferDone exited\n" [])
          else (.error Fault.assertion, w2)
    else (.ok (OMX_ErrorNone, p_data), w.printf "EmptyBufferDone exited\n" [])

/-- `omx_fill_buffer_done` of the decoder. -/
def omx_fill_buffer_done (C : Component σ) (w : World σ) (pAppData : Option omx_data_t)
    (pBuffer : BufPtr) : Outcome σ (OMX_ERRORTYPE × omx_data_t) :=
  match pAppData with
  | none => (.error Fault.assertion, w)
  | some p_data =>
    if p_data.port_disabled = false then
      (.ok (OMX_ErrorNone, p_data),
        (OMX_FreeBuffer C w 1 pBuffer).2.printf "FillBufferDone callback.\n" [])
    else if p_data.eos = false ∧ pBuffer ≠ NULL then
      let out1 :=
        if (w.heap pBuffer).nFilledLen > 0 then
          p_data.p_out_file ++ (w.heap pBuffer).pBuffer.take (w.heap pBuffer).nFilledLen
        else p_data.p_out_file
      match OMX_FillThisBuffer C (resetHeader w pBuffer) pBuffer with
      | (err, w2) =>
        if err = OMX_ErrorNone then
          (.ok (OMX_ErrorNone, { p_data with p_out_file := out1 }),
            w2.printf "FillBufferDone callback.\n" [])
        else (.error Fault.assertion, w2)
    else (.ok (OMX_ErrorNone, p_data), w.printf "FillBufferDone callback.\n" [])

/-! ### `main` of the decoder

`main` is modelled from `STEP 3` on (the files and the GStreamer pipeline of
steps 1 and 2 are set up by then).  The component delivers its callbacks on its
own thread: before every statement of `main`, the callbacks that the schedule
`sched` lists for that point are run, so every interleaving of the callbacks
with the statements of `main` is a schedule.  A `sem_wait` whose gate has not
been posted by then never returns (`Fault.blocked`). -/

/-- What the component's thread does: a callback, or a write into a buffer
header that the component holds. -/
inductive Event where
  | EventHandler (eEvent : OMX_EVENTTYPE) (nData1 nData2 : OMX_U32)
  | EmptyBufferDone (pBuffer : BufPtr)
  | FillBufferDone (pBuffer : BufPtr)
  | write (p : BufPtr) (hdr : OMX_BUFFERHEADERTYPE)
deriving DecidableEq, Repr

/-- The variables of `main` and the world around it; `tick` counts the
scheduling points passed. -/
structure MainState (σ : Type) where
  w : World σ
  omx_data : omx_data_t
  pp_in_bufs : Option (List BufPtr)
  pp_out_bufs : Option (List BufPtr)
  tick : Nat

abbrev Step (σ : Type) := MainState σ → Except (Fault × MainState σ) (MainState σ)

/-- One event of the component's thread. -/
def deliver (C : Component σ) (s : MainState σ) : Event →
    Except (Fault × MainState σ) (MainState σ)
  | Event.EventHandler eEvent nData1 nData2 =>
    match omx_event_handler s.w s.omx_data eEvent nData1 nData2 with
    | (_, d, w1) => .ok { s with w := w1, omx_data := d }
  | Event.EmptyBufferDone pBuffer =>
    match omx_empty_buffer_done C s.w (some s.omx_data) pBuffer with
    | (.ok (_, d), w1) => .ok { s with w := w1, omx_data := d }
    | (.error f, w1) => .error (f, { s with w := w1 })
  | Event.FillBufferDone pBuffer =>
    match omx_fill_buffer_done C s.w (some s.omx_data) pBuffer with
    | (.ok (_, d), w1) => .ok { s with w := w1, omx_data := d }
    | (.error f, w1) => .error (f, { s with w := w1 })
  | Event.write p hdr =>
    .ok { s with w := { s.w with heap := Function.update s.w.heap p hdr } }

def deliverAll (C : Component σ) : List Event → Step σ
  | [], s => .ok s
  | e :: es, s =>
    match deliver C s e with
    | .ok s1 => deliverAll C es s1
    | .error x => .error x

/-- A scheduling point. -/
def yield (C : Component σ) (sched : Nat → List Event) : Step σ := fun s =>
  deliverAll C (sched s.tick) { s with tick := s.tick + 1 }

/-- Statements in sequence, with a scheduling point before each. -/
def run (C : Component σ) (sched : Nat → List Event) : List (Step σ) → Step σ
  | [], s => .ok s
  | stmt :: rest, s =>
    match yield C sched s with
    | .error x => .error x
    | .ok s1 =>
      match stmt s1 with
      | .error x => .error x
      | .ok s2 => run C sched rest s2

/-- The statement `assert(OMX_ErrorNone == call)`. -/
def stmt_assert_ok (call : World σ → OMX_ERRORTYPE × World σ) : Step σ := fun s =>
  match call s.w with
  | (err, w1) =>
    if OMX_ErrorNone = err then .ok { s with w := w1 }
    else .error (Fault.assertion, { s with w := w1 })

/-- The statement `assert(call)` for a call returning `bool`. -/
def stmt_assert_true (call : World σ → Outcome σ Bool) : Step σ := fun s =>
  match call s.w with
  | (.ok true, w1) => .ok { s with w := w1 }
  | (.ok false, w1) => .error (Fault.assertion, { s with w := w1 })
  | (.error f, w1) => .error (f, { s with w := w1 })

/-- The statements `pp_in_bufs = omx_alloc_buffers(handle, 0);
assert(pp_in_bufs != NULL);`. -/
def stmt_alloc_in (C : Component σ) : Step σ := fun s =>
  match omx_alloc_buffers C s.w 0 default with
  | (.ok (some pool), w1) => .ok { s with w := w1, pp_in_bufs := some pool }
  | (.ok none, w1) => .error (Fault.assertion, { s with w := w1, pp_in_bufs := none })
  | (.error f, w1) => .error (f, { s with w := w1 })

/-- The statements `pp_out_bufs = omx_alloc_buffers(handle, 1);
assert(pp_out_bufs != NULL);`. -/
def stmt_alloc_out (C : Component σ) : Step σ := fun s =>
  match omx_alloc_buffers C s.w 1 default with
  | (.ok (some pool), w1) => .ok { s with w := w1, pp_out_bufs := some pool }
  | (.ok none, w1) => .error (Fault.assertion, { s with w := w1, pp_out_bufs := none })
  | (.error f, w1) => .error (f, { s with w := w1 })

/-- The statement `omx_wait_state(handle, state)`. -/
def stmt_wait_state (C : Component σ) (fuel : Nat) (state : OMX_STATETYPE) : Step σ :=
  fun s =>
    match omx_wait_state C fuel s.w state with
    | some w1 => .ok { s with w := w1 }
    | none => .error (Fault.fuel, s)

/-- The statement `assert(omx_fill_buffers(handle, pp_out_bufs, OUT_BUFFER_COUNT))`. -/
def stmt_fill_out (C : Component σ) : Step σ := fun s =>
  stmt_assert_true (fun w => omx_fill_buffers C w s.pp_out_bufs OUT_BUFFER_COUNT) s

/-- The `for` loop of `STEP 5` that fills and sends the input buffers;
`remaining = IN_BUFFER_COUNT - index`.  The result is the appsink afterwards. -/
def main_feed_loop (C : Component σ) (pp_in_bufs : Option (List BufPtr)) :
    Nat → Nat → World σ → List (List Nat) → Outcome σ (List (List Nat))
  | 0, _, w, appsink => (.ok appsink, w)
  | remaining + 1, index, w, appsink =>
    match pp_in_bufs with
    | none => (.error Fault.nullDeref, w)
    | some arr =>
      match arr[index]? with
      | none => (.error Fault.invalidRead, w)
      | some p =>
        if p = NULL then (.error Fault.nullDeref, w)
        else
          match setup_in_buf w appsink p with
          | (flags, appsink1, w1) =>
            if Nat.land flags OMX_BUFFERFLAG_EOS ≠ 0 then (.ok appsink1, w1)
            else
              match OMX_EmptyThisBuffer C w1 p with
              | (err, w2) =>
                if err = OMX_ErrorNone then
                  main_feed_loop C pp_in_bufs remaining (index + 1) w2 appsink1
                else (.error Fault.assertion, w2)

def stmt_feed (C : Component σ) : Step σ := fun s =>
  match main_feed_loop C s.pp_in_bufs IN_BUFFER_COUNT 0 s.w s.omx_data.p_appsink with
  | (.ok appsink1, w1) =>
    .ok { s with w := w1, omx_data := { s.omx_data with p_appsink := appsink1 } }
  | (.error f, w1) => .error (f, { s with w := w1 })

/-- The counter of a semaphore of `omx_data_t`. -/
def omx_data_t.sem (d : omx_data_t) : Gate → Nat
  | Gate.smp_eos => d.smp_eos
  | Gate.smp_port_disabled => d.smp_port_disabled
  | Gate.smp_port_enabled => d.smp_port_enabled
  | Gate.smp_port_settings_changed => d.smp_port_settings_changed

/-- The semaphore decremented. -/
def omx_data_t.sem_down (d : omx_data_t) : Gate → omx_data_t
  | Gate.smp_eos => { d with smp_eos := d.smp_eos - 1 }
  | Gate.smp_port_disabled => { d with smp_port_disabled := d.smp_port_disabled - 1 }
  | Gate.smp_port_enabled => { d with smp_port_enabled := d.smp_port_enabled - 1 }
  | Gate.smp_port_settings_changed =>
    { d with smp_port_settings_changed := d.smp_port_settings_changed - 1 }

/-- The statement `sem_wait(&omx_data.g)`. -/
def stmt_sem_wait (g : Gate) : Step σ := fun s =>
  if s.omx_data.sem g > 0 then
    .ok { s with w := s.w.log (Call.sem_wait g), omx_data := s.omx_data.sem_down g }
  else .error (Fault.blocked, s)

/-- The statement `omx_data.port_disabled = true`. -/
def stmt_store_port_disabled : Step σ := fun s =>
  .ok { s with w := s.w.log (Call.store_port_disabled true),
               omx_data := { s.omx_data with port_disabled := true } }

/-- The statement `omx_dealloc_all_port_bufs(handle, 1, pp_out_bufs)`. -/
def stmt_dealloc_all_out (C : Component σ) : Step σ := fun s =>
  match omx_dealloc_all_port_bufs C s.w 1 s.pp_out_bufs default with
  | (.ok _, w1) => .ok { s with w := w1 }
  | (.error f, w1) => .error (f, { s with w := w1 })

/-- The statement `omx_dealloc_all_port_bufs(handle, 0, pp_in_bufs)`. -/
def stmt_dealloc_all_in (C : Component σ) : Step σ := fun s =>
  match omx_dealloc_all_port_bufs C s.w 0 s.pp_in_bufs default with
  | (.ok _, w1) => .ok { s with w := w1 }
  | (.error f, w1) => .error (f, { s with w := w1 })

/-- `STEP 3: SET UP OMX IL`. -/
def main_step3 (C : Component σ) : List (Step σ) :=
  [ stmt_assert_ok (OMX_Init C),
    stmt_assert_ok (OMX_GetHandle C),
    stmt_assert_true (fun w => omx_set_port_buf_cnt C w 0 IN_BUFFER_COUNT default),
    stmt_assert_true (fun w =>
      ((.ok (omx_set_out_port_fmt C w OMX_COLOR_FormatYUV420SemiPlanar default).1),
        (omx_set_out_port_fmt C w OMX_COLOR_FormatYUV420SemiPlanar default).2)),
    stmt_assert_true (fun w => omx_set_port_buf_cnt C w 1 OUT_BUFFER_COUNT default),
    stmt_assert_ok (fun w => OMX_SendCommand C w OMX_CommandStateSet OMX_StateIdle) ]

/-- `STEP 4: ALLOCATE INPUT AND OUTPUT BUFFERS`. -/
def main_step4 (C : Component σ) (fuel : Nat) : List (Step σ) :=
  [ stmt_alloc_in C,
    stmt_alloc_out C,
    stmt_wait_state C fuel OMX_StateIdle ]

/-- `STEP 5: PREPARE FOR 'OMX_EventPortSettingsChanged' EVENT`. -/
def main_step5 (C : Component σ) (fuel : Nat) : List (Step σ) :=
  [ stmt_assert_ok (fun w => OMX_SendCommand C w OMX_CommandStateSet OMX_StateExecuting),
    stmt_wait_state C fuel OMX_StateExecuting,
    stmt_fill_out C,
    stmt_feed C ]

/-- `STEP 6: WAIT UNTIL 'OMX_EventPortSettingsChanged' EVENT OCCURS`. -/
def main_step6 : List (Step σ) :=
  [ stmt_sem_wait Gate.smp_port_settings_changed ]

/-- `STEP 7: REALLOCATE OUTPUT BUFFERS`. -/
def main_step7 (C : Component σ) : List (Step σ) :=
  [ stmt_assert_ok (fun w => OMX_SendCommand C w OMX_CommandPortDisable 1),
    stmt_sem_wait Gate.smp_port_disabled,
    stmt_store_port_disabled,
    stmt_assert_ok (fun w => OMX_SendCommand C w OMX_CommandPortEnable 1),
    stmt_alloc_out C,
    stmt_sem_wait Gate.smp_port_enabled ]

/-- `STEP 8: START DECODING`. -/
def main_step8 (C : Component σ) : List (Step σ) :=
  [ stmt_fill_out C,
    stmt_sem_wait Gate.smp_eos ]

/-- `STEP 9: CLEAN UP OMX`. -/
def main_step9 (C : Component σ) (fuel : Nat) : List (Step σ) :=
  [ stmt_assert_ok (fun w => OMX_SendCommand C w OMX_CommandStateSet OMX_StateIdle),
    stmt_wait_state C fuel OMX_StateIdle,
    stmt_assert_ok (fun w => OMX_SendCommand C w OMX_CommandStateSet OMX_StateLoaded),
    stmt_dealloc_all_out C,
    stmt_dealloc_all_in C,
    stmt_wait_state C fuel OMX_StateLoaded,
    stmt_assert_ok (OMX_FreeHandle C),
    stmt_assert_ok (OMX_Deinit C) ]

/-- The statements of `main` from `STEP 3` to `STEP 9`. -/
def main_statements (C : Component σ) (fuel : Nat) : List (Step σ) :=
  main_step3 C ++ main_step4 C fuel ++ main_step5 C fuel ++ main_step6 ++ main_step7 C ++
    main_step8 C ++ main_step9 C fuel

/-- The variables of `main` when `STEP 3` begins: `eos` and `port_disabled` are
false, the semaphores are at 0, no pool is allocated. -/
def main_init (w : World σ) (samples : List (List Nat)) : MainState σ :=
  { w := w,
    omx_data :=
      { eos := false, smp_eos := 0, port_disabled := false, smp_port_disabled := 0,
        smp_port_enabled := 0, smp_port_settings_changed := 0, p_out_file := [],
        p_appsink := samples },
    pp_in_bufs := none, pp_out_bufs := none, tick := 0 }

/-- Whether a run reached its end (`return 0`). -/
def returned (r : Except (Fault × MainState σ) (MainState σ)) : Bool :=
  match r with
  | .ok _ => true
  | .error _ => false

/-- The fault that stopped a run, if any. -/
def faultOf (r : Except (Fault × MainState σ) (MainState σ)) : Option Fault :=
  match r with
  | .ok _ => none
  | .error (f, _) => some f

/-- The variables and the world when a run ended or stopped. -/
def finalState (r : Except (Fault × MainState σ) (MainState σ)) : MainState σ :=
  match r with
  | .ok s => s
  | .error (_, s) => s

/-- The statements of `main` before `STEP 8: START DECODING`. -/
def main_until_step8 (C : Component σ) (fuel : Nat) : List (Step σ) :=
  main_step3 C ++ main_step4 C fuel ++ main_step5 C fuel ++ main_step6 ++ main_step7 C

/-- `main` of the decoder: `.ok s` is `return 0` with the final variables `s`. -/
def main (C : Component σ) (sched : Nat → List Event) (fuel : Nat) (w : World σ)
    (samples : List (List Nat)) : Except (Fault × MainState σ) (MainState σ) :=
  run C sched (main_statements C fuel) (main_init w samples)

end Decode

/-! ## Encoder sample application: `omx-h264-encode-sample-app/omx.c` -/

namespace Encode

/-- `omx_get_port`: `p_port` is the caller's structure; the result carries the
returned flag and the structure afterwards. -/
def omx_get_port (C : Component σ) (w : World σ) (port_idx : OMX_U32)
    (p_port : OMX_PARAM_PORTDEFINITIONTYPE) :
    Bool × OMX_PARAM_PORTDEFINITIONTYPE × World σ :=
  let port := { OMX_INIT_STRUCTURE with nPortIndex := port_idx }
  match OMX_GetParameter_PortDefinition C w port with
  | (err, port1, w1) =>
    if OMX_ErrorNone ≠ err then
      (false, p_port, w1.printf "Error: Failed to get port at index '%d'\n" [.num port_idx])
    else
      (true, port1, w1)

/-- `OMX_INIT_STRUCTURE` on an `OMX_VIDEO_PARAM_BITRATETYPE`. -/
def OMX_INIT_BITRATE : OMX_VIDEO_PARAM_BITRATETYPE :=
  { nPortIndex := 0, eControlRate := 0, nTargetBitrate := 0 }

/-- `OMX_INIT_STRUCTURE` on an `OMXR_MC_VIDEO_PARAM_AVC_VUI_PROPERTY`. -/
def OMX_INIT_VUI : OMXR_MC_VIDEO_PARAM_AVC_VUI_PROPERTY :=
  { nPortIndex := 0, u32TimeScale := 0, u32NumUnitsInTick := 0,
    bFixedFrameRateFlag := false, bTimingInfoPresentFlag := false }

/-- `ROUND_UP(VAL, RND)` = `((VAL) + (RND) - 1) & (~((RND) - 1))` over 32-bit
unsigned integers. -/
def ROUND_UP (VAL RND : Nat) : Nat :=
  Nat.land ((VAL + RND - 1) % 2 ^ 32) (2 ^ 32 - 1 - (RND - 1) % 2 ^ 32)

def OMX_STRIDE (WIDTH : Nat) : Nat := ROUND_UP WIDTH 32

def OMX_SLICE_HEIGHT (HEIGHT : Nat) : Nat := ROUND_UP HEIGHT 2

/-- `omx_get_bitrate_ctrl`. -/
def omx_get_bitrate_ctrl (C : Component σ) (w : World σ) (port_idx : OMX_U32)
    (p_ctrl : OMX_VIDEO_PARAM_BITRATETYPE) :
    Bool × OMX_VIDEO_PARAM_BITRATETYPE × World σ :=
  let ctrl := { OMX_INIT_BITRATE with nPortIndex := port_idx }
  match OMX_GetParameter_VideoBitrate C w ctrl with
  | (err, ctrl1, w1) =>
    if OMX_ErrorNone ≠ err then
      (false, p_ctrl,
        w1.printf "Error: Failed to get bitrate control of port '%d'\n" [.num port_idx])
    else
      (true, ctrl1, w1)

/-- `omx_set_in_port_fmt`. -/
def omx_set_in_port_fmt (C : Component σ) (w : World σ)
    (frame_width frame_height : OMX_U32) (color_fmt : Nat)
    (uninit : OMX_PARAM_PORTDEFINITIONTYPE) : Bool × World σ :=
  match omx_get_port C w 0 uninit with
  | (true, in_port, w1) =>
    match OMX_SetParameter_PortDefinition C w1
        { in_port with
            nFrameWidth := frame_width,
            nFrameHeight := frame_height,
            nStride := OMX_STRIDE frame_width,
            nSliceHeight := OMX_SLICE_HEIGHT frame_height,
            eColorFormat := color_fmt } with
    | (err, w2) =>
      if OMX_ErrorNone = err then (true, w2)
      else (false, w2.printf "Error: Failed to set input port\n" [])
  | (false, _, w1) => (false, w1.printf "Error: Failed to set input port\n" [])

/-- `omx_set_out_port_fmt` of the encoder. -/
def omx_set_out_port_fmt (C : Component σ) (w : World σ) (bitrate : OMX_U32)
    (compression_fmt : Nat) (framerate : OMX_U32)
    (uninit : OMX_PARAM_PORTDEFINITIONTYPE) (uninit_ctrl : OMX_VIDEO_PARAM_BITRATETYPE) :
    Outcome σ Bool :=
  if ¬ (bitrate > 0) then (.error Fault.assertion, w)
  else
    let r1 : Bool × World σ :=
      match omx_get_port C w 1 uninit with
      | (true, out_port, w1) =>
        match OMX_SetParameter_PortDefinition C w1
            { out_port with eCompressionFormat := compression_fmt } with
        | (err, w2) => (decide (OMX_ErrorNone = err), w2)
      | (false, _, w1) => (false, w1)
    let b_set_fmt_ok := r1.1
    let r2 : Bool × World σ :=
      match omx_get_bitrate_ctrl C r1.2 1 uninit_ctrl with
      | (true, ctrl, w3) =>
        match OMX_SetParameter_VideoBitrate C w3
            { ctrl with nTargetBitrate := bitrate,
                        eControlRate := OMX_Video_ControlRateConstant } with
        | (err, w4) => (decide (OMX_ErrorNone = err), w4)
      | (false, _, w3) => (false, w3)
    let b_set_bitrate_ok := r2.1
    let r3 := OMX_SetParameter_AVCVuiProperty C r2.2
      { OMX_INIT_VUI with
          nPortIndex := 1,
          u32TimeScale := (framerate * 2) % 2 ^ 32,
          u32NumUnitsInTick := 1,
          bFixedFrameRateFlag := true,
          bTimingInfoPresentFlag := true }
    let b_set_framerate_ok := decide (OMX_ErrorNone = r3.1)
    let w5 :=
      if !b_set_fmt_ok || !b_set_bitrate_ok || !b_set_framerate_ok then
        r3.2.printf "Error: Failed to set output port\n" []
      else r3.2
    (.ok (b_set_fmt_ok && b_set_bitrate_ok), w5)

/-- `omx_set_port_buf_cnt`; `uninit` is the content of the local `port` before
it is written. -/
def omx_set_port_buf_cnt (C : Component σ) (w : World σ) (port_idx buf_cnt : OMX_U32)
    (uninit : OMX_PARAM_PORTDEFINITIONTYPE) : Outcome σ Bool :=
  if ¬ (buf_cnt > 0) then (.error Fault.assertion, w)
  else
    match omx_get_port C w port_idx uninit with
    | (false, _, w1) => (.ok false, w1)
    | (true, port, w1) =>
      if buf_cnt < port.nBufferCountMin then
        (.ok false, w1.printf "Error: Port '%d' requires no less than '%d' buffers\n"
          [.num port_idx, .num port.nBufferCountMin])
      else
        match OMX_SetParameter_PortDefinition C w1
            { port with nBufferCountActual := buf_cnt } with
        | (err, w2) =>
          if OMX_ErrorNone ≠ err then
            (.ok false, w2.printf "Error: Failed to set port at index '%d'\n" [.num port_idx])
          else (.ok true, w2)

/-- The `for` loop of `omx_dealloc_port_bufs`; `remaining = count - index`. -/
def omx_dealloc_port_bufs_loop (C : Component σ) (port_idx : OMX_U32)
    (pp_bufs : List BufPtr) : Nat → Nat → World σ → Outcome σ Unit
  | 0, _, w => (.ok (), w)
  | remaining + 1, index, w =>
    match pp_bufs[index]? with
    | none => (.error Fault.invalidRead, w)
    | some p =>
      omx_dealloc_port_bufs_loop C port_idx pp_bufs remaining (index + 1)
        (OMX_FreeBuffer C w port_idx p).2

/-- `omx_dealloc_port_bufs`. -/
def omx_dealloc_port_bufs (C : Component σ) (w : World σ) (port_idx : OMX_U32)
    (pp_bufs : Option (List BufPtr)) (count : Nat) : Outcome σ Unit :=
  match pp_bufs with
  | none => (.error Fault.assertion, w)
  | some arr =>
    match omx_dealloc_port_bufs_loop C port_idx arr count 0 w with
    | (.ok _, w1) => (.ok (), w1.log (Call.free arr))
    | (.error f, w1) => (.error f, w1)

/-- The `for` loop of `omx_alloc_buffers`; `remaining = nBufferCountActual - index`,
`pp_bufs` holds the slots written so far.  The result is the final `index`. -/
def omx_alloc_buffers_loop (C : Component σ) (port_idx size : OMX_U32) :
    Nat → Nat → List BufPtr → World σ → Nat × List BufPtr × World σ
  | 0, index, pp_bufs, w => (index, pp_bufs, w)
  | remaining + 1, index, pp_bufs, w =>
    match OMX_AllocateBuffer C w port_idx size with
    | (err, p, w1) =>
      if OMX_ErrorNone ≠ err then
        (index, pp_bufs,
          w1.printf "Error: Failed to allocate buffers at index '%d'\n" [.num index])
      else
        omx_alloc_buffers_loop C port_idx size remaining (index + 1) (pp_bufs ++ [p]) w1

/-- `omx_alloc_buffers`; the result `none` is `NULL`. -/
def omx_alloc_buffers (C : Component σ) (w : World σ) (port_idx : OMX_U32)
    (uninit : OMX_PARAM_PORTDEFINITIONTYPE) : Outcome σ (Option (List BufPtr)) :=
  match omx_get_port C w port_idx uninit with
  | (false, _, w1) => (.ok none, w1)
  | (true, port, w1) =>
    match omx_alloc_buffers_loop C port_idx port.nBufferSize port.nBufferCountActual 0 []
        (w1.log (Call.malloc port.nBufferCountActual)) with
    | (index, pp_bufs, w2) =>
      if index < port.nBufferCountActual then
        match omx_dealloc_port_bufs C w2 port_idx (some pp_bufs) index with
        | (.ok _, w3) => (.ok none, w3)
        | (.error f, w3) => (.error f, w3)
      else (.ok (some pp_bufs), w2)

/-- `omx_dealloc_all_port_bufs`. -/
def omx_dealloc_all_port_bufs (C : Component σ) (w : World σ) (port_idx : OMX_U32)
    (pp_bufs : Option (List BufPtr)) (uninit : OMX_PARAM_PORTDEFINITIONTYPE) :
    Outcome σ Unit :=
  match pp_bufs with
  | none => (.error Fault.assertion, w)
  | some arr =>
    match omx_get_port C w port_idx uninit with
    | (true, port, w1) => omx_dealloc_port_bufs C w1 port_idx (some arr) port.nBufferCountActual
    | (false, _, w1) => (.ok (), w1)

/-- Body of the loop of `omx_fill_buffers`: `pp_bufs[index]->nFlags = 0;
pp_bufs[index]->nFilledLen = 0;`. -/
def resetHeader (w : World σ) (p : BufPtr) : World σ :=
  { w with heap := Function.update w.heap p { w.heap p with nFlags := 0, nFilledLen := 0 } }

/-- The `for` loop of `omx_fill_buffers`; `remaining = count - index`.  The
result is `is_success`. -/
def omx_fill_buffers_loop (C : Component σ) (pp_bufs : List BufPtr) :
    Nat → Nat → World σ → Outcome σ Bool
  | 0, _, w => (.ok true, w)
  | remaining + 1, index, w =>
    match pp_bufs[index]? with
    | none => (.error Fault.invalidRead, w)
    | some p =>
      if p = NULL then (.error Fault.nullDeref, w)
      else
        match OMX_FillThisBuffer C (resetHeader w p) p with
        | (err, w1) =>
          if err ≠ OMX_ErrorNone then
            (.ok false, w1.printf "Error: Failed to send buffer '%d' to output port\n" [.num index])
          else omx_fill_buffers_loop C pp_bufs remaining (index + 1) w1

/-- `omx_fill_buffers`. -/
def omx_fill_buffers (C : Component σ) (w : World σ) (pp_bufs : Option (List BufPtr))
    (count : Nat) : Outcome σ Bool :=
  match pp_bufs with
  | none => (.error Fault.assertion, w)
  | some arr =>
    if ¬ (count > 0) then (.error Fault.assertion, w)
    else omx_fill_buffers_loop C arr count 0 w

/-- `omx_get_index`: the result is the C `int` (`-1` when not found). -/
def omx_get_index_loop (p_buf : BufPtr) (pp_bufs : List BufPtr) :
    Nat → Nat → Except Fault Int
  | 0, _ => .ok (-1)
  | remaining + 1, index =>
    match pp_bufs[index]? with
    | none => .error Fault.invalidRead
    | some p => if p = p_buf then .ok (index : Int)
                else omx_get_index_loop p_buf pp_bufs remaining (index + 1)

def omx_get_index (p_buf : BufPtr) (pp_bufs : Option (List BufPtr)) (count : Nat) :
    Except Fault Int :=
  if p_buf = NULL then .error Fault.assertion
  else
    match pp_bufs with
    | none => .error Fault.assertion
    | some arr =>
      if ¬ (count > 0) then .error Fault.assertion
      else omx_get_index_loop p_buf arr count 0

/-- `feof`. -/
def feof (p_file : FILE) : Bool := p_file.eof

/-- `fread(ptr, 1, len, p_file)`: the bytes read and the file afterwards.  The
end-of-file indicator is set when fewer than `len` bytes were left. -/
def fread (p_file : FILE) (len : Nat) : List Nat × Nat × FILE :=
  let bytes_read := min len (p_file.size - p_file.pos)
  ((List.range bytes_read).map (fun i => p_file.byte (p_file.pos + i)), bytes_read,
    { p_file with pos := p_file.pos + bytes_read,
                  eof := p_file.eof || decide (bytes_read < len) })

/-- `omx_empty_buffer`: the result is the returned `nFlags` and the file
afterwards. -/
def omx_empty_buffer (C : Component σ) (w : World σ) (p_file : Option FILE)
    (p_buf : BufPtr) (len : Nat) : Outcome σ (OMX_U32 × FILE) :=
  if p_buf = NULL then (.error Fault.assertion, w)
  else
    match p_file with
    | none => (.error Fault.assertion, w)
    | some file =>
      if ¬ (len ≤ (w.heap p_buf).nAllocLen) then (.error Fault.assertion, w)
      else
        let r : World σ × FILE :=
          if feof file then
            ({ w with heap := (Function.update w.heap p_buf
                { w.heap p_buf with nFilledLen := 0, nFlags := OMX_BUFFERFLAG_EOS }) }, file)
          else
            match fread file len with
            | (bytes, bytes_read, file1) =>
              let payload := bytes ++ (w.heap p_buf).pBuffer.drop bytes_read
              if bytes_read = len then
                ({ w with heap := (Function.update w.heap p_buf
                    { w.heap p_buf with pBuffer := payload, nFilledLen := len,
                                        nFlags := OMX_BUFFERFLAG_ENDOFFRAME }) }, file1)
              else
                ({ w with heap := (Function.update w.heap p_buf
                    { w.heap p_buf with pBuffer := payload, nFilledLen := 0,
                                        nFlags := OMX_BUFFERFLAG_EOS }) }, file1)
        match OMX_EmptyThisBuffer C r.1 p_buf with
        | (err, w2) =>
          if err = OMX_ErrorNone then (.ok ((w2.heap p_buf).nFlags, r.2), w2)
          else (.error Fault.assertion, w2)

/-! ## Encoder sample application: `omx-h264-encode-sample-app/main.c` -/

def FRAME_WIDTH_IN_PIXELS : Nat := 640

def FRAME_HEIGHT_IN_PIXELS : Nat := 480

/-- `FRAME_WIDTH_IN_PIXELS * FRAME_HEIGHT_IN_PIXELS * 1.5f`, which is the exact
value 460800 in single precision. -/
def NV12_FRAME_SIZE_IN_BYTES : Nat := 460800

def FRAMERATE : Nat := 30

def NV12_BUFFER_COUNT : Nat := 2

def H264_BUFFER_COUNT : Nat := 2

def H264_BITRATE : Nat := 5000000

/-- The encoder's `omx_data_t`; `p_out_file` is the list of bytes written so
far and `smp_eos` the counter of the semaphore. -/
structure omx_data_t where
  eos : Bool
  p_in_file : Option FILE
  p_out_file : List Nat
  smp_eos : Nat

/-- `omx_state_to_str`; `none` is `NULL`. -/
def omx_state_to_str (state : OMX_STATETYPE) : Option String :=
  ([ (OMX_StateInvalid, "OMX_StateInvalid"),
     (OMX_StateLoaded, "OMX_StateLoaded"),
     (OMX_StateIdle, "OMX_StateIdle"),
     (OMX_StateExecuting, "OMX_StateExecuting"),
     (OMX_StatePause, "OMX_StatePause"),
     (OMX_StateWaitForResources, "OMX_StateWaitForResources") ].find?
    (fun e => state = e.1)).map (fun e => e.2)

/-- `omx_wait_state`: the `while (true)` loop runs at most `fuel` rounds here;
`none` means it is still polling after `fuel` rounds. -/
def omx_wait_state (C : Component σ) : Nat → World σ → OMX_STATETYPE → Option (World σ)
  | 0, _, _ => none
  | fuel + 1, w, state =>
    match OMX_GetState C w with
    | (omx_error, omx_cur_state, w1) =>
      if omx_error ≠ OMX_ErrorNone then
        some (w1.printf "Error: Failed to get current state of media component\n" [])
      else if omx_cur_state = state then some w1
      else omx_wait_state C fuel (w1.log (Call.usleep 10000)) state

/-- `omx_event_handler` of the encoder. -/
def omx_event_handler (w : World σ) (p_data : omx_data_t)
    (eEvent : OMX_EVENTTYPE) (nData1 nData2 : OMX_U32) :
    OMX_ERRORTYPE × omx_data_t × World σ :=
  if eEvent = OMX_EventCmdComplete then
    if nData1 = OMX_CommandStateSet then
      match omx_state_to_str nData2 with
      | some p_state_str =>
        (OMX_ErrorNone, p_data, w.printf "OMX state: '%s'\n" [.str p_state_str])
      | none => (OMX_ErrorNone, p_data, w)
    else (OMX_ErrorNone, p_data, w)
  else if eEvent = OMX_EventBufferFlag then
    if nData1 = OMX_BUFFERFLAG_EOS then
      (OMX_ErrorNone, { p_data with smp_eos := p_data.smp_eos + 1, eos := true },
        (((w.log (Call.sem_post Gate.smp_eos)).log (Call.store_eos true)).printf
          "OMX event: 'End-of-Stream'\n" []))
    else (OMX_ErrorNone, p_data, w.printf "OMX event: 'End-of-Stream'\n" [])
  else if eEvent = OMX_EventError then
    (OMX_ErrorNone, p_data, w.printf "OMX error event: '0x%x'\n" [.num nData1])
  else (OMX_ErrorNone, p_data, w)

/-- `omx_empty_buffer_done` of the encoder; `pAppData = none` is a `NULL`
pointer. -/
def omx_empty_buffer_done (C : Component σ) (w : World σ) (pAppData : Option omx_data_t)
    (pBuffer : BufPtr) : Outcome σ (OMX_ERRORTYPE × omx_data_t) :=
  match pAppData with
  | none => (.error Fault.assertion, w)
  | some p_data =>
    if p_data.eos = false then
      match omx_empty_buffer C w p_data.p_in_file pBuffer NV12_FRAME_SIZE_IN_BYTES with
      | (.ok (_, file1), w1) =>
        (.ok (OMX_ErrorNone, { p_data with p_in_file := some file1 }),
          w1.printf "EmptyBufferDone exited\n" [])
      | (.error f, w1) => (.error f, w1)
    else (.ok (OMX_ErrorNone, p_data), w.printf "EmptyBufferDone exited\n" [])

/-- `omx_fill_buffer_done` of the encoder. -/
def omx_fill_buffer_done (C : Component σ) (w : World σ) (pAppData : Option omx_data_t)
    (pBuffer : BufPtr) : Outcome σ (OMX_ERRORTYPE × omx_data_t) :=
  match pAppData with
  | none => (.error Fault.assertion, w)
  | some p_data =>
    if p_data.eos = false ∧ pBuffer ≠ NULL then
      let out1 :=
        if (w.heap pBuffer).nFilledLen > 0 then
          p_data.p_out_file ++ (w.heap pBuffer).pBuffer.take (w.heap pBuffer).nFilledLen
        else p_data.p_out_file
      match OMX_FillThisBuffer C (resetHeader w pBuffer) pBuffer with
      | (err, w2) =>
        if err = OMX_ErrorNone then
          (.ok (OMX_ErrorNone, { p_data with p_out_file := out1 }),
            w2.printf "FillBufferDone exited\n" [])
        else (.error Fault.assertion, w2)
    else (.ok (OMX_ErrorNone, p_data), w.printf "FillBufferDone exited\n" [])

/-! ### `main` of the encoder

`main` is modelled from the checks on the input file of `STEP 1` on.  As in the
decoder, the callbacks that the schedule lists for a point are run before every
statement of `main`. -/

/-- What the component's thread does: a callback, or a write into a buffer
header that the component holds. -/
inductive Event where
  | EventHandler (eEvent : OMX_EVENTTYPE) (nData1 nData2 : OMX_U32)
  | EmptyBufferDone (pBuffer : BufPtr)
  | FillBufferDone (pBuffer : BufPtr)
  | write (p : BufPtr) (hdr : OMX_BUFFERHEADERTYPE)
deriving DecidableEq, Repr

/-- The variables of `main` and the world around it; `tick` counts the
scheduling points passed. -/
structure MainState (σ : Type) where
  w : World σ
  omx_data : omx_data_t
  pp_in_bufs : Option (List BufPtr)
  pp_out_bufs : Option (List BufPtr)
  tick : Nat

abbrev Step (σ : Type) := MainState σ → Except (Fault × MainState σ) (MainState σ)

/-- One event of the component's thread. -/
def deliver (C : Component σ) (s : MainState σ) : Event →
    Except (Fault × MainState σ) (MainState σ)
  | Event.EventHandler eEvent nData1 nData2 =>
    match omx_event_handler s.w s.omx_data eEvent nData1 nData2 with
    | (_, d, w1) => .ok { s with w := w1, omx_data := d }
  | Event.EmptyBufferDone pBuffer =>
    match omx_empty_buffer_done C s.w (some s.omx_data) pBuffer with
    | (.ok (_, d), w1) => .ok { s with w := w1, omx_data := d }
    | (.error f, w1) => .error (f, { s with w := w1 })
  | Event.FillBufferDone pBuffer =>
    match omx_fill_buffer_done C s.w (some s.omx_data) pBuffer with
    | (.ok (_, d), w1) => .ok { s with w := w1, omx_data := d }
    | (.error f, w1) => .error (f, { s with w := w1 })
  | Event.write p hdr =>
    .ok { s with w := { s.w with heap := Function.update s.w.heap p hdr } }

def deliverAll (C : Component σ) : List Event → Step σ
  | [], s => .ok s
  | e :: es, s =>
    match deliver C s e with
    | .ok s1 => deliverAll C es s1
    | .error x => .error x

/-- A scheduling point. -/
def yield (C : Component σ) (sched : Nat → List Event) : Step σ := fun s =>
  deliverAll C (sched s.tick) { s with tick := s.tick + 1 }

/-- Statements in sequence, with a scheduling point before each. -/
def run (C : Component σ) (sched : Nat → List Event) : List (Step σ) → Step σ
  | [], s => .ok s
  | stmt :: rest, s =>
    match yield C sched s with
    | .error x => .error x
    | .ok s1 =>
      match stmt s1 with
      | .error x => .error x
      | .ok s2 => run C sched rest s2

/-- The statement `assert(OMX_ErrorNone == call)`. -/
def stmt_assert_ok (call : World σ → OMX_ERRORTYPE × World σ) : Step σ := fun s =>
  match call s.w with
  | (err, w1) =>
    if OMX_ErrorNone = err then .ok { s with w := w1 }
    else .error (Fault.assertion, { s with w := w1 })

/-- The statement `assert(call)` for a call returning `bool`. -/
def stmt_assert_true (call : World σ → Outcome σ Bool) : Step σ := fun s =>
  match call s.w with
  | (.ok true, w1) => .ok { s with w := w1 }
  | (.ok false, w1) => .error (Fault.assertion, { s with w := w1 })
  | (.error f, w1) => .error (f, { s with w := w1 })

/-- The checks of `STEP 1` on the input file: it is open, it holds one NV12
frame at least, and the file position is set back to the beginning. -/
def stmt_check_in_file : Step σ := fun s =>
  match s.omx_data.p_in_file with
  | none => .error (Fault.assertion, s)
  | some file =>
    if file.size ≥ NV12_FRAME_SIZE_IN_BYTES then
      .ok { s with omx_data :=
        { s.omx_data with p_in_file := some { file with pos := 0, eof := false } } }
    else .error (Fault.assertion, s)

/-- The statements `pp_in_bufs = omx_alloc_buffers(handle, 0);
assert(pp_in_bufs != NULL);`. -/
def stmt_alloc_in (C : Component σ) : Step σ := fun s =>
  match omx_alloc_buffers C s.w 0 default with
  | (.ok (some pool), w1) => .ok { s with w := w1, pp_in_bufs := some pool }
  | (.ok none, w1) => .error (Fault.assertion, { s with w := w1, pp_in_bufs := none })
  | (.error f, w1) => .error (f, { s with w := w1 })

/-- The statements `pp_out_bufs = omx_alloc_buffers(handle, 1);
assert(pp_out_bufs != NULL);`. -/
def stmt_alloc_out (C : Component σ) : Step σ := fun s =>
  match omx_alloc_buffers C s.w 1 default with
  | (.ok (some pool), w1) => .ok { s with w := w1, pp_out_bufs := some pool }
  | (.ok none, w1) => .error (Fault.assertion, { s with w := w1, pp_out_bufs := none })
  | (.error f, w1) => .error (f, { s with w := w1 })

/-- The statement `omx_wait_state(handle, state)`. -/
def stmt_wait_state (C : Component σ) (fuel : Nat) (state : OMX_STATETYPE) : Step σ :=
  fun s =>
    match omx_wait_state C fuel s.w state with
    | some w1 => .ok { s with w := w1 }
    | none => .error (Fault.fuel, s)

/-- The statement `assert(omx_fill_buffers(handle, pp_out_bufs, H264_BUFFER_COUNT))`. -/
def stmt_fill_out (C : Component σ) : Step σ := fun s =>
  stmt_assert_true (fun w => omx_fill_buffers C w s.pp_out_bufs H264_BUFFER_COUNT) s

/-- The `for` loop of `STEP 7` that sends the input buffers;
`remaining = NV12_BUFFER_COUNT - index`.  The result is the input file
afterwards. -/
def main_feed_loop (C : Component σ) (pp_in_bufs : Option (List BufPtr)) :
    Nat → Nat → World σ → Option FILE → Outcome σ (Option FILE)
  | 0, _, w, p_in_file => (.ok p_in_file, w)
  | remaining + 1, index, w, p_in_file =>
    match pp_in_bufs with
    | none => (.error Fault.nullDeref, w)
    | some arr =>
      match arr[index]? with
      | none => (.error Fault.invalidRead, w)
      | some p =>
        match omx_empty_buffer C w p_in_file p NV12_FRAME_SIZE_IN_BYTES with
        | (.error f, w1) => (.error f, w1)
        | (.ok (flags, file1), w1) =>
          if Nat.land OMX_BUFFERFLAG_EOS flags ≠ 0 then (.ok (some file1), w1)
          else main_feed_loop C pp_in_bufs remaining (index + 1) w1 (some file1)

def stmt_feed (C : Component σ) : Step σ := fun s =>
  match main_feed_loop C s.pp_in_bufs NV12_BUFFER_COUNT 0 s.w s.omx_data.p_in_file with
  | (.ok file1, w1) =>
    .ok { s with w := w1, omx_data := { s.omx_data with p_in_file := file1 } }
  | (.error f, w1) => .error (f, { s with w := w1 })

/-- The statement `sem_wait(&omx_data.smp_eos)`. -/
def stmt_sem_wait_eos : Step σ := fun s =>
  if s.omx_data.smp_eos > 0 then
    .ok { s with w := s.w.log (Call.sem_wait Gate.smp_eos),
                 omx_data := { s.omx_data with smp_eos := s.omx_data.smp_eos - 1 } }
  else .error (Fault.blocked, s)

/-- The statement `omx_dealloc_all_port_bufs(handle, 1, pp_out_bufs)`. -/
def stmt_dealloc_all_out (C : Component σ) : Step σ := fun s =>
  match omx_dealloc_all_port_bufs C s.w 1 s.pp_out_bufs default with
  | (.ok _, w1) => .ok { s with w := w1 }
  | (.error f, w1) => .error (f, { s with w := w1 })

/-- The statement `omx_dealloc_all_port_bufs(handle, 0, pp_in_bufs)`. -/
def stmt_dealloc_all_in (C : Component σ) : Step σ := fun s =>
  match omx_dealloc_all_port_bufs C s.w 0 s.pp_in_bufs default with
  | (.ok _, w1) => .ok { s with w := w1 }
  | (.error f, w1) => .error (f, { s with w := w1 })

/-- The statements of `main`, from the file checks of `STEP 1` to `STEP 9`. -/
def main_statements (C : Component σ) (fuel : Nat) : List (Step σ) :=
  [ stmt_check_in_file,
    stmt_assert_ok (OMX_Init C),
    stmt_assert_ok (OMX_GetHandle C),
    stmt_assert_true (fun w =>
      ((.ok (omx_set_in_port_fmt C w FRAME_WIDTH_IN_PIXELS FRAME_HEIGHT_IN_PIXELS
              OMX_COLOR_FormatYUV420SemiPlanar default).1),
        (omx_set_in_port_fmt C w FRAME_WIDTH_IN_PIXELS FRAME_HEIGHT_IN_PIXELS
              OMX_COLOR_FormatYUV420SemiPlanar default).2)),
    stmt_assert_true (fun w => omx_set_port_buf_cnt C w 0 NV12_BUFFER_COUNT default),
    stmt_assert_true (fun w =>
      omx_set_out_port_fmt C w H264_BITRATE OMX_VIDEO_CodingAVC FRAMERATE default default),
    stmt_assert_true (fun w => omx_set_port_buf_cnt C w 1 H264_BUFFER_COUNT default),
    stmt_assert_ok (fun w => OMX_SendCommand C w OMX_CommandStateSet OMX_StateIdle),
    stmt_alloc_in C,
    stmt_alloc_out C,
    stmt_wait_state C fuel OMX_StateIdle,
    stmt_assert_ok (fun w => OMX_SendCommand C w OMX_CommandStateSet OMX_StateExecuting),
    stmt_wait_state C fuel OMX_StateExecuting,
    stmt_fill_out C,
    stmt_feed C,
    stmt_sem_wait_eos,
    stmt_assert_ok (fun w => OMX_SendCommand C w OMX_CommandStateSet OMX_StateIdle),
    stmt_wait_state C fuel OMX_StateIdle,
    stmt_assert_ok (fun w => OMX_SendCommand C w OMX_CommandStateSet OMX_StateLoaded),
    stmt_dealloc_all_out C,
    stmt_dealloc_all_in C,
    stmt_wait_state C fuel OMX_StateLoaded,
    stmt_assert_ok (OMX_FreeHandle C),
    stmt_assert_ok (OMX_Deinit C) ]

/-- The variables of `main` once the files are opened: `eos` is false, the
semaphore is at 0, no pool is allocated; `p_in_file` is what `fopen` returned. -/
def main_init (w : World σ) (p_in_file : Option FILE) : MainState σ :=
  { w := w,
    omx_data := { eos := false, p_in_file := p_in_file, p_out_file := [], smp_eos := 0 },
    pp_in_bufs := none, pp_out_bufs := none, tick := 0 }

/-- Whether a run reached its end (`return 0`). -/
def returned (r : Except (Fault × MainState σ) (MainState σ)) : Bool :=
  match r with
  | .ok _ => true
  | .error _ => false

/-- The variables and the world when a run ended or stopped. -/
def finalState (r : Except (Fault × MainState σ) (MainState σ)) : MainState σ :=
  match r with
  | .ok s => s
  | .error (_, s) => s

/-- `main` of the encoder: `.ok s` is `return 0` with the final variables `s`. -/
def main (C : Component σ) (sched : Nat → List Event) (fuel : Nat) (w : World σ)
    (p_in_file : Option FILE) : Except (Fault × MainState σ) (MainState σ) :=
  run C sched (main_statements C fuel) (main_init w p_in_file)

end Encode

/-! ## Observations on traces, used to state the properties -/

/-- The query structure `omx_get_port` hands to `OMX_GetParameter`. -/
def portQuery (port_idx : OMX_U32) : OMX_PARAM_PORTDEFINITIONTYPE :=
  { OMX_INIT_STRUCTURE with nPortIndex := port_idx }

/-- The `(port, header)` of an `OMX_FreeBuffer` call. -/
def Call.freed : Call → Option (OMX_U32 × BufPtr)
  | Call.OMX_FreeBuffer port buf _ => some (port, buf)
  | _ => none

/-- The headers passed to `OMX_FreeBuffer`, in call order. -/
def freedBufs (t : List Call) : List (OMX_U32 × BufPtr) := t.filterMap Call.freed

/-- The `(port, size, ret)` of an `OMX_AllocateBuffer` call. -/
def Call.allocRequest : Call → Option (OMX_U32 × OMX_U32 × OMX_ERRORTYPE)
  | Call.OMX_AllocateBuffer port size ret _ => some (port, size, ret)
  | _ => none

/-- The `OMX_AllocateBuffer` calls, in call order. -/
def allocRequests (t : List Call) : List (OMX_U32 × OMX_U32 × OMX_ERRORTYPE) :=
  t.filterMap Call.allocRequest

/-- The `(port, header)` obtained from a successful `OMX_AllocateBuffer`. -/
def Call.allocated : Call → Option (OMX_U32 × BufPtr)
  | Call.OMX_AllocateBuffer port _ ret buf =>
    if ret = OMX_ErrorNone then some (port, buf) else none
  | _ => none

/-- The headers obtained from `OMX_AllocateBuffer`, in call order. -/
def allocatedBufs (t : List Call) : List (OMX_U32 × BufPtr) := t.filterMap Call.allocated

/-- The calls by which `main` steers the component and waits for it: commands,
waits on a gate, stores to the port-disabled marker and buffer allocations. -/
def Call.isControl : Call → Bool
  | Call.OMX_SendCommand _ _ _ => true
  | Call.sem_wait _ => true
  | Call.store_port_disabled _ => true
  | Call.OMX_AllocateBuffer _ _ _ _ => true
  | _ => false

/-- The control calls of a trace, in order. -/
def controlTrace (t : List Call) : List Call := t.filter Call.isControl

/-- The port-definition queries of a trace, in order: the port asked for, the
error code and the `nBufferCountActual` reported. -/
def portQueries (t : List Call) : List (OMX_U32 × OMX_ERRORTYPE × OMX_U32) :=
  t.filterMap (fun c => match c with
    | Call.OMX_GetParameter_PortDefinition q ret out =>
      some (q.nPortIndex, ret, out.nBufferCountActual)
    | _ => none)

/-- The calls that the accounting of a run looks at: the control calls, the
port-definition queries and the `OMX_FreeBuffer` calls. -/
def Call.isSkeleton : Call → Bool
  | Call.OMX_SendCommand _ _ _ => true
  | Call.sem_wait _ => true
  | Call.store_port_disabled _ => true
  | Call.OMX_AllocateBuffer _ _ _ _ => true
  | Call.OMX_FreeBuffer _ _ _ => true
  | Call.OMX_GetParameter_PortDefinition _ _ _ => true
  | _ => false

/-- The skeleton of a trace: its calls of the kinds above, in order. -/
def skeleton (t : List Call) : List Call := t.filter Call.isSkeleton

/-- Whether the call is a port-definition `OMX_SetParameter`. -/
def Call.isSetPortDefinition : Call → Bool
  | Call.OMX_SetParameter_PortDefinition _ _ => true
  | _ => false

/-- Whether the call hands a buffer to the component (`OMX_EmptyThisBuffer` or
`OMX_FillThisBuffer`). -/
def Call.isSubmit : Call → Bool
  | Call.OMX_EmptyThisBuffer _ _ _ => true
  | Call.OMX_FillThisBuffer _ _ _ => true
  | _ => false

/-- The headers passed to `OMX_FillThisBuffer`, in call order. -/
def filledBufs (t : List Call) : List BufPtr :=
  t.filterMap (fun c => match c with
    | Call.OMX_FillThisBuffer buf _ _ => some buf
    | _ => none)

/-- The component accepts `k` consecutive `OMX_AllocateBuffer(port, size)`
requests made from state `s`: the headers it hands out and the state it
reaches (`none` when it rejects one of them). -/
def Component.acceptsAllocs (C : Component σ) (port size : OMX_U32) :
    Nat → σ → Option (List BufPtr × σ)
  | 0, s => some ([], s)
  | k + 1, s =>
    if (C.allocateBuffer s port size).1 = OMX_ErrorNone then
      (C.acceptsAllocs port size k (C.allocateBuffer s port size).2.2).map
        (fun r => ((C.allocateBuffer s port size).2.1 :: r.1, r.2))
    else none

/-! ## A simulated component, for concrete runs -/

/-- State of the simulated component. -/
structure SimState where
  defs : List OMX_PARAM_PORTDEFINITIONTYPE
  nextBuf : BufPtr
  allocs : Nat
  queries : Nat
  state : OMX_STATETYPE
deriving DecidableEq, Repr

/-- What the simulated component does: it rejects `OMX_AllocateBuffer` once
`allocLimit` requests have been accepted, fails the port-definition query once
`queryLimit` queries have been answered, and reports `renegotiated` as
`nBufferCountActual` of port 1 from the port-disable command on. -/
structure SimConfig where
  allocLimit : Nat
  queryLimit : Nat
  renegotiated : Nat

def OMX_ErrorInsufficientResources : OMX_ERRORTYPE := 0x80001000

def OMX_ErrorUndefined : OMX_ERRORTYPE := 0x80001001

/-- The simulated component. -/
def sim (cfg : SimConfig) : Component SimState where
  init s := (OMX_ErrorNone, s)
  deinit s := (OMX_ErrorNone, s)
  getHandle s := (OMX_ErrorNone, s)
  freeHandle s := (OMX_ErrorNone, s)
  getState s := (OMX_ErrorNone, s.state, s)
  sendCommand s cmd param :=
    if cmd = OMX_CommandStateSet then (OMX_ErrorNone, { s with state := param })
    else if cmd = OMX_CommandPortDisable ∧ param = 1 then
      (OMX_ErrorNone,
        { s with defs := (s.defs.modify
            (fun d => { d with nBufferCountActual := cfg.renegotiated }) 1) })
    else (OMX_ErrorNone, s)
  getPortDefinition s q :=
    if s.queries < cfg.queryLimit then
      (OMX_ErrorNone, s.defs.getD q.nPortIndex q, { s with queries := s.queries + 1 })
    else (OMX_ErrorUndefined, q, s)
  setPortDefinition s d := (OMX_ErrorNone, { s with defs := s.defs.set d.nPortIndex d })
  getVideoBitrate s q := (OMX_ErrorNone, q, s)
  setVideoBitrate s _ := (OMX_ErrorNone, s)
  setAVCVuiProperty s _ := (OMX_ErrorNone, s)
  allocateBuffer s _ _ :=
    if s.allocs < cfg.allocLimit then
      (OMX_ErrorNone, s.nextBuf, { s with nextBuf := s.nextBuf + 1, allocs := s.allocs + 1 })
    else (OMX_ErrorInsufficientResources, NULL, s)
  freeBuffer s _ _ := (OMX_ErrorNone, s)
  emptyThisBuffer s _ _ := (OMX_ErrorNone, s)
  fillThisBuffer s _ _ := (OMX_ErrorNone, s)

/-- A port definition of the simulated component. -/
def simPort (idx cnt mn size : Nat) : OMX_PARAM_PORTDEFINITIONTYPE :=
  { OMX_INIT_STRUCTURE with
      nPortIndex := idx, nBufferCountActual := cnt, nBufferCountMin := mn,
      nBufferSize := size }

/-- The simulated component freshly loaded: ports 0 and 1 with the given
`(nBufferCountActual, nBufferCountMin, nBufferSize)`. -/
def simInit (p0 p1 : Nat × Nat × Nat) : SimState :=
  { defs := [simPort 0 p0.1 p0.2.1 p0.2.2, simPort 1 p1.1 p1.2.1 p1.2.2],
    nextBuf := 1, allocs := 0, queries := 0, state := OMX_StateLoaded }

/-- The decoder's shared data as `main` initialises it, with the given access
units waiting in the appsink. -/
def Decode.omx_data_init (samples : List (List Nat)) : Decode.omx_data_t :=
  { eos := false, smp_eos := 0, port_disabled := false, smp_port_disabled := 0,
    smp_port_enabled := 0, smp_port_settings_changed := 0, p_out_file := [],
    p_appsink := samples }

/-- An input file of `size` zero bytes, freshly opened. -/
def zeroFile (size : Nat) : FILE :=
  { size := size, byte := fun _ => 0, pos := 0, eof := false }

/-- The encoder's shared data as `main` initialises it. -/
def Encode.omx_data_init (file : FILE) : Encode.omx_data_t :=
  { eos := false, p_in_file := some file, p_out_file := [], smp_eos := 0 }

/-- An empty world around a component state. -/
def World.init (s : σ) : World σ :=
  { comp := s, trace := [], heap := fun _ => default, stdout := [] }

/-- A header as the component returns it after filling it with `bytes`. -/
def filledHeader (bytes : List Nat) (flags : OMX_U32) : OMX_BUFFERHEADERTYPE :=
  { pBuffer := bytes, nAllocLen := bytes.length, nFilledLen := bytes.length, nFlags := flags }

/-- A schedule for a decoder run with headers 1, 2 (input pool), 3, 4, 5 (first
output pool) and 6, 7, 8 (second output pool): input header 1 is drained and the
settings-changed event raised while `main` waits for it (point 13); the three
output headers are returned and the port-disable confirmed at point 15; the
port-enable is confirmed at point 19; header 6 comes back filled and the
end-of-stream flag is raised at point 21. -/
def simSched : Nat → List Decode.Event
  | 13 => [Decode.Event.EmptyBufferDone 1,
           Decode.Event.EventHandler OMX_EventPortSettingsChanged 1 0]
  | 15 => [Decode.Event.FillBufferDone 3, Decode.Event.FillBufferDone 4,
           Decode.Event.FillBufferDone 5,
           Decode.Event.EventHandler OMX_EventCmdComplete OMX_CommandPortDisable 1]
  | 19 => [Decode.Event.EventHandler OMX_EventCmdComplete OMX_CommandPortEnable 1]
  | 21 => [Decode.Event.write 6 (filledHeader [7, 7, 7] 0),
           Decode.Event.FillBufferDone 6,
           Decode.Event.EventHandler OMX_EventBufferFlag OMX_BUFFERFLAG_EOS 0]
  | _ => []

/-- A schedule for an encoder run with headers 1, 2 (input pool) and 3, 4
(output pool): while `main` waits for the end of the stream (point 15), output
header 3 comes back filled and the end-of-stream flag is raised. -/
def simSchedEnc : Nat → List Encode.Event
  | 15 => [Encode.Event.write 3 (filledHeader [9, 9] 0),
           Encode.Event.FillBufferDone 3,
           Encode.Event.EventHandler OMX_EventBufferFlag OMX_BUFFERFLAG_EOS 0]
  | _ => []

/-- The world in which the simulated encoder runs start: every buffer header
has room for one NV12 frame. -/
def simWorldEnc : World SimState :=
  { comp := simInit (1, 1, 460800) (1, 1, 100000), trace := [],
    heap := fun _ => { pBuffer := [], nAllocLen := 460800, nFilledLen := 0, nFlags := 0 },
    stdout := [] }

/-- The world in which the simulated decoder runs start: ports 0 and 1 ask for
one buffer at least and currently have 1 and 2. -/
def simWorld : World SimState := World.init (simInit (1, 1, 4096) (2, 1, 8192))

/-- The two access units of the simulated input stream. -/
def simSamples : List (List Nat) := [[1, 2, 3], [4, 5]]

/-- Whether the call is the store `omx_data.port_disabled = true`. -/
def Call.isMarkerStore : Call → Bool
  | Call.store_port_disabled true => true
  | _ => false

/-- The calls of a trace that precede the first store of `true` to the
port-disabled marker. -/
def beforeMarker (t : List Call) : List Call := t.takeWhile (fun c => !c.isMarkerStore)

/-- Whether the last port-definition query made on `port` succeeded and reported
the `nBufferCountActual` that the query before it on that port had reported. -/
def lastQueryAgrees (t : List Call) (port : OMX_U32) : Bool :=
  match ((portQueries t).filter (fun q => q.1 = port)).reverse with
  | (_, ret, n) :: (_, _, m) :: _ => decide (ret = OMX_ErrorNone ∧ n = m)
  | _ => false

/-- The calls made during a run of the decoder's `main` started in world `w`. -/
def Decode.mainCalls (C : Component σ) (sched : Nat → List Decode.Event) (fuel : Nat)
    (w : World σ) (samples : List (List Nat)) : List Call :=
  (Decode.finalState (Decode.main C sched fuel w samples)).w.trace.drop w.trace.length

/-- The calls made during a run of the encoder's `main` started in world `w`. -/
def Encode.mainCalls (C : Component σ) (sched : Nat → List Encode.Event) (fuel : Nat)
    (w : World σ) (p_in_file : Option FILE) : List Call :=
  (Encode.finalState (Encode.main C sched fuel w p_in_file)).w.trace.drop w.trace.length


/-! ## Further observations and simulated components -/

/-- The header, `nFilledLen` and `nFlags` of the `OMX_EmptyThisBuffer` calls of
a trace, in call order. -/
def emptiedBufs (t : List Call) : List (BufPtr × OMX_U32 × OMX_U32) :=
  t.filterMap (fun c => match c with
    | Call.OMX_EmptyThisBuffer buf hdr _ => some (buf, hdr.nFilledLen, hdr.nFlags)
    | _ => none)

/-- The component's state after `n` calls of `OMX_GetState` made from state `s`. -/
def Component.afterPolls (C : Component σ) : Nat → σ → σ
  | 0, s => s
  | n + 1, s => C.afterPolls n (C.getState s).2.2

/-- The answer to the poll number `n` (counted from 0) of consecutive
`OMX_GetState` calls made from state `s`: the error code and the state
reported. -/
def Component.poll (C : Component σ) (s : σ) (n : Nat) : OMX_ERRORTYPE × OMX_STATETYPE :=
  ((C.getState (C.afterPolls n s)).1, (C.getState (C.afterPolls n s)).2.1)

/-- Whether an answer of `OMX_GetState` ends the loop of `omx_wait_state`: it
is an error, or it reports the requested state. -/
def pollEnds (state : OMX_STATETYPE) (a : OMX_ERRORTYPE × OMX_STATETYPE) : Bool :=
  decide (a.1 ≠ OMX_ErrorNone) || decide (a.2 = state)

/-- The calls of `k` rounds of the loop of `omx_wait_state` made from state
`s`: each is `OMX_GetState` followed by `usleep(10000)`. -/
def Component.waitRounds (C : Component σ) : Nat → σ → List Call
  | 0, _ => []
  | k + 1, s =>
    Call.OMX_GetState (C.getState s).1 (C.getState s).2.1 :: Call.usleep 10000 ::
      C.waitRounds k (C.getState s).2.2

/-- The arguments of the `usleep` calls of a trace, in call order. -/
def sleeps (t : List Call) : List Nat :=
  t.filterMap (fun c => match c with
    | Call.usleep us => some us
    | _ => none)

/-- The answers of the `OMX_GetState` calls of a trace, in call order. -/
def stateReports (t : List Call) : List (OMX_ERRORTYPE × OMX_STATETYPE) :=
  t.filterMap (fun c => match c with
    | Call.OMX_GetState ret state => some (ret, state)
    | _ => none)

/-- A component that answers `OMX_GetState` from a script: its state is the
list of answers still to give; once the script is used up it reports
`OMX_StateLoaded` without error, for ever.  Every other entry point succeeds
and changes nothing. -/
def scripted : Component (List (OMX_ERRORTYPE × OMX_STATETYPE)) where
  init s := (OMX_ErrorNone, s)
  deinit s := (OMX_ErrorNone, s)
  getHandle s := (OMX_ErrorNone, s)
  freeHandle s := (OMX_ErrorNone, s)
  getState s :=
    match s with
    | [] => (OMX_ErrorNone, OMX_StateLoaded, [])
    | a :: rest => (a.1, a.2, rest)
  sendCommand s _ _ := (OMX_ErrorNone, s)
  getPortDefinition s q := (OMX_ErrorNone, q, s)
  setPortDefinition s _ := (OMX_ErrorNone, s)
  getVideoBitrate s q := (OMX_ErrorNone, q, s)
  setVideoBitrate s _ := (OMX_ErrorNone, s)
  setAVCVuiProperty s _ := (OMX_ErrorNone, s)
  allocateBuffer s _ _ := (OMX_ErrorNone, 1, s)
  freeBuffer s _ _ := (OMX_ErrorNone, s)
  emptyThisBuffer s _ _ := (OMX_ErrorNone, s)
  fillThisBuffer s _ _ := (OMX_ErrorNone, s)

/-- The call by which `main` requests the transition to `OMX_StateLoaded`, as
it stands in the trace when the component accepts the command. -/
def loadedCommand : Call :=
  Call.OMX_SendCommand OMX_CommandStateSet OMX_StateLoaded OMX_ErrorNone

/-- The calls of a trace that precede the first accepted request for
`OMX_StateLoaded`. -/
def beforeLoaded (t : List Call) : List Call :=
  t.takeWhile (fun c => decide (c ≠ loadedCommand))

/-- The calls of a trace that follow the first accepted request for
`OMX_StateLoaded`. -/
def afterLoaded (t : List Call) : List Call :=
  (t.dropWhile (fun c => decide (c ≠ loadedCommand))).drop 1

/-- The parameter indices that the applications pass to `OMX_SetParameter`. -/
inductive OMX_INDEXTYPE where
  | OMX_IndexParamPortDefinition
  | OMX_IndexParamVideoBitrate
  | OMXR_MC_IndexParamVideoAVCVuiProperty
deriving DecidableEq, Repr

/-- The `OMX_SetParameter` calls of a trace, in call order: the index set and
the error code the component answered. -/
def setResults (t : List Call) : List (OMX_INDEXTYPE × OMX_ERRORTYPE) :=
  t.filterMap (fun c => match c with
    | Call.OMX_SetParameter_PortDefinition _ ret =>
      some (OMX_INDEXTYPE.OMX_IndexParamPortDefinition, ret)
    | Call.OMX_SetParameter_VideoBitrate _ ret =>
      some (OMX_INDEXTYPE.OMX_IndexParamVideoBitrate, ret)
    | Call.OMX_SetParameter_AVCVuiProperty _ ret =>
      some (OMX_INDEXTYPE.OMXR_MC_IndexParamVideoAVCVuiProperty, ret)
    | _ => none)

def OMX_ErrorUnsupportedIndex : OMX_ERRORTYPE := 0x8000101A

/-- The simulated component, except that it rejects the AVC VUI property. -/
def simVuiRejected : Component SimState :=
  { sim ⟨20, 20, 3⟩ with setAVCVuiProperty := fun s _ => (OMX_ErrorUnsupportedIndex, s) }

/-! ## Observations and reference definitions for the helper functions of `omx.c` -/

/-- `deallocate_all(port_idx, handles)` in the words of the specification:
re-query the port definition; when the query succeeds, call `OMX_FreeBuffer`
once on each of the first `nBufferCountActual` entries of the pool, in index
order, and release the pool array; when the query fails, free no buffer and
do not release the pool array. -/
def deallocate_all_spec (C : Component σ) (w : World σ) (port_idx : OMX_U32)
    (pool : List BufPtr) : World σ :=
  let q := OMX_GetParameter_PortDefinition C w (portQuery port_idx)
  if q.1 = OMX_ErrorNone then
    ((pool.take q.2.1.nBufferCountActual).foldl
      (fun w1 b => (OMX_FreeBuffer C w1 port_idx b).2) q.2.2).log (Call.free pool)
  else q.2.2.printf "Error: Failed to get port at index '%d'\n" [.num port_idx]

/-- A buffer header with `nFlags` and `nFilledLen` reset to 0. -/
def OMX_BUFFERHEADERTYPE.reset (hdr : OMX_BUFFERHEADERTYPE) : OMX_BUFFERHEADERTYPE :=
  { hdr with nFlags := 0, nFilledLen := 0 }

/-- The answers of the component to `OMX_FillThisBuffer` on the headers `bufs`
submitted in turn from state `s`, each with `nFlags` and `nFilledLen` reset,
up to and including the first submission it rejects. -/
def Component.fillAnswers (C : Component σ) (heap : BufPtr → OMX_BUFFERHEADERTYPE) :
    σ → List BufPtr → List (BufPtr × OMX_BUFFERHEADERTYPE × OMX_ERRORTYPE)
  | _, [] => []
  | s, p :: rest =>
    (p, (heap p).reset, (C.fillThisBuffer s p (heap p).reset).1) ::
      (if (C.fillThisBuffer s p (heap p).reset).1 = OMX_ErrorNone then
        C.fillAnswers heap (C.fillThisBuffer s p (heap p).reset).2 rest
      else [])

/-- The `OMX_FillThisBuffer` call recorded for one answer. -/
def fillCall (a : BufPtr × OMX_BUFFERHEADERTYPE × OMX_ERRORTYPE) : Call :=
  Call.OMX_FillThisBuffer a.1 a.2.1 a.2.2

/-- A component that accepts `OMX_FillThisBuffer` on every header but
`rejected`. -/
def simFillRejects (rejected : BufPtr) : Component SimState :=
  { sim ⟨20, 20, 3⟩ with
      fillThisBuffer := fun s p _ =>
        if p = rejected then (OMX_ErrorUndefined, s) else (OMX_ErrorNone, s) }

/-- A schedule for an encoder run in which the end-of-stream flag is raised
before output header 3, filled with two bytes, is returned (point 15). -/
def simSchedEncEosFirst : Nat → List Encode.Event
  | 15 => [Encode.Event.write 3 (filledHeader [9, 9] 0),
           Encode.Event.EventHandler OMX_EventBufferFlag OMX_BUFFERFLAG_EOS 0,
           Encode.Event.FillBufferDone 3]
  | _ => []

/-- A world whose buffer headers all have a payload area of four bytes. -/
def simWorldSmall : World SimState :=
  { simWorld with
      heap := fun _ => { pBuffer := [0, 0, 0, 0], nAllocLen := 4, nFilledLen := 0, nFlags := 0 } }

end Omx

/-! # Theorems -/

namespace Omx

variable {σ : Type}

/-! ## The encoder's copies of the shared `omx.c` functions -/

theorem Encode.omx_get_port_eq_decode :
    @Encode.omx_get_port σ = @Decode.omx_get_port σ := rfl

theorem Encode.omx_set_port_buf_cnt_eq_decode :
    @Encode.omx_set_port_buf_cnt σ = @Decode.omx_set_port_buf_cnt σ := rfl

theorem Encode.omx_dealloc_port_bufs_loop_eq_decode :
    @Encode.omx_dealloc_port_bufs_loop σ = @Decode.omx_dealloc_port_bufs_loop σ := by
  funext C port pp remaining
  induction remaining with
  | zero => funext index w; rfl
  | succ n ih =>
    funext index w
    simp only [Encode.omx_dealloc_port_bufs_loop, Decode.omx_dealloc_port_bufs_loop, ih]

theorem Encode.omx_dealloc_port_bufs_eq_decode :
    @Encode.omx_dealloc_port_bufs σ = @Decode.omx_dealloc_port_bufs σ := by
  funext C w port pp count
  simp only [Encode.omx_dealloc_port_bufs, Decode.omx_dealloc_port_bufs,
    Encode.omx_dealloc_port_bufs_loop_eq_decode]

theorem Encode.omx_alloc_buffers_loop_eq_decode :
    @Encode.omx_alloc_buffers_loop σ = @Decode.omx_alloc_buffers_loop σ := by
  funext C port size remaining
  induction remaining with
  | zero => funext index pp w; rfl
  | succ n ih =>
    funext index pp w
    simp only [Encode.omx_alloc_buffers_loop, Decode.omx_alloc_buffers_loop, ih]

theorem Encode.omx_alloc_buffers_eq_decode :
    @Encode.omx_alloc_buffers σ = @Decode.omx_alloc_buffers σ := by
  funext C w port u
  simp only [Encode.omx_alloc_buffers, Decode.omx_alloc_buffers,
    Encode.omx_alloc_buffers_loop_eq_decode, Encode.omx_dealloc_port_bufs_eq_decode,
    Encode.omx_get_port_eq_decode]

theorem Encode.omx_dealloc_all_port_bufs_eq_decode :
    @Encode.omx_dealloc_all_port_bufs σ = @Decode.omx_dealloc_all_port_bufs σ := by
  funext C w port pp u
  simp only [Encode.omx_dealloc_all_port_bufs, Decode.omx_dealloc_all_port_bufs,
    Encode.omx_dealloc_port_bufs_eq_decode, Encode.omx_get_port_eq_decode]

theorem Encode.omx_fill_buffers_loop_eq_decode :
    @Encode.omx_fill_buffers_loop σ = @Decode.omx_fill_buffers_loop σ := by
  funext C pp remaining
  induction remaining with
  | zero => funext index w; rfl
  | succ n ih =>
    funext index w
    simp only [Encode.omx_fill_buffers_loop, Decode.omx_fill_buffers_loop, ih]
    rfl

theorem Encode.omx_fill_buffers_eq_decode :
    @Encode.omx_fill_buffers σ = @Decode.omx_fill_buffers σ := by
  funext C w pp count
  simp only [Encode.omx_fill_buffers, Decode.omx_fill_buffers,
    Encode.omx_fill_buffers_loop_eq_decode]

/-! ## `omx_get_port`, `omx_set_port_buf_cnt` -/

theorem Decode.omx_get_port_ok (C : Component σ) (w : World σ) (port_idx : OMX_U32)
    (u : OMX_PARAM_PORTDEFINITIONTYPE)
    (h : (C.getPortDefinition w.comp (portQuery port_idx)).1 = OMX_ErrorNone) :
    Decode.omx_get_port C w port_idx u =
      (true, (C.getPortDefinition w.comp (portQuery port_idx)).2.1,
        { w with
            comp := (C.getPortDefinition w.comp (portQuery port_idx)).2.2,
            trace := w.trace ++ [Call.OMX_GetParameter_PortDefinition (portQuery port_idx)
              OMX_ErrorNone (C.getPortDefinition w.comp (portQuery port_idx)).2.1] }) := by
  simp only [portQuery] at h
  simp [Decode.omx_get_port, OMX_GetParameter_PortDefinition, World.log, portQuery, h]

theorem Decode.omx_get_port_fail (C : Component σ) (w : World σ) (port_idx : OMX_U32)
    (u : OMX_PARAM_PORTDEFINITIONTYPE)
    (h : (C.getPortDefinition w.comp (portQuery port_idx)).1 ≠ OMX_ErrorNone) :
    Decode.omx_get_port C w port_idx u =
      (false, u,
        { w with
            comp := (C.getPortDefinition w.comp (portQuery port_idx)).2.2,
            trace := w.trace ++ [Call.OMX_GetParameter_PortDefinition (portQuery port_idx)
              (C.getPortDefinition w.comp (portQuery port_idx)).1
              (C.getPortDefinition w.comp (portQuery port_idx)).2.1],
            stdout := w.stdout ++
              [("Error: Failed to get port at index '%d'\n", [.num port_idx])] }) := by
  simp only [portQuery] at h
  have h2 : ¬ OMX_ErrorNone = (C.getPortDefinition w.comp
      { OMX_INIT_STRUCTURE with nPortIndex := port_idx }).1 := fun e => h e.symm
  simp [Decode.omx_get_port, OMX_GetParameter_PortDefinition, World.log, World.printf,
    portQuery, h2]

/-- C1: when the queried port definition has `nBufferCountMin > n` (with
`n > 0`), `omx_set_port_buf_cnt` of the decoder and of the encoder returns
`false`; the only call it makes is the port-definition query, so no
`OMX_SetParameter` reaches the component, whose state is the one the query left. -/
theorem omx_set_port_buf_cnt_below_min (C : Component σ) (w : World σ)
    (port_idx n : OMX_U32) (u : OMX_PARAM_PORTDEFINITIONTYPE) (hn : 0 < n)
    (hq : (C.getPortDefinition w.comp (portQuery port_idx)).1 = OMX_ErrorNone)
    (hmin : n < (C.getPortDefinition w.comp (portQuery port_idx)).2.1.nBufferCountMin) :
    ((Decode.omx_set_port_buf_cnt C w port_idx n u).1 = .ok false ∧
      (Decode.omx_set_port_buf_cnt C w port_idx n u).2.trace =
        w.trace ++ [Call.OMX_GetParameter_PortDefinition (portQuery port_idx)
          OMX_ErrorNone (C.getPortDefinition w.comp (portQuery port_idx)).2.1] ∧
      (∀ c ∈ (Decode.omx_set_port_buf_cnt C w port_idx n u).2.trace.drop w.trace.length,
        c.isSetPortDefinition = false) ∧
      (Decode.omx_set_port_buf_cnt C w port_idx n u).2.comp =
        (C.getPortDefinition w.comp (portQuery port_idx)).2.2) ∧
    ((Encode.omx_set_port_buf_cnt C w port_idx n u).1 = .ok false ∧
      (Encode.omx_set_port_buf_cnt C w port_idx n u).2.trace =
        w.trace ++ [Call.OMX_GetParameter_PortDefinition (portQuery port_idx)
          OMX_ErrorNone (C.getPortDefinition w.comp (portQuery port_idx)).2.1] ∧
      (∀ c ∈ (Encode.omx_set_port_buf_cnt C w port_idx n u).2.trace.drop w.trace.length,
        c.isSetPortDefinition = false) ∧
      (Encode.omx_set_port_buf_cnt C w port_idx n u).2.comp =
        (C.getPortDefinition w.comp (portQuery port_idx)).2.2) := by
  have key : Decode.omx_set_port_buf_cnt C w port_idx n u =
      (.ok false,
        ({ w with
            comp := (C.getPortDefinition w.comp (portQuery port_idx)).2.2,
            trace := w.trace ++ [Call.OMX_GetParameter_PortDefinition (portQuery port_idx)
              OMX_ErrorNone (C.getPortDefinition w.comp (portQuery port_idx)).2.1] }
          : World σ).printf "Error: Port '%d' requires no less than '%d' buffers\n"
          [.num port_idx,
           .num (C.getPortDefinition w.comp (portQuery port_idx)).2.1.nBufferCountMin]) := by
    have hn2 : n > 0 := hn
    simp [Decode.omx_set_port_buf_cnt, Decode.omx_get_port_ok C w port_idx u hq, hmin, hn2]
  rw [Encode.omx_set_port_buf_cnt_eq_decode, key]
  simp [World.printf, Call.isSetPortDefinition]

/-- C1 (witness): port 0 of the simulated component requires 4 buffers and 2
are requested. -/
theorem omx_set_port_buf_cnt_below_min_witness :
    (0 < 2 ∧
      ((sim ⟨8, 8, 3⟩).getPortDefinition
        (World.init (simInit (4, 4, 100) (3, 3, 100))).comp (portQuery 0)).1 = OMX_ErrorNone ∧
      2 < ((sim ⟨8, 8, 3⟩).getPortDefinition
        (World.init (simInit (4, 4, 100) (3, 3, 100))).comp (portQuery 0)).2.1.nBufferCountMin) ∧
    (Decode.omx_set_port_buf_cnt (sim ⟨8, 8, 3⟩)
        (World.init (simInit (4, 4, 100) (3, 3, 100))) 0 2 default).1 = .ok false ∧
    (Encode.omx_set_port_buf_cnt (sim ⟨8, 8, 3⟩)
        (World.init (simInit (4, 4, 100) (3, 3, 100))) 0 2 default).1 = .ok false :=
  ⟨⟨by decide, by decide, by decide⟩,
    (omx_set_port_buf_cnt_below_min (sim ⟨8, 8, 3⟩)
      (World.init (simInit (4, 4, 100) (3, 3, 100))) 0 2 default
      (by decide) (by decide) (by decide)).1.1,
    (omx_set_port_buf_cnt_below_min (sim ⟨8, 8, 3⟩)
      (World.init (simInit (4, 4, 100) (3, 3, 100))) 0 2 default
      (by decide) (by decide) (by decide)).2.1⟩

/-! ## `omx_dealloc_port_bufs`, `omx_alloc_buffers` -/

theorem freedBufs_append (a b : List Call) : freedBufs (a ++ b) = freedBufs a ++ freedBufs b := by
  simp [freedBufs, List.filterMap_append]

theorem allocRequests_append (a b : List Call) :
    allocRequests (a ++ b) = allocRequests a ++ allocRequests b := by
  simp [allocRequests, List.filterMap_append]

theorem allocatedBufs_append (a b : List Call) :
    allocatedBufs (a ++ b) = allocatedBufs a ++ allocatedBufs b := by
  simp [allocatedBufs, List.filterMap_append]

theorem freedBufs_map_alloc (port size : OMX_U32) (l : List BufPtr) :
    freedBufs (l.map (fun b => Call.OMX_AllocateBuffer port size OMX_ErrorNone b)) = [] := by
  induction l with
  | nil => rfl
  | cons a l ih => simpa [freedBufs, Call.freed] using ih

theorem allocRequests_map_alloc (port size : OMX_U32) (l : List BufPtr) :
    allocRequests (l.map (fun b => Call.OMX_AllocateBuffer port size OMX_ErrorNone b)) =
      l.map (fun _ => (port, size, OMX_ErrorNone)) := by
  induction l with
  | nil => rfl
  | cons a l ih => simpa [allocRequests, Call.allocRequest] using ih

theorem freedBufs_length_le (l : List Call) : (freedBufs l).length ≤ l.length := by
  simpa [freedBufs] using List.length_filterMap_le Call.freed l

/-- A list of calls with as many `OMX_FreeBuffer` calls as calls holds no
allocation request. -/
theorem allocRequests_of_all_freed (l : List Call) (h : l.length = (freedBufs l).length) :
    allocRequests l = [] := by
  induction l with
  | nil => rfl
  | cons a l ih =>
    have hle := freedBufs_length_le l
    cases a with
    | OMX_FreeBuffer port buf ret =>
      have h2 : l.length = (freedBufs l).length := by
        simpa [freedBufs, Call.freed] using h
      simpa [allocRequests, Call.allocRequest] using ih h2
    | _ =>
      exfalso
      simp [freedBufs, Call.freed] at h hle
      omega

/-- The loop of `omx_dealloc_port_bufs` on slots that exist: it frees the slots
`index .. index + count - 1` in order and does nothing else. -/
theorem Decode.dealloc_loop_spec (C : Component σ) (port : OMX_U32) (pp : List BufPtr) :
    ∀ (count index : Nat) (w : World σ), index + count ≤ pp.length →
      ∃ (w1 : World σ) (t : List Call),
        Decode.omx_dealloc_port_bufs_loop C port pp count index w = (.ok (), w1) ∧
        w1.trace = w.trace ++ t ∧ t.length = count ∧
        freedBufs t = ((pp.drop index).take count).map (fun b => (port, b)) ∧
        w1.heap = w.heap ∧ w1.stdout = w.stdout := by
  intro count
  induction count with
  | zero =>
    intro index w _
    exact ⟨w, [], rfl, by simp, rfl, by simp [freedBufs], rfl, rfl⟩
  | succ n ih =>
    intro index w h
    have hlt : index < pp.length := by omega
    obtain ⟨w1, t, h1, h2, h3, h4, h5, h6⟩ :=
      ih (index + 1) (OMX_FreeBuffer C w port pp[index]).2 (by omega)
    refine ⟨w1, Call.OMX_FreeBuffer port pp[index] (C.freeBuffer w.comp port pp[index]).1 :: t,
      ?_, ?_, ?_, ?_, ?_, ?_⟩
    · simp only [Decode.omx_dealloc_port_bufs_loop, List.getElem?_eq_getElem hlt]
      exact h1
    · rw [h2]; simp [OMX_FreeBuffer, World.log]
    · simp [h3]
    · have hd : pp.drop index = pp[index] :: pp.drop (index + 1) := by
        rw [List.drop_eq_getElem_cons hlt]
      rw [hd, List.take_succ_cons, List.map_cons, ← h4]
      simp [freedBufs, Call.freed]
    · rw [h5]; simp [OMX_FreeBuffer, World.log]
    · rw [h6]; simp [OMX_FreeBuffer, World.log]

/-- The loop of `omx_alloc_buffers`, whatever the component does: it stores the
headers of the accepted requests in order and stops at the first rejection. -/
theorem Decode.alloc_loop_shape (C : Component σ) (port size : OMX_U32) :
    ∀ (remaining index : Nat) (pp : List BufPtr) (w : World σ),
      ∃ (bs : List BufPtr) (tail : List Call),
        (Decode.omx_alloc_buffers_loop C port size remaining index pp w).1
          = index + bs.length ∧
        (Decode.omx_alloc_buffers_loop C port size remaining index pp w).2.1 = pp ++ bs ∧
        (Decode.omx_alloc_buffers_loop C port size remaining index pp w).2.2.trace =
          w.trace ++ bs.map (fun b => Call.OMX_AllocateBuffer port size OMX_ErrorNone b)
            ++ tail ∧
        ((bs.length = remaining ∧ tail = []) ∨
         (bs.length < remaining ∧ ∃ err p, err ≠ OMX_ErrorNone ∧
            tail = [Call.OMX_AllocateBuffer port size err p])) := by
  intro remaining
  induction remaining with
  | zero =>
    intro index pp w
    exact ⟨[], [], by simp [Decode.omx_alloc_buffers_loop],
      by simp [Decode.omx_alloc_buffers_loop], by simp [Decode.omx_alloc_buffers_loop],
      Or.inl ⟨rfl, rfl⟩⟩
  | succ n ih =>
    intro index pp w
    by_cases hacc : (C.allocateBuffer w.comp port size).1 = OMX_ErrorNone
    · obtain ⟨bs, tail, h1, h2, h3, h4⟩ :=
        ih (index + 1) (pp ++ [(C.allocateBuffer w.comp port size).2.1])
          (OMX_AllocateBuffer C w port size).2.2
      have hstep : Decode.omx_alloc_buffers_loop C port size (n + 1) index pp w =
          Decode.omx_alloc_buffers_loop C port size n (index + 1)
            (pp ++ [(C.allocateBuffer w.comp port size).2.1])
            (OMX_AllocateBuffer C w port size).2.2 := by
        simp [Decode.omx_alloc_buffers_loop, OMX_AllocateBuffer, hacc, OMX_ErrorNone]
      refine ⟨(C.allocateBuffer w.comp port size).2.1 :: bs, tail, ?_, ?_, ?_, ?_⟩
      · rw [hstep, h1]; simp; omega
      · rw [hstep, h2]; simp
      · rw [hstep, h3]; simp [OMX_AllocateBuffer, World.log, hacc]
      · rcases h4 with ⟨h, ht⟩ | ⟨h, ht⟩
        · exact Or.inl ⟨by simp [h], ht⟩
        · exact Or.inr ⟨by simp; omega, ht⟩
    · have hne : ¬ OMX_ErrorNone = (C.allocateBuffer w.comp port size).1 :=
        fun e => hacc e.symm
      refine ⟨[], [Call.OMX_AllocateBuffer port size (C.allocateBuffer w.comp port size).1
        (C.allocateBuffer w.comp port size).2.1], ?_, ?_, ?_, ?_⟩
      · simp [Decode.omx_alloc_buffers_loop, OMX_AllocateBuffer, hne]
      · simp [Decode.omx_alloc_buffers_loop, OMX_AllocateBuffer, hne]
      · simp [Decode.omx_alloc_buffers_loop, OMX_AllocateBuffer, hne, World.log, World.printf]
      · exact Or.inr ⟨by simp, _, _, hacc, rfl⟩

/-- The loop of `omx_alloc_buffers` against a component that accepts `k`
requests and rejects the next one, `k` being less than the number asked for. -/
theorem Decode.alloc_loop_reject (C : Component σ) (port size : OMX_U32) :
    ∀ (k remaining index : Nat) (pp : List BufPtr) (w : World σ) (bs : List BufPtr) (sk : σ),
      k < remaining →
      C.acceptsAllocs port size k w.comp = some (bs, sk) →
      (C.allocateBuffer sk port size).1 ≠ OMX_ErrorNone →
      bs.length = k ∧
      (Decode.omx_alloc_buffers_loop C port size remaining index pp w).1 = index + k ∧
      (Decode.omx_alloc_buffers_loop C port size remaining index pp w).2.1 = pp ++ bs ∧
      (Decode.omx_alloc_buffers_loop C port size remaining index pp w).2.2.trace =
        w.trace ++ bs.map (fun b => Call.OMX_AllocateBuffer port size OMX_ErrorNone b) ++
          [Call.OMX_AllocateBuffer port size (C.allocateBuffer sk port size).1
            (C.allocateBuffer sk port size).2.1] ∧
      (Decode.omx_alloc_buffers_loop C port size remaining index pp w).2.2.comp =
        (C.allocateBuffer sk port size).2.2 := by
  intro k
  induction k with
  | zero =>
    intro remaining index pp w bs sk hk hacc hrej
    simp only [Component.acceptsAllocs, Option.some.injEq, Prod.mk.injEq] at hacc
    obtain ⟨rfl, rfl⟩ := hacc
    obtain ⟨r, rfl⟩ : ∃ r, remaining = r + 1 := ⟨remaining - 1, by omega⟩
    have hne : ¬ OMX_ErrorNone = (C.allocateBuffer w.comp port size).1 :=
      fun e => hrej e.symm
    simp [Decode.omx_alloc_buffers_loop, OMX_AllocateBuffer, hne, World.log, World.printf]
  | succ k ih =>
    intro remaining index pp w bs sk hk hacc hrej
    obtain ⟨r, rfl⟩ : ∃ r, remaining = r + 1 := ⟨remaining - 1, by omega⟩
    by_cases h0 : (C.allocateBuffer w.comp port size).1 = OMX_ErrorNone
    · simp only [Component.acceptsAllocs, h0, if_true, Option.map_eq_some', Prod.mk.injEq]
        at hacc
      obtain ⟨⟨bs1, s1⟩, hacc1, rfl, rfl⟩ := hacc
      have hstep : Decode.omx_alloc_buffers_loop C port size (r + 1) index pp w =
          Decode.omx_alloc_buffers_loop C port size r (index + 1)
            (pp ++ [(C.allocateBuffer w.comp port size).2.1])
            (OMX_AllocateBuffer C w port size).2.2 := by
        simp [Decode.omx_alloc_buffers_loop, OMX_AllocateBuffer, h0, OMX_ErrorNone]
      obtain ⟨h1, h2, h3, h4, h5⟩ :=
        ih r (index + 1) (pp ++ [(C.allocateBuffer w.comp port size).2.1])
          (OMX_AllocateBuffer C w port size).2.2 bs1 s1 (by omega)
          (by simpa [OMX_AllocateBuffer] using hacc1) hrej
      refine ⟨by simp [h1], ?_, ?_, ?_, ?_⟩
      · rw [hstep, h2]; omega
      · rw [hstep, h3]; simp
      · rw [hstep, h4]; simp [OMX_AllocateBuffer, World.log, h0]
      · rw [hstep, h5]
    · simp [Component.acceptsAllocs, h0] at hacc

/-- C2: if the port-definition query succeeds with `nBufferCountActual = N`, the
component accepts the first `k < N` `OMX_AllocateBuffer` calls (handing out the
headers `bs`) and rejects the next one, then `omx_alloc_buffers` returns `NULL`
and the calls it makes are: the query, the `malloc`, the `k + 1` allocation
requests, then exactly `k` `OMX_FreeBuffer` calls, one per header of `bs` in
order and on the same port, and the `free` of the array; no allocation request
follows the rejected one. -/
theorem omx_alloc_buffers_rollback (C : Component σ) (w : World σ) (port_idx : OMX_U32)
    (u : OMX_PARAM_PORTDEFINITIONTYPE) (k : Nat) (bs : List BufPtr) (sk : σ)
    (hq : (C.getPortDefinition w.comp (portQuery port_idx)).1 = OMX_ErrorNone)
    (hk : k < (C.getPortDefinition w.comp (portQuery port_idx)).2.1.nBufferCountActual)
    (hacc : C.acceptsAllocs port_idx
        (C.getPortDefinition w.comp (portQuery port_idx)).2.1.nBufferSize k
        (C.getPortDefinition w.comp (portQuery port_idx)).2.2 = some (bs, sk))
    (hrej : (C.allocateBuffer sk port_idx
        (C.getPortDefinition w.comp (portQuery port_idx)).2.1.nBufferSize).1 ≠ OMX_ErrorNone) :
    (Decode.omx_alloc_buffers C w port_idx u).1 = .ok none ∧
    bs.length = k ∧
    ∃ tF : List Call,
      (Decode.omx_alloc_buffers C w port_idx u).2.trace =
        w.trace ++
          [Call.OMX_GetParameter_PortDefinition (portQuery port_idx) OMX_ErrorNone
              (C.getPortDefinition w.comp (portQuery port_idx)).2.1,
            Call.malloc (C.getPortDefinition w.comp (portQuery port_idx)).2.1.nBufferCountActual]
          ++ bs.map (fun b => Call.OMX_AllocateBuffer port_idx
              (C.getPortDefinition w.comp (portQuery port_idx)).2.1.nBufferSize OMX_ErrorNone b)
          ++ [Call.OMX_AllocateBuffer port_idx
              (C.getPortDefinition w.comp (portQuery port_idx)).2.1.nBufferSize
              (C.allocateBuffer sk port_idx
                (C.getPortDefinition w.comp (portQuery port_idx)).2.1.nBufferSize).1
              (C.allocateBuffer sk port_idx
                (C.getPortDefinition w.comp (portQuery port_idx)).2.1.nBufferSize).2.1]
          ++ tF ++ [Call.free bs] ∧
      tF.length = k ∧
      freedBufs tF = bs.map (fun b => (port_idx, b)) ∧
      freedBufs ((Decode.omx_alloc_buffers C w port_idx u).2.trace.drop w.trace.length) =
        bs.map (fun b => (port_idx, b)) ∧
      (allocRequests
          ((Decode.omx_alloc_buffers C w port_idx u).2.trace.drop w.trace.length)).length
        = k + 1 := by
  obtain ⟨hlen, h1, h2, h3, _⟩ :=
    Decode.alloc_loop_reject C port_idx
      (C.getPortDefinition w.comp (portQuery port_idx)).2.1.nBufferSize k
      (C.getPortDefinition w.comp (portQuery port_idx)).2.1.nBufferCountActual 0 []
      (({ w with
          comp := (C.getPortDefinition w.comp (portQuery port_idx)).2.2,
          trace := w.trace ++ [Call.OMX_GetParameter_PortDefinition (portQuery port_idx)
            OMX_ErrorNone (C.getPortDefinition w.comp (portQuery port_idx)).2.1] }
        : World σ).log
        (Call.malloc (C.getPortDefinition w.comp (portQuery port_idx)).2.1.nBufferCountActual))
      bs sk hk hacc hrej
  rcases hloop : Decode.omx_alloc_buffers_loop C port_idx
      (C.getPortDefinition w.comp (portQuery port_idx)).2.1.nBufferSize
      (C.getPortDefinition w.comp (portQuery port_idx)).2.1.nBufferCountActual 0 []
      (({ w with
          comp := (C.getPortDefinition w.comp (portQuery port_idx)).2.2,
          trace := w.trace ++ [Call.OMX_GetParameter_PortDefinition (portQuery port_idx)
            OMX_ErrorNone (C.getPortDefinition w.comp (portQuery port_idx)).2.1] }
        : World σ).log
        (Call.malloc (C.getPortDefinition w.comp (portQuery port_idx)).2.1.nBufferCountActual))
    with ⟨index, pp2, w2⟩
  rw [hloop] at h1 h2 h3
  simp only [Nat.zero_add, List.nil_append] at h1 h2 h3
  rw [h1, h2] at hloop
  clear h1 h2 index pp2
  obtain ⟨w3, tF, hd1, hd2, hd3, hd4, _, _⟩ :=
    Decode.dealloc_loop_spec C port_idx bs k 0 w2 (by omega)
  have hres : Decode.omx_alloc_buffers C w port_idx u = (.ok none, w3.log (Call.free bs)) := by
    simp only [Decode.omx_alloc_buffers, Decode.omx_get_port_ok C w port_idx u hq, hloop,
      Decode.omx_dealloc_port_bufs, hd1, hk, if_true]
  have htr : (w3.log (Call.free bs)).trace =
      w.trace ++ ([Call.OMX_GetParameter_PortDefinition (portQuery port_idx) OMX_ErrorNone
              (C.getPortDefinition w.comp (portQuery port_idx)).2.1,
            Call.malloc (C.getPortDefinition w.comp (portQuery port_idx)).2.1.nBufferCountActual]
          ++ bs.map (fun b => Call.OMX_AllocateBuffer port_idx
              (C.getPortDefinition w.comp (portQuery port_idx)).2.1.nBufferSize OMX_ErrorNone b)
          ++ [Call.OMX_AllocateBuffer port_idx
              (C.getPortDefinition w.comp (portQuery port_idx)).2.1.nBufferSize
              (C.allocateBuffer sk port_idx
                (C.getPortDefinition w.comp (portQuery port_idx)).2.1.nBufferSize).1
              (C.allocateBuffer sk port_idx
                (C.getPortDefinition w.comp (portQuery port_idx)).2.1.nBufferSize).2.1]
          ++ tF ++ [Call.free bs]) := by
    simp [World.log, hd2, h3]
  have hfree : freedBufs tF = bs.map (fun b => (port_idx, b)) := by
    rw [hd4, ← hlen]; simp
  refine ⟨by rw [hres], hlen, tF, ?_, hd3, hfree, ?_, ?_⟩
  · rw [hres, htr]; simp [List.append_assoc]
  · rw [hres, htr, List.drop_left]
    simp only [freedBufs_append, freedBufs_map_alloc, hfree]
    simp [freedBufs, Call.freed]
  · rw [hres, htr, List.drop_left]
    simp only [allocRequests_append, List.length_append, allocRequests_map_alloc,
      allocRequests_of_all_freed tF (by rw [hd3, hfree]; simp [hlen])]
    simp [allocRequests, Call.allocRequest, hlen]

/-- C2 (witness): port 1 of the simulated component asks for 3 buffers and the
component accepts 2 allocation requests (headers 1 and 2) before rejecting. -/
theorem omx_alloc_buffers_rollback_witness :
    (((sim ⟨2, 8, 3⟩).getPortDefinition
        (World.init (simInit (2, 1, 100) (3, 1, 200))).comp (portQuery 1)).1 = OMX_ErrorNone ∧
      2 < ((sim ⟨2, 8, 3⟩).getPortDefinition
        (World.init (simInit (2, 1, 100) (3, 1, 200))).comp (portQuery 1)).2.1.nBufferCountActual ∧
      (sim ⟨2, 8, 3⟩).acceptsAllocs 1
        ((sim ⟨2, 8, 3⟩).getPortDefinition
          (World.init (simInit (2, 1, 100) (3, 1, 200))).comp (portQuery 1)).2.1.nBufferSize 2
        ((sim ⟨2, 8, 3⟩).getPortDefinition
          (World.init (simInit (2, 1, 100) (3, 1, 200))).comp (portQuery 1)).2.2
        = some ([1, 2], { (simInit (2, 1, 100) (3, 1, 200)) with
            nextBuf := 3, allocs := 2, queries := 1 })) ∧
    (Decode.omx_alloc_buffers (sim ⟨2, 8, 3⟩)
        (World.init (simInit (2, 1, 100) (3, 1, 200))) 1 default).1 = .ok none ∧
    freedBufs ((Decode.omx_alloc_buffers (sim ⟨2, 8, 3⟩)
        (World.init (simInit (2, 1, 100) (3, 1, 200))) 1 default).2.trace.drop
          (World.init (simInit (2, 1, 100) (3, 1, 200))).trace.length) = [(1, 1), (1, 2)] :=
  ⟨⟨by decide, by decide, by decide⟩,
    (omx_alloc_buffers_rollback (sim ⟨2, 8, 3⟩) (World.init (simInit (2, 1, 100) (3, 1, 200)))
      1 default 2 [1, 2]
      { (simInit (2, 1, 100) (3, 1, 200)) with nextBuf := 3, allocs := 2, queries := 1 }
      (by decide) (by decide) (by decide) (by decide)).1,
    (omx_alloc_buffers_rollback (sim ⟨2, 8, 3⟩) (World.init (simInit (2, 1, 100) (3, 1, 200)))
      1 default 2 [1, 2]
      { (simInit (2, 1, 100) (3, 1, 200)) with nextBuf := 3, allocs := 2, queries := 1 }
      (by decide) (by decide) (by decide) (by decide)).2.2.choose_spec.2.2.2.1⟩

/-- What `omx_alloc_buffers` does, whatever the component answers. -/
theorem Decode.omx_alloc_buffers_spec (C : Component σ) (w : World σ) (port_idx : OMX_U32)
    (u : OMX_PARAM_PORTDEFINITIONTYPE) :
    (∃ res, (Decode.omx_alloc_buffers C w port_idx u).1 = .ok res) ∧
    ((∃ pool, (Decode.omx_alloc_buffers C w port_idx u).1 = .ok (some pool)) ↔
      ((C.getPortDefinition w.comp (portQuery port_idx)).1 = OMX_ErrorNone ∧
        ∀ a ∈ allocRequests
            ((Decode.omx_alloc_buffers C w port_idx u).2.trace.drop w.trace.length),
          a.2.2 = OMX_ErrorNone)) ∧
    (∀ pool, (Decode.omx_alloc_buffers C w port_idx u).1 = .ok (some pool) →
      (Decode.omx_alloc_buffers C w port_idx u).2.trace =
        w.trace ++
          [Call.OMX_GetParameter_PortDefinition (portQuery port_idx) OMX_ErrorNone
              (C.getPortDefinition w.comp (portQuery port_idx)).2.1,
            Call.malloc (C.getPortDefinition w.comp (portQuery port_idx)).2.1.nBufferCountActual]
          ++ pool.map (fun b => Call.OMX_AllocateBuffer port_idx
              (C.getPortDefinition w.comp (portQuery port_idx)).2.1.nBufferSize OMX_ErrorNone b) ∧
      pool.length = (C.getPortDefinition w.comp (portQuery port_idx)).2.1.nBufferCountActual) := by
  by_cases hq : (C.getPortDefinition w.comp (portQuery port_idx)).1 = OMX_ErrorNone
  · obtain ⟨bs, tail, h1, h2, h3, h4⟩ :=
      Decode.alloc_loop_shape C port_idx
        (C.getPortDefinition w.comp (portQuery port_idx)).2.1.nBufferSize
        (C.getPortDefinition w.comp (portQuery port_idx)).2.1.nBufferCountActual 0 []
        (({ w with
            comp := (C.getPortDefinition w.comp (portQuery port_idx)).2.2,
            trace := w.trace ++ [Call.OMX_GetParameter_PortDefinition (portQuery port_idx)
              OMX_ErrorNone (C.getPortDefinition w.comp (portQuery port_idx)).2.1] }
          : World σ).log
          (Call.malloc (C.getPortDefinition w.comp (portQuery port_idx)).2.1.nBufferCountActual))
    rcases hloop : Decode.omx_alloc_buffers_loop C port_idx
        (C.getPortDefinition w.comp (portQuery port_idx)).2.1.nBufferSize
        (C.getPortDefinition w.comp (portQuery port_idx)).2.1.nBufferCountActual 0 []
        (({ w with
            comp := (C.getPortDefinition w.comp (portQuery port_idx)).2.2,
            trace := w.trace ++ [Call.OMX_GetParameter_PortDefinition (portQuery port_idx)
              OMX_ErrorNone (C.getPortDefinition w.comp (portQuery port_idx)).2.1] }
          : World σ).log
          (Call.malloc (C.getPortDefinition w.comp (portQuery port_idx)).2.1.nBufferCountActual))
      with ⟨index, pp2, w2⟩
    rw [hloop] at h1 h2 h3
    simp only [Nat.zero_add, List.nil_append] at h1 h2 h3
    rw [h1, h2] at hloop
    clear h1 h2 index pp2
    rcases h4 with ⟨hall, rfl⟩ | ⟨hlt, err, p, herr, rfl⟩
    · have hres : Decode.omx_alloc_buffers C w port_idx u = (.ok (some bs), w2) := by
        simp only [Decode.omx_alloc_buffers, Decode.omx_get_port_ok C w port_idx u hq, hloop,
          hall, Nat.lt_irrefl, if_false]
      have htr : w2.trace = w.trace ++
          ([Call.OMX_GetParameter_PortDefinition (portQuery port_idx) OMX_ErrorNone
              (C.getPortDefinition w.comp (portQuery port_idx)).2.1,
            Call.malloc (C.getPortDefinition w.comp (portQuery port_idx)).2.1.nBufferCountActual]
          ++ bs.map (fun b => Call.OMX_AllocateBuffer port_idx
              (C.getPortDefinition w.comp (portQuery port_idx)).2.1.nBufferSize
              OMX_ErrorNone b)) := by
        simp [World.log, h3]
      refine ⟨⟨_, by rw [hres]⟩, ?_, ?_⟩
      · rw [hres]
        refine ⟨fun _ => ⟨hq, ?_⟩, fun _ => ⟨bs, rfl⟩⟩
        simp only [htr, List.drop_left, allocRequests_append, allocRequests_map_alloc]
        intro a ha
        simp [allocRequests, Call.allocRequest] at ha
        rcases ha with ⟨_, _, rfl⟩
        rfl
      · intro pool hp
        rw [hres] at hp ⊢
        simp only [Except.ok.injEq, Option.some.injEq] at hp
        subst hp
        exact ⟨by rw [htr]; simp [List.append_assoc], hall⟩
    · obtain ⟨w3, tF, hd1, hd2, hd3, hd4, _, _⟩ :=
        Decode.dealloc_loop_spec C port_idx bs bs.length 0 w2 (by simp)
      have hres : Decode.omx_alloc_buffers C w port_idx u =
          (.ok none, w3.log (Call.free bs)) := by
        simp only [Decode.omx_alloc_buffers, Decode.omx_get_port_ok C w port_idx u hq, hloop,
          Decode.omx_dealloc_port_bufs, hd1, hlt, if_true]
      have htr : (w3.log (Call.free bs)).trace = w.trace ++
          ([Call.OMX_GetParameter_PortDefinition (portQuery port_idx) OMX_ErrorNone
              (C.getPortDefinition w.comp (portQuery port_idx)).2.1,
            Call.malloc (C.getPortDefinition w.comp (portQuery port_idx)).2.1.nBufferCountActual]
          ++ bs.map (fun b => Call.OMX_AllocateBuffer port_idx
              (C.getPortDefinition w.comp (portQuery port_idx)).2.1.nBufferSize
              OMX_ErrorNone b)
          ++ [Call.OMX_AllocateBuffer port_idx
              (C.getPortDefinition w.comp (portQuery port_idx)).2.1.nBufferSize err p]
          ++ tF ++ [Call.free bs]) := by
        simp [World.log, hd2, h3]
      refine ⟨⟨_, by rw [hres]⟩, ?_, ?_⟩
      · rw [hres]
        refine ⟨fun ⟨pool, hp⟩ => by simp at hp, fun ⟨_, hall⟩ => ?_⟩
        exfalso
        apply herr
        apply hall (port_idx,
          (C.getPortDefinition w.comp (portQuery port_idx)).2.1.nBufferSize, err)
        simp only [htr, List.drop_left, allocRequests_append, List.mem_append]
        exact Or.inl (Or.inl (Or.inr (by simp [allocRequests, Call.allocRequest])))
      · intro pool hp
        rw [hres] at hp
        simp at hp
  · have hres : Decode.omx_alloc_buffers C w port_idx u =
        (.ok none, (Decode.omx_get_port C w port_idx u).2.2) := by
      simp only [Decode.omx_alloc_buffers, Decode.omx_get_port_fail C w port_idx u hq]
    refine ⟨⟨_, by rw [hres]⟩, ?_, ?_⟩
    · rw [hres]
      exact ⟨fun ⟨pool, hp⟩ => by simp at hp, fun ⟨h, _⟩ => absurd h hq⟩
    · intro pool hp
      rw [hres] at hp
      simp at hp

/-- C3: `omx_alloc_buffers` (decoder and encoder copy) always returns; it
returns a pool (non-`NULL`) exactly when the port-definition query succeeds and
every allocation request it makes is accepted; in that case its calls are the
query, the `malloc` of the array and `nBufferCountActual` accepted
`OMX_AllocateBuffer(port_idx, nBufferSize)` requests, and the pool holds the
headers they returned, in request order. -/
theorem omx_alloc_buffers_pool_iff (C : Component σ) (w : World σ) (port_idx : OMX_U32)
    (u : OMX_PARAM_PORTDEFINITIONTYPE) :
    ((∃ res, (Decode.omx_alloc_buffers C w port_idx u).1 = .ok res) ∧
      ((∃ pool, (Decode.omx_alloc_buffers C w port_idx u).1 = .ok (some pool)) ↔
        ((C.getPortDefinition w.comp (portQuery port_idx)).1 = OMX_ErrorNone ∧
          ∀ a ∈ allocRequests
              ((Decode.omx_alloc_buffers C w port_idx u).2.trace.drop w.trace.length),
            a.2.2 = OMX_ErrorNone)) ∧
      (∀ pool, (Decode.omx_alloc_buffers C w port_idx u).1 = .ok (some pool) →
        (Decode.omx_alloc_buffers C w port_idx u).2.trace =
          w.trace ++
            [Call.OMX_GetParameter_PortDefinition (portQuery port_idx) OMX_ErrorNone
                (C.getPortDefinition w.comp (portQuery port_idx)).2.1,
              Call.malloc
                (C.getPortDefinition w.comp (portQuery port_idx)).2.1.nBufferCountActual]
            ++ pool.map (fun b => Call.OMX_AllocateBuffer port_idx
                (C.getPortDefinition w.comp (portQuery port_idx)).2.1.nBufferSize
                OMX_ErrorNone b) ∧
        pool.length =
          (C.getPortDefinition w.comp (portQuery port_idx)).2.1.nBufferCountActual)) ∧
    ((∃ res, (Encode.omx_alloc_buffers C w port_idx u).1 = .ok res) ∧
      ((∃ pool, (Encode.omx_alloc_buffers C w port_idx u).1 = .ok (some pool)) ↔
        ((C.getPortDefinition w.comp (portQuery port_idx)).1 = OMX_ErrorNone ∧
          ∀ a ∈ allocRequests
              ((Encode.omx_alloc_buffers C w port_idx u).2.trace.drop w.trace.length),
            a.2.2 = OMX_ErrorNone)) ∧
      (∀ pool, (Encode.omx_alloc_buffers C w port_idx u).1 = .ok (some pool) →
        (Encode.omx_alloc_buffers C w port_idx u).2.trace =
          w.trace ++
            [Call.OMX_GetParameter_PortDefinition (portQuery port_idx) OMX_ErrorNone
                (C.getPortDefinition w.comp (portQuery port_idx)).2.1,
              Call.malloc
                (C.getPortDefinition w.comp (portQuery port_idx)).2.1.nBufferCountActual]
            ++ pool.map (fun b => Call.OMX_AllocateBuffer port_idx
                (C.getPortDefinition w.comp (portQuery port_idx)).2.1.nBufferSize
                OMX_ErrorNone b) ∧
        pool.length =
          (C.getPortDefinition w.comp (portQuery port_idx)).2.1.nBufferCountActual)) := by
  rw [Encode.omx_alloc_buffers_eq_decode]
  exact ⟨Decode.omx_alloc_buffers_spec C w port_idx u,
    Decode.omx_alloc_buffers_spec C w port_idx u⟩

/-! ## The buffer callbacks -/

/-- C5: a drained or filled callback delivered while `eos` is true makes no
`OMX_EmptyThisBuffer` and no `OMX_FillThisBuffer` call, in the decoder (whatever
the port-disabled marker) and in the encoder: the trace is only extended, and
by no submission. -/
theorem callbacks_after_eos_submit_nothing (C : Component σ) (w : World σ)
    (d : Decode.omx_data_t) (e : Encode.omx_data_t) (pBuffer : BufPtr)
    (hd : d.eos = true) (he : e.eos = true) :
    ((Decode.omx_empty_buffer_done C w (some d) pBuffer).2.trace = w.trace) ∧
    (∃ t, (Decode.omx_fill_buffer_done C w (some d) pBuffer).2.trace = w.trace ++ t ∧
      ∀ c ∈ t, c.isSubmit = false) ∧
    ((Encode.omx_empty_buffer_done C w (some e) pBuffer).2.trace = w.trace) ∧
    ((Encode.omx_fill_buffer_done C w (some e) pBuffer).2.trace = w.trace) := by
  refine ⟨?_, ?_, ?_, ?_⟩
  · simp [Decode.omx_empty_buffer_done, hd, World.printf]
  · by_cases hp : d.port_disabled = false
    · refine ⟨[Call.OMX_FreeBuffer 1 pBuffer (C.freeBuffer w.comp 1 pBuffer).1], ?_, ?_⟩
      · simp [Decode.omx_fill_buffer_done, hp, World.printf, OMX_FreeBuffer, World.log]
      · simp [Call.isSubmit]
    · refine ⟨[], ?_, by simp⟩
      simp [Decode.omx_fill_buffer_done, hp, hd, World.printf]
  · simp [Encode.omx_empty_buffer_done, he, World.printf]
  · simp [Encode.omx_fill_buffer_done, he, World.printf]

/-- C5 (witness): the shared data after the end-of-stream event. -/
theorem callbacks_after_eos_submit_nothing_witness :
    ({ Decode.omx_data_init [[1, 2]] with eos := true }).eos = true ∧
    ({ Encode.omx_data_init (zeroFile 4) with eos := true }).eos = true ∧
    (Decode.omx_empty_buffer_done (sim ⟨8, 8, 3⟩)
      (World.init (simInit (2, 1, 100) (3, 1, 200)))
      (some { Decode.omx_data_init [[1, 2]] with eos := true }) 1).2.trace =
        (World.init (simInit (2, 1, 100) (3, 1, 200))).trace ∧
    (Encode.omx_fill_buffer_done (sim ⟨8, 8, 3⟩)
      (World.init (simInit (2, 1, 100) (3, 1, 200)))
      (some { Encode.omx_data_init (zeroFile 4) with eos := true }) 1).2.trace =
        (World.init (simInit (2, 1, 100) (3, 1, 200))).trace :=
  ⟨rfl, rfl,
    (callbacks_after_eos_submit_nothing (sim ⟨8, 8, 3⟩)
      (World.init (simInit (2, 1, 100) (3, 1, 200)))
      { Decode.omx_data_init [[1, 2]] with eos := true }
      { Encode.omx_data_init (zeroFile 4) with eos := true } 1 rfl rfl).1,
    (callbacks_after_eos_submit_nothing (sim ⟨8, 8, 3⟩)
      (World.init (simInit (2, 1, 100) (3, 1, 200)))
      { Decode.omx_data_init [[1, 2]] with eos := true }
      { Encode.omx_data_init (zeroFile 4) with eos := true } 1 rfl rfl).2.2.2⟩

/-- C6 (counterexample): with the port-disabled marker true (and the stream not
ended), the decoder's filled callback for header 1 resubmits it: the one call
it makes is `OMX_FillThisBuffer` on header 1. -/
theorem fill_buffer_done_marker_true_resubmits :
    ({ Decode.omx_data_init [] with port_disabled := true }).port_disabled = true ∧
    filledBufs (Decode.omx_fill_buffer_done (sim ⟨8, 8, 3⟩)
      (World.init (simInit (2, 1, 100) (3, 1, 200)))
      (some { Decode.omx_data_init [] with port_disabled := true }) 1).2.trace = [1] ∧
    freedBufs (Decode.omx_fill_buffer_done (sim ⟨8, 8, 3⟩)
      (World.init (simInit (2, 1, 100) (3, 1, 200)))
      (some { Decode.omx_data_init [] with port_disabled := true }) 1).2.trace = [] := by
  decide

/-- C6 (amended): in the decoder, a filled callback delivered while the
port-disabled marker is false does not resubmit the buffer: it returns
`OMX_ErrorNone`, its one call is `OMX_FreeBuffer` on port 1 for that buffer (so
no `OMX_FillThisBuffer` call is made), and the shared data, the buffer headers
and the sink are unchanged. -/
theorem fill_buffer_done_marker_false_frees (C : Component σ) (w : World σ)
    (d : Decode.omx_data_t) (pBuffer : BufPtr) (h : d.port_disabled = false) :
    (Decode.omx_fill_buffer_done C w (some d) pBuffer).1 = .ok (OMX_ErrorNone, d) ∧
    (Decode.omx_fill_buffer_done C w (some d) pBuffer).2.trace =
      w.trace ++ [Call.OMX_FreeBuffer 1 pBuffer (C.freeBuffer w.comp 1 pBuffer).1] ∧
    filledBufs (Decode.omx_fill_buffer_done C w (some d) pBuffer).2.trace =
      filledBufs w.trace ∧
    (Decode.omx_fill_buffer_done C w (some d) pBuffer).2.heap = w.heap := by
  simp [Decode.omx_fill_buffer_done, h, World.printf, OMX_FreeBuffer, World.log, filledBufs]

/-- C6 (amended, witness): the shared data as `main` initialises it. -/
theorem fill_buffer_done_marker_false_frees_witness :
    (Decode.omx_data_init []).port_disabled = false ∧
    (Decode.omx_fill_buffer_done (sim ⟨8, 8, 3⟩)
      (World.init (simInit (2, 1, 100) (3, 1, 200)))
      (some (Decode.omx_data_init [])) 1).2.trace =
      (World.init (simInit (2, 1, 100) (3, 1, 200))).trace ++
        [Call.OMX_FreeBuffer 1 1 ((sim ⟨8, 8, 3⟩).freeBuffer
          (World.init (simInit (2, 1, 100) (3, 1, 200))).comp 1 1).1] :=
  ⟨rfl, (fill_buffer_done_marker_false_frees (sim ⟨8, 8, 3⟩)
      (World.init (simInit (2, 1, 100) (3, 1, 200))) (Decode.omx_data_init []) 1 rfl).2.1⟩

/-! ## Runs of the decoder's `main` -/

theorem controlTrace_append (a b : List Call) :
    controlTrace (a ++ b) = controlTrace a ++ controlTrace b := by
  simp [controlTrace]

theorem portQueries_append (a b : List Call) :
    portQueries (a ++ b) = portQueries a ++ portQueries b := by
  simp [portQueries, List.filterMap_append]

theorem Decode.run_cons_ok (C : Component σ) (sched : Nat → List Decode.Event)
    (stmt : Decode.Step σ) (rest : List (Decode.Step σ)) (s sf : Decode.MainState σ) :
    Decode.run C sched (stmt :: rest) s = .ok sf ↔
      ∃ s1 s2, Decode.yield C sched s = .ok s1 ∧ stmt s1 = .ok s2 ∧
        Decode.run C sched rest s2 = .ok sf := by
  simp only [Decode.run]
  cases h1 : Decode.yield C sched s with
  | error x => simp
  | ok s1 =>
    cases h2 : stmt s1 with
    | error x => simp [h2]
    | ok s2 => simp [h2]

theorem Decode.run_append_ok (C : Component σ) (sched : Nat → List Decode.Event)
    (A B : List (Decode.Step σ)) : ∀ (s sf : Decode.MainState σ),
    Decode.run C sched (A ++ B) s = .ok sf ↔
      ∃ sm, Decode.run C sched A s = .ok sm ∧ Decode.run C sched B sm = .ok sf := by
  induction A with
  | nil => intro s sf; simp [Decode.run]
  | cons a A ih =>
    intro s sf
    rw [List.cons_append, Decode.run_cons_ok]
    constructor
    · rintro ⟨s1, s2, h1, h2, h3⟩
      obtain ⟨sm, h4, h5⟩ := (ih s2 sf).mp h3
      exact ⟨sm, (Decode.run_cons_ok C sched a A s sm).mpr ⟨s1, s2, h1, h2, h4⟩, h5⟩
    · rintro ⟨sm, h6, h5⟩
      obtain ⟨s1, s2, h1, h2, h4⟩ := (Decode.run_cons_ok C sched a A s sm).mp h6
      exact ⟨s1, s2, h1, h2, (ih s2 sf).mpr ⟨sm, h4, h5⟩⟩

theorem skeleton_append (a b : List Call) : skeleton (a ++ b) = skeleton a ++ skeleton b := by
  simp [skeleton]

theorem Decode.deliver_ok_aux (C : Component σ) (s s1 : Decode.MainState σ)
    (e : Decode.Event) (h : Decode.deliver C s e = .ok s1) :
    s1.pp_in_bufs = s.pp_in_bufs ∧ s1.pp_out_bufs = s.pp_out_bufs ∧ s1.tick = s.tick ∧
    s1.omx_data.port_disabled = s.omx_data.port_disabled ∧
    s.w.trace <+: s1.w.trace ∧
    (∀ c ∈ skeleton (s1.w.trace.drop s.w.trace.length),
      ∃ b r, c = Call.OMX_FreeBuffer 1 b r) ∧
    (s.omx_data.port_disabled = true →
      skeleton (s1.w.trace.drop s.w.trace.length) = []) := by
  cases e with
  | EventHandler eEvent nData1 nData2 =>
    simp only [Decode.deliver, Decode.omx_event_handler] at h
    split_ifs at h <;> (try split at h) <;>
      simp only [Except.ok.injEq] at h <;> subst h <;>
      simp [World.printf, World.log, skeleton, Call.isSkeleton]
  | EmptyBufferDone pBuffer =>
    simp only [Decode.deliver, Decode.omx_empty_buffer_done] at h
    split at h
    · rename_i x d w1 heq
      split_ifs at heq with h1 h2
      · simp only [Prod.mk.injEq, Except.ok.injEq] at heq
        obtain ⟨⟨_, rfl⟩, rfl⟩ := heq
        simp only [Except.ok.injEq] at h
        subst h
        cases hs : s.omx_data.p_appsink <;>
          simp [World.printf, OMX_EmptyThisBuffer, World.log, Decode.setup_in_buf,
            skeleton, Call.isSkeleton]
      · simp at heq
      · simp only [Prod.mk.injEq, Except.ok.injEq] at heq
        obtain ⟨⟨_, rfl⟩, rfl⟩ := heq
        simp only [Except.ok.injEq] at h
        subst h
        simp [World.printf, skeleton]
    · simp at h
  | FillBufferDone pBuffer =>
    by_cases h1 : s.omx_data.port_disabled = false
    · simp only [Decode.deliver, Decode.omx_fill_buffer_done, h1, if_true,
        Except.ok.injEq] at h
      subst h
      simp [World.printf, OMX_FreeBuffer, World.log, skeleton, Call.isSkeleton, h1]
    · by_cases h2 : s.omx_data.eos = false ∧ pBuffer ≠ NULL
      · by_cases h3 : (OMX_FillThisBuffer C (Decode.resetHeader s.w pBuffer) pBuffer).1
            = OMX_ErrorNone
        · simp [Decode.deliver, Decode.omx_fill_buffer_done, h1, h2, h3] at h
          subst h
          simp [World.printf, OMX_FillThisBuffer, World.log, Decode.resetHeader, skeleton,
            Call.isSkeleton]
          simpa using h1
        · simp [Decode.deliver, Decode.omx_fill_buffer_done, h1, h2, h3] at h
      · simp [Decode.deliver, Decode.omx_fill_buffer_done, h1, h2] at h
        subst h
        simp [World.printf, skeleton]
  | write p hdr =>
    simp only [Decode.deliver, Except.ok.injEq] at h
    subst h
    simp [skeleton]

/-- What one event of the component's thread can change: it leaves the pools
and the port-disabled marker alone; of the skeleton calls it makes only
`OMX_FreeBuffer` on port 1, and none while the marker is true. -/
theorem Decode.deliver_ok (C : Component σ) (s s1 : Decode.MainState σ) (e : Decode.Event)
    (h : Decode.deliver C s e = .ok s1) :
    s1.pp_in_bufs = s.pp_in_bufs ∧ s1.pp_out_bufs = s.pp_out_bufs ∧ s1.tick = s.tick ∧
    s1.omx_data.port_disabled = s.omx_data.port_disabled ∧
    ∃ t, s1.w.trace = s.w.trace ++ t ∧
      (∀ c ∈ skeleton t, ∃ b r, c = Call.OMX_FreeBuffer 1 b r) ∧
      (s.omx_data.port_disabled = true → skeleton t = []) := by
  obtain ⟨h1, h2, h3, h4, ⟨t, ht⟩, h6, h7⟩ := Decode.deliver_ok_aux C s s1 e h
  rw [← ht, List.drop_left] at h6 h7
  exact ⟨h1, h2, h3, h4, t, ht.symm, h6, h7⟩

theorem Decode.deliverAll_ok (C : Component σ) : ∀ (es : List Decode.Event)
    (s s1 : Decode.MainState σ), Decode.deliverAll C es s = .ok s1 →
    s1.pp_in_bufs = s.pp_in_bufs ∧ s1.pp_out_bufs = s.pp_out_bufs ∧ s1.tick = s.tick ∧
    s1.omx_data.port_disabled = s.omx_data.port_disabled ∧
    ∃ t, s1.w.trace = s.w.trace ++ t ∧
      (∀ c ∈ skeleton t, ∃ b r, c = Call.OMX_FreeBuffer 1 b r) ∧
      (s.omx_data.port_disabled = true → skeleton t = []) := by
  intro es
  induction es with
  | nil =>
    intro s s1 h
    simp only [Decode.deliverAll, Except.ok.injEq] at h
    subst h
    exact ⟨rfl, rfl, rfl, rfl, [], (List.append_nil _).symm, by simp [skeleton],
      fun _ => rfl⟩
  | cons e es ih =>
    intro s s1 h
    simp only [Decode.deliverAll] at h
    cases hd : Decode.deliver C s e with
    | error x => simp [hd] at h
    | ok s2 =>
      simp only [hd] at h
      obtain ⟨a1, a2, a3, a4, t1, a5, a6, a7⟩ := Decode.deliver_ok C s s2 e hd
      obtain ⟨b1, b2, b3, b4, t2, b5, b6, b7⟩ := ih s2 s1 h
      refine ⟨b1.trans a1, b2.trans a2, b3.trans a3, b4.trans a4, t1 ++ t2, ?_, ?_, ?_⟩
      · rw [b5, a5, List.append_assoc]
      · intro c hc
        rw [skeleton_append, List.mem_append] at hc
        rcases hc with hc | hc
        · exact a6 c hc
        · exact b6 c hc
      · intro hm
        rw [skeleton_append, a7 hm, b7 (a4.trans hm)]; rfl

/-- A scheduling point: the callbacks run there leave the pools and the
port-disabled marker alone; of the skeleton calls they make only
`OMX_FreeBuffer` on port 1, and none while the marker is true. -/
theorem Decode.yield_ok (C : Component σ) (sched : Nat → List Decode.Event)
    (s s1 : Decode.MainState σ) (h : Decode.yield C sched s = .ok s1) :
    s1.pp_in_bufs = s.pp_in_bufs ∧ s1.pp_out_bufs = s.pp_out_bufs ∧
    s1.omx_data.port_disabled = s.omx_data.port_disabled ∧
    ∃ t, s1.w.trace = s.w.trace ++ t ∧
      (∀ c ∈ skeleton t, ∃ b r, c = Call.OMX_FreeBuffer 1 b r) ∧
      (s.omx_data.port_disabled = true → skeleton t = []) := by
  obtain ⟨a1, a2, _, a4, a5⟩ := Decode.deliverAll_ok C _ _ _ h
  exact ⟨a1, a2, a4, a5⟩

/-- A list of calls without control call, query or free has an empty skeleton. -/
theorem skeleton_eq_nil (t : List Call) (h1 : controlTrace t = [])
    (h2 : portQueries t = []) (h3 : freedBufs t = []) : skeleton t = [] := by
  induction t with
  | nil => rfl
  | cons a l ih =>
    have e1 : controlTrace (a :: l) = controlTrace [a] ++ controlTrace l :=
      controlTrace_append [a] l
    have e2 : portQueries (a :: l) = portQueries [a] ++ portQueries l :=
      portQueries_append [a] l
    have e3 : freedBufs (a :: l) = freedBufs [a] ++ freedBufs l := freedBufs_append [a] l
    have e4 : skeleton (a :: l) = skeleton [a] ++ skeleton l := skeleton_append [a] l
    rw [e1, List.append_eq_nil] at h1
    rw [e2, List.append_eq_nil] at h2
    rw [e3, List.append_eq_nil] at h3
    rw [e4, ih h1.2 h2.2 h3.2, List.append_nil]
    have g1 := h1.1
    have g2 := h2.1
    have g3 := h3.1
    cases a <;> first | rfl |
      (exfalso; simp [controlTrace, Call.isControl] at g1; done) |
      (exfalso; simp [portQueries] at g2; done) |
      (exfalso; simp [freedBufs, Call.freed] at g3; done)

/-- The statement `assert(OMX_ErrorNone == OMX_SendCommand(handle, cmd, param, NULL))`. -/
theorem Decode.stmt_command_ok (C : Component σ) (cmd : OMX_COMMANDTYPE) (param : OMX_U32)
    (s s1 : Decode.MainState σ)
    (h : Decode.stmt_assert_ok (fun w => OMX_SendCommand C w cmd param) s = .ok s1) :
    s1.pp_in_bufs = s.pp_in_bufs ∧ s1.pp_out_bufs = s.pp_out_bufs ∧
    s1.omx_data = s.omx_data ∧
    s1.w.trace = s.w.trace ++ [Call.OMX_SendCommand cmd param OMX_ErrorNone] := by
  simp only [Decode.stmt_assert_ok, OMX_SendCommand] at h
  split_ifs at h with h1
  simp only [Except.ok.injEq] at h
  subst h
  simp [World.log, ← h1]

/-- The statements `assert(OMX_Init() == OMX_ErrorNone)` and the like, for the
four calls of the OMX IL core. -/
theorem Decode.stmt_core_ok (C : Component σ) (call : World σ → OMX_ERRORTYPE × World σ)
    (hc : call = OMX_Init C ∨ call = OMX_GetHandle C ∨ call = OMX_FreeHandle C ∨
      call = OMX_Deinit C)
    (s s1 : Decode.MainState σ) (h : Decode.stmt_assert_ok call s = .ok s1) :
    s1.pp_in_bufs = s.pp_in_bufs ∧ s1.pp_out_bufs = s.pp_out_bufs ∧
    s1.omx_data = s.omx_data ∧
    ∃ t, s1.w.trace = s.w.trace ++ t ∧ controlTrace t = [] ∧ allocatedBufs t = [] ∧
      portQueries t = [] ∧ freedBufs t = [] := by
  simp only [Decode.stmt_assert_ok] at h
  split_ifs at h with h1
  simp only [Except.ok.injEq] at h
  subst h
  refine ⟨rfl, rfl, rfl, ?_⟩
  rcases hc with rfl | rfl | rfl | rfl
  · exact ⟨[_], rfl, rfl, rfl, rfl, rfl⟩
  · exact ⟨[_], rfl, rfl, rfl, rfl, rfl⟩
  · exact ⟨[_], rfl, rfl, rfl, rfl, rfl⟩
  · exact ⟨[_], rfl, rfl, rfl, rfl, rfl⟩

/-- The statement `sem_wait(&omx_data.g)`. -/
theorem Decode.stmt_sem_wait_ok (g : Gate) (s s1 : Decode.MainState σ)
    (h : Decode.stmt_sem_wait g s = .ok s1) :
    s1.pp_in_bufs = s.pp_in_bufs ∧ s1.pp_out_bufs = s.pp_out_bufs ∧
    s1.omx_data.port_disabled = s.omx_data.port_disabled ∧
    s1.w.trace = s.w.trace ++ [Call.sem_wait g] := by
  simp only [Decode.stmt_sem_wait] at h
  split_ifs at h
  simp only [Except.ok.injEq] at h
  subst h
  cases g <;> simp [World.log, Decode.omx_data_t.sem_down]

/-- The statement `omx_data.port_disabled = true`. -/
theorem Decode.stmt_store_ok (s s1 : Decode.MainState σ)
    (h : Decode.stmt_store_port_disabled s = .ok s1) :
    s1.pp_in_bufs = s.pp_in_bufs ∧ s1.pp_out_bufs = s.pp_out_bufs ∧
    s1.omx_data.port_disabled = true ∧
    s1.w.trace = s.w.trace ++ [Call.store_port_disabled true] := by
  simp only [Decode.stmt_store_port_disabled, Except.ok.injEq] at h
  subst h
  simp [World.log]

/-- A successful `omx_set_port_buf_cnt`: the query, then the set. -/
theorem Decode.omx_set_port_buf_cnt_true (C : Component σ) (w w1 : World σ)
    (port_idx n : OMX_U32) (u : OMX_PARAM_PORTDEFINITIONTYPE)
    (h : Decode.omx_set_port_buf_cnt C w port_idx n u = (.ok true, w1)) :
    w1.trace = w.trace ++
      [Call.OMX_GetParameter_PortDefinition (portQuery port_idx) OMX_ErrorNone
          (C.getPortDefinition w.comp (portQuery port_idx)).2.1,
        Call.OMX_SetParameter_PortDefinition
          { (C.getPortDefinition w.comp (portQuery port_idx)).2.1 with
              nBufferCountActual := n } OMX_ErrorNone] := by
  by_cases hn : n > 0
  · by_cases hq : (C.getPortDefinition w.comp (portQuery port_idx)).1 = OMX_ErrorNone
    · simp only [Decode.omx_set_port_buf_cnt, hn, not_true_eq_false, if_false,
        Decode.omx_get_port_ok C w port_idx u hq] at h
      split_ifs at h with h1 h2
      · simp at h
      · simp at h
      · simp only [Prod.mk.injEq, true_and] at h
        subst h
        have h3 : (C.setPortDefinition (C.getPortDefinition w.comp (portQuery port_idx)).2.2
            { (C.getPortDefinition w.comp (portQuery port_idx)).2.1 with
              nBufferCountActual := n }).1 = OMX_ErrorNone := by
          simpa [OMX_SetParameter_PortDefinition, eq_comm] using h2
        simp [OMX_SetParameter_PortDefinition, World.log, h3]
    · simp [Decode.omx_set_port_buf_cnt, hn, Decode.omx_get_port_fail C w port_idx u hq] at h
  · simp [Decode.omx_set_port_buf_cnt, hn] at h

/-- A successful `omx_set_out_port_fmt` of the decoder: the query, then the set. -/
theorem Decode.omx_set_out_port_fmt_true (C : Component σ) (w : World σ) (fmt : Nat)
    (u : OMX_PARAM_PORTDEFINITIONTYPE)
    (h : (Decode.omx_set_out_port_fmt C w fmt u).1 = true) :
    (Decode.omx_set_out_port_fmt C w fmt u).2.trace = w.trace ++
      [Call.OMX_GetParameter_PortDefinition (portQuery 1) OMX_ErrorNone
          (C.getPortDefinition w.comp (portQuery 1)).2.1,
        Call.OMX_SetParameter_PortDefinition
          { (C.getPortDefinition w.comp (portQuery 1)).2.1 with eColorFormat := fmt }
          OMX_ErrorNone] := by
  by_cases hq : (C.getPortDefinition w.comp (portQuery 1)).1 = OMX_ErrorNone
  · simp only [Decode.omx_set_out_port_fmt, Decode.omx_get_port_ok C w 1 u hq] at h ⊢
    split_ifs at h ⊢ with h1
    · have h3 : (C.setPortDefinition (C.getPortDefinition w.comp (portQuery 1)).2.2
          { (C.getPortDefinition w.comp (portQuery 1)).2.1 with eColorFormat := fmt }).1
            = OMX_ErrorNone := by
        simpa [OMX_SetParameter_PortDefinition, eq_comm] using h1
      simp [OMX_SetParameter_PortDefinition, World.log, h3]
  · simp [Decode.omx_set_out_port_fmt, Decode.omx_get_port_fail C w 1 u hq] at h

/-- The statement `assert(omx_set_port_buf_cnt(handle, port_idx, n))`. -/
theorem Decode.stmt_set_cnt_ok (C : Component σ) (port_idx n : OMX_U32)
    (s s1 : Decode.MainState σ)
    (h : Decode.stmt_assert_true
      (fun w => Decode.omx_set_port_buf_cnt C w port_idx n default) s = .ok s1) :
    s1.pp_in_bufs = s.pp_in_bufs ∧ s1.pp_out_bufs = s.pp_out_bufs ∧
    s1.omx_data = s.omx_data ∧
    ∃ t, s1.w.trace = s.w.trace ++ t ∧ controlTrace t = [] ∧ allocatedBufs t = [] ∧
      freedBufs t = [] := by
  simp only [Decode.stmt_assert_true] at h
  split at h
  · rename_i w1 heq
    simp only [Except.ok.injEq] at h
    subst h
    exact ⟨rfl, rfl, rfl, _, Decode.omx_set_port_buf_cnt_true C _ _ _ _ _ heq, rfl, rfl, rfl⟩
  · simp at h
  · simp at h

/-- The statement `assert(omx_set_out_port_fmt(handle, fmt))`. -/
theorem Decode.stmt_set_fmt_ok (C : Component σ) (fmt : Nat) (s s1 : Decode.MainState σ)
    (h : Decode.stmt_assert_true
      (fun w => ((.ok (Decode.omx_set_out_port_fmt C w fmt default).1),
        (Decode.omx_set_out_port_fmt C w fmt default).2)) s = .ok s1) :
    s1.pp_in_bufs = s.pp_in_bufs ∧ s1.pp_out_bufs = s.pp_out_bufs ∧
    s1.omx_data = s.omx_data ∧
    ∃ t, s1.w.trace = s.w.trace ++ t ∧ controlTrace t = [] ∧ allocatedBufs t = [] ∧
      freedBufs t = [] := by
  simp only [Decode.stmt_assert_true] at h
  split at h
  · rename_i w1 heq
    simp only [Except.ok.injEq] at h
    subst h
    simp only [Prod.mk.injEq, Except.ok.injEq] at heq
    obtain ⟨h1, rfl⟩ := heq
    exact ⟨rfl, rfl, rfl, _, Decode.omx_set_out_port_fmt_true C _ _ _ h1, rfl, rfl, rfl⟩
  · simp at h
  · simp at h

/-- The statement `omx_wait_state(handle, state)` makes `OMX_GetState` and
`usleep` calls only. -/
theorem Decode.omx_wait_state_ok (C : Component σ) (state : OMX_STATETYPE) :
    ∀ (fuel : Nat) (w w1 : World σ), Decode.omx_wait_state C fuel w state = some w1 →
      ∃ t, w1.trace = w.trace ++ t ∧ controlTrace t = [] ∧ allocatedBufs t = [] ∧
        portQueries t = [] ∧ freedBufs t = [] := by
  intro fuel
  induction fuel with
  | zero => intro w w1 h; simp [Decode.omx_wait_state] at h
  | succ n ih =>
    intro w w1 h
    simp only [Decode.omx_wait_state, OMX_GetState] at h
    split_ifs at h with h1 h2
    · simp only [Option.some.injEq] at h
      subst h
      exact ⟨[_], rfl, rfl, rfl, rfl, rfl⟩
    · simp only [Option.some.injEq] at h
      subst h
      exact ⟨[_], rfl, rfl, rfl, rfl, rfl⟩
    · obtain ⟨t, h3, h4, h5, h6, h7⟩ := ih _ _ h
      refine ⟨[Call.OMX_GetState (C.getState w.comp).1 (C.getState w.comp).2.1,
        Call.usleep 10000] ++ t, ?_, ?_, ?_, ?_, ?_⟩
      · rw [h3]; simp [World.log]
      · rw [controlTrace_append, h4]; rfl
      · rw [allocatedBufs_append, h5]; rfl
      · rw [portQueries_append, h6]; rfl
      · rw [freedBufs_append, h7]; rfl

theorem Decode.stmt_wait_state_ok (C : Component σ) (fuel : Nat) (state : OMX_STATETYPE)
    (s s1 : Decode.MainState σ) (h : Decode.stmt_wait_state C fuel state s = .ok s1) :
    s1.pp_in_bufs = s.pp_in_bufs ∧ s1.pp_out_bufs = s.pp_out_bufs ∧
    s1.omx_data = s.omx_data ∧
    ∃ t, s1.w.trace = s.w.trace ++ t ∧ controlTrace t = [] ∧ allocatedBufs t = [] ∧
      portQueries t = [] ∧ freedBufs t = [] := by
  simp only [Decode.stmt_wait_state] at h
  split at h
  · rename_i w1 heq
    simp only [Except.ok.injEq] at h
    subst h
    exact ⟨rfl, rfl, rfl, Decode.omx_wait_state_ok C state fuel _ _ heq⟩
  · simp at h

theorem filledBufs_append (a b : List Call) :
    filledBufs (a ++ b) = filledBufs a ++ filledBufs b := by
  simp [filledBufs, List.filterMap_append]

/-- The loop of `omx_fill_buffers`, when it does not fault: it makes
`OMX_FillThisBuffer` calls only; when it returns `true` it has read the slots
`index .. index + remaining - 1`, which all exist, and submitted them in order. -/
theorem Decode.fill_loop_ok (C : Component σ) (pp : List BufPtr) :
    ∀ (remaining index : Nat) (w w1 : World σ) (b : Bool),
      Decode.omx_fill_buffers_loop C pp remaining index w = (.ok b, w1) →
      ∃ t, w1.trace = w.trace ++ t ∧ controlTrace t = [] ∧ allocatedBufs t = [] ∧
        portQueries t = [] ∧ freedBufs t = [] ∧
        (b = true → remaining ≤ pp.length - index ∧
          filledBufs t = (pp.drop index).take remaining) := by
  intro remaining
  induction remaining with
  | zero =>
    intro index w w1 b h
    simp only [Decode.omx_fill_buffers_loop, Prod.mk.injEq, Except.ok.injEq] at h
    obtain ⟨_, rfl⟩ := h
    exact ⟨[], (List.append_nil _).symm, rfl, rfl, rfl, rfl, fun _ => ⟨Nat.zero_le _, by simp [filledBufs]⟩⟩
  | succ n ih =>
    intro index w w1 b h
    simp only [Decode.omx_fill_buffers_loop] at h
    cases hp : pp[index]? with
    | none => simp [hp] at h
    | some p =>
      have hlt : index < pp.length := by
        by_contra hc
        rw [List.getElem?_eq_none (by omega)] at hp
        simp at hp
      have hpe : pp[index] = p := by
        rw [List.getElem?_eq_getElem hlt] at hp
        exact Option.some.inj hp
      simp only [hp] at h
      split_ifs at h with h1 h2
      · simp at h
      · simp only [Prod.mk.injEq, Except.ok.injEq] at h
        obtain ⟨rfl, rfl⟩ := h
        exact ⟨[_], rfl, rfl, rfl, rfl, rfl, fun hb => by simp at hb⟩
      · obtain ⟨t, h3, h4, h5, h6, h7, h8⟩ := ih _ _ _ _ h
        refine ⟨Call.OMX_FillThisBuffer p ((Decode.resetHeader w p).heap p)
          (C.fillThisBuffer w.comp p ((Decode.resetHeader w p).heap p)).1 :: t,
          ?_, ?_, ?_, ?_, ?_, ?_⟩
        · rw [h3]; simp [OMX_FillThisBuffer, World.log, Decode.resetHeader]
        · simpa [controlTrace, Call.isControl] using h4
        · simpa [allocatedBufs, Call.allocated] using h5
        · simpa [portQueries] using h6
        · simpa [freedBufs, Call.freed] using h7
        · intro hb
          obtain ⟨h9, h10⟩ := h8 hb
          refine ⟨by omega, ?_⟩
          rw [List.drop_eq_getElem_cons hlt, List.take_succ_cons, hpe, ← h10]
          simp [filledBufs]

/-- The statement `assert(omx_fill_buffers(handle, pp_out_bufs, OUT_BUFFER_COUNT))`:
it succeeds only when the pool has `OUT_BUFFER_COUNT` slots at least, and then
submits the first `OUT_BUFFER_COUNT` of them. -/
theorem Decode.stmt_fill_out_ok (C : Component σ) (s s1 : Decode.MainState σ)
    (h : Decode.stmt_fill_out C s = .ok s1) :
    s1.pp_in_bufs = s.pp_in_bufs ∧ s1.pp_out_bufs = s.pp_out_bufs ∧
    s1.omx_data = s.omx_data ∧
    ∃ pool t, s.pp_out_bufs = some pool ∧ Decode.OUT_BUFFER_COUNT ≤ pool.length ∧
      s1.w.trace = s.w.trace ++ t ∧ controlTrace t = [] ∧ allocatedBufs t = [] ∧
      portQueries t = [] ∧ freedBufs t = [] ∧
      filledBufs t = pool.take Decode.OUT_BUFFER_COUNT := by
  simp only [Decode.stmt_fill_out, Decode.stmt_assert_true] at h
  split at h
  · rename_i w1 heq
    simp only [Except.ok.injEq] at h
    subst h
    refine ⟨rfl, rfl, rfl, ?_⟩
    simp only [Decode.omx_fill_buffers] at heq
    cases hpool : s.pp_out_bufs with
    | none => simp [hpool] at heq
    | some pool =>
      have hc : Decode.OUT_BUFFER_COUNT > 0 := by decide
      simp only [hpool, hc, not_true_eq_false, if_false] at heq
      obtain ⟨t, h3, h4, h5, h6, h7, h8⟩ := Decode.fill_loop_ok C pool _ _ _ _ _ heq
      obtain ⟨h9, h10⟩ := h8 rfl
      exact ⟨pool, t, rfl, by simpa using h9, h3, h4, h5, h6, h7, by simpa using h10⟩
  · simp at h
  · simp at h

/-- The feeding loop of `STEP 5` makes `OMX_EmptyThisBuffer` calls only. -/
theorem Decode.feed_loop_ok (C : Component σ) (pp : Option (List BufPtr)) :
    ∀ (remaining index : Nat) (w w1 : World σ) (a a1 : List (List Nat)),
      Decode.main_feed_loop C pp remaining index w a = (.ok a1, w1) →
      ∃ t, w1.trace = w.trace ++ t ∧ controlTrace t = [] ∧ allocatedBufs t = [] ∧
        portQueries t = [] ∧ freedBufs t = [] := by
  intro remaining
  induction remaining with
  | zero =>
    intro index w w1 a a1 h
    simp only [Decode.main_feed_loop, Prod.mk.injEq, Except.ok.injEq] at h
    obtain ⟨_, rfl⟩ := h
    exact ⟨[], (List.append_nil _).symm, rfl, rfl, rfl, rfl⟩
  | succ n ih =>
    intro index w w1 a a1 h
    simp only [Decode.main_feed_loop] at h
    cases pp with
    | none => simp at h
    | some arr =>
      simp only at h
      cases hp : arr[index]? with
      | none => simp [hp] at h
      | some p =>
        simp only [hp] at h
        split_ifs at h with h1 h2 h3
        · simp at h
        · simp only [Prod.mk.injEq, Except.ok.injEq] at h
          obtain ⟨_, rfl⟩ := h
          refine ⟨[], ?_, rfl, rfl, rfl, rfl⟩
          cases a <;> simp [Decode.setup_in_buf]
        · obtain ⟨t, h4, h5, h6, h7, h8⟩ := ih _ _ _ _ _ h
          refine ⟨Call.OMX_EmptyThisBuffer p ((Decode.setup_in_buf w a p).2.2.heap p)
            (C.emptyThisBuffer (Decode.setup_in_buf w a p).2.2.comp p
              ((Decode.setup_in_buf w a p).2.2.heap p)).1 :: t, ?_, ?_, ?_, ?_, ?_⟩
          · rw [h4]
            cases a <;> simp [OMX_EmptyThisBuffer, World.log, Decode.setup_in_buf]
          · simpa [controlTrace, Call.isControl] using h5
          · simpa [allocatedBufs, Call.allocated] using h6
          · simpa [portQueries] using h7
          · simpa [freedBufs, Call.freed] using h8
        · simp at h

theorem Decode.stmt_feed_ok (C : Component σ) (s s1 : Decode.MainState σ)
    (h : Decode.stmt_feed C s = .ok s1) :
    s1.pp_in_bufs = s.pp_in_bufs ∧ s1.pp_out_bufs = s.pp_out_bufs ∧
    s1.omx_data.port_disabled = s.omx_data.port_disabled ∧
    ∃ t, s1.w.trace = s.w.trace ++ t ∧ controlTrace t = [] ∧ allocatedBufs t = [] ∧
      portQueries t = [] ∧ freedBufs t = [] := by
  simp only [Decode.stmt_feed] at h
  split at h
  · rename_i a1 w1 heq
    simp only [Except.ok.injEq] at h
    subst h
    exact ⟨rfl, rfl, rfl, Decode.feed_loop_ok C _ _ _ _ _ _ _ heq⟩
  · simp at h

theorem controlTrace_map_alloc (port size : OMX_U32) (l : List BufPtr) :
    controlTrace (l.map (fun b => Call.OMX_AllocateBuffer port size OMX_ErrorNone b)) =
      l.map (fun b => Call.OMX_AllocateBuffer port size OMX_ErrorNone b) := by
  induction l with
  | nil => rfl
  | cons a l ih => simpa [controlTrace, Call.isControl] using ih

theorem allocatedBufs_map_alloc (port size : OMX_U32) (l : List BufPtr) :
    allocatedBufs (l.map (fun b => Call.OMX_AllocateBuffer port size OMX_ErrorNone b)) =
      l.map (fun b => (port, b)) := by
  induction l with
  | nil => rfl
  | cons a l ih => simpa [allocatedBufs, Call.allocated, OMX_ErrorNone] using ih

theorem portQueries_map_alloc (port size : OMX_U32) (l : List BufPtr) :
    portQueries (l.map (fun b => Call.OMX_AllocateBuffer port size OMX_ErrorNone b)) = [] := by
  induction l with
  | nil => rfl
  | cons a l ih => simpa [portQueries] using ih

/-- The statements `pp_out_bufs = omx_alloc_buffers(handle, 1);
assert(pp_out_bufs != NULL);`. -/
theorem Decode.stmt_alloc_out_ok (C : Component σ) (s s1 : Decode.MainState σ)
    (h : Decode.stmt_alloc_out C s = .ok s1) :
    s1.pp_in_bufs = s.pp_in_bufs ∧ s1.omx_data = s.omx_data ∧
    ∃ (pool : List BufPtr) (d : OMX_PARAM_PORTDEFINITIONTYPE),
      s1.pp_out_bufs = some pool ∧ pool.length = d.nBufferCountActual ∧
      s1.w.trace = s.w.trace ++
        [Call.OMX_GetParameter_PortDefinition (portQuery 1) OMX_ErrorNone d,
          Call.malloc d.nBufferCountActual]
        ++ pool.map (fun b => Call.OMX_AllocateBuffer 1 d.nBufferSize OMX_ErrorNone b) := by
  simp only [Decode.stmt_alloc_out] at h
  split at h
  · rename_i pool w1 heq
    simp only [Except.ok.injEq] at h
    subst h
    have h2 := (Decode.omx_alloc_buffers_spec C s.w 1 default).2.2 pool (by rw [heq])
    rw [heq] at h2
    exact ⟨rfl, rfl, pool, _, rfl, h2.2, h2.1⟩
  · simp at h
  · simp at h

/-- The statements `pp_in_bufs = omx_alloc_buffers(handle, 0);
assert(pp_in_bufs != NULL);`. -/
theorem Decode.stmt_alloc_in_ok (C : Component σ) (s s1 : Decode.MainState σ)
    (h : Decode.stmt_alloc_in C s = .ok s1) :
    s1.pp_out_bufs = s.pp_out_bufs ∧ s1.omx_data = s.omx_data ∧
    ∃ (pool : List BufPtr) (d : OMX_PARAM_PORTDEFINITIONTYPE),
      s1.pp_in_bufs = some pool ∧ pool.length = d.nBufferCountActual ∧
      s1.w.trace = s.w.trace ++
        [Call.OMX_GetParameter_PortDefinition (portQuery 0) OMX_ErrorNone d,
          Call.malloc d.nBufferCountActual]
        ++ pool.map (fun b => Call.OMX_AllocateBuffer 0 d.nBufferSize OMX_ErrorNone b) := by
  simp only [Decode.stmt_alloc_in] at h
  split at h
  · rename_i pool w1 heq
    simp only [Except.ok.injEq] at h
    subst h
    have h2 := (Decode.omx_alloc_buffers_spec C s.w 0 default).2.2 pool (by rw [heq])
    rw [heq] at h2
    exact ⟨rfl, rfl, pool, _, rfl, h2.2, h2.1⟩
  · simp at h
  · simp at h

/-- The loop of `omx_dealloc_port_bufs` returns only if every slot it reads
exists. -/
theorem Decode.dealloc_loop_ok_bound (C : Component σ) (port : OMX_U32) (pp : List BufPtr) :
    ∀ (count index : Nat) (w w1 : World σ),
      Decode.omx_dealloc_port_bufs_loop C port pp count index w = (.ok (), w1) →
      count ≤ pp.length - index := by
  intro count
  induction count with
  | zero => intro index w w1 _; exact Nat.zero_le _
  | succ n ih =>
    intro index w w1 h
    simp only [Decode.omx_dealloc_port_bufs_loop] at h
    cases hp : pp[index]? with
    | none => simp [hp] at h
    | some p =>
      have hlt : index < pp.length := by
        by_contra hc
        rw [List.getElem?_eq_none (by omega)] at hp
        simp at hp
      simp only [hp] at h
      have := ih _ _ _ h
      omega

/-- `omx_dealloc_all_port_bufs` when it returns: either the query failed and
nothing is freed (the array is not released either), or the query reported a
count that fits the array, the first `nBufferCountActual` slots are freed in
order on `port_idx` and the array is released. -/
theorem Decode.omx_dealloc_all_ok (C : Component σ) (w w1 : World σ) (port_idx : OMX_U32)
    (pool : List BufPtr) (u : OMX_PARAM_PORTDEFINITIONTYPE)
    (h : Decode.omx_dealloc_all_port_bufs C w port_idx (some pool) u = (.ok (), w1)) :
    ∃ (ret : OMX_ERRORTYPE) (d : OMX_PARAM_PORTDEFINITIONTYPE) (t : List Call),
      w1.trace = w.trace ++ [Call.OMX_GetParameter_PortDefinition (portQuery port_idx) ret d]
        ++ t ∧
      controlTrace t = [] ∧ allocatedBufs t = [] ∧ portQueries t = [] ∧
      ((ret ≠ OMX_ErrorNone ∧ t = []) ∨
       (ret = OMX_ErrorNone ∧ d.nBufferCountActual ≤ pool.length ∧
        freedBufs t = (pool.take d.nBufferCountActual).map (fun b => (port_idx, b)))) := by
  by_cases hq : (C.getPortDefinition w.comp (portQuery port_idx)).1 = OMX_ErrorNone
  · simp only [Decode.omx_dealloc_all_port_bufs, Decode.omx_get_port_ok C w port_idx u hq,
      Decode.omx_dealloc_port_bufs] at h
    split at h
    · rename_i w2 heq
      simp only [Prod.mk.injEq, true_and] at h
      subst h
      have hb := Decode.dealloc_loop_ok_bound C port_idx pool _ _ _ _ heq
      simp only [Nat.sub_zero] at hb
      obtain ⟨w3, tF, hd1, hd2, hd3, hd4, _, _⟩ :=
        Decode.dealloc_loop_spec C port_idx pool
          (C.getPortDefinition w.comp (portQuery port_idx)).2.1.nBufferCountActual 0 _
          (by simpa using hb)
      rw [heq] at hd1
      simp only [Prod.mk.injEq, true_and] at hd1
      subst hd1
      have hct : controlTrace tF = [] ∧ allocatedBufs tF = [] ∧ portQueries tF = [] := by
        have hall : ∀ c ∈ tF, ∃ p b r, c = Call.OMX_FreeBuffer p b r := by
          have hlen : tF.length = (freedBufs tF).length := by rw [hd4]; simp [hd3, hb]
          clear hd2 hd3 hd4 heq
          induction tF with
          | nil => intro c hc; simp at hc
          | cons a l ih =>
            have hle := freedBufs_length_le l
            cases a with
            | OMX_FreeBuffer port buf ret =>
              intro c hc
              rcases List.mem_cons.mp hc with rfl | hc
              · exact ⟨_, _, _, rfl⟩
              · exact ih (by simpa [freedBufs, Call.freed] using hlen) c hc
            | _ =>
              exfalso
              simp [freedBufs, Call.freed] at hlen hle
              omega
        clear hd2 hd3 hd4 heq
        induction tF with
        | nil => exact ⟨rfl, rfl, rfl⟩
        | cons a l ih =>
          obtain ⟨p, b, r, rfl⟩ := hall a (List.mem_cons_self _ _)
          obtain ⟨i1, i2, i3⟩ := ih (fun c hc => hall c (List.mem_cons_of_mem _ hc))
          exact ⟨by simpa [controlTrace, Call.isControl] using i1,
            by simpa [allocatedBufs, Call.allocated] using i2,
            by simpa [portQueries] using i3⟩
      refine ⟨OMX_ErrorNone, _, tF ++ [Call.free pool], ?_, ?_, ?_, ?_, Or.inr ⟨rfl, hb, ?_⟩⟩
      · simp [World.log, hd2]
      · rw [controlTrace_append, hct.1]; rfl
      · rw [allocatedBufs_append, hct.2.1]; rfl
      · rw [portQueries_append, hct.2.2]; rfl
      · rw [freedBufs_append, hd4]; simp [freedBufs, Call.freed]
    · simp at h
  · simp only [Decode.omx_dealloc_all_port_bufs, Decode.omx_get_port_fail C w port_idx u hq,
      Prod.mk.injEq, true_and] at h
    subst h
    exact ⟨(C.getPortDefinition w.comp (portQuery port_idx)).1,
      (C.getPortDefinition w.comp (portQuery port_idx)).2.1, [], by simp, rfl, rfl, rfl,
      Or.inl ⟨hq, rfl⟩⟩

/-! ### The skeleton of a run, statement by statement -/

theorem controlTrace_skeleton (t : List Call) : controlTrace (skeleton t) = controlTrace t := by
  induction t with
  | nil => rfl
  | cons a l ih =>
    have e1 : controlTrace (a :: l) = controlTrace [a] ++ controlTrace l :=
      controlTrace_append [a] l
    have e4 : skeleton (a :: l) = skeleton [a] ++ skeleton l := skeleton_append [a] l
    rw [e1, e4, controlTrace_append, ih]
    cases a <;> rfl

theorem portQueries_skeleton (t : List Call) : portQueries (skeleton t) = portQueries t := by
  induction t with
  | nil => rfl
  | cons a l ih =>
    have e1 : portQueries (a :: l) = portQueries [a] ++ portQueries l :=
      portQueries_append [a] l
    have e4 : skeleton (a :: l) = skeleton [a] ++ skeleton l := skeleton_append [a] l
    rw [e1, e4, portQueries_append, ih]
    cases a <;> rfl

theorem freedBufs_skeleton (t : List Call) : freedBufs (skeleton t) = freedBufs t := by
  induction t with
  | nil => rfl
  | cons a l ih =>
    have e1 : freedBufs (a :: l) = freedBufs [a] ++ freedBufs l := freedBufs_append [a] l
    have e4 : skeleton (a :: l) = skeleton [a] ++ skeleton l := skeleton_append [a] l
    rw [e1, e4, freedBufs_append, ih]
    cases a <;> rfl

theorem allocatedBufs_skeleton (t : List Call) :
    allocatedBufs (skeleton t) = allocatedBufs t := by
  induction t with
  | nil => rfl
  | cons a l ih =>
    have e1 : allocatedBufs (a :: l) = allocatedBufs [a] ++ allocatedBufs l :=
      allocatedBufs_append [a] l
    have e4 : skeleton (a :: l) = skeleton [a] ++ skeleton l := skeleton_append [a] l
    rw [e1, e4, allocatedBufs_append, ih]
    cases a <;> rfl

theorem skeleton_map_alloc (port size : OMX_U32) (l : List BufPtr) :
    skeleton (l.map (fun b => Call.OMX_AllocateBuffer port size OMX_ErrorNone b)) =
      l.map (fun b => Call.OMX_AllocateBuffer port size OMX_ErrorNone b) := by
  induction l with
  | nil => rfl
  | cons a l ih => simpa [skeleton, Call.isSkeleton] using ih

theorem Decode.sk_core (C : Component σ) (call : World σ → OMX_ERRORTYPE × World σ)
    (hc : call = OMX_Init C ∨ call = OMX_GetHandle C ∨ call = OMX_FreeHandle C ∨
      call = OMX_Deinit C)
    (s s1 : Decode.MainState σ) (h : Decode.stmt_assert_ok call s = .ok s1) :
    s1.pp_in_bufs = s.pp_in_bufs ∧ s1.pp_out_bufs = s.pp_out_bufs ∧
    s1.omx_data.port_disabled = s.omx_data.port_disabled ∧
    ∃ t, s1.w.trace = s.w.trace ++ t ∧ skeleton t = [] := by
  obtain ⟨h1, h2, h3, t, h4, h5, _, h7, h8⟩ := Decode.stmt_core_ok C call hc s s1 h
  exact ⟨h1, h2, by rw [h3], t, h4, skeleton_eq_nil t h5 h7 h8⟩

theorem Decode.sk_command (C : Component σ) (cmd : OMX_COMMANDTYPE) (param : OMX_U32)
    (s s1 : Decode.MainState σ)
    (h : Decode.stmt_assert_ok (fun w => OMX_SendCommand C w cmd param) s = .ok s1) :
    s1.pp_in_bufs = s.pp_in_bufs ∧ s1.pp_out_bufs = s.pp_out_bufs ∧
    s1.omx_data.port_disabled = s.omx_data.port_disabled ∧
    ∃ t, s1.w.trace = s.w.trace ++ t ∧
      skeleton t = [Call.OMX_SendCommand cmd param OMX_ErrorNone] := by
  obtain ⟨h1, h2, h3, h4⟩ := Decode.stmt_command_ok C cmd param s s1 h
  exact ⟨h1, h2, by rw [h3], _, h4, rfl⟩

theorem Decode.sk_set_cnt (C : Component σ) (port_idx n : OMX_U32)
    (s s1 : Decode.MainState σ)
    (h : Decode.stmt_assert_true
      (fun w => Decode.omx_set_port_buf_cnt C w port_idx n default) s = .ok s1) :
    s1.pp_in_bufs = s.pp_in_bufs ∧ s1.pp_out_bufs = s.pp_out_bufs ∧
    s1.omx_data.port_disabled = s.omx_data.port_disabled ∧
    ∃ d t, s1.w.trace = s.w.trace ++ t ∧
      skeleton t = [Call.OMX_GetParameter_PortDefinition (portQuery port_idx)
        OMX_ErrorNone d] := by
  simp only [Decode.stmt_assert_true] at h
  split at h
  · rename_i w1 heq
    simp only [Except.ok.injEq] at h
    subst h
    exact ⟨rfl, rfl, rfl, _, _, Decode.omx_set_port_buf_cnt_true C _ _ _ _ _ heq, rfl⟩
  · simp at h
  · simp at h

theorem Decode.sk_set_fmt (C : Component σ) (fmt : Nat) (s s1 : Decode.MainState σ)
    (h : Decode.stmt_assert_true
      (fun w => ((.ok (Decode.omx_set_out_port_fmt C w fmt default).1),
        (Decode.omx_set_out_port_fmt C w fmt default).2)) s = .ok s1) :
    s1.pp_in_bufs = s.pp_in_bufs ∧ s1.pp_out_bufs = s.pp_out_bufs ∧
    s1.omx_data.port_disabled = s.omx_data.port_disabled ∧
    ∃ d t, s1.w.trace = s.w.trace ++ t ∧
      skeleton t = [Call.OMX_GetParameter_PortDefinition (portQuery 1) OMX_ErrorNone d] := by
  simp only [Decode.stmt_assert_true] at h
  split at h
  · rename_i w1 heq
    simp only [Except.ok.injEq] at h
    subst h
    simp only [Prod.mk.injEq, Except.ok.injEq] at heq
    obtain ⟨h1, rfl⟩ := heq
    exact ⟨rfl, rfl, rfl, _, _, Decode.omx_set_out_port_fmt_true C _ _ _ h1, rfl⟩
  · simp at h
  · simp at h

theorem Decode.sk_wait_state (C : Component σ) (fuel : Nat) (state : OMX_STATETYPE)
    (s s1 : Decode.MainState σ) (h : Decode.stmt_wait_state C fuel state s = .ok s1) :
    s1.pp_in_bufs = s.pp_in_bufs ∧ s1.pp_out_bufs = s.pp_out_bufs ∧
    s1.omx_data.port_disabled = s.omx_data.port_disabled ∧
    ∃ t, s1.w.trace = s.w.trace ++ t ∧ skeleton t = [] := by
  obtain ⟨h1, h2, h3, t, h4, h5, _, h7, h8⟩ := Decode.stmt_wait_state_ok C fuel state s s1 h
  exact ⟨h1, h2, by rw [h3], t, h4, skeleton_eq_nil t h5 h7 h8⟩

theorem Decode.sk_fill_out (C : Component σ) (s s1 : Decode.MainState σ)
    (h : Decode.stmt_fill_out C s = .ok s1) :
    s1.pp_in_bufs = s.pp_in_bufs ∧ s1.pp_out_bufs = s.pp_out_bufs ∧
    s1.omx_data.port_disabled = s.omx_data.port_disabled ∧
    ∃ t, s1.w.trace = s.w.trace ++ t ∧ skeleton t = [] := by
  obtain ⟨h1, h2, h3, _, t, _, _, h4, h5, _, h7, h8, _⟩ := Decode.stmt_fill_out_ok C s s1 h
  exact ⟨h1, h2, by rw [h3], t, h4, skeleton_eq_nil t h5 h7 h8⟩

theorem Decode.sk_feed (C : Component σ) (s s1 : Decode.MainState σ)
    (h : Decode.stmt_feed C s = .ok s1) :
    s1.pp_in_bufs = s.pp_in_bufs ∧ s1.pp_out_bufs = s.pp_out_bufs ∧
    s1.omx_data.port_disabled = s.omx_data.port_disabled ∧
    ∃ t, s1.w.trace = s.w.trace ++ t ∧ skeleton t = [] := by
  obtain ⟨h1, h2, h3, t, h4, h5, _, h7, h8⟩ := Decode.stmt_feed_ok C s s1 h
  exact ⟨h1, h2, h3, t, h4, skeleton_eq_nil t h5 h7 h8⟩

theorem Decode.sk_sem_wait (g : Gate) (s s1 : Decode.MainState σ)
    (h : Decode.stmt_sem_wait g s = .ok s1) :
    s1.pp_in_bufs = s.pp_in_bufs ∧ s1.pp_out_bufs = s.pp_out_bufs ∧
    s1.omx_data.port_disabled = s.omx_data.port_disabled ∧
    ∃ t, s1.w.trace = s.w.trace ++ t ∧ skeleton t = [Call.sem_wait g] := by
  obtain ⟨h1, h2, h3, h4⟩ := Decode.stmt_sem_wait_ok g s s1 h
  exact ⟨h1, h2, h3, _, h4, rfl⟩

theorem Decode.sk_alloc_out (C : Component σ) (s s1 : Decode.MainState σ)
    (h : Decode.stmt_alloc_out C s = .ok s1) :
    s1.pp_in_bufs = s.pp_in_bufs ∧
    s1.omx_data.port_disabled = s.omx_data.port_disabled ∧
    ∃ (pool : List BufPtr) (d : OMX_PARAM_PORTDEFINITIONTYPE) (t : List Call),
      s1.pp_out_bufs = some pool ∧ pool.length = d.nBufferCountActual ∧
      s1.w.trace = s.w.trace ++ t ∧
      skeleton t = [Call.OMX_GetParameter_PortDefinition (portQuery 1) OMX_ErrorNone d]
        ++ pool.map (fun b => Call.OMX_AllocateBuffer 1 d.nBufferSize OMX_ErrorNone b) := by
  obtain ⟨h1, h2, pool, d, h3, h4, h5⟩ := Decode.stmt_alloc_out_ok C s s1 h
  refine ⟨h1, by rw [h2], pool, d, _, h3, h4, by rw [h5, List.append_assoc], ?_⟩
  rw [skeleton_append, skeleton_map_alloc]
  rfl

theorem Decode.sk_alloc_in (C : Component σ) (s s1 : Decode.MainState σ)
    (h : Decode.stmt_alloc_in C s = .ok s1) :
    s1.pp_out_bufs = s.pp_out_bufs ∧
    s1.omx_data.port_disabled = s.omx_data.port_disabled ∧
    ∃ (pool : List BufPtr) (d : OMX_PARAM_PORTDEFINITIONTYPE) (t : List Call),
      s1.pp_in_bufs = some pool ∧ pool.length = d.nBufferCountActual ∧
      s1.w.trace = s.w.trace ++ t ∧
      skeleton t = [Call.OMX_GetParameter_PortDefinition (portQuery 0) OMX_ErrorNone d]
        ++ pool.map (fun b => Call.OMX_AllocateBuffer 0 d.nBufferSize OMX_ErrorNone b) := by
  obtain ⟨h1, h2, pool, d, h3, h4, h5⟩ := Decode.stmt_alloc_in_ok C s s1 h
  refine ⟨h1, by rw [h2], pool, d, _, h3, h4, by rw [h5, List.append_assoc], ?_⟩
  rw [skeleton_append, skeleton_map_alloc]
  rfl

/-- The frees of `omx_dealloc_all_port_bufs` as they appear in the skeleton:
`tF` holds `OMX_FreeBuffer` calls only; it is empty when the query failed and
otherwise frees the first `nBufferCountActual` slots of the pool, which exist. -/
theorem Decode.sk_dealloc_all (C : Component σ) (w w1 : World σ) (port_idx : OMX_U32)
    (pool : List BufPtr) (u : OMX_PARAM_PORTDEFINITIONTYPE)
    (h : Decode.omx_dealloc_all_port_bufs C w port_idx (some pool) u = (.ok (), w1)) :
    ∃ (ret : OMX_ERRORTYPE) (d : OMX_PARAM_PORTDEFINITIONTYPE) (t tF : List Call),
      w1.trace = w.trace ++ t ∧
      skeleton t = [Call.OMX_GetParameter_PortDefinition (portQuery port_idx) ret d] ++ tF ∧
      controlTrace tF = [] ∧ allocatedBufs tF = [] ∧ portQueries tF = [] ∧
      ((ret ≠ OMX_ErrorNone ∧ freedBufs tF = []) ∨
       (ret = OMX_ErrorNone ∧ d.nBufferCountActual ≤ pool.length ∧
        freedBufs tF = (pool.take d.nBufferCountActual).map (fun b => (port_idx, b)))) := by
  obtain ⟨ret, d, t, h1, h2, h3, h4, h5⟩ := Decode.omx_dealloc_all_ok C w w1 port_idx pool u h
  refine ⟨ret, d, _, skeleton t, by rw [h1, List.append_assoc], ?_, ?_, ?_, ?_, ?_⟩
  · rw [skeleton_append]; rfl
  · rw [controlTrace_skeleton, h2]
  · rw [allocatedBufs_skeleton, h3]
  · rw [portQueries_skeleton, h4]
  · rw [freedBufs_skeleton]
    rcases h5 with ⟨h6, rfl⟩ | h6
    · exact Or.inl ⟨h6, rfl⟩
    · exact Or.inr h6

theorem onlyFrees_projections (l : List Call)
    (h : ∀ c ∈ l, ∃ b r, c = Call.OMX_FreeBuffer 1 b r) :
    controlTrace l = [] ∧ portQueries l = [] ∧ allocatedBufs l = [] ∧
      ∀ x ∈ freedBufs l, x.1 = 1 := by
  induction l with
  | nil => exact ⟨rfl, rfl, rfl, by simp [freedBufs]⟩
  | cons a l ih =>
    obtain ⟨b, r, rfl⟩ := h a (List.mem_cons_self _ _)
    obtain ⟨i1, i2, i3, i4⟩ := ih (fun c hc => h c (List.mem_cons_of_mem _ hc))
    refine ⟨by simpa [controlTrace, Call.isControl] using i1,
      by simpa [portQueries] using i2, by simpa [allocatedBufs, Call.allocated] using i3, ?_⟩
    intro x hx
    simp only [freedBufs, List.filterMap_cons, Call.freed, List.mem_cons] at hx
    rcases hx with rfl | hx
    · rfl
    · exact i4 x hx

/-- The shape of every successful run of the decoder's `main`: the trace splits
at the one store to the port-disabled marker.  Before it (`T1`) the control
calls are the Idle command, the allocation of the two pools, the Executing
command, the wait for the settings-changed gate, the port-disable command and
the wait for its confirmation; the five port-definition queries succeed; every
buffer freed is freed on port 1 (by the filled callback).  After it (`T2`) the
skeleton is the port-enable command, the query and allocation of the new
output pool, the waits for the port-enabled and stream-ended gates, the Idle and
Loaded commands, and the two teardown queries, each followed by the frees
`tO` / `tI` it allows. -/
theorem Decode.main_skeleton (C : Component σ) (sched : Nat → List Decode.Event)
    (fuel : Nat) (w : World σ) (samples : List (List Nat)) (sf : Decode.MainState σ)
    (h : Decode.main C sched fuel w samples = .ok sf) :
    ∃ (poolIn poolOut pool2 : List BufPtr)
      (dIn dOut dOut2 dTO dTI qa qb qc : OMX_PARAM_PORTDEFINITIONTYPE)
      (rTO rTI : OMX_ERRORTYPE) (T1 T2 tO tI : List Call),
      sf.pp_in_bufs = some poolIn ∧ sf.pp_out_bufs = some pool2 ∧
      sf.omx_data.port_disabled = true ∧
      poolIn.length = dIn.nBufferCountActual ∧ poolOut.length = dOut.nBufferCountActual ∧
      pool2.length = dOut2.nBufferCountActual ∧
      sf.w.trace = w.trace ++ T1 ++ [Call.store_port_disabled true] ++ T2 ∧
      controlTrace T1 =
        [Call.OMX_SendCommand OMX_CommandStateSet OMX_StateIdle OMX_ErrorNone]
        ++ poolIn.map (fun b => Call.OMX_AllocateBuffer 0 dIn.nBufferSize OMX_ErrorNone b)
        ++ poolOut.map (fun b => Call.OMX_AllocateBuffer 1 dOut.nBufferSize OMX_ErrorNone b)
        ++ [Call.OMX_SendCommand OMX_CommandStateSet OMX_StateExecuting OMX_ErrorNone,
            Call.sem_wait Gate.smp_port_settings_changed,
            Call.OMX_SendCommand OMX_CommandPortDisable 1 OMX_ErrorNone,
            Call.sem_wait Gate.smp_port_disabled] ∧
      portQueries T1 =
        [(0, OMX_ErrorNone, qa.nBufferCountActual), (1, OMX_ErrorNone, qb.nBufferCountActual),
         (1, OMX_ErrorNone, qc.nBufferCountActual), (0, OMX_ErrorNone, dIn.nBufferCountActual),
         (1, OMX_ErrorNone, dOut.nBufferCountActual)] ∧
      (∀ x ∈ freedBufs T1, x.1 = 1) ∧
      skeleton T2 =
        [Call.OMX_SendCommand OMX_CommandPortEnable 1 OMX_ErrorNone,
         Call.OMX_GetParameter_PortDefinition (portQuery 1) OMX_ErrorNone dOut2]
        ++ pool2.map (fun b => Call.OMX_AllocateBuffer 1 dOut2.nBufferSize OMX_ErrorNone b)
        ++ [Call.sem_wait Gate.smp_port_enabled, Call.sem_wait Gate.smp_eos,
            Call.OMX_SendCommand OMX_CommandStateSet OMX_StateIdle OMX_ErrorNone,
            Call.OMX_SendCommand OMX_CommandStateSet OMX_StateLoaded OMX_ErrorNone,
            Call.OMX_GetParameter_PortDefinition (portQuery 1) rTO dTO]
        ++ tO ++ [Call.OMX_GetParameter_PortDefinition (portQuery 0) rTI dTI] ++ tI ∧
      (controlTrace tO = [] ∧ allocatedBufs tO = [] ∧ portQueries tO = [] ∧
        ((rTO ≠ OMX_ErrorNone ∧ freedBufs tO = []) ∨
         (rTO = OMX_ErrorNone ∧ dTO.nBufferCountActual ≤ pool2.length ∧
          freedBufs tO = (pool2.take dTO.nBufferCountActual).map (fun b => (1, b))))) ∧
      (controlTrace tI = [] ∧ allocatedBufs tI = [] ∧ portQueries tI = [] ∧
        ((rTI ≠ OMX_ErrorNone ∧ freedBufs tI = []) ∨
         (rTI = OMX_ErrorNone ∧ dTI.nBufferCountActual ≤ poolIn.length ∧
          freedBufs tI = (poolIn.take dTI.nBufferCountActual).map (fun b => (0, b))))) := by
  simp only [Decode.main, Decode.main_statements, Decode.main_step3, Decode.main_step4,
    Decode.main_step5, Decode.main_step6, Decode.main_step7, Decode.main_step8,
    Decode.main_step9, List.cons_append, List.nil_append] at h
  obtain ⟨y0, s1, hy0, hs0, h⟩ := (Decode.run_cons_ok C sched _ _ _ _).mp h
  obtain ⟨yi0, yo0, ym0, c0, yt0, yf0, yn0⟩ := Decode.yield_ok C sched _ _ hy0
  obtain ⟨pi0, po0, pm0, t0, ht0, hk0⟩ := Decode.sk_core C (OMX_Init C) (Or.inl rfl) _ _ hs0
  obtain ⟨y1, s2, hy1, hs1, h⟩ := (Decode.run_cons_ok C sched _ _ _ _).mp h
  obtain ⟨yi1, yo1, ym1, c1, yt1, yf1, yn1⟩ := Decode.yield_ok C sched _ _ hy1
  obtain ⟨pi1, po1, pm1, t1, ht1, hk1⟩ := Decode.sk_core C (OMX_GetHandle C) (Or.inr (Or.inl rfl)) _ _ hs1
  obtain ⟨y2, s3, hy2, hs2, h⟩ := (Decode.run_cons_ok C sched _ _ _ _).mp h
  obtain ⟨yi2, yo2, ym2, c2, yt2, yf2, yn2⟩ := Decode.yield_ok C sched _ _ hy2
  obtain ⟨pi2, po2, pm2, q2, t2, ht2, hk2⟩ := Decode.sk_set_cnt C 0 Decode.IN_BUFFER_COUNT _ _ hs2
  obtain ⟨y3, s4, hy3, hs3, h⟩ := (Decode.run_cons_ok C sched _ _ _ _).mp h
  obtain ⟨yi3, yo3, ym3, c3, yt3, yf3, yn3⟩ := Decode.yield_ok C sched _ _ hy3
  obtain ⟨pi3, po3, pm3, q3, t3, ht3, hk3⟩ := Decode.sk_set_fmt C OMX_COLOR_FormatYUV420SemiPlanar _ _ hs3
  obtain ⟨y4, s5, hy4, hs4, h⟩ := (Decode.run_cons_ok C sched _ _ _ _).mp h
  obtain ⟨yi4, yo4, ym4, c4, yt4, yf4, yn4⟩ := Decode.yield_ok C sched _ _ hy4
  obtain ⟨pi4, po4, pm4, q4, t4, ht4, hk4⟩ := Decode.sk_set_cnt C 1 Decode.OUT_BUFFER_COUNT _ _ hs4
  obtain ⟨y5, s6, hy5, hs5, h⟩ := (Decode.run_cons_ok C sched _ _ _ _).mp h
  obtain ⟨yi5, yo5, ym5, c5, yt5, yf5, yn5⟩ := Decode.yield_ok C sched _ _ hy5
  obtain ⟨pi5, po5, pm5, t5, ht5, hk5⟩ := Decode.sk_command C OMX_CommandStateSet OMX_StateIdle _ _ hs5
  obtain ⟨y6, s7, hy6, hs6, h⟩ := (Decode.run_cons_ok C sched _ _ _ _).mp h
  obtain ⟨yi6, yo6, ym6, c6, yt6, yf6, yn6⟩ := Decode.yield_ok C sched _ _ hy6
  obtain ⟨po6, pm6, poolIn, dIn, t6, pi6, hlenIn, ht6, hk6⟩ := Decode.sk_alloc_in C _ _ hs6
  obtain ⟨y7, s8, hy7, hs7, h⟩ := (Decode.run_cons_ok C sched _ _ _ _).mp h
  obtain ⟨yi7, yo7, ym7, c7, yt7, yf7, yn7⟩ := Decode.yield_ok C sched _ _ hy7
  obtain ⟨pi7, pm7, poolOut, dOut, t7, po7, hlenpoolOut, ht7, hk7⟩ := Decode.sk_alloc_out C _ _ hs7
  obtain ⟨y8, s9, hy8, hs8, h⟩ := (Decode.run_cons_ok C sched _ _ _ _).mp h
  obtain ⟨yi8, yo8, ym8, c8, yt8, yf8, yn8⟩ := Decode.yield_ok C sched _ _ hy8
  obtain ⟨pi8, po8, pm8, t8, ht8, hk8⟩ := Decode.sk_wait_state C fuel OMX_StateIdle _ _ hs8
  obtain ⟨y9, s10, hy9, hs9, h⟩ := (Decode.run_cons_ok C sched _ _ _ _).mp h
  obtain ⟨yi9, yo9, ym9, c9, yt9, yf9, yn9⟩ := Decode.yield_ok C sched _ _ hy9
  obtain ⟨pi9, po9, pm9, t9, ht9, hk9⟩ := Decode.sk_command C OMX_CommandStateSet OMX_StateExecuting _ _ hs9
  obtain ⟨y10, s11, hy10, hs10, h⟩ := (Decode.run_cons_ok C sched _ _ _ _).mp h
  obtain ⟨yi10, yo10, ym10, c10, yt10, yf10, yn10⟩ := Decode.yield_ok C sched _ _ hy10
  obtain ⟨pi10, po10, pm10, t10, ht10, hk10⟩ := Decode.sk_wait_state C fuel OMX_StateExecuting _ _ hs10
  obtain ⟨y11, s12, hy11, hs11, h⟩ := (Decode.run_cons_ok C sched _ _ _ _).mp h
  obtain ⟨yi11, yo11, ym11, c11, yt11, yf11, yn11⟩ := Decode.yield_ok C sched _ _ hy11
  obtain ⟨pi11, po11, pm11, t11, ht11, hk11⟩ := Decode.sk_fill_out C _ _ hs11
  obtain ⟨y12, s13, hy12, hs12, h⟩ := (Decode.run_cons_ok C sched _ _ _ _).mp h
  obtain ⟨yi12, yo12, ym12, c12, yt12, yf12, yn12⟩ := Decode.yield_ok C sched _ _ hy12
  obtain ⟨pi12, po12, pm12, t12, ht12, hk12⟩ := Decode.sk_feed C _ _ hs12
  obtain ⟨y13, s14, hy13, hs13, h⟩ := (Decode.run_cons_ok C sched _ _ _ _).mp h
  obtain ⟨yi13, yo13, ym13, c13, yt13, yf13, yn13⟩ := Decode.yield_ok C sched _ _ hy13
  obtain ⟨pi13, po13, pm13, t13, ht13, hk13⟩ := Decode.sk_sem_wait Gate.smp_port_settings_changed _ _ hs13
  obtain ⟨y14, s15, hy14, hs14, h⟩ := (Decode.run_cons_ok C sched _ _ _ _).mp h
  obtain ⟨yi14, yo14, ym14, c14, yt14, yf14, yn14⟩ := Decode.yield_ok C sched _ _ hy14
  obtain ⟨pi14, po14, pm14, t14, ht14, hk14⟩ := Decode.sk_command C OMX_CommandPortDisable 1 _ _ hs14
  obtain ⟨y15, s16, hy15, hs15, h⟩ := (Decode.run_cons_ok C sched _ _ _ _).mp h
  obtain ⟨yi15, yo15, ym15, c15, yt15, yf15, yn15⟩ := Decode.yield_ok C sched _ _ hy15
  obtain ⟨pi15, po15, pm15, t15, ht15, hk15⟩ := Decode.sk_sem_wait Gate.smp_port_disabled _ _ hs15
  obtain ⟨y16, s17, hy16, hs16, h⟩ := (Decode.run_cons_ok C sched _ _ _ _).mp h
  obtain ⟨yi16, yo16, ym16, c16, yt16, yf16, yn16⟩ := Decode.yield_ok C sched _ _ hy16
  obtain ⟨pi16, po16, pm16, ht16⟩ := Decode.stmt_store_ok _ _ hs16
  have m17 : s17.omx_data.port_disabled = true := pm16
  obtain ⟨y17, s18, hy17, hs17, h⟩ := (Decode.run_cons_ok C sched _ _ _ _).mp h
  obtain ⟨yi17, yo17, ym17, c17, yt17, yf17, yn17⟩ := Decode.yield_ok C sched _ _ hy17
  obtain ⟨pi17, po17, pm17, t17, ht17, hk17⟩ := Decode.sk_command C OMX_CommandPortEnable 1 _ _ hs17
  have kc17 : skeleton c17 = [] := yn17 m17
  have m18 : s18.omx_data.port_disabled = true := by rw [pm17, ym17]; exact m17
  obtain ⟨y18, s19, hy18, hs18, h⟩ := (Decode.run_cons_ok C sched _ _ _ _).mp h
  obtain ⟨yi18, yo18, ym18, c18, yt18, yf18, yn18⟩ := Decode.yield_ok C sched _ _ hy18
  obtain ⟨pi18, pm18, pool2, dOut2, t18, po18, hlenpool2, ht18, hk18⟩ := Decode.sk_alloc_out C _ _ hs18
  have kc18 : skeleton c18 = [] := yn18 m18
  have m19 : s19.omx_data.port_disabled = true := by rw [pm18, ym18]; exact m18
  obtain ⟨y19, s20, hy19, hs19, h⟩ := (Decode.run_cons_ok C sched _ _ _ _).mp h
  obtain ⟨yi19, yo19, ym19, c19, yt19, yf19, yn19⟩ := Decode.yield_ok C sched _ _ hy19
  obtain ⟨pi19, po19, pm19, t19, ht19, hk19⟩ := Decode.sk_sem_wait Gate.smp_port_enabled _ _ hs19
  have kc19 : skeleton c19 = [] := yn19 m19
  have m20 : s20.omx_data.port_disabled = true := by rw [pm19, ym19]; exact m19
  obtain ⟨y20, s21, hy20, hs20, h⟩ := (Decode.run_cons_ok C sched _ _ _ _).mp h
  obtain ⟨yi20, yo20, ym20, c20, yt20, yf20, yn20⟩ := Decode.yield_ok C sched _ _ hy20
  obtain ⟨pi20, po20, pm20, t20, ht20, hk20⟩ := Decode.sk_fill_out C _ _ hs20
  have kc20 : skeleton c20 = [] := yn20 m20
  have m21 : s21.omx_data.port_disabled = true := by rw [pm20, ym20]; exact m20
  obtain ⟨y21, s22, hy21, hs21, h⟩ := (Decode.run_cons_ok C sched _ _ _ _).mp h
  obtain ⟨yi21, yo21, ym21, c21, yt21, yf21, yn21⟩ := Decode.yield_ok C sched _ _ hy21
  obtain ⟨pi21, po21, pm21, t21, ht21, hk21⟩ := Decode.sk_sem_wait Gate.smp_eos _ _ hs21
  have kc21 : skeleton c21 = [] := yn21 m21
  have m22 : s22.omx_data.port_disabled = true := by rw [pm21, ym21]; exact m21
  obtain ⟨y22, s23, hy22, hs22, h⟩ := (Decode.run_cons_ok C sched _ _ _ _).mp h
  obtain ⟨yi22, yo22, ym22, c22, yt22, yf22, yn22⟩ := Decode.yield_ok C sched _ _ hy22
  obtain ⟨pi22, po22, pm22, t22, ht22, hk22⟩ := Decode.sk_command C OMX_CommandStateSet OMX_StateIdle _ _ hs22
  have kc22 : skeleton c22 = [] := yn22 m22
  have m23 : s23.omx_data.port_disabled = true := by rw [pm22, ym22]; exact m22
  obtain ⟨y23, s24, hy23, hs23, h⟩ := (Decode.run_cons_ok C sched _ _ _ _).mp h
  obtain ⟨yi23, yo23, ym23, c23, yt23, yf23, yn23⟩ := Decode.yield_ok C sched _ _ hy23
  obtain ⟨pi23, po23, pm23, t23, ht23, hk23⟩ := Decode.sk_wait_state C fuel OMX_StateIdle _ _ hs23
  have kc23 : skeleton c23 = [] := yn23 m23
  have m24 : s24.omx_data.port_disabled = true := by rw [pm23, ym23]; exact m23
  obtain ⟨y24, s25, hy24, hs24, h⟩ := (Decode.run_cons_ok C sched _ _ _ _).mp h
  obtain ⟨yi24, yo24, ym24, c24, yt24, yf24, yn24⟩ := Decode.yield_ok C sched _ _ hy24
  obtain ⟨pi24, po24, pm24, t24, ht24, hk24⟩ := Decode.sk_command C OMX_CommandStateSet OMX_StateLoaded _ _ hs24
  have kc24 : skeleton c24 = [] := yn24 m24
  have m25 : s25.omx_data.port_disabled = true := by rw [pm24, ym24]; exact m24
  obtain ⟨y25, s26, hy25, hs25, h⟩ := (Decode.run_cons_ok C sched _ _ _ _).mp h
  obtain ⟨yi25, yo25, ym25, c25, yt25, yf25, yn25⟩ := Decode.yield_ok C sched _ _ hy25
  have hpo25 : y25.pp_out_bufs = some pool2 := by
    rw [yo25, po24, yo24, po23, yo23, po22, yo22, po21, yo21, po20, yo20, po19, yo19]; exact po18
  have hd25 : ∃ w1, Decode.omx_dealloc_all_port_bufs C y25.w 1 (some pool2) default = (.ok (), w1) ∧
      s26 = { y25 with w := w1 } := by
    simp only [Decode.stmt_dealloc_all_out, hpo25] at hs25
    split at hs25
    · rename_i u w1 heq
      simp only [Except.ok.injEq] at hs25
      exact ⟨w1, heq, by rw [← hs25, hpo25]⟩
    · simp at hs25
  obtain ⟨wd25, hdd25, hse25⟩ := hd25
  obtain ⟨rTO, dTO, t25, tO, ht25, hk25, hOc, hOa, hOq, hOf⟩ := Decode.sk_dealloc_all C _ _ 1 pool2 default hdd25
  have pi25 : s26.pp_in_bufs = y25.pp_in_bufs := by rw [hse25]
  have po25 : s26.pp_out_bufs = y25.pp_out_bufs := by rw [hse25]
  have pm25 : s26.omx_data.port_disabled = y25.omx_data.port_disabled := by rw [hse25]
  replace ht25 : s26.w.trace = y25.w.trace ++ t25 := by rw [hse25]; exact ht25
  have kc25 : skeleton c25 = [] := yn25 m25
  have m26 : s26.omx_data.port_disabled = true := by rw [pm25, ym25]; exact m25
  obtain ⟨y26, s27, hy26, hs26, h⟩ := (Decode.run_cons_ok C sched _ _ _ _).mp h
  obtain ⟨yi26, yo26, ym26, c26, yt26, yf26, yn26⟩ := Decode.yield_ok C sched _ _ hy26
  have hpi26 : y26.pp_in_bufs = some poolIn := by
    rw [yi26, pi25, yi25, pi24, yi24, pi23, yi23, pi22, yi22, pi21, yi21, pi20, yi20, pi19, yi19, pi18, yi18, pi17, yi17, pi16, yi16, pi15, yi15, pi14, yi14, pi13, yi13, pi12, yi12, pi11, yi11, pi10, yi10, pi9, yi9, pi8, yi8, pi7, yi7]; exact pi6
  have hd26 : ∃ w1, Decode.omx_dealloc_all_port_bufs C y26.w 0 (some poolIn) default = (.ok (), w1) ∧
      s27 = { y26 with w := w1 } := by
    simp only [Decode.stmt_dealloc_all_in, hpi26] at hs26
    split at hs26
    · rename_i u w1 heq
      simp only [Except.ok.injEq] at hs26
      exact ⟨w1, heq, by rw [← hs26, hpi26]⟩
    · simp at hs26
  obtain ⟨wd26, hdd26, hse26⟩ := hd26
  obtain ⟨rTI, dTI, t26, tI, ht26, hk26, hIc, hIa, hIq, hIf⟩ := Decode.sk_dealloc_all C _ _ 0 poolIn default hdd26
  have pi26 : s27.pp_in_bufs = y26.pp_in_bufs := by rw [hse26]
  have po26 : s27.pp_out_bufs = y26.pp_out_bufs := by rw [hse26]
  have pm26 : s27.omx_data.port_disabled = y26.omx_data.port_disabled := by rw [hse26]
  replace ht26 : s27.w.trace = y26.w.trace ++ t26 := by rw [hse26]; exact ht26
  have kc26 : skeleton c26 = [] := yn26 m26
  have m27 : s27.omx_data.port_disabled = true := by rw [pm26, ym26]; exact m26
  obtain ⟨y27, s28, hy27, hs27, h⟩ := (Decode.run_cons_ok C sched _ _ _ _).mp h
  obtain ⟨yi27, yo27, ym27, c27, yt27, yf27, yn27⟩ := Decode.yield_ok C sched _ _ hy27
  obtain ⟨pi27, po27, pm27, t27, ht27, hk27⟩ := Decode.sk_wait_state C fuel OMX_StateLoaded _ _ hs27
  have kc27 : skeleton c27 = [] := yn27 m27
  have m28 : s28.omx_data.port_disabled = true := by rw [pm27, ym27]; exact m27
  obtain ⟨y28, s29, hy28, hs28, h⟩ := (Decode.run_cons_ok C sched _ _ _ _).mp h
  obtain ⟨yi28, yo28, ym28, c28, yt28, yf28, yn28⟩ := Decode.yield_ok C sched _ _ hy28
  obtain ⟨pi28, po28, pm28, t28, ht28, hk28⟩ := Decode.sk_core C (OMX_FreeHandle C) (Or.inr (Or.inr (Or.inl rfl))) _ _ hs28
  have kc28 : skeleton c28 = [] := yn28 m28
  have m29 : s29.omx_data.port_disabled = true := by rw [pm28, ym28]; exact m28
  obtain ⟨y29, s30, hy29, hs29, h⟩ := (Decode.run_cons_ok C sched _ _ _ _).mp h
  obtain ⟨yi29, yo29, ym29, c29, yt29, yf29, yn29⟩ := Decode.yield_ok C sched _ _ hy29
  obtain ⟨pi29, po29, pm29, t29, ht29, hk29⟩ := Decode.sk_core C (OMX_Deinit C) (Or.inr (Or.inr (Or.inr rfl))) _ _ hs29
  have kc29 : skeleton c29 = [] := yn29 m29
  have m30 : s30.omx_data.port_disabled = true := by rw [pm29, ym29]; exact m29
  simp only [Decode.run, Except.ok.injEq] at h
  subst h
  have hfin_in : s30.pp_in_bufs = some poolIn := by
    rw [pi29, yi29, pi28, yi28, pi27, yi27, pi26, yi26, pi25, yi25, pi24, yi24, pi23, yi23, pi22, yi22, pi21, yi21, pi20, yi20, pi19, yi19, pi18, yi18, pi17, yi17, pi16, yi16, pi15, yi15, pi14, yi14, pi13, yi13, pi12, yi12, pi11, yi11, pi10, yi10, pi9, yi9, pi8, yi8, pi7, yi7]; exact pi6
  have hfin_out : s30.pp_out_bufs = some pool2 := by
    rw [po29, yo29, po28, yo28, po27, yo27, po26, yo26, po25, yo25, po24, yo24, po23, yo23, po22, yo22, po21, yo21, po20, yo20, po19, yo19]; exact po18
  have htr1 : y16.w.trace = (Decode.main_init w samples).w.trace ++ ((c0 ++ t0) ++ (c1 ++ t1) ++ (c2 ++ t2) ++ (c3 ++ t3) ++ (c4 ++ t4) ++ (c5 ++ t5) ++ (c6 ++ t6) ++ (c7 ++ t7) ++ (c8 ++ t8) ++ (c9 ++ t9) ++ (c10 ++ t10) ++ (c11 ++ t11) ++ (c12 ++ t12) ++ (c13 ++ t13) ++ (c14 ++ t14) ++ (c15 ++ t15) ++ c16) := by
    rw [yt16, ht15, yt15, ht14, yt14, ht13, yt13, ht12, yt12, ht11, yt11, ht10, yt10, ht9, yt9, ht8, yt8, ht7, yt7, ht6, yt6, ht5, yt5, ht4, yt4, ht3, yt3, ht2, yt2, ht1, yt1, ht0, yt0]
    simp only [List.append_assoc]
  have htr2 : s30.w.trace = s17.w.trace ++ ((c17 ++ t17) ++ (c18 ++ t18) ++ (c19 ++ t19) ++ (c20 ++ t20) ++ (c21 ++ t21) ++ (c22 ++ t22) ++ (c23 ++ t23) ++ (c24 ++ t24) ++ (c25 ++ t25) ++ (c26 ++ t26) ++ (c27 ++ t27) ++ (c28 ++ t28) ++ (c29 ++ t29)) := by
    rw [ht29, yt29, ht28, yt28, ht27, yt27, ht26, yt26, ht25, yt25, ht24, yt24, ht23, yt23, ht22, yt22, ht21, yt21, ht20, yt20, ht19, yt19, ht18, yt18, ht17, yt17]
    simp only [List.append_assoc]
  obtain ⟨oc0, oq0, oa0, of0⟩ := onlyFrees_projections _ yf0
  obtain ⟨oc1, oq1, oa1, of1⟩ := onlyFrees_projections _ yf1
  obtain ⟨oc2, oq2, oa2, of2⟩ := onlyFrees_projections _ yf2
  obtain ⟨oc3, oq3, oa3, of3⟩ := onlyFrees_projections _ yf3
  obtain ⟨oc4, oq4, oa4, of4⟩ := onlyFrees_projections _ yf4
  obtain ⟨oc5, oq5, oa5, of5⟩ := onlyFrees_projections _ yf5
  obtain ⟨oc6, oq6, oa6, of6⟩ := onlyFrees_projections _ yf6
  obtain ⟨oc7, oq7, oa7, of7⟩ := onlyFrees_projections _ yf7
  obtain ⟨oc8, oq8, oa8, of8⟩ := onlyFrees_projections _ yf8
  obtain ⟨oc9, oq9, oa9, of9⟩ := onlyFrees_projections _ yf9
  obtain ⟨oc10, oq10, oa10, of10⟩ := onlyFrees_projections _ yf10
  obtain ⟨oc11, oq11, oa11, of11⟩ := onlyFrees_projections _ yf11
  obtain ⟨oc12, oq12, oa12, of12⟩ := onlyFrees_projections _ yf12
  obtain ⟨oc13, oq13, oa13, of13⟩ := onlyFrees_projections _ yf13
  obtain ⟨oc14, oq14, oa14, of14⟩ := onlyFrees_projections _ yf14
  obtain ⟨oc15, oq15, oa15, of15⟩ := onlyFrees_projections _ yf15
  obtain ⟨oc16, oq16, oa16, of16⟩ := onlyFrees_projections _ yf16
  refine ⟨poolIn, poolOut, pool2, dIn, dOut, dOut2, dTO, dTI, q2, q3, q4, rTO, rTI,
    (c0 ++ t0) ++ (c1 ++ t1) ++ (c2 ++ t2) ++ (c3 ++ t3) ++ (c4 ++ t4) ++ (c5 ++ t5) ++ (c6 ++ t6) ++ (c7 ++ t7) ++ (c8 ++ t8) ++ (c9 ++ t9) ++ (c10 ++ t10) ++ (c11 ++ t11) ++ (c12 ++ t12) ++ (c13 ++ t13) ++ (c14 ++ t14) ++ (c15 ++ t15) ++ c16,
    (c17 ++ t17) ++ (c18 ++ t18) ++ (c19 ++ t19) ++ (c20 ++ t20) ++ (c21 ++ t21) ++ (c22 ++ t22) ++ (c23 ++ t23) ++ (c24 ++ t24) ++ (c25 ++ t25) ++ (c26 ++ t26) ++ (c27 ++ t27) ++ (c28 ++ t28) ++ (c29 ++ t29), tO, tI,
    hfin_in, hfin_out, m30, hlenIn, hlenpoolOut, hlenpool2, ?_, ?_, ?_, ?_, ?_,
    ⟨hOc, hOa, hOq, hOf⟩, ⟨hIc, hIa, hIq, hIf⟩⟩
  · rw [htr2, ht16, htr1]
    rfl
  · rw [← controlTrace_skeleton]
    simp only [skeleton_append, hk0, hk1, hk2, hk3, hk4, hk5, hk6, hk7, hk8, hk9, hk10, hk11, hk12, hk13, hk14, hk15, controlTrace_append, oc0, oc1, oc2, oc3, oc4, oc5, oc6, oc7, oc8, oc9, oc10, oc11, oc12, oc13, oc14, oc15, oc16,
      controlTrace_map_alloc, List.nil_append, List.append_nil]
    simp [controlTrace, Call.isControl]
  · rw [← portQueries_skeleton]
    simp only [skeleton_append, hk0, hk1, hk2, hk3, hk4, hk5, hk6, hk7, hk8, hk9, hk10, hk11, hk12, hk13, hk14, hk15, portQueries_append, oq0, oq1, oq2, oq3, oq4, oq5, oq6, oq7, oq8, oq9, oq10, oq11, oq12, oq13, oq14, oq15, oq16,
      portQueries_map_alloc, List.nil_append, List.append_nil]
    simp [portQueries, portQuery]
  · rw [← freedBufs_skeleton]
    simp only [skeleton_append, hk0, hk1, hk2, hk3, hk4, hk5, hk6, hk7, hk8, hk9, hk10, hk11, hk12, hk13, hk14, hk15, freedBufs_append, freedBufs_map_alloc,
      List.forall_mem_append]
    repeat' constructor
    all_goals first | assumption | (intro x hx; simp [freedBufs, Call.freed] at hx)
  · simp only [skeleton_append, hk17, hk18, hk19, hk20, hk21, hk22, hk23, hk24, hk25, hk26, hk27, hk28, hk29, kc17, kc18, kc19, kc20, kc21, kc22, kc23, kc24, kc25, kc26, kc27, kc28, kc29, List.nil_append, List.append_nil,
      List.append_assoc, List.cons_append]

theorem Decode.returned_eq_ok (r : Except (Fault × Decode.MainState σ) (Decode.MainState σ))
    (h : Decode.returned r = true) : r = .ok (Decode.finalState r) := by
  cases r with
  | ok s => rfl
  | error x => simp [Decode.returned] at h

/-- A store to the marker, a command or a wait occurs in a trace exactly when
it occurs among its control calls. -/
theorem mem_controlTrace (c : Call) (t : List Call) (hc : c.isControl = true) :
    c ∈ controlTrace t ↔ c ∈ t := by
  simp [controlTrace, hc]

/-- C7 (counterexample): in the simulated decoder run, which returns 0, the
port-disable command is issued at position 29 of the trace and the marker is
set at position 35, after it (and after the wait for the confirmation, at
position 34). -/
theorem decoder_marker_set_after_disable_command :
    Decode.returned (Decode.main (sim ⟨20, 20, 3⟩) simSched 5 simWorld simSamples) = true ∧
    (Decode.finalState
      (Decode.main (sim ⟨20, 20, 3⟩) simSched 5 simWorld simSamples)).w.trace.indexOf
        (Call.OMX_SendCommand OMX_CommandPortDisable 1 OMX_ErrorNone) = 29 ∧
    (Decode.finalState
      (Decode.main (sim ⟨20, 20, 3⟩) simSched 5 simWorld simSamples)).w.trace.indexOf
        (Call.sem_wait Gate.smp_port_disabled) = 34 ∧
    (Decode.finalState
      (Decode.main (sim ⟨20, 20, 3⟩) simSched 5 simWorld simSamples)).w.trace.indexOf
        (Call.store_port_disabled true) = 35 := by
  decide

/-- C7 (amended): in every run of the decoder's `main` that returns, the trace
holds exactly one store to the port-disabled marker, `port_disabled = true`;
among the control calls it comes right after the port-disable command for port 1
and the wait for its confirmation, and right before the port-enable command. -/
theorem decoder_marker_set_after_disable_confirmation (C : Component σ)
    (sched : Nat → List Decode.Event) (fuel : Nat) (w : World σ) (samples : List (List Nat))
    (h : Decode.returned (Decode.main C sched fuel w samples) = true) :
    ∃ (T1 T2 pre post : List Call),
      (Decode.finalState (Decode.main C sched fuel w samples)).w.trace =
        w.trace ++ T1 ++ [Call.store_port_disabled true] ++ T2 ∧
      controlTrace T1 = pre ++
        [Call.OMX_SendCommand OMX_CommandPortDisable 1 OMX_ErrorNone,
         Call.sem_wait Gate.smp_port_disabled] ∧
      controlTrace T2 = Call.OMX_SendCommand OMX_CommandPortEnable 1 OMX_ErrorNone :: post ∧
      (∀ v, Call.store_port_disabled v ∉ T1 ++ T2) ∧
      (∀ r, Call.OMX_SendCommand OMX_CommandPortDisable 1 r ∉ pre ++ T2) := by
  obtain ⟨poolIn, poolOut, pool2, dIn, dOut, dOut2, dTO, dTI, qa, qb, qc, rTO, rTI, T1, T2,
    tO, tI, _, _, _, _, _, _, htr, hc1, _, _, hs2, ⟨hOc, _, _, _⟩, ⟨hIc, _, _, _⟩⟩ :=
    Decode.main_skeleton C sched fuel w samples _ (Decode.returned_eq_ok _ h)
  have hc2 : controlTrace T2 =
      Call.OMX_SendCommand OMX_CommandPortEnable 1 OMX_ErrorNone ::
        (pool2.map (fun b => Call.OMX_AllocateBuffer 1 dOut2.nBufferSize OMX_ErrorNone b)
        ++ [Call.sem_wait Gate.smp_port_enabled, Call.sem_wait Gate.smp_eos,
            Call.OMX_SendCommand OMX_CommandStateSet OMX_StateIdle OMX_ErrorNone,
            Call.OMX_SendCommand OMX_CommandStateSet OMX_StateLoaded OMX_ErrorNone]) := by
    rw [← controlTrace_skeleton, hs2]
    simp only [controlTrace_append, controlTrace_map_alloc, hOc, hIc]
    simp [controlTrace, Call.isControl]
  refine ⟨T1, T2,
    [Call.OMX_SendCommand OMX_CommandStateSet OMX_StateIdle OMX_ErrorNone]
      ++ poolIn.map (fun b => Call.OMX_AllocateBuffer 0 dIn.nBufferSize OMX_ErrorNone b)
      ++ poolOut.map (fun b => Call.OMX_AllocateBuffer 1 dOut.nBufferSize OMX_ErrorNone b)
      ++ [Call.OMX_SendCommand OMX_CommandStateSet OMX_StateExecuting OMX_ErrorNone,
          Call.sem_wait Gate.smp_port_settings_changed], _, htr, ?_, hc2, ?_, ?_⟩
  · rw [hc1]
    simp only [List.append_assoc, List.cons_append, List.nil_append]
  · intro v hv
    rw [List.mem_append, ← mem_controlTrace (Call.store_port_disabled v) T1 rfl,
      ← mem_controlTrace (Call.store_port_disabled v) T2 rfl, hc1, hc2] at hv
    simp at hv
  · intro r hr
    rw [List.mem_append,
      ← mem_controlTrace (Call.OMX_SendCommand OMX_CommandPortDisable 1 r) T2 rfl, hc2] at hr
    simp [OMX_CommandPortDisable, OMX_CommandStateSet, OMX_CommandPortEnable] at hr

/-- C7 (amended, witness): the simulated decoder run returns. -/
theorem decoder_marker_set_after_disable_confirmation_witness :
    Decode.returned (Decode.main (sim ⟨20, 20, 3⟩) simSched 5 simWorld simSamples) = true ∧
    ∃ (T1 T2 pre post : List Call),
      (Decode.finalState
        (Decode.main (sim ⟨20, 20, 3⟩) simSched 5 simWorld simSamples)).w.trace =
        simWorld.trace ++ T1 ++ [Call.store_port_disabled true] ++ T2 ∧
      controlTrace T1 = pre ++
        [Call.OMX_SendCommand OMX_CommandPortDisable 1 OMX_ErrorNone,
         Call.sem_wait Gate.smp_port_disabled] ∧
      controlTrace T2 = Call.OMX_SendCommand OMX_CommandPortEnable 1 OMX_ErrorNone :: post ∧
      (∀ v, Call.store_port_disabled v ∉ T1 ++ T2) ∧
      (∀ r, Call.OMX_SendCommand OMX_CommandPortDisable 1 r ∉ pre ++ T2) :=
  ⟨by decide,
    decoder_marker_set_after_disable_confirmation (sim ⟨20, 20, 3⟩) simSched 5 simWorld
      simSamples (by decide)⟩

/-- C9 (counterexample): in the simulated decoder run, which returns 0, the
port-enable command is issued at position 36 of the trace, before the first
buffer of the new output pool `[6, 7, 8]` is allocated (position 39). -/
theorem decoder_enable_command_before_reallocation :
    Decode.returned (Decode.main (sim ⟨20, 20, 3⟩) simSched 5 simWorld simSamples) = true ∧
    (Decode.finalState
      (Decode.main (sim ⟨20, 20, 3⟩) simSched 5 simWorld simSamples)).pp_out_bufs
        = some [6, 7, 8] ∧
    (Decode.finalState
      (Decode.main (sim ⟨20, 20, 3⟩) simSched 5 simWorld simSamples)).w.trace.indexOf
        (Call.OMX_SendCommand OMX_CommandPortEnable 1 OMX_ErrorNone) = 36 ∧
    (Decode.finalState
      (Decode.main (sim ⟨20, 20, 3⟩) simSched 5 simWorld simSamples)).w.trace.indexOf
        (Call.OMX_AllocateBuffer 1 8192 OMX_ErrorNone 6) = 39 := by
  decide

/-- C9 (amended): in every run of the decoder's `main` that returns, the
control calls made are, in this order: the Idle command, the allocation of the
input pool and of the first output pool, the Executing command, the wait for the
settings-changed gate, the port-disable command, the wait for the disable
confirmation, the store to the marker, the port-enable command, the allocation
of the new output pool (the one `pp_out_bufs` holds at the end), the wait for
the enable confirmation, the wait for the stream-ended gate, and the Idle and
Loaded commands.  In particular the output pool is reallocated after the
port-enable command and before the wait for its confirmation. -/
theorem decoder_reconfiguration_order (C : Component σ)
    (sched : Nat → List Decode.Event) (fuel : Nat) (w : World σ) (samples : List (List Nat))
    (h : Decode.returned (Decode.main C sched fuel w samples) = true) :
    ∃ (poolIn poolOut pool2 : List BufPtr) (sizeIn sizeOut size2 : OMX_U32),
      (Decode.finalState (Decode.main C sched fuel w samples)).pp_in_bufs = some poolIn ∧
      (Decode.finalState (Decode.main C sched fuel w samples)).pp_out_bufs = some pool2 ∧
      controlTrace ((Decode.finalState
          (Decode.main C sched fuel w samples)).w.trace.drop w.trace.length) =
        [Call.OMX_SendCommand OMX_CommandStateSet OMX_StateIdle OMX_ErrorNone]
        ++ poolIn.map (fun b => Call.OMX_AllocateBuffer 0 sizeIn OMX_ErrorNone b)
        ++ poolOut.map (fun b => Call.OMX_AllocateBuffer 1 sizeOut OMX_ErrorNone b)
        ++ [Call.OMX_SendCommand OMX_CommandStateSet OMX_StateExecuting OMX_ErrorNone,
            Call.sem_wait Gate.smp_port_settings_changed,
            Call.OMX_SendCommand OMX_CommandPortDisable 1 OMX_ErrorNone,
            Call.sem_wait Gate.smp_port_disabled,
            Call.store_port_disabled true,
            Call.OMX_SendCommand OMX_CommandPortEnable 1 OMX_ErrorNone]
        ++ pool2.map (fun b => Call.OMX_AllocateBuffer 1 size2 OMX_ErrorNone b)
        ++ [Call.sem_wait Gate.smp_port_enabled, Call.sem_wait Gate.smp_eos,
            Call.OMX_SendCommand OMX_CommandStateSet OMX_StateIdle OMX_ErrorNone,
            Call.OMX_SendCommand OMX_CommandStateSet OMX_StateLoaded OMX_ErrorNone] := by
  obtain ⟨poolIn, poolOut, pool2, dIn, dOut, dOut2, dTO, dTI, qa, qb, qc, rTO, rTI, T1, T2,
    tO, tI, hin, hout, _, _, _, _, htr, hc1, _, _, hs2, ⟨hOc, _, _, _⟩, ⟨hIc, _, _, _⟩⟩ :=
    Decode.main_skeleton C sched fuel w samples _ (Decode.returned_eq_ok _ h)
  have hc2 : controlTrace T2 =
      Call.OMX_SendCommand OMX_CommandPortEnable 1 OMX_ErrorNone ::
        (pool2.map (fun b => Call.OMX_AllocateBuffer 1 dOut2.nBufferSize OMX_ErrorNone b)
        ++ [Call.sem_wait Gate.smp_port_enabled, Call.sem_wait Gate.smp_eos,
            Call.OMX_SendCommand OMX_CommandStateSet OMX_StateIdle OMX_ErrorNone,
            Call.OMX_SendCommand OMX_CommandStateSet OMX_StateLoaded OMX_ErrorNone]) := by
    rw [← controlTrace_skeleton, hs2]
    simp only [controlTrace_append, controlTrace_map_alloc, hOc, hIc]
    simp [controlTrace, Call.isControl]
  refine ⟨poolIn, poolOut, pool2, dIn.nBufferSize, dOut.nBufferSize, dOut2.nBufferSize,
    hin, hout, ?_⟩
  rw [htr]
  simp only [List.append_assoc, List.drop_left, controlTrace_append, hc1, hc2]
  simp [controlTrace, Call.isControl]

/-- C9 (amended, witness): the simulated decoder run returns. -/
theorem decoder_reconfiguration_order_witness :
    Decode.returned (Decode.main (sim ⟨20, 20, 3⟩) simSched 5 simWorld simSamples) = true ∧
    ∃ (poolIn poolOut pool2 : List BufPtr) (sizeIn sizeOut size2 : OMX_U32),
      (Decode.finalState
        (Decode.main (sim ⟨20, 20, 3⟩) simSched 5 simWorld simSamples)).pp_in_bufs
          = some poolIn ∧
      (Decode.finalState
        (Decode.main (sim ⟨20, 20, 3⟩) simSched 5 simWorld simSamples)).pp_out_bufs
          = some pool2 ∧
      controlTrace ((Decode.finalState
          (Decode.main (sim ⟨20, 20, 3⟩) simSched 5 simWorld simSamples)).w.trace.drop
            simWorld.trace.length) =
        [Call.OMX_SendCommand OMX_CommandStateSet OMX_StateIdle OMX_ErrorNone]
        ++ poolIn.map (fun b => Call.OMX_AllocateBuffer 0 sizeIn OMX_ErrorNone b)
        ++ poolOut.map (fun b => Call.OMX_AllocateBuffer 1 sizeOut OMX_ErrorNone b)
        ++ [Call.OMX_SendCommand OMX_CommandStateSet OMX_StateExecuting OMX_ErrorNone,
            Call.sem_wait Gate.smp_port_settings_changed,
            Call.OMX_SendCommand OMX_CommandPortDisable 1 OMX_ErrorNone,
            Call.sem_wait Gate.smp_port_disabled,
            Call.store_port_disabled true,
            Call.OMX_SendCommand OMX_CommandPortEnable 1 OMX_ErrorNone]
        ++ pool2.map (fun b => Call.OMX_AllocateBuffer 1 size2 OMX_ErrorNone b)
        ++ [Call.sem_wait Gate.smp_port_enabled, Call.sem_wait Gate.smp_eos,
            Call.OMX_SendCommand OMX_CommandStateSet OMX_StateIdle OMX_ErrorNone,
            Call.OMX_SendCommand OMX_CommandStateSet OMX_StateLoaded OMX_ErrorNone] :=
  ⟨by decide,
    decoder_reconfiguration_order (sim ⟨20, 20, 3⟩) simSched 5 simWorld simSamples
      (by decide)⟩

/-! ### The port-disabled marker along a run -/

theorem Decode.stmt_assert_ok_data (call : World σ → OMX_ERRORTYPE × World σ)
    (s s1 : Decode.MainState σ) (h : Decode.stmt_assert_ok call s = .ok s1) :
    s1.omx_data = s.omx_data := by
  simp only [Decode.stmt_assert_ok] at h
  split_ifs at h
  simp only [Except.ok.injEq] at h
  subst h
  rfl

theorem Decode.stmt_assert_true_data (call : World σ → Outcome σ Bool)
    (s s1 : Decode.MainState σ) (h : Decode.stmt_assert_true call s = .ok s1) :
    s1.omx_data = s.omx_data := by
  simp only [Decode.stmt_assert_true] at h
  split at h
  · simp only [Except.ok.injEq] at h
    subst h
    rfl
  · simp at h
  · simp at h

theorem Decode.stmt_dealloc_all_out_data (C : Component σ)
    (s s1 : Decode.MainState σ) (h : Decode.stmt_dealloc_all_out C s = .ok s1) :
    s1.omx_data = s.omx_data := by
  simp only [Decode.stmt_dealloc_all_out] at h
  split at h
  · simp only [Except.ok.injEq] at h
    subst h
    rfl
  · simp at h

theorem Decode.stmt_dealloc_all_in_data (C : Component σ)
    (s s1 : Decode.MainState σ) (h : Decode.stmt_dealloc_all_in C s = .ok s1) :
    s1.omx_data = s.omx_data := by
  simp only [Decode.stmt_dealloc_all_in] at h
  split at h
  · simp only [Except.ok.injEq] at h
    subst h
    rfl
  · simp at h

/-- No statement of `main` clears the port-disabled marker. -/
theorem Decode.main_stmt_marker (C : Component σ) (fuel : Nat) (st : Decode.Step σ)
    (hst : st ∈ Decode.main_statements C fuel) (s s1 : Decode.MainState σ)
    (h : st s = .ok s1) (hm : s.omx_data.port_disabled = true) :
    s1.omx_data.port_disabled = true := by
  simp only [Decode.main_statements, Decode.main_step3, Decode.main_step4,
    Decode.main_step5, Decode.main_step6, Decode.main_step7, Decode.main_step8,
    Decode.main_step9, List.cons_append, List.nil_append, List.mem_cons,
    List.mem_singleton, List.mem_nil_iff, or_false] at hst
  rcases hst with rfl | rfl | rfl | rfl | rfl | rfl | rfl | rfl | rfl | rfl | rfl | rfl |
    rfl | rfl | rfl | rfl | rfl | rfl | rfl | rfl | rfl | rfl | rfl | rfl | rfl | rfl | rfl |
    rfl | rfl | rfl
  all_goals
    first
      | exact (congrArg Decode.omx_data_t.port_disabled
          (Decode.stmt_assert_ok_data _ _ _ h)).trans hm
      | exact (congrArg Decode.omx_data_t.port_disabled
          (Decode.stmt_assert_true_data _ _ _ h)).trans hm
      | exact (congrArg Decode.omx_data_t.port_disabled
          (Decode.stmt_alloc_in_ok C _ _ h).2.1).trans hm
      | exact (congrArg Decode.omx_data_t.port_disabled
          (Decode.stmt_alloc_out_ok C _ _ h).2.1).trans hm
      | exact (congrArg Decode.omx_data_t.port_disabled
          (Decode.stmt_wait_state_ok C _ _ _ _ h).2.2.1).trans hm
      | exact (congrArg Decode.omx_data_t.port_disabled
          (Decode.stmt_fill_out_ok C _ _ h).2.2.1).trans hm
      | exact ((Decode.stmt_feed_ok C _ _ h).2.2.1).trans hm
      | exact ((Decode.stmt_sem_wait_ok _ _ _ h).2.2.1).trans hm
      | exact (Decode.stmt_store_ok _ _ h).2.2.1
      | exact (congrArg Decode.omx_data_t.port_disabled
          (Decode.stmt_dealloc_all_out_data C _ _ h)).trans hm
      | exact (congrArg Decode.omx_data_t.port_disabled
          (Decode.stmt_dealloc_all_in_data C _ _ h)).trans hm

/-- Once the port-disabled marker is true it stays true along a run of
statements of `main`, callbacks included. -/
theorem Decode.run_marker (C : Component σ) (sched : Nat → List Decode.Event) (fuel : Nat) :
    ∀ (stmts : List (Decode.Step σ)) (s s1 : Decode.MainState σ),
      (∀ st ∈ stmts, st ∈ Decode.main_statements C fuel) →
      s.omx_data.port_disabled = true → Decode.run C sched stmts s = .ok s1 →
      s1.omx_data.port_disabled = true := by
  intro stmts
  induction stmts with
  | nil =>
    intro s s1 _ hm h
    simp only [Decode.run, Except.ok.injEq] at h
    subst h
    exact hm
  | cons a l ih =>
    intro s s1 hsub hm h
    obtain ⟨y, s2, hy, hs, hr⟩ := (Decode.run_cons_ok C sched a l s s1).mp h
    have hy2 := (Decode.yield_ok C sched s y hy).2.2.1
    exact ih s2 s1 (fun st hst => hsub st (List.mem_cons_of_mem _ hst))
      (Decode.main_stmt_marker C fuel a (hsub a (List.mem_cons_self _ _)) y s2 hs
        (hy2.trans hm)) hr

/-- C8 (counterexample): in the simulated decoder run, which returns 0, the
port-disabled marker is true when `STEP 8` begins (the enable confirmation has
been waited for and the fresh output buffers are about to be submitted) and is
still true at the end of the run. -/
theorem decoder_marker_not_cleared :
    Decode.returned (Decode.main (sim ⟨20, 20, 3⟩) simSched 5 simWorld simSamples) = true ∧
    (Decode.finalState (Decode.run (sim ⟨20, 20, 3⟩) simSched
      (Decode.main_until_step8 (sim ⟨20, 20, 3⟩) 5)
      (Decode.main_init simWorld simSamples))).omx_data.port_disabled = true ∧
    (Decode.finalState
      (Decode.main (sim ⟨20, 20, 3⟩) simSched 5 simWorld simSamples)).omx_data.port_disabled
        = true := by
  decide

/-- C8 (amended): in every run of the decoder's `main` that returns, the
port-disabled marker is true in the state `s7` in which `STEP 8` begins (after
the wait for the enable confirmation, before the fresh output buffers are
submitted); it is true after every further statement of `STEP 8` and `STEP 9`,
final state included; and no callback changes the marker. -/
theorem decoder_marker_true_from_reconfiguration (C : Component σ)
    (sched : Nat → List Decode.Event) (fuel : Nat) (w : World σ) (samples : List (List Nat))
    (h : Decode.returned (Decode.main C sched fuel w samples) = true) :
    ∃ s7 : Decode.MainState σ,
      Decode.run C sched (Decode.main_until_step8 C fuel) (Decode.main_init w samples)
        = .ok s7 ∧
      Decode.run C sched (Decode.main_step8 C ++ Decode.main_step9 C fuel) s7
        = Decode.main C sched fuel w samples ∧
      s7.omx_data.port_disabled = true ∧
      (∀ (P Q : List (Decode.Step σ)) (sm : Decode.MainState σ),
        Decode.main_step8 C ++ Decode.main_step9 C fuel = P ++ Q →
        Decode.run C sched P s7 = .ok sm → sm.omx_data.port_disabled = true) ∧
      (Decode.finalState (Decode.main C sched fuel w samples)).omx_data.port_disabled
        = true ∧
      (∀ (s s1 : Decode.MainState σ) (e : Decode.Event), Decode.deliver C s e = .ok s1 →
        s1.omx_data.port_disabled = s.omx_data.port_disabled) := by
  have hmain := Decode.returned_eq_ok _ h
  have hsplit : Decode.main_statements C fuel =
      Decode.main_until_step8 C fuel ++ (Decode.main_step8 C ++ Decode.main_step9 C fuel) := by
    simp [Decode.main_statements, Decode.main_until_step8, List.append_assoc]
  have hm2 : Decode.run C sched
      (Decode.main_until_step8 C fuel ++ (Decode.main_step8 C ++ Decode.main_step9 C fuel))
      (Decode.main_init w samples) =
      .ok (Decode.finalState (Decode.main C sched fuel w samples)) := by
    rw [← hsplit]; exact hmain
  obtain ⟨s7, h7, hrest⟩ := (Decode.run_append_ok C sched _ _ _ _).mp hm2
  have hpre : Decode.main_until_step8 C fuel =
      (Decode.main_step3 C ++ Decode.main_step4 C fuel ++ Decode.main_step5 C fuel ++
        Decode.main_step6 ++
        [Decode.stmt_assert_ok (fun w => OMX_SendCommand C w OMX_CommandPortDisable 1),
         Decode.stmt_sem_wait Gate.smp_port_disabled]) ++
      (Decode.stmt_store_port_disabled ::
        [Decode.stmt_assert_ok (fun w => OMX_SendCommand C w OMX_CommandPortEnable 1),
         Decode.stmt_alloc_out C, Decode.stmt_sem_wait Gate.smp_port_enabled]) := by
    simp [Decode.main_until_step8, Decode.main_step7, List.append_assoc]
  have h7b := h7
  rw [hpre, Decode.run_append_ok] at h7b
  obtain ⟨sa, _, hb⟩ := h7b
  obtain ⟨y, sb, _, hstore, hpost⟩ := (Decode.run_cons_ok C sched _ _ _ _).mp hb
  have hsb : sb.omx_data.port_disabled = true := (Decode.stmt_store_ok _ _ hstore).2.2.1
  have hs7 : s7.omx_data.port_disabled = true := by
    refine Decode.run_marker C sched fuel _ sb s7 ?_ hsb hpost
    intro st hst
    simp only [List.mem_cons, List.mem_singleton, List.mem_nil_iff, or_false] at hst
    rcases hst with rfl | rfl | rfl <;>
      simp [Decode.main_statements, Decode.main_step7]
  have hsub : ∀ st ∈ Decode.main_step8 C ++ Decode.main_step9 C fuel,
      st ∈ Decode.main_statements C fuel := by
    intro st hst
    rw [hsplit]
    exact List.mem_append_right _ hst
  refine ⟨s7, h7, ?_, hs7, ?_, ?_, ?_⟩
  · rw [hrest, ← hmain]
  · intro P Q sm hPQ hP
    refine Decode.run_marker C sched fuel P s7 sm ?_ hs7 hP
    intro st hst
    exact hsub st (by rw [hPQ]; exact List.mem_append_left _ hst)
  · exact Decode.run_marker C sched fuel _ s7 _ hsub hs7 hrest
  · intro s s1 e he
    exact (Decode.deliver_ok C s s1 e he).2.2.2.1

/-- C8 (amended, witness): the simulated decoder run returns. -/
theorem decoder_marker_true_from_reconfiguration_witness :
    Decode.returned (Decode.main (sim ⟨20, 20, 3⟩) simSched 5 simWorld simSamples) = true ∧
    ∃ s7 : Decode.MainState SimState,
      Decode.run (sim ⟨20, 20, 3⟩) simSched (Decode.main_until_step8 (sim ⟨20, 20, 3⟩) 5)
        (Decode.main_init simWorld simSamples) = .ok s7 ∧
      s7.omx_data.port_disabled = true ∧
      (Decode.finalState
        (Decode.main (sim ⟨20, 20, 3⟩) simSched 5 simWorld simSamples)).omx_data.port_disabled
          = true :=
  ⟨by decide,
    (decoder_marker_true_from_reconfiguration (sim ⟨20, 20, 3⟩) simSched 5 simWorld
      simSamples (by decide)).choose,
    (decoder_marker_true_from_reconfiguration (sim ⟨20, 20, 3⟩) simSched 5 simWorld
      simSamples (by decide)).choose_spec.1,
    (decoder_marker_true_from_reconfiguration (sim ⟨20, 20, 3⟩) simSched 5 simWorld
      simSamples (by decide)).choose_spec.2.2.1,
    (decoder_marker_true_from_reconfiguration (sim ⟨20, 20, 3⟩) simSched 5 simWorld
      simSamples (by decide)).choose_spec.2.2.2.2.1⟩

/-- C10 (the code at the failing inputs): with the schedule of the simulated
run, a component that renegotiates `nBufferCountActual` of port 1 to 2 makes
`main` allocate the pool `[6, 7]` and then read `pp_out_bufs[2]`, outside the
array, in `omx_fill_buffers(handle, pp_out_bufs, OUT_BUFFER_COUNT)`; one that
renegotiates it to 4 makes `main` allocate `[6, 7, 8, 9]`, return 0, and never
submit header 9 for filling. -/
theorem decoder_refill_uses_stale_count :
    (Decode.faultOf (Decode.main (sim ⟨20, 20, 2⟩) simSched 5 simWorld simSamples)
        = some Fault.invalidRead ∧
      (Decode.finalState
        (Decode.main (sim ⟨20, 20, 2⟩) simSched 5 simWorld simSamples)).pp_out_bufs
          = some [6, 7]) ∧
    (Decode.returned (Decode.main (sim ⟨20, 20, 4⟩) simSched 5 simWorld simSamples) = true ∧
      (Decode.finalState
        (Decode.main (sim ⟨20, 20, 4⟩) simSched 5 simWorld simSamples)).pp_out_bufs
          = some [6, 7, 8, 9] ∧
      9 ∉ filledBufs (Decode.finalState
        (Decode.main (sim ⟨20, 20, 4⟩) simSched 5 simWorld simSamples)).w.trace) := by
  decide


/-! ## Runs of the encoder's `main` -/

theorem Encode.omx_wait_state_eq_decode :
    @Encode.omx_wait_state σ = @Decode.omx_wait_state σ := by
  funext C fuel
  induction fuel with
  | zero => funext w state; rfl
  | succ n ih =>
    funext w state
    simp only [Encode.omx_wait_state, Decode.omx_wait_state, ih]

theorem Encode.encoder_run_cons_ok (C : Component σ) (sched : Nat → List Encode.Event)
    (stmt : Encode.Step σ) (rest : List (Encode.Step σ)) (s sf : Encode.MainState σ) :
    Encode.run C sched (stmt :: rest) s = .ok sf ↔
      ∃ s1 s2, Encode.yield C sched s = .ok s1 ∧ stmt s1 = .ok s2 ∧
        Encode.run C sched rest s2 = .ok sf := by
  simp only [Encode.run]
  cases h1 : Encode.yield C sched s with
  | error x => simp
  | ok s1 =>
    cases h2 : stmt s1 with
    | error x => simp [h2]
    | ok s2 => simp [h2]

/-- A list of calls that extends `a` by calls outside the skeleton. -/
theorem skeleton_drop_of_eq (a b t : List Call) (h : b = a ++ t) :
    a <+: b ∧ skeleton (b.drop a.length) = skeleton t := by
  subst h
  exact ⟨List.prefix_append _ _, by rw [List.drop_left]⟩

/-- `omx_empty_buffer`, when it returns, has made one `OMX_EmptyThisBuffer`
call. -/
theorem Encode.omx_empty_buffer_ok (C : Component σ) (w w1 : World σ) (p_file : Option FILE)
    (p_buf : BufPtr) (len : Nat) (r : OMX_U32 × FILE)
    (h : Encode.omx_empty_buffer C w p_file p_buf len = (.ok r, w1)) :
    ∃ hdr ret, w1.trace = w.trace ++ [Call.OMX_EmptyThisBuffer p_buf hdr ret] := by
  have key : ∀ (wr : World σ) (x : FILE), wr.trace = w.trace →
      (match OMX_EmptyThisBuffer C wr p_buf with
        | (err, w2) =>
          if err = OMX_ErrorNone then
            ((.ok ((w2.heap p_buf).nFlags, x), w2) : Outcome σ (OMX_U32 × FILE))
          else (.error Fault.assertion, w2)) = (.ok r, w1) →
      ∃ hdr ret, w1.trace = w.trace ++ [Call.OMX_EmptyThisBuffer p_buf hdr ret] := by
    intro wr x hwr hk
    simp only [OMX_EmptyThisBuffer] at hk
    split_ifs at hk with h1
    · simp only [Prod.mk.injEq, Except.ok.injEq] at hk
      obtain ⟨_, rfl⟩ := hk
      exact ⟨wr.heap p_buf, (C.emptyThisBuffer wr.comp p_buf (wr.heap p_buf)).1,
        by simp [World.log, hwr]⟩
    · simp at hk
  by_cases h1 : p_buf = NULL
  · simp [Encode.omx_empty_buffer, h1] at h
  · cases p_file with
    | none => simp [Encode.omx_empty_buffer, h1] at h
    | some file =>
      by_cases h2 : len ≤ (w.heap p_buf).nAllocLen
      · simp only [Encode.omx_empty_buffer, h1, h2, if_false, not_true_eq_false] at h
        refine key _ _ ?_ h
        simp only [Encode.fread]
        split_ifs <;> rfl
      · simp [Encode.omx_empty_buffer, h1, h2] at h

theorem Encode.encoder_deliver_ok_aux (C : Component σ) (s s1 : Encode.MainState σ)
    (e : Encode.Event) (h : Encode.deliver C s e = .ok s1) :
    s1.pp_in_bufs = s.pp_in_bufs ∧ s1.pp_out_bufs = s.pp_out_bufs ∧ s1.tick = s.tick ∧
    s.w.trace <+: s1.w.trace ∧ skeleton (s1.w.trace.drop s.w.trace.length) = [] := by
  cases e with
  | EventHandler eEvent nData1 nData2 =>
    simp only [Encode.deliver, Encode.omx_event_handler] at h
    split_ifs at h <;> (try split at h) <;>
      simp only [Except.ok.injEq] at h <;> subst h <;>
      simp [World.printf, World.log, skeleton, Call.isSkeleton]
  | EmptyBufferDone pBuffer =>
    simp only [Encode.deliver, Encode.omx_empty_buffer_done] at h
    split at h
    · rename_i x d w1 heq
      simp only [Except.ok.injEq] at h
      subst h
      split_ifs at heq with h1
      · split at heq
        · rename_i fl file1 w2 hemp
          simp only [Prod.mk.injEq, Except.ok.injEq] at heq
          obtain ⟨_, rfl⟩ := heq
          obtain ⟨hdr, ret, ht⟩ := Encode.omx_empty_buffer_ok C _ _ _ _ _ _ hemp
          simp [World.printf, ht, skeleton, Call.isSkeleton]
        · simp at heq
      · simp only [Prod.mk.injEq, Except.ok.injEq] at heq
        obtain ⟨_, rfl⟩ := heq
        simp [World.printf, skeleton]
    · simp at h
  | FillBufferDone pBuffer =>
    by_cases h2 : s.omx_data.eos = false ∧ pBuffer ≠ NULL
    · by_cases h3 : (OMX_FillThisBuffer C (Encode.resetHeader s.w pBuffer) pBuffer).1
          = OMX_ErrorNone
      · simp [Encode.deliver, Encode.omx_fill_buffer_done, h2, h3] at h
        subst h
        simp [World.printf, OMX_FillThisBuffer, World.log, Encode.resetHeader, skeleton,
          Call.isSkeleton]
      · simp [Encode.deliver, Encode.omx_fill_buffer_done, h2, h3] at h
    · simp [Encode.deliver, Encode.omx_fill_buffer_done, h2] at h
      subst h
      simp [World.printf, skeleton]
  | write p hdr =>
    simp only [Encode.deliver, Except.ok.injEq] at h
    subst h
    simp [skeleton]

/-- What the events of the component's thread can change in the encoder: they
leave the pools alone and make no skeleton call. -/
theorem Encode.encoder_deliverAll_ok (C : Component σ) : ∀ (es : List Encode.Event)
    (s s1 : Encode.MainState σ), Encode.deliverAll C es s = .ok s1 →
    s1.pp_in_bufs = s.pp_in_bufs ∧ s1.pp_out_bufs = s.pp_out_bufs ∧ s1.tick = s.tick ∧
    ∃ t, s1.w.trace = s.w.trace ++ t ∧ skeleton t = [] := by
  intro es
  induction es with
  | nil =>
    intro s s1 h
    simp only [Encode.deliverAll, Except.ok.injEq] at h
    subst h
    exact ⟨rfl, rfl, rfl, [], (List.append_nil _).symm, rfl⟩
  | cons e es ih =>
    intro s s1 h
    simp only [Encode.deliverAll] at h
    cases hd : Encode.deliver C s e with
    | error x => simp [hd] at h
    | ok s2 =>
      simp only [hd] at h
      obtain ⟨a1, a2, a3, ⟨t1, a5⟩, a6⟩ := Encode.encoder_deliver_ok_aux C s s2 e hd
      rw [← a5, List.drop_left] at a6
      obtain ⟨b1, b2, b3, t2, b5, b6⟩ := ih s2 s1 h
      refine ⟨b1.trans a1, b2.trans a2, b3.trans a3, t1 ++ t2, ?_, ?_⟩
      · rw [b5, ← a5, List.append_assoc]
      · rw [skeleton_append, a6, b6]; rfl

theorem Encode.encoder_yield_ok (C : Component σ) (sched : Nat → List Encode.Event)
    (s s1 : Encode.MainState σ) (h : Encode.yield C sched s = .ok s1) :
    s1.pp_in_bufs = s.pp_in_bufs ∧ s1.pp_out_bufs = s.pp_out_bufs ∧
    ∃ t, s1.w.trace = s.w.trace ++ t ∧ skeleton t = [] := by
  obtain ⟨a1, a2, _, a5⟩ := Encode.encoder_deliverAll_ok C _ _ _ h
  exact ⟨a1, a2, a5⟩

theorem Encode.sk_check_in_file (s s1 : Encode.MainState σ)
    (h : Encode.stmt_check_in_file s = .ok s1) :
    s1.pp_in_bufs = s.pp_in_bufs ∧ s1.pp_out_bufs = s.pp_out_bufs ∧
    ∃ t, s1.w.trace = s.w.trace ++ t ∧ skeleton t = [] := by
  simp only [Encode.stmt_check_in_file] at h
  split at h
  · simp at h
  · split_ifs at h
    simp only [Except.ok.injEq] at h
    subst h
    exact ⟨rfl, rfl, [], (List.append_nil _).symm, rfl⟩

theorem Encode.encoder_sk_core (C : Component σ) (call : World σ → OMX_ERRORTYPE × World σ)
    (hc : call = OMX_Init C ∨ call = OMX_GetHandle C ∨ call = OMX_FreeHandle C ∨
      call = OMX_Deinit C)
    (s s1 : Encode.MainState σ) (h : Encode.stmt_assert_ok call s = .ok s1) :
    s1.pp_in_bufs = s.pp_in_bufs ∧ s1.pp_out_bufs = s.pp_out_bufs ∧
    ∃ t, s1.w.trace = s.w.trace ++ t ∧ skeleton t = [] := by
  simp only [Encode.stmt_assert_ok] at h
  split_ifs at h with h1
  simp only [Except.ok.injEq] at h
  subst h
  refine ⟨rfl, rfl, ?_⟩
  rcases hc with rfl | rfl | rfl | rfl
  · exact ⟨[_], rfl, rfl⟩
  · exact ⟨[_], rfl, rfl⟩
  · exact ⟨[_], rfl, rfl⟩
  · exact ⟨[_], rfl, rfl⟩

theorem Encode.encoder_sk_command (C : Component σ) (cmd : OMX_COMMANDTYPE) (param : OMX_U32)
    (s s1 : Encode.MainState σ)
    (h : Encode.stmt_assert_ok (fun w => OMX_SendCommand C w cmd param) s = .ok s1) :
    s1.pp_in_bufs = s.pp_in_bufs ∧ s1.pp_out_bufs = s.pp_out_bufs ∧
    ∃ t, s1.w.trace = s.w.trace ++ t ∧
      skeleton t = [Call.OMX_SendCommand cmd param OMX_ErrorNone] := by
  simp only [Encode.stmt_assert_ok, OMX_SendCommand] at h
  split_ifs at h with h1
  simp only [Except.ok.injEq] at h
  subst h
  exact ⟨rfl, rfl, [_], rfl, by rw [← h1]; rfl⟩

theorem Encode.encoder_sk_set_cnt (C : Component σ) (port_idx n : OMX_U32)
    (s s1 : Encode.MainState σ)
    (h : Encode.stmt_assert_true
      (fun w => Encode.omx_set_port_buf_cnt C w port_idx n default) s = .ok s1) :
    s1.pp_in_bufs = s.pp_in_bufs ∧ s1.pp_out_bufs = s.pp_out_bufs ∧
    ∃ d t, s1.w.trace = s.w.trace ++ t ∧
      skeleton t = [Call.OMX_GetParameter_PortDefinition (portQuery port_idx)
        OMX_ErrorNone d] := by
  simp only [Encode.stmt_assert_true] at h
  split at h
  · rename_i w1 heq
    simp only [Except.ok.injEq] at h
    subst h
    rw [Encode.omx_set_port_buf_cnt_eq_decode] at heq
    exact ⟨rfl, rfl, _, _, Decode.omx_set_port_buf_cnt_true C _ _ _ _ _ heq, rfl⟩
  · simp at h
  · simp at h

/-- A successful `omx_set_in_port_fmt`: the query, then the set. -/
theorem Encode.omx_set_in_port_fmt_true (C : Component σ) (w : World σ)
    (fw fh : OMX_U32) (fmt : Nat) (u : OMX_PARAM_PORTDEFINITIONTYPE)
    (h : (Encode.omx_set_in_port_fmt C w fw fh fmt u).1 = true) :
    (Encode.omx_set_in_port_fmt C w fw fh fmt u).2.trace = w.trace ++
      [Call.OMX_GetParameter_PortDefinition (portQuery 0) OMX_ErrorNone
          (C.getPortDefinition w.comp (portQuery 0)).2.1,
        Call.OMX_SetParameter_PortDefinition
          { (C.getPortDefinition w.comp (portQuery 0)).2.1 with
              nFrameWidth := fw,
              nFrameHeight := fh,
              nStride := Encode.OMX_STRIDE fw,
              nSliceHeight := Encode.OMX_SLICE_HEIGHT fh,
              eColorFormat := fmt }
          OMX_ErrorNone] := by
  by_cases hq : (C.getPortDefinition w.comp (portQuery 0)).1 = OMX_ErrorNone
  · simp only [Encode.omx_set_in_port_fmt, Encode.omx_get_port_eq_decode,
      Decode.omx_get_port_ok C w 0 u hq] at h ⊢
    split_ifs at h ⊢ with h1
    · have h3 : (C.setPortDefinition (C.getPortDefinition w.comp (portQuery 0)).2.2
          { (C.getPortDefinition w.comp (portQuery 0)).2.1 with
              nFrameWidth := fw,
              nFrameHeight := fh,
              nStride := Encode.OMX_STRIDE fw,
              nSliceHeight := Encode.OMX_SLICE_HEIGHT fh,
              eColorFormat := fmt }).1 = OMX_ErrorNone := by
        simpa [OMX_SetParameter_PortDefinition, eq_comm] using h1
      simp [OMX_SetParameter_PortDefinition, World.log, h3]
  · simp [Encode.omx_set_in_port_fmt, Encode.omx_get_port_eq_decode,
      Decode.omx_get_port_fail C w 0 u hq] at h

theorem Encode.sk_set_in_fmt (C : Component σ) (fw fh : OMX_U32) (fmt : Nat)
    (s s1 : Encode.MainState σ)
    (h : Encode.stmt_assert_true
      (fun w => ((.ok (Encode.omx_set_in_port_fmt C w fw fh fmt default).1),
        (Encode.omx_set_in_port_fmt C w fw fh fmt default).2)) s = .ok s1) :
    s1.pp_in_bufs = s.pp_in_bufs ∧ s1.pp_out_bufs = s.pp_out_bufs ∧
    ∃ d t, s1.w.trace = s.w.trace ++ t ∧
      skeleton t = [Call.OMX_GetParameter_PortDefinition (portQuery 0) OMX_ErrorNone d] := by
  simp only [Encode.stmt_assert_true] at h
  split at h
  · rename_i w1 heq
    simp only [Except.ok.injEq] at h
    subst h
    simp only [Prod.mk.injEq, Except.ok.injEq] at heq
    obtain ⟨h1, rfl⟩ := heq
    exact ⟨rfl, rfl, _, _, Encode.omx_set_in_port_fmt_true C _ _ _ _ _ h1, rfl⟩
  · simp at h
  · simp at h

theorem exists_skeleton_of_drop (a b L : List Call) (h1 : a <+: b)
    (h2 : skeleton (b.drop a.length) = L) : ∃ t, b = a ++ t ∧ skeleton t = L := by
  obtain ⟨t, rfl⟩ := h1
  exact ⟨t, rfl, by simpa using h2⟩

/-- A successful `omx_set_out_port_fmt` of the encoder: of the skeleton calls
it makes the query of port 1 only, which succeeds. -/
theorem Encode.encoder_omx_set_out_port_fmt_true (C : Component σ) (w w1 : World σ)
    (bitrate : OMX_U32) (fmt : Nat) (framerate : OMX_U32)
    (u : OMX_PARAM_PORTDEFINITIONTYPE) (uc : OMX_VIDEO_PARAM_BITRATETYPE)
    (h : Encode.omx_set_out_port_fmt C w bitrate fmt framerate u uc = (.ok true, w1)) :
    ∃ d t, w1.trace = w.trace ++ t ∧
      skeleton t = [Call.OMX_GetParameter_PortDefinition (portQuery 1) OMX_ErrorNone d] := by
  by_cases hb : bitrate > 0
  swap
  · simp [Encode.omx_set_out_port_fmt, hb] at h
  by_cases hq : (C.getPortDefinition w.comp (portQuery 1)).1 = OMX_ErrorNone
  swap
  · simp [Encode.omx_set_out_port_fmt, hb, Encode.omx_get_port_eq_decode,
      Decode.omx_get_port_fail C w 1 u hq] at h
  simp only [Encode.omx_set_out_port_fmt, hb, not_true_eq_false, if_false,
    Encode.omx_get_port_eq_decode, Decode.omx_get_port_ok C w 1 u hq, Prod.mk.injEq,
    Except.ok.injEq] at h
  obtain ⟨_, rfl⟩ := h
  refine ⟨(C.getPortDefinition w.comp (portQuery 1)).2.1, ?_⟩
  apply exists_skeleton_of_drop
  · simp only [Encode.omx_get_bitrate_ctrl, OMX_GetParameter_VideoBitrate,
      OMX_SetParameter_VideoBitrate, OMX_SetParameter_AVCVuiProperty,
      OMX_SetParameter_PortDefinition, World.log, World.printf]
    split_ifs <;> simp
  · simp only [Encode.omx_get_bitrate_ctrl, OMX_GetParameter_VideoBitrate,
      OMX_SetParameter_VideoBitrate, OMX_SetParameter_AVCVuiProperty,
      OMX_SetParameter_PortDefinition, World.log, World.printf]
    split_ifs <;> simp [skeleton, Call.isSkeleton]

theorem Encode.sk_set_out_fmt (C : Component σ) (bitrate : OMX_U32) (fmt : Nat)
    (framerate : OMX_U32) (s s1 : Encode.MainState σ)
    (h : Encode.stmt_assert_true
      (fun w => Encode.omx_set_out_port_fmt C w bitrate fmt framerate default default) s
        = .ok s1) :
    s1.pp_in_bufs = s.pp_in_bufs ∧ s1.pp_out_bufs = s.pp_out_bufs ∧
    ∃ d t, s1.w.trace = s.w.trace ++ t ∧
      skeleton t = [Call.OMX_GetParameter_PortDefinition (portQuery 1) OMX_ErrorNone d] := by
  simp only [Encode.stmt_assert_true] at h
  split at h
  · rename_i w1 heq
    simp only [Except.ok.injEq] at h
    subst h
    exact ⟨rfl, rfl, Encode.encoder_omx_set_out_port_fmt_true C _ _ _ _ _ _ _ heq⟩
  · simp at h
  · simp at h

theorem Encode.encoder_sk_wait_state (C : Component σ) (fuel : Nat) (state : OMX_STATETYPE)
    (s s1 : Encode.MainState σ) (h : Encode.stmt_wait_state C fuel state s = .ok s1) :
    s1.pp_in_bufs = s.pp_in_bufs ∧ s1.pp_out_bufs = s.pp_out_bufs ∧
    ∃ t, s1.w.trace = s.w.trace ++ t ∧ skeleton t = [] := by
  simp only [Encode.stmt_wait_state] at h
  split at h
  · rename_i w1 heq
    simp only [Except.ok.injEq] at h
    subst h
    rw [Encode.omx_wait_state_eq_decode] at heq
    obtain ⟨t, h4, h5, _, h7, h8⟩ := Decode.omx_wait_state_ok C state fuel _ _ heq
    exact ⟨rfl, rfl, t, h4, skeleton_eq_nil t h5 h7 h8⟩
  · simp at h

theorem Encode.encoder_sk_fill_out (C : Component σ) (s s1 : Encode.MainState σ)
    (h : Encode.stmt_fill_out C s = .ok s1) :
    s1.pp_in_bufs = s.pp_in_bufs ∧ s1.pp_out_bufs = s.pp_out_bufs ∧
    ∃ t, s1.w.trace = s.w.trace ++ t ∧ skeleton t = [] := by
  simp only [Encode.stmt_fill_out, Encode.stmt_assert_true] at h
  split at h
  · rename_i w1 heq
    simp only [Except.ok.injEq] at h
    subst h
    refine ⟨rfl, rfl, ?_⟩
    simp only [Encode.omx_fill_buffers_eq_decode, Decode.omx_fill_buffers] at heq
    cases hpool : s.pp_out_bufs with
    | none => simp [hpool] at heq
    | some pool =>
      have hc : Encode.H264_BUFFER_COUNT > 0 := by decide
      simp only [hpool, hc, not_true_eq_false, if_false] at heq
      obtain ⟨t, h3, h4, _, h6, h7, _⟩ := Decode.fill_loop_ok C pool _ _ _ _ _ heq
      exact ⟨t, h3, skeleton_eq_nil t h4 h6 h7⟩
  · simp at h
  · simp at h

/-- The feeding loop of `STEP 7` makes `OMX_EmptyThisBuffer` calls only. -/
theorem Encode.encoder_feed_loop_ok (C : Component σ) (pp : Option (List BufPtr)) :
    ∀ (remaining index : Nat) (w w1 : World σ) (a a1 : Option FILE),
      Encode.main_feed_loop C pp remaining index w a = (.ok a1, w1) →
      ∃ t, w1.trace = w.trace ++ t ∧ skeleton t = [] := by
  intro remaining
  induction remaining with
  | zero =>
    intro index w w1 a a1 h
    simp only [Encode.main_feed_loop, Prod.mk.injEq, Except.ok.injEq] at h
    obtain ⟨_, rfl⟩ := h
    exact ⟨[], (List.append_nil _).symm, rfl⟩
  | succ n ih =>
    intro index w w1 a a1 h
    simp only [Encode.main_feed_loop] at h
    cases pp with
    | none => simp at h
    | some arr =>
      simp only at h
      cases hp : arr[index]? with
      | none => simp [hp] at h
      | some p =>
        simp only [hp] at h
        split at h
        · simp at h
        · rename_i flags file1 w2 hemp
          obtain ⟨hdr, ret, ht⟩ := Encode.omx_empty_buffer_ok C _ _ _ _ _ _ hemp
          split_ifs at h with h1
          · simp only [Prod.mk.injEq, Except.ok.injEq] at h
            obtain ⟨_, rfl⟩ := h
            exact ⟨[_], ht, rfl⟩
          · obtain ⟨t, h4, h5⟩ := ih _ _ _ _ _ h
            refine ⟨Call.OMX_EmptyThisBuffer p hdr ret :: t, ?_, ?_⟩
            · rw [h4, ht, List.append_assoc]; rfl
            · simpa [skeleton, Call.isSkeleton] using h5

theorem Encode.encoder_sk_feed (C : Component σ) (s s1 : Encode.MainState σ)
    (h : Encode.stmt_feed C s = .ok s1) :
    s1.pp_in_bufs = s.pp_in_bufs ∧ s1.pp_out_bufs = s.pp_out_bufs ∧
    ∃ t, s1.w.trace = s.w.trace ++ t ∧ skeleton t = [] := by
  simp only [Encode.stmt_feed] at h
  split at h
  · rename_i a1 w1 heq
    simp only [Except.ok.injEq] at h
    subst h
    exact ⟨rfl, rfl, Encode.encoder_feed_loop_ok C _ _ _ _ _ _ _ heq⟩
  · simp at h

theorem Encode.sk_sem_wait_eos (s s1 : Encode.MainState σ)
    (h : Encode.stmt_sem_wait_eos s = .ok s1) :
    s1.pp_in_bufs = s.pp_in_bufs ∧ s1.pp_out_bufs = s.pp_out_bufs ∧
    ∃ t, s1.w.trace = s.w.trace ++ t ∧ skeleton t = [Call.sem_wait Gate.smp_eos] := by
  simp only [Encode.stmt_sem_wait_eos] at h
  split_ifs at h
  simp only [Except.ok.injEq] at h
  subst h
  exact ⟨rfl, rfl, [_], rfl, rfl⟩

theorem Encode.encoder_sk_alloc_out (C : Component σ) (s s1 : Encode.MainState σ)
    (h : Encode.stmt_alloc_out C s = .ok s1) :
    s1.pp_in_bufs = s.pp_in_bufs ∧
    ∃ (pool : List BufPtr) (d : OMX_PARAM_PORTDEFINITIONTYPE) (t : List Call),
      s1.pp_out_bufs = some pool ∧ pool.length = d.nBufferCountActual ∧
      s1.w.trace = s.w.trace ++ t ∧
      skeleton t = [Call.OMX_GetParameter_PortDefinition (portQuery 1) OMX_ErrorNone d]
        ++ pool.map (fun b => Call.OMX_AllocateBuffer 1 d.nBufferSize OMX_ErrorNone b) := by
  simp only [Encode.stmt_alloc_out, Encode.omx_alloc_buffers_eq_decode] at h
  split at h
  · rename_i pool w1 heq
    simp only [Except.ok.injEq] at h
    subst h
    have h2 := (Decode.omx_alloc_buffers_spec C s.w 1 default).2.2 pool (by rw [heq])
    rw [heq] at h2
    refine ⟨rfl, pool, _, _, rfl, h2.2, by rw [h2.1, List.append_assoc], ?_⟩
    rw [skeleton_append, skeleton_map_alloc]
    rfl
  · simp at h
  · simp at h

theorem Encode.encoder_sk_alloc_in (C : Component σ) (s s1 : Encode.MainState σ)
    (h : Encode.stmt_alloc_in C s = .ok s1) :
    s1.pp_out_bufs = s.pp_out_bufs ∧
    ∃ (pool : List BufPtr) (d : OMX_PARAM_PORTDEFINITIONTYPE) (t : List Call),
      s1.pp_in_bufs = some pool ∧ pool.length = d.nBufferCountActual ∧
      s1.w.trace = s.w.trace ++ t ∧
      skeleton t = [Call.OMX_GetParameter_PortDefinition (portQuery 0) OMX_ErrorNone d]
        ++ pool.map (fun b => Call.OMX_AllocateBuffer 0 d.nBufferSize OMX_ErrorNone b) := by
  simp only [Encode.stmt_alloc_in, Encode.omx_alloc_buffers_eq_decode] at h
  split at h
  · rename_i pool w1 heq
    simp only [Except.ok.injEq] at h
    subst h
    have h2 := (Decode.omx_alloc_buffers_spec C s.w 0 default).2.2 pool (by rw [heq])
    rw [heq] at h2
    refine ⟨rfl, pool, _, _, rfl, h2.2, by rw [h2.1, List.append_assoc], ?_⟩
    rw [skeleton_append, skeleton_map_alloc]
    rfl
  · simp at h
  · simp at h

/-- The statement `omx_dealloc_all_port_bufs(handle, 1, pp_out_bufs)` of the
encoder, on a pool that exists. -/
theorem Encode.sk_dealloc_all_out (C : Component σ) (s s1 : Encode.MainState σ)
    (pool : List BufPtr) (hp : s.pp_out_bufs = some pool)
    (h : Encode.stmt_dealloc_all_out C s = .ok s1) :
    s1.pp_in_bufs = s.pp_in_bufs ∧ s1.pp_out_bufs = s.pp_out_bufs ∧
    ∃ (ret : OMX_ERRORTYPE) (d : OMX_PARAM_PORTDEFINITIONTYPE) (t tF : List Call),
      s1.w.trace = s.w.trace ++ t ∧
      skeleton t = [Call.OMX_GetParameter_PortDefinition (portQuery 1) ret d] ++ tF ∧
      controlTrace tF = [] ∧ allocatedBufs tF = [] ∧ portQueries tF = [] ∧
      ((ret ≠ OMX_ErrorNone ∧ freedBufs tF = []) ∨
       (ret = OMX_ErrorNone ∧ d.nBufferCountActual ≤ pool.length ∧
        freedBufs tF = (pool.take d.nBufferCountActual).map (fun b => (1, b)))) := by
  simp only [Encode.stmt_dealloc_all_out, hp, Encode.omx_dealloc_all_port_bufs_eq_decode] at h
  split at h
  · rename_i u w1 heq
    simp only [Except.ok.injEq] at h
    subst h
    exact ⟨rfl, hp.symm, Decode.sk_dealloc_all C _ _ 1 pool default heq⟩
  · simp at h

/-- The statement `omx_dealloc_all_port_bufs(handle, 0, pp_in_bufs)` of the
encoder, on a pool that exists. -/
theorem Encode.sk_dealloc_all_in (C : Component σ) (s s1 : Encode.MainState σ)
    (pool : List BufPtr) (hp : s.pp_in_bufs = some pool)
    (h : Encode.stmt_dealloc_all_in C s = .ok s1) :
    s1.pp_in_bufs = s.pp_in_bufs ∧ s1.pp_out_bufs = s.pp_out_bufs ∧
    ∃ (ret : OMX_ERRORTYPE) (d : OMX_PARAM_PORTDEFINITIONTYPE) (t tF : List Call),
      s1.w.trace = s.w.trace ++ t ∧
      skeleton t = [Call.OMX_GetParameter_PortDefinition (portQuery 0) ret d] ++ tF ∧
      controlTrace tF = [] ∧ allocatedBufs tF = [] ∧ portQueries tF = [] ∧
      ((ret ≠ OMX_ErrorNone ∧ freedBufs tF = []) ∨
       (ret = OMX_ErrorNone ∧ d.nBufferCountActual ≤ pool.length ∧
        freedBufs tF = (pool.take d.nBufferCountActual).map (fun b => (0, b)))) := by
  simp only [Encode.stmt_dealloc_all_in, hp, Encode.omx_dealloc_all_port_bufs_eq_decode] at h
  split at h
  · rename_i u w1 heq
    simp only [Except.ok.injEq] at h
    subst h
    exact ⟨hp.symm, rfl, Decode.sk_dealloc_all C _ _ 0 pool default heq⟩
  · simp at h

/-- The shape of every successful run of the encoder's `main`: the four
port-definition queries of the format and count settings succeed; then come the
Idle command, the query and allocation of the input pool, the query and
allocation of the output pool, the Executing command, the wait for the
stream-ended gate, the Idle and Loaded commands, and the two teardown queries,
each followed by the frees `tO` / `tI` it allows. -/
theorem Encode.encoder_main_skeleton (C : Component σ) (sched : Nat → List Encode.Event)
    (fuel : Nat) (w : World σ) (p_in_file : Option FILE) (sf : Encode.MainState σ)
    (h : Encode.main C sched fuel w p_in_file = .ok sf) :
    ∃ (poolIn poolOut : List BufPtr)
      (dIn dOut dTO dTI qa qb qc qd : OMX_PARAM_PORTDEFINITIONTYPE)
      (rTO rTI : OMX_ERRORTYPE) (T tO tI : List Call),
      sf.pp_in_bufs = some poolIn ∧ sf.pp_out_bufs = some poolOut ∧
      poolIn.length = dIn.nBufferCountActual ∧ poolOut.length = dOut.nBufferCountActual ∧
      sf.w.trace = w.trace ++ T ∧
      skeleton T =
        [Call.OMX_GetParameter_PortDefinition (portQuery 0) OMX_ErrorNone qa,
         Call.OMX_GetParameter_PortDefinition (portQuery 0) OMX_ErrorNone qb,
         Call.OMX_GetParameter_PortDefinition (portQuery 1) OMX_ErrorNone qc,
         Call.OMX_GetParameter_PortDefinition (portQuery 1) OMX_ErrorNone qd,
         Call.OMX_SendCommand OMX_CommandStateSet OMX_StateIdle OMX_ErrorNone,
         Call.OMX_GetParameter_PortDefinition (portQuery 0) OMX_ErrorNone dIn]
        ++ poolIn.map (fun b => Call.OMX_AllocateBuffer 0 dIn.nBufferSize OMX_ErrorNone b)
        ++ [Call.OMX_GetParameter_PortDefinition (portQuery 1) OMX_ErrorNone dOut]
        ++ poolOut.map (fun b => Call.OMX_AllocateBuffer 1 dOut.nBufferSize OMX_ErrorNone b)
        ++ [Call.OMX_SendCommand OMX_CommandStateSet OMX_StateExecuting OMX_ErrorNone,
            Call.sem_wait Gate.smp_eos,
            Call.OMX_SendCommand OMX_CommandStateSet OMX_StateIdle OMX_ErrorNone,
            Call.OMX_SendCommand OMX_CommandStateSet OMX_StateLoaded OMX_ErrorNone,
            Call.OMX_GetParameter_PortDefinition (portQuery 1) rTO dTO]
        ++ tO ++ [Call.OMX_GetParameter_PortDefinition (portQuery 0) rTI dTI] ++ tI ∧
      (controlTrace tO = [] ∧ allocatedBufs tO = [] ∧ portQueries tO = [] ∧
        ((rTO ≠ OMX_ErrorNone ∧ freedBufs tO = []) ∨
         (rTO = OMX_ErrorNone ∧ dTO.nBufferCountActual ≤ poolOut.length ∧
          freedBufs tO = (poolOut.take dTO.nBufferCountActual).map (fun b => (1, b))))) ∧
      (controlTrace tI = [] ∧ allocatedBufs tI = [] ∧ portQueries tI = [] ∧
        ((rTI ≠ OMX_ErrorNone ∧ freedBufs tI = []) ∨
         (rTI = OMX_ErrorNone ∧ dTI.nBufferCountActual ≤ poolIn.length ∧
          freedBufs tI = (poolIn.take dTI.nBufferCountActual).map (fun b => (0, b))))) := by
  simp only [Encode.main, Encode.main_statements] at h
  obtain ⟨y0, s1, hy0, hs0, h⟩ := (Encode.encoder_run_cons_ok C sched _ _ _ _).mp h
  obtain ⟨yi0, yo0, c0, yt0, kc0⟩ := Encode.encoder_yield_ok C sched _ _ hy0
  obtain ⟨pi0, po0, t0, ht0, hk0⟩ := Encode.sk_check_in_file _ _ hs0
  obtain ⟨y1, s2, hy1, hs1, h⟩ := (Encode.encoder_run_cons_ok C sched _ _ _ _).mp h
  obtain ⟨yi1, yo1, c1, yt1, kc1⟩ := Encode.encoder_yield_ok C sched _ _ hy1
  obtain ⟨pi1, po1, t1, ht1, hk1⟩ := Encode.encoder_sk_core C (OMX_Init C) (Or.inl rfl) _ _ hs1
  obtain ⟨y2, s3, hy2, hs2, h⟩ := (Encode.encoder_run_cons_ok C sched _ _ _ _).mp h
  obtain ⟨yi2, yo2, c2, yt2, kc2⟩ := Encode.encoder_yield_ok C sched _ _ hy2
  obtain ⟨pi2, po2, t2, ht2, hk2⟩ := Encode.encoder_sk_core C (OMX_GetHandle C) (Or.inr (Or.inl rfl)) _ _ hs2
  obtain ⟨y3, s4, hy3, hs3, h⟩ := (Encode.encoder_run_cons_ok C sched _ _ _ _).mp h
  obtain ⟨yi3, yo3, c3, yt3, kc3⟩ := Encode.encoder_yield_ok C sched _ _ hy3
  obtain ⟨pi3, po3, q3, t3, ht3, hk3⟩ := Encode.sk_set_in_fmt C _ _ _ _ _ hs3
  obtain ⟨y4, s5, hy4, hs4, h⟩ := (Encode.encoder_run_cons_ok C sched _ _ _ _).mp h
  obtain ⟨yi4, yo4, c4, yt4, kc4⟩ := Encode.encoder_yield_ok C sched _ _ hy4
  obtain ⟨pi4, po4, q4, t4, ht4, hk4⟩ := Encode.encoder_sk_set_cnt C 0 Encode.NV12_BUFFER_COUNT _ _ hs4
  obtain ⟨y5, s6, hy5, hs5, h⟩ := (Encode.encoder_run_cons_ok C sched _ _ _ _).mp h
  obtain ⟨yi5, yo5, c5, yt5, kc5⟩ := Encode.encoder_yield_ok C sched _ _ hy5
  obtain ⟨pi5, po5, q5, t5, ht5, hk5⟩ := Encode.sk_set_out_fmt C _ _ _ _ _ hs5
  obtain ⟨y6, s7, hy6, hs6, h⟩ := (Encode.encoder_run_cons_ok C sched _ _ _ _).mp h
  obtain ⟨yi6, yo6, c6, yt6, kc6⟩ := Encode.encoder_yield_ok C sched _ _ hy6
  obtain ⟨pi6, po6, q6, t6, ht6, hk6⟩ := Encode.encoder_sk_set_cnt C 1 Encode.H264_BUFFER_COUNT _ _ hs6
  obtain ⟨y7, s8, hy7, hs7, h⟩ := (Encode.encoder_run_cons_ok C sched _ _ _ _).mp h
  obtain ⟨yi7, yo7, c7, yt7, kc7⟩ := Encode.encoder_yield_ok C sched _ _ hy7
  obtain ⟨pi7, po7, t7, ht7, hk7⟩ := Encode.encoder_sk_command C OMX_CommandStateSet OMX_StateIdle _ _ hs7
  obtain ⟨y8, s9, hy8, hs8, h⟩ := (Encode.encoder_run_cons_ok C sched _ _ _ _).mp h
  obtain ⟨yi8, yo8, c8, yt8, kc8⟩ := Encode.encoder_yield_ok C sched _ _ hy8
  obtain ⟨po8, poolIn, dIn, t8, pi8, hlenIn, ht8, hk8⟩ := Encode.encoder_sk_alloc_in C _ _ hs8
  obtain ⟨y9, s10, hy9, hs9, h⟩ := (Encode.encoder_run_cons_ok C sched _ _ _ _).mp h
  obtain ⟨yi9, yo9, c9, yt9, kc9⟩ := Encode.encoder_yield_ok C sched _ _ hy9
  obtain ⟨pi9, poolOut, dOut, t9, po9, hlenOut, ht9, hk9⟩ := Encode.encoder_sk_alloc_out C _ _ hs9
  obtain ⟨y10, s11, hy10, hs10, h⟩ := (Encode.encoder_run_cons_ok C sched _ _ _ _).mp h
  obtain ⟨yi10, yo10, c10, yt10, kc10⟩ := Encode.encoder_yield_ok C sched _ _ hy10
  obtain ⟨pi10, po10, t10, ht10, hk10⟩ := Encode.encoder_sk_wait_state C fuel OMX_StateIdle _ _ hs10
  obtain ⟨y11, s12, hy11, hs11, h⟩ := (Encode.encoder_run_cons_ok C sched _ _ _ _).mp h
  obtain ⟨yi11, yo11, c11, yt11, kc11⟩ := Encode.encoder_yield_ok C sched _ _ hy11
  obtain ⟨pi11, po11, t11, ht11, hk11⟩ := Encode.encoder_sk_command C OMX_CommandStateSet OMX_StateExecuting _ _ hs11
  obtain ⟨y12, s13, hy12, hs12, h⟩ := (Encode.encoder_run_cons_ok C sched _ _ _ _).mp h
  obtain ⟨yi12, yo12, c12, yt12, kc12⟩ := Encode.encoder_yield_ok C sched _ _ hy12
  obtain ⟨pi12, po12, t12, ht12, hk12⟩ := Encode.encoder_sk_wait_state C fuel OMX_StateExecuting _ _ hs12
  obtain ⟨y13, s14, hy13, hs13, h⟩ := (Encode.encoder_run_cons_ok C sched _ _ _ _).mp h
  obtain ⟨yi13, yo13, c13, yt13, kc13⟩ := Encode.encoder_yield_ok C sched _ _ hy13
  obtain ⟨pi13, po13, t13, ht13, hk13⟩ := Encode.encoder_sk_fill_out C _ _ hs13
  obtain ⟨y14, s15, hy14, hs14, h⟩ := (Encode.encoder_run_cons_ok C sched _ _ _ _).mp h
  obtain ⟨yi14, yo14, c14, yt14, kc14⟩ := Encode.encoder_yield_ok C sched _ _ hy14
  obtain ⟨pi14, po14, t14, ht14, hk14⟩ := Encode.encoder_sk_feed C _ _ hs14
  obtain ⟨y15, s16, hy15, hs15, h⟩ := (Encode.encoder_run_cons_ok C sched _ _ _ _).mp h
  obtain ⟨yi15, yo15, c15, yt15, kc15⟩ := Encode.encoder_yield_ok C sched _ _ hy15
  obtain ⟨pi15, po15, t15, ht15, hk15⟩ := Encode.sk_sem_wait_eos _ _ hs15
  obtain ⟨y16, s17, hy16, hs16, h⟩ := (Encode.encoder_run_cons_ok C sched _ _ _ _).mp h
  obtain ⟨yi16, yo16, c16, yt16, kc16⟩ := Encode.encoder_yield_ok C sched _ _ hy16
  obtain ⟨pi16, po16, t16, ht16, hk16⟩ := Encode.encoder_sk_command C OMX_CommandStateSet OMX_StateIdle _ _ hs16
  obtain ⟨y17, s18, hy17, hs17, h⟩ := (Encode.encoder_run_cons_ok C sched _ _ _ _).mp h
  obtain ⟨yi17, yo17, c17, yt17, kc17⟩ := Encode.encoder_yield_ok C sched _ _ hy17
  obtain ⟨pi17, po17, t17, ht17, hk17⟩ := Encode.encoder_sk_wait_state C fuel OMX_StateIdle _ _ hs17
  obtain ⟨y18, s19, hy18, hs18, h⟩ := (Encode.encoder_run_cons_ok C sched _ _ _ _).mp h
  obtain ⟨yi18, yo18, c18, yt18, kc18⟩ := Encode.encoder_yield_ok C sched _ _ hy18
  obtain ⟨pi18, po18, t18, ht18, hk18⟩ := Encode.encoder_sk_command C OMX_CommandStateSet OMX_StateLoaded _ _ hs18
  obtain ⟨y19, s20, hy19, hs19, h⟩ := (Encode.encoder_run_cons_ok C sched _ _ _ _).mp h
  obtain ⟨yi19, yo19, c19, yt19, kc19⟩ := Encode.encoder_yield_ok C sched _ _ hy19
  have hpo19 : y19.pp_out_bufs = some poolOut := by
    rw [yo19, po18, yo18, po17, yo17, po16, yo16, po15, yo15, po14, yo14, po13, yo13, po12, yo12, po11, yo11, po10, yo10]; exact po9
  obtain ⟨pi19, po19, rTO, dTO, t19, tO, ht19, hk19, hOc, hOa, hOq, hOf⟩ := Encode.sk_dealloc_all_out C _ _ poolOut hpo19 hs19
  obtain ⟨y20, s21, hy20, hs20, h⟩ := (Encode.encoder_run_cons_ok C sched _ _ _ _).mp h
  obtain ⟨yi20, yo20, c20, yt20, kc20⟩ := Encode.encoder_yield_ok C sched _ _ hy20
  have hpi20 : y20.pp_in_bufs = some poolIn := by
    rw [yi20, pi19, yi19, pi18, yi18, pi17, yi17, pi16, yi16, pi15, yi15, pi14, yi14, pi13, yi13, pi12, yi12, pi11, yi11, pi10, yi10, pi9, yi9]; exact pi8
  obtain ⟨pi20, po20, rTI, dTI, t20, tI, ht20, hk20, hIc, hIa, hIq, hIf⟩ := Encode.sk_dealloc_all_in C _ _ poolIn hpi20 hs20
  obtain ⟨y21, s22, hy21, hs21, h⟩ := (Encode.encoder_run_cons_ok C sched _ _ _ _).mp h
  obtain ⟨yi21, yo21, c21, yt21, kc21⟩ := Encode.encoder_yield_ok C sched _ _ hy21
  obtain ⟨pi21, po21, t21, ht21, hk21⟩ := Encode.encoder_sk_wait_state C fuel OMX_StateLoaded _ _ hs21
  obtain ⟨y22, s23, hy22, hs22, h⟩ := (Encode.encoder_run_cons_ok C sched _ _ _ _).mp h
  obtain ⟨yi22, yo22, c22, yt22, kc22⟩ := Encode.encoder_yield_ok C sched _ _ hy22
  obtain ⟨pi22, po22, t22, ht22, hk22⟩ := Encode.encoder_sk_core C (OMX_FreeHandle C) (Or.inr (Or.inr (Or.inl rfl))) _ _ hs22
  obtain ⟨y23, s24, hy23, hs23, h⟩ := (Encode.encoder_run_cons_ok C sched _ _ _ _).mp h
  obtain ⟨yi23, yo23, c23, yt23, kc23⟩ := Encode.encoder_yield_ok C sched _ _ hy23
  obtain ⟨pi23, po23, t23, ht23, hk23⟩ := Encode.encoder_sk_core C (OMX_Deinit C) (Or.inr (Or.inr (Or.inr rfl))) _ _ hs23
  simp only [Encode.run, Except.ok.injEq] at h
  subst h
  have hfin_in : s24.pp_in_bufs = some poolIn := by
    rw [pi23, yi23, pi22, yi22, pi21, yi21, pi20, yi20, pi19, yi19, pi18, yi18, pi17, yi17, pi16, yi16, pi15, yi15, pi14, yi14, pi13, yi13, pi12, yi12, pi11, yi11, pi10, yi10, pi9, yi9]; exact pi8
  have hfin_out : s24.pp_out_bufs = some poolOut := by
    rw [po23, yo23, po22, yo22, po21, yo21, po20, yo20, po19, yo19, po18, yo18, po17, yo17, po16, yo16, po15, yo15, po14, yo14, po13, yo13, po12, yo12, po11, yo11, po10, yo10]; exact po9
  have htr : s24.w.trace = (Encode.main_init w p_in_file).w.trace ++ ((c0 ++ t0) ++ (c1 ++ t1) ++ (c2 ++ t2) ++ (c3 ++ t3) ++ (c4 ++ t4) ++ (c5 ++ t5) ++ (c6 ++ t6) ++ (c7 ++ t7) ++ (c8 ++ t8) ++ (c9 ++ t9) ++ (c10 ++ t10) ++ (c11 ++ t11) ++ (c12 ++ t12) ++ (c13 ++ t13) ++ (c14 ++ t14) ++ (c15 ++ t15) ++ (c16 ++ t16) ++ (c17 ++ t17) ++ (c18 ++ t18) ++ (c19 ++ t19) ++ (c20 ++ t20) ++ (c21 ++ t21) ++ (c22 ++ t22) ++ (c23 ++ t23)) := by
    rw [ht23, yt23, ht22, yt22, ht21, yt21, ht20, yt20, ht19, yt19, ht18, yt18, ht17, yt17, ht16, yt16, ht15, yt15, ht14, yt14, ht13, yt13, ht12, yt12, ht11, yt11, ht10, yt10, ht9, yt9, ht8, yt8, ht7, yt7, ht6, yt6, ht5, yt5, ht4, yt4, ht3, yt3, ht2, yt2, ht1, yt1, ht0, yt0]
    simp only [List.append_assoc]
  refine ⟨poolIn, poolOut, dIn, dOut, dTO, dTI, q3, q4, q5, q6, rTO, rTI,
    (c0 ++ t0) ++ (c1 ++ t1) ++ (c2 ++ t2) ++ (c3 ++ t3) ++ (c4 ++ t4) ++ (c5 ++ t5) ++ (c6 ++ t6) ++ (c7 ++ t7) ++ (c8 ++ t8) ++ (c9 ++ t9) ++ (c10 ++ t10) ++ (c11 ++ t11) ++ (c12 ++ t12) ++ (c13 ++ t13) ++ (c14 ++ t14) ++ (c15 ++ t15) ++ (c16 ++ t16) ++ (c17 ++ t17) ++ (c18 ++ t18) ++ (c19 ++ t19) ++ (c20 ++ t20) ++ (c21 ++ t21) ++ (c22 ++ t22) ++ (c23 ++ t23), tO, tI,
    hfin_in, hfin_out, hlenIn, hlenOut, htr, ?_, ⟨hOc, hOa, hOq, hOf⟩, ⟨hIc, hIa, hIq, hIf⟩⟩
  simp only [skeleton_append, hk0, kc0, hk1, kc1, hk2, kc2, hk3, kc3, hk4, kc4, hk5, kc5, hk6, kc6, hk7, kc7, hk8, kc8, hk9, kc9, hk10, kc10, hk11, kc11, hk12, kc12, hk13, kc13, hk14, kc14, hk15, kc15, hk16, kc16, hk17, kc17, hk18, kc18, hk19, kc19, hk20, kc20, hk21, kc21, hk22, kc22, hk23, kc23, List.nil_append, List.append_nil,
    List.append_assoc, List.cons_append]

/-! ## The accounting of buffer headers over a run -/

theorem allocatedBufs_controlTrace (t : List Call) :
    allocatedBufs (controlTrace t) = allocatedBufs t := by
  induction t with
  | nil => rfl
  | cons a l ih =>
    have e1 : allocatedBufs (a :: l) = allocatedBufs [a] ++ allocatedBufs l :=
      allocatedBufs_append [a] l
    have e4 : controlTrace (a :: l) = controlTrace [a] ++ controlTrace l :=
      controlTrace_append [a] l
    rw [e1, e4, allocatedBufs_append, ih]
    cases a <;> rfl

theorem beforeMarker_append_store (T1 T2 : List Call)
    (h : ∀ c ∈ T1, c.isMarkerStore = false) :
    beforeMarker (T1 ++ Call.store_port_disabled true :: T2) = T1 := by
  induction T1 with
  | nil => simp [beforeMarker, Call.isMarkerStore]
  | cons a l ih =>
    have ha := h a (List.mem_cons_self _ _)
    have hl := ih (fun c hc => h c (List.mem_cons_of_mem _ hc))
    simp only [beforeMarker] at hl ⊢
    simp [List.takeWhile_cons, ha, hl]

theorem filter_port_map_same (p : OMX_U32) (l : List BufPtr) :
    (l.map (fun b => (p, b))).filter (fun x => decide (x.1 = p)) = l.map (fun b => (p, b)) := by
  induction l with
  | nil => rfl
  | cons a l ih => simp [List.filter_cons, ih]

theorem filter_port_map_ne (p q : OMX_U32) (hpq : p ≠ q) (l : List BufPtr) :
    (l.map (fun b => (p, b))).filter (fun x => decide (x.1 = q)) = [] := by
  induction l with
  | nil => rfl
  | cons a l ih => simp [List.filter_cons, ih, hpq]

/-- The accounts of a successful run of the decoder's `main`: what was
allocated in all and before the marker was set, the eight port-definition
queries, and the frees: those made before the marker was set (by the filled
callback), then those of the teardown of port 1 (`FO`) and of port 0 (`FI`). -/
theorem Decode.main_accounts (C : Component σ) (sched : Nat → List Decode.Event)
    (fuel : Nat) (w : World σ) (samples : List (List Nat))
    (h : Decode.returned (Decode.main C sched fuel w samples) = true) :
    ∃ (poolIn poolOut pool2 : List BufPtr) (nA nB nC nTO nTI : OMX_U32)
      (rTO rTI : OMX_ERRORTYPE) (FO FI : List (OMX_U32 × BufPtr)),
      allocatedBufs (Decode.mainCalls C sched fuel w samples) =
        poolIn.map (fun b => (0, b)) ++ poolOut.map (fun b => (1, b))
          ++ pool2.map (fun b => (1, b)) ∧
      allocatedBufs (beforeMarker (Decode.mainCalls C sched fuel w samples)) =
        poolIn.map (fun b => (0, b)) ++ poolOut.map (fun b => (1, b)) ∧
      portQueries (Decode.mainCalls C sched fuel w samples) =
        [(0, OMX_ErrorNone, nA), (1, OMX_ErrorNone, nB), (1, OMX_ErrorNone, nC),
         (0, OMX_ErrorNone, poolIn.length), (1, OMX_ErrorNone, poolOut.length),
         (1, OMX_ErrorNone, pool2.length), (1, rTO, nTO), (0, rTI, nTI)] ∧
      freedBufs (Decode.mainCalls C sched fuel w samples) =
        freedBufs (beforeMarker (Decode.mainCalls C sched fuel w samples)) ++ FO ++ FI ∧
      ((rTO ≠ OMX_ErrorNone ∧ FO = []) ∨
        (rTO = OMX_ErrorNone ∧ nTO ≤ pool2.length ∧
          FO = (pool2.take nTO).map (fun b => (1, b)))) ∧
      ((rTI ≠ OMX_ErrorNone ∧ FI = []) ∨
        (rTI = OMX_ErrorNone ∧ nTI ≤ poolIn.length ∧
          FI = (poolIn.take nTI).map (fun b => (0, b)))) := by
  have hmain := Decode.returned_eq_ok _ h
  obtain ⟨poolIn, poolOut, pool2, dIn, dOut, dOut2, dTO, dTI, qa, qb, qc, rTO, rTI, T1, T2,
    tO, tI, _, _, _, hlI, hlO, hl2, htr, hct, hpq, _, hsk, ⟨_, hOa, hOq, hOf⟩,
    ⟨_, hIa, hIq, hIf⟩⟩ := Decode.main_skeleton C sched fuel w samples _ hmain
  have hT : Decode.mainCalls C sched fuel w samples =
      T1 ++ Call.store_port_disabled true :: T2 := by
    simp only [Decode.mainCalls, htr, List.append_assoc, List.drop_left]
    rfl
  have hno : ∀ c ∈ T1, c.isMarkerStore = false := by
    intro c hc
    by_contra hcon
    have hc1 : c = Call.store_port_disabled true := by
      cases c with
      | store_port_disabled v =>
        cases v with
        | true => rfl
        | false => exact absurd rfl hcon
      | _ => exact absurd rfl hcon
    subst hc1
    have hc2 := (mem_controlTrace (Call.store_port_disabled true) T1 rfl).mpr hc
    rw [hct] at hc2
    simp at hc2
  have hbm : beforeMarker (Decode.mainCalls C sched fuel w samples) = T1 := by
    rw [hT]; exact beforeMarker_append_store T1 T2 hno
  have hA1 : allocatedBufs T1 =
      poolIn.map (fun b => (0, b)) ++ poolOut.map (fun b => (1, b)) := by
    rw [← allocatedBufs_controlTrace, hct]
    simp only [allocatedBufs_append, allocatedBufs_map_alloc]
    simp [allocatedBufs, Call.allocated]
  have hA2 : allocatedBufs T2 = pool2.map (fun b => (1, b)) := by
    rw [← allocatedBufs_skeleton, hsk]
    simp only [allocatedBufs_append, allocatedBufs_map_alloc, hOa, hIa]
    simp [allocatedBufs, Call.allocated]
  have hQ2 : portQueries T2 =
      [(1, OMX_ErrorNone, dOut2.nBufferCountActual), (1, rTO, dTO.nBufferCountActual),
       (0, rTI, dTI.nBufferCountActual)] := by
    rw [← portQueries_skeleton, hsk]
    simp only [portQueries_append, portQueries_map_alloc, hOq, hIq]
    simp [portQueries, portQuery]
  have hF2 : freedBufs T2 = freedBufs tO ++ freedBufs tI := by
    rw [← freedBufs_skeleton, hsk]
    simp only [freedBufs_append, freedBufs_map_alloc]
    simp [freedBufs, Call.freed]
  have hsplit : ∀ (T : List Call), T1 ++ Call.store_port_disabled true :: T =
      T1 ++ ([Call.store_port_disabled true] ++ T) := fun _ => rfl
  refine ⟨poolIn, poolOut, pool2, qa.nBufferCountActual, qb.nBufferCountActual,
    qc.nBufferCountActual, dTO.nBufferCountActual, dTI.nBufferCountActual, rTO, rTI,
    freedBufs tO, freedBufs tI, ?_, ?_, ?_, ?_, hOf, hIf⟩
  · rw [hT, hsplit, allocatedBufs_append, allocatedBufs_append, hA1, hA2]
    simp [allocatedBufs, Call.allocated]
  · rw [hbm, hA1]
  · rw [hT, hsplit, portQueries_append, portQueries_append, hpq, hQ2, hlI, hlO, hl2]
    simp [portQueries]
  · rw [hbm, hT, hsplit, freedBufs_append, freedBufs_append, hF2]
    simp [freedBufs, Call.freed]

theorem Encode.encoder_returned_eq_ok (r : Except (Fault × Encode.MainState σ) (Encode.MainState σ))
    (h : Encode.returned r = true) : r = .ok (Encode.finalState r) := by
  cases r with
  | ok s => rfl
  | error x => simp [Encode.returned] at h

/-- The accounts of a successful run of the encoder's `main`: what was
allocated, the eight port-definition queries, and the frees, which are those of
the teardown of port 1 (`FO`) and of port 0 (`FI`). -/
theorem Encode.encoder_main_accounts (C : Component σ) (sched : Nat → List Encode.Event)
    (fuel : Nat) (w : World σ) (p_in_file : Option FILE)
    (h : Encode.returned (Encode.main C sched fuel w p_in_file) = true) :
    ∃ (poolIn poolOut : List BufPtr) (nA nB nC nD nTO nTI : OMX_U32)
      (rTO rTI : OMX_ERRORTYPE) (FO FI : List (OMX_U32 × BufPtr)),
      allocatedBufs (Encode.mainCalls C sched fuel w p_in_file) =
        poolIn.map (fun b => (0, b)) ++ poolOut.map (fun b => (1, b)) ∧
      portQueries (Encode.mainCalls C sched fuel w p_in_file) =
        [(0, OMX_ErrorNone, nA), (0, OMX_ErrorNone, nB), (1, OMX_ErrorNone, nC),
         (1, OMX_ErrorNone, nD), (0, OMX_ErrorNone, poolIn.length),
         (1, OMX_ErrorNone, poolOut.length), (1, rTO, nTO), (0, rTI, nTI)] ∧
      freedBufs (Encode.mainCalls C sched fuel w p_in_file) = FO ++ FI ∧
      ((rTO ≠ OMX_ErrorNone ∧ FO = []) ∨
        (rTO = OMX_ErrorNone ∧ nTO ≤ poolOut.length ∧
          FO = (poolOut.take nTO).map (fun b => (1, b)))) ∧
      ((rTI ≠ OMX_ErrorNone ∧ FI = []) ∨
        (rTI = OMX_ErrorNone ∧ nTI ≤ poolIn.length ∧
          FI = (poolIn.take nTI).map (fun b => (0, b)))) := by
  have hmain := Encode.encoder_returned_eq_ok _ h
  obtain ⟨poolIn, poolOut, dIn, dOut, dTO, dTI, qa, qb, qc, qd, rTO, rTI, T, tO, tI,
    _, _, hlI, hlO, htr, hsk, ⟨_, hOa, hOq, hOf⟩, ⟨_, hIa, hIq, hIf⟩⟩ :=
    Encode.encoder_main_skeleton C sched fuel w p_in_file _ hmain
  have hT : Encode.mainCalls C sched fuel w p_in_file = T := by
    simp only [Encode.mainCalls, htr, List.drop_left]
  refine ⟨poolIn, poolOut, qa.nBufferCountActual, qb.nBufferCountActual,
    qc.nBufferCountActual, qd.nBufferCountActual, dTO.nBufferCountActual,
    dTI.nBufferCountActual, rTO, rTI, freedBufs tO, freedBufs tI, ?_, ?_, ?_, hOf, hIf⟩
  · rw [hT, ← allocatedBufs_skeleton, hsk]
    simp only [allocatedBufs_append, allocatedBufs_map_alloc, hOa, hIa]
    simp [allocatedBufs, Call.allocated]
  · rw [hT, ← portQueries_skeleton, hsk]
    simp only [portQueries_append, portQueries_map_alloc, hOq, hIq, hlI, hlO]
    simp [portQueries, portQuery]
  · rw [hT, ← freedBufs_skeleton, hsk]
    simp only [freedBufs_append, freedBufs_map_alloc]
    simp [freedBufs, Call.freed]

/-- C4 (the claim fails): a run of the decoder's `main` that returns 0 and never
frees the input headers 1 and 2.  The component answers the port-definition
query of the teardown of port 0 with an error, and `omx_dealloc_all_port_bufs`
then frees nothing. -/
theorem decoder_teardown_query_failure_leaks :
    Decode.returned (Decode.main (sim ⟨20, 7, 3⟩) simSched 5 simWorld simSamples) = true ∧
    allocatedBufs (Decode.mainCalls (sim ⟨20, 7, 3⟩) simSched 5 simWorld simSamples) =
      [(0, 1), (0, 2), (1, 3), (1, 4), (1, 5), (1, 6), (1, 7), (1, 8)] ∧
    freedBufs (Decode.mainCalls (sim ⟨20, 7, 3⟩) simSched 5 simWorld simSamples) =
      [(1, 3), (1, 4), (1, 5), (1, 6), (1, 7), (1, 8)] := by
  decide

/-- C4 (amended): in a run of the decoder's `main` that returns, if the frees
made before `port_disabled` is set (those of the filled callback) are, up to
order, the output headers allocated until then, and if for each port the last
port-definition query (the one of the teardown) succeeds and reports the
`nBufferCountActual` of the query before it on that port (the one with which
the port's current pool was allocated), then the `(port, header)` pairs passed
to `OMX_FreeBuffer` during the run are, up to order and with multiplicity, the
pairs obtained from `OMX_AllocateBuffer`.  The same holds for a run of the
encoder's `main` that returns, under the condition on the last queries alone. -/
theorem successful_runs_free_each_buffer_once (C : Component σ)
    (schedD : Nat → List Decode.Event) (schedE : Nat → List Encode.Event) (fuel : Nat)
    (wD wE : World σ) (samples : List (List Nat)) (p_in_file : Option FILE) :
    (Decode.returned (Decode.main C schedD fuel wD samples) = true →
      (freedBufs (beforeMarker (Decode.mainCalls C schedD fuel wD samples))).Perm
        ((allocatedBufs (beforeMarker (Decode.mainCalls C schedD fuel wD samples))).filter
          (fun x => decide (x.1 = 1))) →
      lastQueryAgrees (Decode.mainCalls C schedD fuel wD samples) 0 = true →
      lastQueryAgrees (Decode.mainCalls C schedD fuel wD samples) 1 = true →
      (freedBufs (Decode.mainCalls C schedD fuel wD samples)).Perm
        (allocatedBufs (Decode.mainCalls C schedD fuel wD samples))) ∧
    (Encode.returned (Encode.main C schedE fuel wE p_in_file) = true →
      lastQueryAgrees (Encode.mainCalls C schedE fuel wE p_in_file) 0 = true →
      lastQueryAgrees (Encode.mainCalls C schedE fuel wE p_in_file) 1 = true →
      (freedBufs (Encode.mainCalls C schedE fuel wE p_in_file)).Perm
        (allocatedBufs (Encode.mainCalls C schedE fuel wE p_in_file))) := by
  constructor
  · intro hret hcb h0 h1
    obtain ⟨poolIn, poolOut, pool2, nA, nB, nC, nTO, nTI, rTO, rTI, FO, FI, hA, hA1, hQ, hF,
      hFO, hFI⟩ := Decode.main_accounts C schedD fuel wD samples hret
    simp [lastQueryAgrees, hQ] at h0 h1
    obtain ⟨hr0, hn0⟩ := h0
    obtain ⟨hr1, hn1⟩ := h1
    have eFO : FO = pool2.map (fun b => (1, b)) := by
      rcases hFO with ⟨hne, _⟩ | ⟨_, _, e⟩
      · exact absurd hr1 hne
      · rw [e, hn1, List.take_length]
    have eFI : FI = poolIn.map (fun b => (0, b)) := by
      rcases hFI with ⟨hne, _⟩ | ⟨_, _, e⟩
      · exact absurd hr0 hne
      · rw [e, hn0, List.take_length]
    have e1 : (poolIn.map (fun b => ((0 : OMX_U32), b)) ++ poolOut.map (fun b => (1, b))).filter
        (fun x => decide (x.1 = 1)) = poolOut.map (fun b => (1, b)) := by
      rw [List.filter_append, filter_port_map_ne 0 1 (by decide), filter_port_map_same]
      rfl
    rw [hA1, e1] at hcb
    rw [hF, hA, eFO, eFI]
    refine (((hcb.append_right _).append_right _).trans ?_)
    rw [List.append_assoc (poolIn.map _)]
    exact List.perm_append_comm
  · intro hret h0 h1
    obtain ⟨poolIn, poolOut, nA, nB, nC, nD, nTO, nTI, rTO, rTI, FO, FI, hA, hQ, hF,
      hFO, hFI⟩ := Encode.encoder_main_accounts C schedE fuel wE p_in_file hret
    simp [lastQueryAgrees, hQ] at h0 h1
    obtain ⟨hr0, hn0⟩ := h0
    obtain ⟨hr1, hn1⟩ := h1
    have eFO : FO = poolOut.map (fun b => (1, b)) := by
      rcases hFO with ⟨hne, _⟩ | ⟨_, _, e⟩
      · exact absurd hr1 hne
      · rw [e, hn1, List.take_length]
    have eFI : FI = poolIn.map (fun b => (0, b)) := by
      rcases hFI with ⟨hne, _⟩ | ⟨_, _, e⟩
      · exact absurd hr0 hne
      · rw [e, hn0, List.take_length]
    rw [hF, hA, eFO, eFI]
    exact List.perm_append_comm

/-- C4 (amended, witness): the simulated decoder run and the simulated encoder
run, with a component that answers every query: both return, the conditions
hold, and what was freed is what was allocated. -/
theorem successful_runs_free_each_buffer_once_witness :
    (Decode.returned (Decode.main (sim ⟨20, 20, 3⟩) simSched 5 simWorld simSamples) = true ∧
      (freedBufs (beforeMarker
          (Decode.mainCalls (sim ⟨20, 20, 3⟩) simSched 5 simWorld simSamples))).Perm
        ((allocatedBufs (beforeMarker
          (Decode.mainCalls (sim ⟨20, 20, 3⟩) simSched 5 simWorld simSamples))).filter
          (fun x => decide (x.1 = 1))) ∧
      lastQueryAgrees
        (Decode.mainCalls (sim ⟨20, 20, 3⟩) simSched 5 simWorld simSamples) 0 = true ∧
      lastQueryAgrees
        (Decode.mainCalls (sim ⟨20, 20, 3⟩) simSched 5 simWorld simSamples) 1 = true) ∧
    (Encode.returned (Encode.main (sim ⟨20, 20, 3⟩) simSchedEnc 5 simWorldEnc
        (some (zeroFile 921600))) = true ∧
      lastQueryAgrees (Encode.mainCalls (sim ⟨20, 20, 3⟩) simSchedEnc 5 simWorldEnc
        (some (zeroFile 921600))) 0 = true ∧
      lastQueryAgrees (Encode.mainCalls (sim ⟨20, 20, 3⟩) simSchedEnc 5 simWorldEnc
        (some (zeroFile 921600))) 1 = true) ∧
    (freedBufs (Decode.mainCalls (sim ⟨20, 20, 3⟩) simSched 5 simWorld simSamples)).Perm
      (allocatedBufs (Decode.mainCalls (sim ⟨20, 20, 3⟩) simSched 5 simWorld simSamples)) ∧
    (freedBufs (Encode.mainCalls (sim ⟨20, 20, 3⟩) simSchedEnc 5 simWorldEnc
        (some (zeroFile 921600)))).Perm
      (allocatedBufs (Encode.mainCalls (sim ⟨20, 20, 3⟩) simSchedEnc 5 simWorldEnc
        (some (zeroFile 921600)))) :=
  ⟨⟨by decide, by decide, by decide, by decide⟩, ⟨by decide, by decide, by decide⟩,
    (successful_runs_free_each_buffer_once (sim ⟨20, 20, 3⟩) simSched simSchedEnc 5
      simWorld simWorldEnc simSamples (some (zeroFile 921600))).1
      (by decide) (by decide) (by decide) (by decide),
    (successful_runs_free_each_buffer_once (sim ⟨20, 20, 3⟩) simSched simSchedEnc 5
      simWorld simWorldEnc simSamples (some (zeroFile 921600))).2
      (by decide) (by decide) (by decide)⟩

/-! ## The start-up feed loops -/

theorem emptiedBufs_append (a b : List Call) :
    emptiedBufs (a ++ b) = emptiedBufs a ++ emptiedBufs b := by
  simp [emptiedBufs, List.filterMap_append]

/-- The world `omx_empty_buffer` hands to `OMX_EmptyThisBuffer` when the input
file is at its end (the end-of-file indicator is set, or fewer than `len` bytes
are left): the trace and the component are those of `w`, and the header of
`p_buf` has `nFilledLen = 0` and the EOS flag. -/
theorem Encode.omx_empty_buffer_at_end (C : Component σ) (w : World σ) (file : FILE)
    (p_buf : BufPtr) (len : Nat) (hp : p_buf ≠ NULL)
    (hlen : len ≤ (w.heap p_buf).nAllocLen)
    (hend : file.eof = true ∨ file.size - file.pos < len) :
    ∃ (hdr : OMX_BUFFERHEADERTYPE) (file1 : FILE) (hp1 : World σ),
      hdr.nFilledLen = 0 ∧ hdr.nFlags = OMX_BUFFERFLAG_EOS ∧ file1.eof = true ∧
      hp1.heap p_buf = hdr ∧
      (Encode.omx_empty_buffer C w (some file) p_buf len).2 =
        { hp1 with
            trace := w.trace ++ [Call.OMX_EmptyThisBuffer p_buf hdr
              (C.emptyThisBuffer w.comp p_buf hdr).1],
            comp := (C.emptyThisBuffer w.comp p_buf hdr).2 } ∧
      (Encode.omx_empty_buffer C w (some file) p_buf len).1 =
        (if (C.emptyThisBuffer w.comp p_buf hdr).1 = OMX_ErrorNone
          then .ok (OMX_BUFFERFLAG_EOS, file1) else .error Fault.assertion) := by
  by_cases heof : file.eof = true
  · refine ⟨{ w.heap p_buf with nFilledLen := 0, nFlags := OMX_BUFFERFLAG_EOS }, file,
      { w with heap := (Function.update w.heap p_buf
        { w.heap p_buf with nFilledLen := 0, nFlags := OMX_BUFFERFLAG_EOS }) },
      rfl, rfl, heof, by simp, ?_, ?_⟩
    · simp only [Encode.omx_empty_buffer, hp, hlen, Encode.feof, heof, if_true, if_false,
        not_true_eq_false, OMX_EmptyThisBuffer, World.log, Function.update_same]
      split_ifs <;> rfl
    · simp only [Encode.omx_empty_buffer, hp, hlen, Encode.feof, heof, if_true, if_false,
        not_true_eq_false, OMX_EmptyThisBuffer, World.log, Function.update_same]
      split_ifs <;> simp
  · have hshort : file.size - file.pos < len := by
      rcases hend with h | h
      · exact absurd h heof
      · exact h
    have hmin : min len (file.size - file.pos) = file.size - file.pos :=
      Nat.min_eq_right (Nat.le_of_lt hshort)
    have hne : ¬ (file.size - file.pos = len) := Nat.ne_of_lt hshort
    have heof2 : file.eof = false := by simpa using heof
    refine ⟨{ w.heap p_buf with
        pBuffer := (List.range (file.size - file.pos)).map
            (fun i => file.byte (file.pos + i)) ++
          (w.heap p_buf).pBuffer.drop (file.size - file.pos),
        nFilledLen := 0, nFlags := OMX_BUFFERFLAG_EOS },
      { file with pos := file.pos + (file.size - file.pos), eof := true },
      { w with heap := (Function.update w.heap p_buf
        { w.heap p_buf with
          pBuffer := (List.range (file.size - file.pos)).map
              (fun i => file.byte (file.pos + i)) ++
            (w.heap p_buf).pBuffer.drop (file.size - file.pos),
          nFilledLen := 0, nFlags := OMX_BUFFERFLAG_EOS }) },
      rfl, rfl, rfl, by simp, ?_, ?_⟩
    · simp only [Encode.omx_empty_buffer, hp, hlen, Encode.feof, heof2, Encode.fread, hmin,
        hne, hshort, if_true, if_false, not_true_eq_false, OMX_EmptyThisBuffer, World.log,
        Function.update_same, Bool.false_eq_true, Bool.false_or, decide_True]
      split_ifs <;> rfl
    · simp only [Encode.omx_empty_buffer, hp, hlen, Encode.feof, heof2, Encode.fread, hmin,
        hne, hshort, if_true, if_false, not_true_eq_false, OMX_EmptyThisBuffer, World.log,
        Function.update_same, Bool.false_eq_true, Bool.false_or, decide_True]
      split_ifs <;> simp

/-- C11 (the code when the input ends at the very first feed call).  Decoder:
with an empty appsink the start-up loop of `main` marks the first input header
(`nFilledLen = 0`, flag EOS) and leaves the loop before `OMX_EmptyThisBuffer`:
it makes no call at all, so no input buffer is submitted.  Encoder: with the
input file at its end (indicator set, or less than a frame left) the start-up
loop makes exactly one call, `OMX_EmptyThisBuffer` on the first input header
with `nFilledLen = 0` and the EOS flag. -/
theorem startup_feed_on_immediate_end_of_input (C : Component σ) (w : World σ)
    (arr : List BufPtr) (p : BufPtr) (remaining : Nat) (file : FILE)
    (h0 : arr[0]? = some p) (hp : p ≠ NULL)
    (hlen : Encode.NV12_FRAME_SIZE_IN_BYTES ≤ (w.heap p).nAllocLen)
    (hend : file.eof = true ∨
      file.size - file.pos < Encode.NV12_FRAME_SIZE_IN_BYTES) :
    ((Decode.main_feed_loop C (some arr) (remaining + 1) 0 w []).1 = .ok [] ∧
      (Decode.main_feed_loop C (some arr) (remaining + 1) 0 w []).2.trace = w.trace ∧
      ((Decode.main_feed_loop C (some arr) (remaining + 1) 0 w []).2.heap p).nFilledLen = 0 ∧
      ((Decode.main_feed_loop C (some arr) (remaining + 1) 0 w []).2.heap p).nFlags
        = OMX_BUFFERFLAG_EOS) ∧
    ((∃ hdr ret,
        (Encode.main_feed_loop C (some arr) (remaining + 1) 0 w (some file)).2.trace =
          w.trace ++ [Call.OMX_EmptyThisBuffer p hdr ret]) ∧
      emptiedBufs ((Encode.main_feed_loop C (some arr) (remaining + 1) 0 w
          (some file)).2.trace.drop w.trace.length) = [(p, 0, OMX_BUFFERFLAG_EOS)]) := by
  constructor
  · have hb : Nat.land OMX_BUFFERFLAG_EOS OMX_BUFFERFLAG_EOS ≠ 0 := by decide
    simp [Decode.main_feed_loop, h0, hp, Decode.setup_in_buf, hb]
  · obtain ⟨hdr, file1, hp1, hf, hfl, _, _, hw, hr⟩ :=
      Encode.omx_empty_buffer_at_end C w file p Encode.NV12_FRAME_SIZE_IN_BYTES hp hlen hend
    have hb : Nat.land OMX_BUFFERFLAG_EOS OMX_BUFFERFLAG_EOS ≠ 0 := by decide
    have key : (Encode.main_feed_loop C (some arr) (remaining + 1) 0 w (some file)).2.trace =
        w.trace ++ [Call.OMX_EmptyThisBuffer p hdr (C.emptyThisBuffer w.comp p hdr).1] := by
      simp only [Encode.main_feed_loop, h0]
      rcases hres : Encode.omx_empty_buffer C w (some file) p
        Encode.NV12_FRAME_SIZE_IN_BYTES with ⟨r, w1⟩
      have hw1 : w1 = (Encode.omx_empty_buffer C w (some file) p
          Encode.NV12_FRAME_SIZE_IN_BYTES).2 := by rw [hres]
      have hr1 : r = (Encode.omx_empty_buffer C w (some file) p
          Encode.NV12_FRAME_SIZE_IN_BYTES).1 := by rw [hres]
      rw [hr] at hr1
      rw [hw] at hw1
      by_cases hacc : (C.emptyThisBuffer w.comp p hdr).1 = OMX_ErrorNone
      · rw [if_pos hacc] at hr1
        subst hr1
        simp only [hb, if_true, ne_eq, not_false_eq_true]
        rw [hw1]
      · rw [if_neg hacc] at hr1
        subst hr1
        simp only
        rw [hw1]
    refine ⟨⟨hdr, _, key⟩, ?_⟩
    rw [key, List.drop_left]
    simp [emptiedBufs, hf, hfl]

/-- C11 (witness): the pools `[1, 2]` of a simulated run, an empty appsink for
the decoder and an input file of 100 bytes for the encoder.  The last two
facts are about the whole of the decoder's `main` with an empty appsink and a
component that raises no event: no input buffer is ever submitted and `main`
stays blocked in a `sem_wait`. -/
theorem startup_feed_on_immediate_end_of_input_witness :
    (([1, 2] : List BufPtr)[0]? = some 1 ∧ (1 : BufPtr) ≠ NULL ∧
      Encode.NV12_FRAME_SIZE_IN_BYTES ≤ (simWorldEnc.heap 1).nAllocLen ∧
      ((zeroFile 100).eof = true ∨
        (zeroFile 100).size - (zeroFile 100).pos < Encode.NV12_FRAME_SIZE_IN_BYTES)) ∧
    (Decode.main_feed_loop (sim ⟨20, 20, 3⟩) (some [1, 2]) 2 0 simWorldEnc []).2.trace
      = simWorldEnc.trace ∧
    emptiedBufs ((Encode.main_feed_loop (sim ⟨20, 20, 3⟩) (some [1, 2]) 2 0 simWorldEnc
      (some (zeroFile 100))).2.trace.drop simWorldEnc.trace.length)
        = [(1, 0, OMX_BUFFERFLAG_EOS)] ∧
    Decode.faultOf (Decode.main (sim ⟨20, 20, 3⟩) (fun _ => []) 5 simWorld [])
      = some Fault.blocked ∧
    emptiedBufs (Decode.mainCalls (sim ⟨20, 20, 3⟩) (fun _ => []) 5 simWorld []) = [] :=
  ⟨⟨by decide, by decide, by decide, by decide⟩,
    (startup_feed_on_immediate_end_of_input (sim ⟨20, 20, 3⟩) simWorldEnc [1, 2] 1 1
      (zeroFile 100) (by decide) (by decide) (by decide) (by decide)).1.2.1,
    (startup_feed_on_immediate_end_of_input (sim ⟨20, 20, 3⟩) simWorldEnc [1, 2] 1 1
      (zeroFile 100) (by decide) (by decide) (by decide) (by decide)).2.2,
    by decide, by decide⟩

/-! ## The drained callbacks once the input is exhausted -/

/-- `omx_empty_buffer`, when it returns: it has made one `OMX_EmptyThisBuffer`
call, and if the header it submitted carries the EOS flag, the end-of-file
indicator of the input file is set afterwards. -/
theorem Encode.omx_empty_buffer_eos_eof (C : Component σ) (w w1 : World σ)
    (p_file : Option FILE) (p_buf : BufPtr) (len : Nat) (r : OMX_U32 × FILE)
    (h : Encode.omx_empty_buffer C w p_file p_buf len = (.ok r, w1)) :
    ∃ hdr ret, w1.trace = w.trace ++ [Call.OMX_EmptyThisBuffer p_buf hdr ret] ∧
      (hdr.nFlags = OMX_BUFFERFLAG_EOS → r.2.eof = true) := by
  have key : ∀ (wr : World σ) (x : FILE), wr.trace = w.trace →
      ((wr.heap p_buf).nFlags = OMX_BUFFERFLAG_EOS → x.eof = true) →
      (match OMX_EmptyThisBuffer C wr p_buf with
        | (err, w2) =>
          if err = OMX_ErrorNone then
            ((.ok ((w2.heap p_buf).nFlags, x), w2) : Outcome σ (OMX_U32 × FILE))
          else (.error Fault.assertion, w2)) = (.ok r, w1) →
      ∃ hdr ret, w1.trace = w.trace ++ [Call.OMX_EmptyThisBuffer p_buf hdr ret] ∧
        (hdr.nFlags = OMX_BUFFERFLAG_EOS → r.2.eof = true) := by
    intro wr x hwr hx hk
    simp only [OMX_EmptyThisBuffer] at hk
    split_ifs at hk with h1
    · simp only [Prod.mk.injEq, Except.ok.injEq] at hk
      obtain ⟨rfl, rfl⟩ := hk
      exact ⟨wr.heap p_buf, (C.emptyThisBuffer wr.comp p_buf (wr.heap p_buf)).1,
        by simp [World.log, hwr], hx⟩
    · simp at hk
  by_cases h1 : p_buf = NULL
  · simp [Encode.omx_empty_buffer, h1] at h
  · cases p_file with
    | none => simp [Encode.omx_empty_buffer, h1] at h
    | some file =>
      by_cases h2 : len ≤ (w.heap p_buf).nAllocLen
      · simp only [Encode.omx_empty_buffer, h1, h2, if_false, not_true_eq_false] at h
        refine key _ _ ?_ ?_ h
        · simp only [Encode.fread]
          split_ifs <;> rfl
        · simp only [Encode.fread, Encode.feof]
          by_cases hf : file.eof = true
          · simp [hf]
          · by_cases hb : min len (file.size - file.pos) = len
            · simp [hf, hb, OMX_BUFFERFLAG_EOS, OMX_BUFFERFLAG_ENDOFFRAME]
            · have hlt : min len (file.size - file.pos) < len :=
                lt_of_le_of_ne (Nat.min_le_left _ _) hb
              simp [hf, hb, hlt]
      · simp [Encode.omx_empty_buffer, h1, h2] at h

/-- C12 (the claim fails): the drained callback is delivered three times (for
headers 1, 1 and 2) while `eos` is false and the input is exhausted (decoder:
empty appsink; encoder: the one frame of the file has been read).  Each of the
three callbacks submits an EOS-flagged empty buffer, in both applications. -/
theorem drained_callback_resubmits_after_eos_buffer :
    emptiedBufs (Decode.finalState (Decode.deliverAll (sim ⟨20, 20, 3⟩)
        [Decode.Event.EmptyBufferDone 1, Decode.Event.EmptyBufferDone 1,
          Decode.Event.EmptyBufferDone 2]
        (Decode.main_init simWorld []))).w.trace
      = [(1, 0, OMX_BUFFERFLAG_EOS), (1, 0, OMX_BUFFERFLAG_EOS), (2, 0, OMX_BUFFERFLAG_EOS)] ∧
    emptiedBufs (Encode.finalState (Encode.deliverAll (sim ⟨20, 20, 3⟩)
        [Encode.Event.EmptyBufferDone 1, Encode.Event.EmptyBufferDone 1,
          Encode.Event.EmptyBufferDone 2]
        (Encode.main_init simWorldEnc
          (some { zeroFile 460800 with pos := 460800 })))).w.trace
      = [(1, 0, OMX_BUFFERFLAG_EOS), (1, 0, OMX_BUFFERFLAG_EOS), (2, 0, OMX_BUFFERFLAG_EOS)] := by
  decide

/-- C12 (amended): resubmission by the drained callback stops only when `eos`
is set.  Decoder: a drained callback that submitted an EOS-flagged empty buffer
leaves the appsink empty and `eos` as it was; and every drained callback
delivered with an empty appsink, `eos` false and a non-null header `q` submits
`q` again with `nFilledLen = 0` and the EOS flag and, when the component
accepts it, leaves the shared data unchanged.  Encoder: the same, with "the
end-of-file indicator of the input file is set" in place of "the appsink is
empty" and for a header with room for a frame. -/
theorem drained_callback_resubmits_until_eos (C : Component σ) :
    ((∀ (w w1 : World σ) (d d1 : Decode.omx_data_t) (p : BufPtr) (r : OMX_ERRORTYPE),
        Decode.omx_empty_buffer_done C w (some d) p = (.ok (r, d1), w1) →
        emptiedBufs (w1.trace.drop w.trace.length) = [(p, 0, OMX_BUFFERFLAG_EOS)] →
        d1.p_appsink = [] ∧ d1.eos = d.eos) ∧
      (∀ (w : World σ) (d : Decode.omx_data_t) (q : BufPtr),
        d.p_appsink = [] → d.eos = false → q ≠ NULL →
        emptiedBufs ((Decode.omx_empty_buffer_done C w (some d) q).2.trace.drop
          w.trace.length) = [(q, 0, OMX_BUFFERFLAG_EOS)] ∧
        ((C.emptyThisBuffer w.comp q
            { w.heap q with nFlags := OMX_BUFFERFLAG_EOS, nFilledLen := 0 }).1
            = OMX_ErrorNone →
          (Decode.omx_empty_buffer_done C w (some d) q).1 = .ok (OMX_ErrorNone, d)))) ∧
    ((∀ (w w1 : World σ) (e e1 : Encode.omx_data_t) (p : BufPtr) (r : OMX_ERRORTYPE),
        Encode.omx_empty_buffer_done C w (some e) p = (.ok (r, e1), w1) →
        emptiedBufs (w1.trace.drop w.trace.length) = [(p, 0, OMX_BUFFERFLAG_EOS)] →
        (∃ f1, e1.p_in_file = some f1 ∧ f1.eof = true) ∧ e1.eos = e.eos) ∧
      (∀ (w : World σ) (e : Encode.omx_data_t) (f : FILE) (q : BufPtr),
        e.p_in_file = some f → f.eof = true → e.eos = false → q ≠ NULL →
        Encode.NV12_FRAME_SIZE_IN_BYTES ≤ (w.heap q).nAllocLen →
        emptiedBufs ((Encode.omx_empty_buffer_done C w (some e) q).2.trace.drop
          w.trace.length) = [(q, 0, OMX_BUFFERFLAG_EOS)] ∧
        ((C.emptyThisBuffer w.comp q
            { w.heap q with nFilledLen := 0, nFlags := OMX_BUFFERFLAG_EOS }).1
            = OMX_ErrorNone →
          (Encode.omx_empty_buffer_done C w (some e) q).1 = .ok (OMX_ErrorNone, e)))) := by
  refine ⟨⟨?_, ?_⟩, ⟨?_, ?_⟩⟩
  · intro w w1 d d1 p r h hem
    by_cases he : d.eos = false
    swap
    · exfalso
      simp [Decode.omx_empty_buffer_done, he] at h
      obtain ⟨_, rfl⟩ := h
      simp [World.printf, emptiedBufs] at hem
    by_cases hp : p = NULL
    · exfalso
      simp [Decode.omx_empty_buffer_done, he, hp] at h
      obtain ⟨_, rfl⟩ := h
      simp [World.printf, emptiedBufs] at hem
    cases hs : d.p_appsink with
    | nil =>
      by_cases hacc : (C.emptyThisBuffer w.comp p
          { w.heap p with nFlags := OMX_BUFFERFLAG_EOS, nFilledLen := 0 }).1 = OMX_ErrorNone
      · simp [Decode.omx_empty_buffer_done, he, hp, hs, Decode.setup_in_buf,
          OMX_EmptyThisBuffer, World.log, hacc] at h
        obtain ⟨⟨_, rfl⟩, _⟩ := h
        exact ⟨rfl, he.symm⟩
      · simp [Decode.omx_empty_buffer_done, he, hp, hs, Decode.setup_in_buf,
          OMX_EmptyThisBuffer, World.log, hacc] at h
    | cons sample rest =>
      exfalso
      by_cases hacc : (C.emptyThisBuffer w.comp p
          { w.heap p with
              pBuffer := sample ++ (w.heap p).pBuffer.drop sample.length,
              nFilledLen := sample.length,
              nFlags := OMX_BUFFERFLAG_ENDOFFRAME }).1 = OMX_ErrorNone
      · simp [Decode.omx_empty_buffer_done, he, hp, hs, Decode.setup_in_buf,
          OMX_EmptyThisBuffer, World.log, hacc] at h
        obtain ⟨_, rfl⟩ := h
        simp [World.printf, emptiedBufs, OMX_BUFFERFLAG_EOS,
          OMX_BUFFERFLAG_ENDOFFRAME] at hem
      · simp [Decode.omx_empty_buffer_done, he, hp, hs, Decode.setup_in_buf,
          OMX_EmptyThisBuffer, World.log, hacc] at h
  · intro w d q hs he hq
    constructor
    · by_cases hacc : (C.emptyThisBuffer w.comp q
          { w.heap q with nFlags := OMX_BUFFERFLAG_EOS, nFilledLen := 0 }).1 = OMX_ErrorNone
      · simp [Decode.omx_empty_buffer_done, he, hq, hs, Decode.setup_in_buf,
          OMX_EmptyThisBuffer, World.log, World.printf, hacc, emptiedBufs]
      · simp [Decode.omx_empty_buffer_done, he, hq, hs, Decode.setup_in_buf,
          OMX_EmptyThisBuffer, World.log, World.printf, hacc, emptiedBufs]
    · intro hacc
      simp [Decode.omx_empty_buffer_done, he, hq, hs, Decode.setup_in_buf,
        OMX_EmptyThisBuffer, World.log, hacc]
      cases d
      simp_all
  · intro w w1 e e1 p r h hem
    by_cases he : e.eos = false
    swap
    · exfalso
      simp [Encode.omx_empty_buffer_done, he] at h
      obtain ⟨_, rfl⟩ := h
      simp [World.printf, emptiedBufs] at hem
    simp only [Encode.omx_empty_buffer_done, he, if_true] at h
    split at h
    · rename_i fl file1 w2 hemp
      simp only [Prod.mk.injEq, Except.ok.injEq] at h
      obtain ⟨⟨_, rfl⟩, rfl⟩ := h
      obtain ⟨hdr, ret, ht, himp⟩ := Encode.omx_empty_buffer_eos_eof C _ _ _ _ _ _ hemp
      simp only [World.printf, ht, List.drop_left, emptiedBufs, List.filterMap_cons,
        List.filterMap_nil, List.cons.injEq, Prod.mk.injEq, and_true, true_and] at hem
      exact ⟨⟨file1, rfl, himp hem.2⟩, he.symm⟩
    · simp at h
  · intro w e f q hf heof he hq hlen
    constructor
    · by_cases hacc : (C.emptyThisBuffer w.comp q
          { w.heap q with nFilledLen := 0, nFlags := OMX_BUFFERFLAG_EOS }).1 = OMX_ErrorNone
      · simp [Encode.omx_empty_buffer_done, he, hf, Encode.omx_empty_buffer, hq, hlen,
          Encode.feof, heof, OMX_EmptyThisBuffer, World.log, World.printf, emptiedBufs, hacc]
      · simp [Encode.omx_empty_buffer_done, he, hf, Encode.omx_empty_buffer, hq, hlen,
          Encode.feof, heof, OMX_EmptyThisBuffer, World.log, World.printf, emptiedBufs, hacc]
    · intro hacc
      simp [Encode.omx_empty_buffer_done, he, hf, Encode.omx_empty_buffer, hq, hlen,
        Encode.feof, heof, OMX_EmptyThisBuffer, World.log, hacc]
      cases e
      simp_all

/-- C12 (amended, witness): the decoder's shared data with an empty appsink and
the encoder's with the input file read to its end; the drained callback for
header 2 submits it with `nFilledLen = 0` and the EOS flag. -/
theorem drained_callback_resubmits_until_eos_witness :
    ((Decode.omx_data_init []).p_appsink = [] ∧ (Decode.omx_data_init []).eos = false ∧
      (2 : BufPtr) ≠ NULL) ∧
    emptiedBufs ((Decode.omx_empty_buffer_done (sim ⟨20, 20, 3⟩) simWorld
        (some (Decode.omx_data_init [])) 2).2.trace.drop simWorld.trace.length)
      = [(2, 0, OMX_BUFFERFLAG_EOS)] ∧
    ((Encode.omx_data_init { zeroFile 460800 with pos := 460800, eof := true }).p_in_file
        = some { zeroFile 460800 with pos := 460800, eof := true } ∧
      ({ zeroFile 460800 with pos := 460800, eof := true } : FILE).eof = true ∧
      (Encode.omx_data_init { zeroFile 460800 with pos := 460800, eof := true }).eos = false ∧
      Encode.NV12_FRAME_SIZE_IN_BYTES ≤ (simWorldEnc.heap 2).nAllocLen) ∧
    emptiedBufs ((Encode.omx_empty_buffer_done (sim ⟨20, 20, 3⟩) simWorldEnc
        (some (Encode.omx_data_init { zeroFile 460800 with pos := 460800, eof := true }))
        2).2.trace.drop simWorldEnc.trace.length)
      = [(2, 0, OMX_BUFFERFLAG_EOS)] :=
  ⟨⟨rfl, rfl, by decide⟩,
    ((drained_callback_resubmits_until_eos (sim ⟨20, 20, 3⟩)).1.2 simWorld
      (Decode.omx_data_init []) 2 rfl rfl (by decide)).1,
    ⟨rfl, rfl, rfl, by decide⟩,
    ((drained_callback_resubmits_until_eos (sim ⟨20, 20, 3⟩)).2.2 simWorldEnc
      (Encode.omx_data_init { zeroFile 460800 with pos := 460800, eof := true })
      { zeroFile 460800 with pos := 460800, eof := true } 2 rfl rfl rfl (by decide)
      (by decide)).1⟩

/-! ## The filled callbacks in steady state -/

/-- C13 (the claim fails): the decoder's shared data as `main` initialises it
(no port-settings-changed event yet, stream not ended), header 3 filled with
three bytes.  The filled callback returns `OMX_ErrorNone` with nothing appended
to the sink, submits nothing, and passes header 3 to `OMX_FreeBuffer`. -/
theorem fill_buffer_done_before_settings_changed_frees :
    (Decode.omx_data_init []).eos = false ∧
    ((Decode.omx_fill_buffer_done (sim ⟨20, 20, 3⟩)
        { simWorld with heap := Function.update simWorld.heap 3 (filledHeader [7, 8, 9] 0) }
        (some (Decode.omx_data_init [])) 3).1.toOption.map (fun r => r.2.p_out_file))
      = some [] ∧
    filledBufs (Decode.omx_fill_buffer_done (sim ⟨20, 20, 3⟩)
        { simWorld with heap := Function.update simWorld.heap 3 (filledHeader [7, 8, 9] 0) }
        (some (Decode.omx_data_init [])) 3).2.trace = [] ∧
    freedBufs (Decode.omx_fill_buffer_done (sim ⟨20, 20, 3⟩)
        { simWorld with heap := Function.update simWorld.heap 3 (filledHeader [7, 8, 9] 0) }
        (some (Decode.omx_data_init [])) 3).2.trace = [(1, 3)] := by
  decide

/-- C13 (amended): a filled callback with a non-null buffer, delivered while the
stream has not ended and, in the decoder, while the port-disabled marker is
true (that is, after the output port has been reconfigured), makes exactly one
call, `OMX_FillThisBuffer` on that buffer with `nFilledLen` and `nFlags` reset
to 0 (so it frees nothing); the header is left reset; and when the component
accepts the buffer the callback returns `OMX_ErrorNone` with the first
`nFilledLen` bytes of the buffer appended to the sink and the rest of the
shared data unchanged (when it rejects it, the `assert` fails). -/
theorem fill_buffer_done_steady_state (C : Component σ) (w : World σ)
    (d : Decode.omx_data_t) (e : Encode.omx_data_t) (p : BufPtr) (hp : p ≠ NULL)
    (hd : d.eos = false) (hm : d.port_disabled = true) (he : e.eos = false) :
    ((Decode.omx_fill_buffer_done C w (some d) p).2.trace = w.trace ++
        [Call.OMX_FillThisBuffer p { w.heap p with nFlags := 0, nFilledLen := 0 }
          (C.fillThisBuffer w.comp p { w.heap p with nFlags := 0, nFilledLen := 0 }).1] ∧
      (Decode.omx_fill_buffer_done C w (some d) p).2.heap p =
        { w.heap p with nFlags := 0, nFilledLen := 0 } ∧
      (Decode.omx_fill_buffer_done C w (some d) p).1 =
        (if (C.fillThisBuffer w.comp p { w.heap p with nFlags := 0, nFilledLen := 0 }).1
            = OMX_ErrorNone then
          .ok (OMX_ErrorNone, { d with p_out_file :=
            d.p_out_file ++ (w.heap p).pBuffer.take (w.heap p).nFilledLen })
        else .error Fault.assertion)) ∧
    ((Encode.omx_fill_buffer_done C w (some e) p).2.trace = w.trace ++
        [Call.OMX_FillThisBuffer p { w.heap p with nFlags := 0, nFilledLen := 0 }
          (C.fillThisBuffer w.comp p { w.heap p with nFlags := 0, nFilledLen := 0 }).1] ∧
      (Encode.omx_fill_buffer_done C w (some e) p).2.heap p =
        { w.heap p with nFlags := 0, nFilledLen := 0 } ∧
      (Encode.omx_fill_buffer_done C w (some e) p).1 =
        (if (C.fillThisBuffer w.comp p { w.heap p with nFlags := 0, nFilledLen := 0 }).1
            = OMX_ErrorNone then
          .ok (OMX_ErrorNone, { e with p_out_file :=
            e.p_out_file ++ (w.heap p).pBuffer.take (w.heap p).nFilledLen })
        else .error Fault.assertion)) := by
  have hout : ∀ (out : List Nat),
      (if (w.heap p).nFilledLen > 0 then
        out ++ (w.heap p).pBuffer.take (w.heap p).nFilledLen else out) =
      out ++ (w.heap p).pBuffer.take (w.heap p).nFilledLen := by
    intro out
    split_ifs with h0
    · rfl
    · have : (w.heap p).nFilledLen = 0 := Nat.eq_zero_of_not_pos h0
      simp [this]
  constructor
  · by_cases hacc : (C.fillThisBuffer w.comp p
        { w.heap p with nFlags := 0, nFilledLen := 0 }).1 = OMX_ErrorNone
    · simp [Decode.omx_fill_buffer_done, hm, hd, hp, OMX_FillThisBuffer, Decode.resetHeader,
        World.log, World.printf, hacc, hout]
    · simp [Decode.omx_fill_buffer_done, hm, hd, hp, OMX_FillThisBuffer, Decode.resetHeader,
        World.log, World.printf, hacc]
  · by_cases hacc : (C.fillThisBuffer w.comp p
        { w.heap p with nFlags := 0, nFilledLen := 0 }).1 = OMX_ErrorNone
    · simp [Encode.omx_fill_buffer_done, he, hp, OMX_FillThisBuffer, Encode.resetHeader,
        World.log, World.printf, hacc, hout]
    · simp [Encode.omx_fill_buffer_done, he, hp, OMX_FillThisBuffer, Encode.resetHeader,
        World.log, World.printf, hacc]

/-- C13 (amended, witness): header 3 filled with three bytes, the decoder's
marker set, the stream not ended: the three bytes reach the sink. -/
theorem fill_buffer_done_steady_state_witness :
    ((3 : BufPtr) ≠ NULL ∧
      ({ Decode.omx_data_init [] with port_disabled := true } : Decode.omx_data_t).eos = false ∧
      ({ Decode.omx_data_init [] with port_disabled := true } :
        Decode.omx_data_t).port_disabled = true ∧
      (Encode.omx_data_init (zeroFile 460800)).eos = false) ∧
    (Decode.omx_fill_buffer_done (sim ⟨20, 20, 3⟩)
        { simWorld with heap := Function.update simWorld.heap 3 (filledHeader [7, 8, 9] 0) }
        (some { Decode.omx_data_init [] with port_disabled := true }) 3).1 =
      .ok (OMX_ErrorNone,
        { Decode.omx_data_init [] with port_disabled := true, p_out_file := [7, 8, 9] }) ∧
    (Encode.omx_fill_buffer_done (sim ⟨20, 20, 3⟩)
        { simWorld with heap := Function.update simWorld.heap 3 (filledHeader [7, 8, 9] 0) }
        (some (Encode.omx_data_init (zeroFile 460800))) 3).1 =
      .ok (OMX_ErrorNone,
        { Encode.omx_data_init (zeroFile 460800) with p_out_file := [7, 8, 9] }) :=
  ⟨⟨by decide, rfl, rfl, rfl⟩,
    ((fill_buffer_done_steady_state (sim ⟨20, 20, 3⟩)
      { simWorld with heap := Function.update simWorld.heap 3 (filledHeader [7, 8, 9] 0) }
      { Decode.omx_data_init [] with port_disabled := true }
      (Encode.omx_data_init (zeroFile 460800)) 3 (by decide) rfl rfl rfl).1.2.2).trans
      (by rfl),
    ((fill_buffer_done_steady_state (sim ⟨20, 20, 3⟩)
      { simWorld with heap := Function.update simWorld.heap 3 (filledHeader [7, 8, 9] 0) }
      { Decode.omx_data_init [] with port_disabled := true }
      (Encode.omx_data_init (zeroFile 460800)) 3 (by decide) rfl rfl rfl).2.2.2).trans
      (by rfl)⟩

/-! ## The event handlers -/

/-- C14: on a buffer-flag event whose `nData1` is `OMX_BUFFERFLAG_EOS` (the test
the handlers make), `omx_event_handler` of the decoder and of the encoder
returns `OMX_ErrorNone`, posts the stream-ended gate once (`smp_eos + 1`, one
`sem_post` in the trace, no other gate touched) and sets `eos` to true, leaving
the rest of the shared data as it was.  And `eos` never goes back: the event
handlers, on any event, leave a true `eos` true, and the drained and filled
callbacks of both applications return the `eos` they found. -/
theorem eos_event_posts_gate_once_and_eos_is_monotone (C : Component σ) (w : World σ)
    (d : Decode.omx_data_t) (e : Encode.omx_data_t)
    (eEvent : OMX_EVENTTYPE) (nData1 nData2 : OMX_U32) (p : BufPtr) :
    (Decode.omx_event_handler w d OMX_EventBufferFlag OMX_BUFFERFLAG_EOS nData2 =
      (OMX_ErrorNone, { d with smp_eos := d.smp_eos + 1, eos := true },
        { w with
            trace := w.trace ++ [Call.sem_post Gate.smp_eos, Call.store_eos true],
            stdout := w.stdout ++ [("OMX event: 'End-of-Stream'\n", [])] })) ∧
    (Encode.omx_event_handler w e OMX_EventBufferFlag OMX_BUFFERFLAG_EOS nData2 =
      (OMX_ErrorNone, { e with smp_eos := e.smp_eos + 1, eos := true },
        { w with
            trace := w.trace ++ [Call.sem_post Gate.smp_eos, Call.store_eos true],
            stdout := w.stdout ++ [("OMX event: 'End-of-Stream'\n", [])] })) ∧
    (d.eos = true → (Decode.omx_event_handler w d eEvent nData1 nData2).2.1.eos = true) ∧
    (e.eos = true → (Encode.omx_event_handler w e eEvent nData1 nData2).2.1.eos = true) ∧
    (∀ r d1 w1, Decode.omx_empty_buffer_done C w (some d) p = (.ok (r, d1), w1) →
      d1.eos = d.eos) ∧
    (∀ r d1 w1, Decode.omx_fill_buffer_done C w (some d) p = (.ok (r, d1), w1) →
      d1.eos = d.eos) ∧
    (∀ r e1 w1, Encode.omx_empty_buffer_done C w (some e) p = (.ok (r, e1), w1) →
      e1.eos = e.eos) ∧
    (∀ r e1 w1, Encode.omx_fill_buffer_done C w (some e) p = (.ok (r, e1), w1) →
      e1.eos = e.eos) := by
  refine ⟨?_, ?_, ?_, ?_, ?_, ?_, ?_, ?_⟩
  · simp [Decode.omx_event_handler, OMX_EventBufferFlag, OMX_EventCmdComplete,
      OMX_EventPortSettingsChanged, World.printf, World.log]
  · simp [Encode.omx_event_handler, OMX_EventBufferFlag, OMX_EventCmdComplete,
      World.printf, World.log]
  · intro hd
    simp only [Decode.omx_event_handler]
    split_ifs <;> (try split) <;> simp [hd]
  · intro he
    simp only [Encode.omx_event_handler]
    split_ifs <;> (try split) <;> simp [he]
  · intro r d1 w1 h
    simp only [Decode.omx_empty_buffer_done] at h
    split_ifs at h
    all_goals first
      | (simp at h; done)
      | (simp only [Prod.mk.injEq, Except.ok.injEq] at h
         obtain ⟨⟨_, rfl⟩, _⟩ := h
         rfl)
  · intro r d1 w1 h
    simp only [Decode.omx_fill_buffer_done] at h
    split_ifs at h
    all_goals first
      | (simp at h; done)
      | (simp only [Prod.mk.injEq, Except.ok.injEq] at h
         obtain ⟨⟨_, rfl⟩, _⟩ := h
         rfl)
  · intro r e1 w1 h
    simp only [Encode.omx_empty_buffer_done] at h
    split_ifs at h with h1
    · split at h
      · simp only [Prod.mk.injEq, Except.ok.injEq] at h
        obtain ⟨⟨_, rfl⟩, _⟩ := h
        rfl
      · simp at h
    · simp only [Prod.mk.injEq, Except.ok.injEq] at h
      obtain ⟨⟨_, rfl⟩, _⟩ := h
      rfl
  · intro r e1 w1 h
    simp only [Encode.omx_fill_buffer_done] at h
    split_ifs at h
    all_goals first
      | (simp at h; done)
      | (simp only [Prod.mk.injEq, Except.ok.injEq] at h
         obtain ⟨⟨_, rfl⟩, _⟩ := h
         rfl)

/-- C14 (witness): the end-of-stream event on the shared data as `main`
initialises it posts the gate once; a later command-complete event leaves `eos`
true. -/
theorem eos_event_posts_gate_once_and_eos_is_monotone_witness :
    ({ Decode.omx_data_init [] with eos := true } : Decode.omx_data_t).eos = true ∧
    (Decode.omx_event_handler simWorld (Decode.omx_data_init []) OMX_EventBufferFlag
      OMX_BUFFERFLAG_EOS 0).2.1.smp_eos = 1 ∧
    (Decode.omx_event_handler simWorld (Decode.omx_data_init []) OMX_EventBufferFlag
      OMX_BUFFERFLAG_EOS 0).2.1.eos = true ∧
    (Decode.omx_event_handler simWorld { Decode.omx_data_init [] with eos := true }
      OMX_EventCmdComplete OMX_CommandStateSet OMX_StateIdle).2.1.eos = true :=
  ⟨rfl,
    congrArg (fun r => r.2.1.smp_eos)
      (eos_event_posts_gate_once_and_eos_is_monotone (sim ⟨20, 20, 3⟩) simWorld
        (Decode.omx_data_init []) (Encode.omx_data_init (zeroFile 460800))
        OMX_EventCmdComplete OMX_CommandStateSet 0 1).1,
    congrArg (fun r => r.2.1.eos)
      (eos_event_posts_gate_once_and_eos_is_monotone (sim ⟨20, 20, 3⟩) simWorld
        (Decode.omx_data_init []) (Encode.omx_data_init (zeroFile 460800))
        OMX_EventCmdComplete OMX_CommandStateSet 0 1).1,
    (eos_event_posts_gate_once_and_eos_is_monotone (sim ⟨20, 20, 3⟩) simWorld
      { Decode.omx_data_init [] with eos := true } (Encode.omx_data_init (zeroFile 460800))
      OMX_EventCmdComplete OMX_CommandStateSet OMX_StateIdle 1).2.2.1 rfl⟩

/-- C15: in the decoder's `omx_event_handler`, the command-complete event for
port-disable on port 1 posts the port-disabled gate once, the one for
port-enable on port 1 posts the port-enabled gate once, and the
port-settings-changed event for port 1 posts the settings-changed gate once; in
each case the handler returns `OMX_ErrorNone` and the rest of the shared data
(`eos`, the port-disabled marker, the other gates, the sink, the appsink) is as
it was.  The same three events for port 0 return `OMX_ErrorNone` and change
nothing at all. -/
theorem decoder_port_events_post_their_gate_only (w : World σ) (d : Decode.omx_data_t)
    (nData2 : OMX_U32) :
    (Decode.omx_event_handler w d OMX_EventCmdComplete OMX_CommandPortDisable 1 =
      (OMX_ErrorNone, { d with smp_port_disabled := d.smp_port_disabled + 1 },
        { w with
            trace := w.trace ++ [Call.sem_post Gate.smp_port_disabled],
            stdout := w.stdout ++ [("Output port is disabled\n", [])] })) ∧
    (Decode.omx_event_handler w d OMX_EventCmdComplete OMX_CommandPortEnable 1 =
      (OMX_ErrorNone, { d with smp_port_enabled := d.smp_port_enabled + 1 },
        { w with
            trace := w.trace ++ [Call.sem_post Gate.smp_port_enabled],
            stdout := w.stdout ++ [("Output port is enabled\n", [])] })) ∧
    (Decode.omx_event_handler w d OMX_EventPortSettingsChanged 1 nData2 =
      (OMX_ErrorNone,
        { d with smp_port_settings_changed := d.smp_port_settings_changed + 1 },
        { w with
            trace := w.trace ++ [Call.sem_post Gate.smp_port_settings_changed],
            stdout := w.stdout ++ [("OMX event: 'Output port settings changed'\n", [])] })) ∧
    (Decode.omx_event_handler w d OMX_EventCmdComplete OMX_CommandPortDisable 0 =
      (OMX_ErrorNone, d, w)) ∧
    (Decode.omx_event_handler w d OMX_EventCmdComplete OMX_CommandPortEnable 0 =
      (OMX_ErrorNone, d, w)) ∧
    (Decode.omx_event_handler w d OMX_EventPortSettingsChanged 0 nData2 =
      (OMX_ErrorNone, d, w)) := by
  refine ⟨?_, ?_, ?_, ?_, ?_, ?_⟩ <;>
    simp [Decode.omx_event_handler, OMX_EventCmdComplete, OMX_EventPortSettingsChanged,
      OMX_CommandPortDisable, OMX_CommandPortEnable, OMX_CommandStateSet, World.printf,
      World.log]

/-- C16 (the code on an Error event): for every error code `nData1`, the
decoder's `omx_event_handler` returns `OMX_ErrorNone` and changes nothing: the
shared data are as they were and nothing is printed (the `switch` has no case
for `OMX_EventError`).  The encoder's returns `OMX_ErrorNone`, leaves the
shared data as they were and prints the error code. -/
theorem error_event_is_logged_by_encoder_only (w : World σ) (d : Decode.omx_data_t)
    (e : Encode.omx_data_t) (nData1 nData2 : OMX_U32) :
    Decode.omx_event_handler w d OMX_EventError nData1 nData2 = (OMX_ErrorNone, d, w) ∧
    Encode.omx_event_handler w e OMX_EventError nData1 nData2 =
      (OMX_ErrorNone, e,
        { w with stdout := w.stdout ++
            [("OMX error event: '0x%x'\n", [PrintfArg.num nData1])] }) := by
  constructor <;>
    simp [Decode.omx_event_handler, Encode.omx_event_handler, OMX_EventError,
      OMX_EventCmdComplete, OMX_EventPortSettingsChanged, OMX_EventBufferFlag, World.printf]

/-! ## `omx_wait_state` -/

theorem Component.poll_succ (C : Component σ) (s : σ) (n : Nat) :
    C.poll s (n + 1) = C.poll (C.getState s).2.2 n := rfl

/-- While no poll ends the loop, `omx_wait_state` keeps polling: after `fuel`
rounds it has not returned. -/
theorem Decode.omx_wait_state_still_polling (C : Component σ) (state : OMX_STATETYPE) :
    ∀ (fuel : Nat) (w : World σ),
      (∀ i, i < fuel → pollEnds state (C.poll w.comp i) = false) →
      Decode.omx_wait_state C fuel w state = none := by
  intro fuel
  induction fuel with
  | zero => intro w _; rfl
  | succ n ih =>
    intro w h
    have h0 := h 0 (Nat.succ_pos n)
    simp only [pollEnds, Component.poll, Component.afterPolls, Bool.or_eq_false_iff,
      decide_eq_false_iff_not, ne_eq, not_not] at h0
    simp only [Decode.omx_wait_state, OMX_GetState, h0.1, h0.2, ne_eq, not_true_eq_false,
      if_false]
    apply ih
    intro i hi
    have := h (i + 1) (Nat.succ_lt_succ hi)
    rw [Component.poll_succ] at this
    exact this

/-- When `omx_wait_state` returns, it does so at the first poll that ends the
loop: the rounds before it are polls that did not end it, each followed by
`usleep(10000)`, and the last call is that poll. -/
theorem Decode.omx_wait_state_returns_at (C : Component σ) (state : OMX_STATETYPE) :
    ∀ (fuel : Nat) (w w1 : World σ), Decode.omx_wait_state C fuel w state = some w1 →
      ∃ k, k < fuel ∧ (∀ i, i < k → pollEnds state (C.poll w.comp i) = false) ∧
        pollEnds state (C.poll w.comp k) = true ∧
        w1.trace = w.trace ++ C.waitRounds k w.comp ++
          [Call.OMX_GetState (C.poll w.comp k).1 (C.poll w.comp k).2] := by
  intro fuel
  induction fuel with
  | zero => intro w w1 h; simp [Decode.omx_wait_state] at h
  | succ n ih =>
    intro w w1 h
    simp only [Decode.omx_wait_state, OMX_GetState] at h
    split_ifs at h with h1 h2
    · simp only [Option.some.injEq] at h
      subst h
      refine ⟨0, Nat.succ_pos n, fun i hi => absurd hi (Nat.not_lt_zero i), ?_, ?_⟩
      · simp [pollEnds, Component.poll, Component.afterPolls, h1]
      · simp [World.printf, World.log, Component.waitRounds, Component.poll,
          Component.afterPolls]
    · simp only [Option.some.injEq] at h
      subst h
      refine ⟨0, Nat.succ_pos n, fun i hi => absurd hi (Nat.not_lt_zero i), ?_, ?_⟩
      · simp [pollEnds, Component.poll, Component.afterPolls, h2]
      · simp [World.log, Component.waitRounds, Component.poll, Component.afterPolls]
    · obtain ⟨k, hk, hbefore, hend, htr⟩ := ih _ _ h
      refine ⟨k + 1, Nat.succ_lt_succ hk, ?_, ?_, ?_⟩
      · intro i hi
        cases i with
        | zero =>
          simp only [pollEnds, Component.poll, Component.afterPolls, Bool.or_eq_false_iff,
            decide_eq_false_iff_not, ne_eq, not_not]
          exact ⟨by simpa using h1, h2⟩
        | succ j =>
          rw [Component.poll_succ]
          exact hbefore j (Nat.lt_of_succ_lt_succ hi)
      · rw [Component.poll_succ]
        exact hend
      · rw [htr, Component.poll_succ]
        simp [World.log, Component.waitRounds]

/-- When some poll within the first `fuel` ends the loop, `omx_wait_state`
returns within `fuel` rounds. -/
theorem Decode.omx_wait_state_total (C : Component σ) (state : OMX_STATETYPE) :
    ∀ (fuel : Nat) (w : World σ) (k : Nat), k < fuel →
      pollEnds state (C.poll w.comp k) = true →
      (Decode.omx_wait_state C fuel w state).isSome = true := by
  intro fuel
  induction fuel with
  | zero => intro w k hk; exact absurd hk (Nat.not_lt_zero k)
  | succ n ih =>
    intro w k hk hend
    simp only [Decode.omx_wait_state, OMX_GetState]
    split_ifs with h1 h2
    · rfl
    · rfl
    · cases k with
      | zero =>
        exfalso
        simp only [pollEnds, Component.poll, Component.afterPolls, Bool.or_eq_true,
          decide_eq_true_eq] at hend
        rcases hend with h | h
        · exact h (by simpa using h1)
        · exact h2 h
      | succ j =>
        rw [Component.poll_succ] at hend
        exact ih _ j (Nat.lt_of_succ_lt_succ hk) hend

/-- C17 (the claim fails): `OMX_GetState` reports `OMX_StateLoaded`, then fails
while reporting `OMX_StateIdle`; `omx_wait_state(handle, OMX_StateExecuting)`
returns after this second poll, and the last state reported is not the
requested one. -/
theorem omx_wait_state_returns_on_error :
    ((Decode.omx_wait_state scripted 5
        (World.init [(OMX_ErrorNone, OMX_StateLoaded), (OMX_ErrorUndefined, OMX_StateIdle)])
        OMX_StateExecuting).map (fun w1 => stateReports w1.trace))
      = some [(OMX_ErrorNone, OMX_StateLoaded), (OMX_ErrorUndefined, OMX_StateIdle)] ∧
    OMX_StateIdle ≠ OMX_StateExecuting := by
  decide

/-- C17 (amended): `omx_wait_state(handle, state)` returns exactly at the first
poll of `OMX_GetState` that fails or reports `state`.  If it returns (within
`fuel` rounds), there is a `k < fuel` such that the polls before the `k`-th all
succeeded and reported another state, each followed by `usleep(10000)`, and the
`k`-th poll, the last call made, either failed or reported `state`; so when
that last poll did not fail, the last state reported is the requested one.
Conversely, if some poll `k < fuel` fails or reports `state`, the function
returns within `fuel` rounds. -/
theorem omx_wait_state_returns_on_state_or_error (C : Component σ) (w : World σ)
    (state : OMX_STATETYPE) (fuel : Nat) :
    (∀ w1, Decode.omx_wait_state C fuel w state = some w1 →
      ∃ k, k < fuel ∧ (∀ i, i < k → pollEnds state (C.poll w.comp i) = false) ∧
        w1.trace = w.trace ++ C.waitRounds k w.comp ++
          [Call.OMX_GetState (C.poll w.comp k).1 (C.poll w.comp k).2] ∧
        ((C.poll w.comp k).1 ≠ OMX_ErrorNone ∨ (C.poll w.comp k).2 = state)) ∧
    (∀ k, k < fuel → pollEnds state (C.poll w.comp k) = true →
      (Decode.omx_wait_state C fuel w state).isSome = true) := by
  constructor
  · intro w1 h
    obtain ⟨k, hk, hbefore, hend, htr⟩ := Decode.omx_wait_state_returns_at C state fuel w w1 h
    refine ⟨k, hk, hbefore, htr, ?_⟩
    simpa [pollEnds] using hend
  · exact Decode.omx_wait_state_total C state fuel w

/-- C17 (amended, witness): `OMX_GetState` reports Loaded, Idle, Executing;
`omx_wait_state(handle, OMX_StateExecuting)` returns after the third poll. -/
theorem omx_wait_state_returns_on_state_or_error_witness :
    ((2 < 5) ∧ pollEnds OMX_StateExecuting (scripted.poll
        (World.init [(OMX_ErrorNone, OMX_StateLoaded), (OMX_ErrorNone, OMX_StateIdle),
          (OMX_ErrorNone, OMX_StateExecuting)]).comp 2) = true) ∧
    (Decode.omx_wait_state scripted 5
      (World.init [(OMX_ErrorNone, OMX_StateLoaded), (OMX_ErrorNone, OMX_StateIdle),
        (OMX_ErrorNone, OMX_StateExecuting)]) OMX_StateExecuting).isSome = true ∧
    ((Decode.omx_wait_state scripted 5
      (World.init [(OMX_ErrorNone, OMX_StateLoaded), (OMX_ErrorNone, OMX_StateIdle),
        (OMX_ErrorNone, OMX_StateExecuting)]) OMX_StateExecuting).map (fun w1 => w1.trace))
      = some [Call.OMX_GetState OMX_ErrorNone OMX_StateLoaded, Call.usleep 10000,
          Call.OMX_GetState OMX_ErrorNone OMX_StateIdle, Call.usleep 10000,
          Call.OMX_GetState OMX_ErrorNone OMX_StateExecuting] :=
  ⟨⟨by decide, by decide⟩,
    (omx_wait_state_returns_on_state_or_error scripted
      (World.init [(OMX_ErrorNone, OMX_StateLoaded), (OMX_ErrorNone, OMX_StateIdle),
        (OMX_ErrorNone, OMX_StateExecuting)]) OMX_StateExecuting 5).2 2
      (by decide) (by decide),
    by decide⟩

theorem scripted_afterPolls_nil (n : Nat) : scripted.afterPolls n [] = [] := by
  induction n with
  | zero => rfl
  | succ k ih => exact ih

theorem scripted_poll_nil (n : Nat) : scripted.poll [] n = (OMX_ErrorNone, OMX_StateLoaded) := by
  simp only [Component.poll, scripted_afterPolls_nil]
  rfl

theorem Component.waitRounds_add (C : Component σ) (a b : Nat) (s : σ) :
    C.waitRounds (a + b) s = C.waitRounds a s ++ C.waitRounds b (C.afterPolls a s) := by
  induction a generalizing s with
  | zero => simp [Component.waitRounds, Component.afterPolls]
  | succ k ih =>
    rw [Nat.succ_add]
    simp only [Component.waitRounds, Component.afterPolls, ih, List.cons_append]

theorem sleeps_waitRounds (C : Component σ) (n : Nat) (s : σ) :
    sleeps (C.waitRounds n s) = List.replicate n 10000 ∧
      (stateReports (C.waitRounds n s)).length = n := by
  induction n generalizing s with
  | zero => exact ⟨rfl, rfl⟩
  | succ k ih =>
    obtain ⟨h1, h2⟩ := ih (C.getState s).2.2
    constructor
    · simp only [Component.waitRounds, sleeps, List.filterMap_cons, List.replicate_succ]
      simp only [sleeps] at h1
      rw [h1]
    · simp only [Component.waitRounds, stateReports, List.filterMap_cons, List.length_cons]
      simp only [stateReports] at h2
      rw [h2]

/-- C18 (the claim fails): a component that reports `OMX_StateLoaded` without
error for ever, asked for `OMX_StateExecuting`: whatever the number `N` of
rounds, `omx_wait_state` (of the decoder and of the encoder) is still polling
after `N` rounds. -/
theorem omx_wait_state_polls_without_bound :
    ∃ (w : World (List (OMX_ERRORTYPE × OMX_STATETYPE))) (state : OMX_STATETYPE),
      ∀ N : Nat, Decode.omx_wait_state scripted N w state = none ∧
        Encode.omx_wait_state scripted N w state = none := by
  refine ⟨World.init [], OMX_StateExecuting, fun N => ?_⟩
  have h : Decode.omx_wait_state scripted N (World.init []) OMX_StateExecuting = none := by
    apply Decode.omx_wait_state_still_polling
    intro i _
    have hp : (World.init ([] : List (OMX_ERRORTYPE × OMX_STATETYPE))).comp = [] := rfl
    rw [hp, scripted_poll_nil]
    decide
  exact ⟨h, by rw [Encode.omx_wait_state_eq_decode]; exact h⟩

/-- C18 (amended): the wait is a busy-wait without bound.  As long as the first
`N` polls of `OMX_GetState` succeed and report a state other than the requested
one, `omx_wait_state` (of the decoder and of the encoder) is still polling
after `N` rounds; any run of it that returns has made more than `N` polls and
begins with these `N` rounds, which are `N` polls, each followed by one
`usleep(10000)`. -/
theorem omx_wait_state_polls_while_state_differs (C : Component σ) (w : World σ)
    (state : OMX_STATETYPE) (N : Nat)
    (h : ∀ i, i < N → pollEnds state (C.poll w.comp i) = false) :
    Decode.omx_wait_state C N w state = none ∧
    Encode.omx_wait_state C N w state = none ∧
    (∀ fuel w1, Decode.omx_wait_state C fuel w state = some w1 →
      N < fuel ∧ (w.trace ++ C.waitRounds N w.comp) <+: w1.trace) ∧
    sleeps (C.waitRounds N w.comp) = List.replicate N 10000 ∧
    (stateReports (C.waitRounds N w.comp)).length = N := by
  have h1 := Decode.omx_wait_state_still_polling C state N w h
  refine ⟨h1, by rw [Encode.omx_wait_state_eq_decode]; exact h1, ?_,
    (sleeps_waitRounds C N w.comp).1, (sleeps_waitRounds C N w.comp).2⟩
  intro fuel w1 hret
  obtain ⟨k, hk, _, hend, htr⟩ := Decode.omx_wait_state_returns_at C state fuel w w1 hret
  have hNk : N ≤ k := by
    by_contra hlt
    have := h k (Nat.lt_of_not_le hlt)
    rw [this] at hend
    exact Bool.false_ne_true hend
  refine ⟨Nat.lt_of_le_of_lt hNk hk, ?_⟩
  obtain ⟨b, rfl⟩ := Nat.exists_eq_add_of_le hNk
  rw [htr, Component.waitRounds_add]
  exact ⟨C.waitRounds b (C.afterPolls N w.comp) ++
    [Call.OMX_GetState (C.poll w.comp (N + b)).1 (C.poll w.comp (N + b)).2],
    by simp only [List.append_assoc]⟩

/-- C18 (amended, witness): the component that reports `OMX_StateLoaded` for
ever, asked for `OMX_StateExecuting`: after 3 rounds the wait has not
returned. -/
theorem omx_wait_state_polls_while_state_differs_witness :
    (∀ i, i < 3 → pollEnds OMX_StateExecuting
      (scripted.poll (World.init ([] : List (OMX_ERRORTYPE × OMX_STATETYPE))).comp i)
        = false) ∧
    Decode.omx_wait_state scripted 3 (World.init []) OMX_StateExecuting = none ∧
    sleeps (scripted.waitRounds 3 []) = [10000, 10000, 10000] :=
  ⟨by decide,
    (omx_wait_state_polls_while_state_differs scripted (World.init []) OMX_StateExecuting 3
      (by decide)).1,
    (omx_wait_state_polls_while_state_differs scripted (World.init []) OMX_StateExecuting 3
      (by decide)).2.2.2.1⟩

/-! ## The teardown -/

/-- A trace whose skeleton is `X ++ c :: Y`, with `c` not in `X`, splits at the
first `c`. -/
theorem split_at_skeleton_call (T X Y : List Call) (c : Call) (hc : c.isSkeleton = true)
    (h : skeleton T = X ++ c :: Y) (hX : c ∉ X) :
    ∃ A B, T = A ++ c :: B ∧ c ∉ A ∧ skeleton A = X ∧ skeleton B = Y := by
  obtain ⟨l1, l2, rfl, h1, h2⟩ := List.filter_eq_append_iff.mp h
  obtain ⟨m1, m2, rfl, h3, _, h4⟩ := List.filter_eq_cons_iff.mp h2
  refine ⟨l1 ++ m1, m2, by simp only [List.append_assoc], ?_, ?_, h4⟩
  · intro hmem
    rcases List.mem_append.mp hmem with hm | hm
    · apply hX
      rw [← h1]
      exact List.mem_filter.mpr ⟨hm, hc⟩
    · exact h3 c hm hc
  · have h5 : skeleton m1 = [] := by
      simp only [skeleton]
      exact List.filter_eq_nil_iff.mpr h3
    rw [skeleton_append, h5, List.append_nil]
    exact h1

theorem beforeLoaded_split (A B : List Call) (h : loadedCommand ∉ A) :
    beforeLoaded (A ++ loadedCommand :: B) = A ∧
      afterLoaded (A ++ loadedCommand :: B) = B := by
  have hA : ∀ a ∈ A, decide (a ≠ loadedCommand) = true := by
    intro a ha
    simp only [ne_eq, decide_not, Bool.not_eq_true', decide_eq_false_iff_not]
    intro e
    exact h (e ▸ ha)
  constructor
  · simp only [beforeLoaded]
    rw [List.takeWhile_append_of_pos hA, List.takeWhile_cons_of_neg (by simp),
      List.append_nil]
  · simp only [afterLoaded]
    rw [List.dropWhile_append_of_pos hA, List.dropWhile_cons_of_neg (by simp)]
    rfl

/-- The trace of a returning run of the decoder's `main` around the request for
`OMX_StateLoaded`: `T1` is what precedes the store to the port-disabled marker,
`A` what lies between that store and the request, `B` what follows the
request.  No `OMX_FreeBuffer` call is made in `A`. -/
theorem Decode.main_teardown_split (C : Component σ) (sched : Nat → List Decode.Event)
    (fuel : Nat) (w : World σ) (samples : List (List Nat))
    (h : Decode.returned (Decode.main C sched fuel w samples) = true) :
    ∃ T1 A B, Decode.mainCalls C sched fuel w samples =
        (T1 ++ Call.store_port_disabled true :: A) ++ loadedCommand :: B ∧
      beforeMarker (Decode.mainCalls C sched fuel w samples) = T1 ∧
      loadedCommand ∉ T1 ++ Call.store_port_disabled true :: A ∧ freedBufs A = [] := by
  have hmain := Decode.returned_eq_ok _ h
  obtain ⟨poolIn, poolOut, pool2, dIn, dOut, dOut2, dTO, dTI, qa, qb, qc, rTO, rTI, T1, T2,
    tO, tI, _, _, _, _, _, _, htr, hct, _, _, hsk, _, _⟩ :=
    Decode.main_skeleton C sched fuel w samples _ hmain
  have hT : Decode.mainCalls C sched fuel w samples =
      T1 ++ Call.store_port_disabled true :: T2 := by
    simp only [Decode.mainCalls, htr, List.append_assoc, List.drop_left]
    rfl
  have hno : ∀ c ∈ T1, c.isMarkerStore = false := by
    intro c hc
    by_contra hcon
    have hc1 : c = Call.store_port_disabled true := by
      cases c with
      | store_port_disabled v =>
        cases v with
        | true => rfl
        | false => exact absurd rfl hcon
      | _ => exact absurd rfl hcon
    subst hc1
    have hc2 := (mem_controlTrace (Call.store_port_disabled true) T1 rfl).mpr hc
    rw [hct] at hc2
    simp at hc2
  have hL1 : loadedCommand ∉ T1 := by
    intro hc
    have hc2 := (mem_controlTrace loadedCommand T1 rfl).mpr hc
    rw [hct] at hc2
    simp [loadedCommand, OMX_StateLoaded, OMX_StateIdle, OMX_StateExecuting,
      OMX_CommandStateSet, OMX_CommandPortDisable] at hc2
  have hsk2 : skeleton T2 =
      ([Call.OMX_SendCommand OMX_CommandPortEnable 1 OMX_ErrorNone,
         Call.OMX_GetParameter_PortDefinition (portQuery 1) OMX_ErrorNone dOut2]
        ++ pool2.map (fun b => Call.OMX_AllocateBuffer 1 dOut2.nBufferSize OMX_ErrorNone b)
        ++ [Call.sem_wait Gate.smp_port_enabled, Call.sem_wait Gate.smp_eos,
            Call.OMX_SendCommand OMX_CommandStateSet OMX_StateIdle OMX_ErrorNone])
      ++ loadedCommand ::
        ([Call.OMX_GetParameter_PortDefinition (portQuery 1) rTO dTO]
          ++ tO ++ [Call.OMX_GetParameter_PortDefinition (portQuery 0) rTI dTI] ++ tI) := by
    rw [hsk]
    simp [loadedCommand, List.append_assoc]
  obtain ⟨A, B, hAB, hLA, hskA, _⟩ := split_at_skeleton_call T2 _ _ loadedCommand rfl hsk2
    (by simp [loadedCommand, OMX_StateLoaded, OMX_StateIdle, OMX_CommandStateSet,
      OMX_CommandPortEnable])
  refine ⟨T1, A, B, ?_, ?_, ?_, ?_⟩
  · rw [hT, hAB]
    simp only [List.append_assoc, List.cons_append]
  · rw [hT]
    exact beforeMarker_append_store T1 T2 hno
  · intro hmem
    rcases List.mem_append.mp hmem with hm | hm
    · exact hL1 hm
    · rcases List.mem_cons.mp hm with hm | hm
      · simp [loadedCommand] at hm
      · exact hLA hm
  · rw [← freedBufs_skeleton, hskA]
    simp only [freedBufs_append, freedBufs_map_alloc]
    simp [freedBufs, Call.freed]

/-- The trace of a returning run of the encoder's `main` around the request for
`OMX_StateLoaded`: no `OMX_FreeBuffer` call is made before it. -/
theorem Encode.encoder_main_teardown_split (C : Component σ)
    (sched : Nat → List Encode.Event) (fuel : Nat) (w : World σ) (p_in_file : Option FILE)
    (h : Encode.returned (Encode.main C sched fuel w p_in_file) = true) :
    ∃ A B, Encode.mainCalls C sched fuel w p_in_file = A ++ loadedCommand :: B ∧
      loadedCommand ∉ A ∧ freedBufs A = [] := by
  have hmain := Encode.encoder_returned_eq_ok _ h
  obtain ⟨poolIn, poolOut, dIn, dOut, dTO, dTI, qa, qb, qc, qd, rTO, rTI, T, tO, tI,
    _, _, _, _, htr, hsk, _, _⟩ := Encode.encoder_main_skeleton C sched fuel w p_in_file _ hmain
  have hT : Encode.mainCalls C sched fuel w p_in_file = T := by
    simp only [Encode.mainCalls, htr, List.drop_left]
  have hsk2 : skeleton T =
      ([Call.OMX_GetParameter_PortDefinition (portQuery 0) OMX_ErrorNone qa,
         Call.OMX_GetParameter_PortDefinition (portQuery 0) OMX_ErrorNone qb,
         Call.OMX_GetParameter_PortDefinition (portQuery 1) OMX_ErrorNone qc,
         Call.OMX_GetParameter_PortDefinition (portQuery 1) OMX_ErrorNone qd,
         Call.OMX_SendCommand OMX_CommandStateSet OMX_StateIdle OMX_ErrorNone,
         Call.OMX_GetParameter_PortDefinition (portQuery 0) OMX_ErrorNone dIn]
        ++ poolIn.map (fun b => Call.OMX_AllocateBuffer 0 dIn.nBufferSize OMX_ErrorNone b)
        ++ [Call.OMX_GetParameter_PortDefinition (portQuery 1) OMX_ErrorNone dOut]
        ++ poolOut.map (fun b => Call.OMX_AllocateBuffer 1 dOut.nBufferSize OMX_ErrorNone b)
        ++ [Call.OMX_SendCommand OMX_CommandStateSet OMX_StateExecuting OMX_ErrorNone,
            Call.sem_wait Gate.smp_eos,
            Call.OMX_SendCommand OMX_CommandStateSet OMX_StateIdle OMX_ErrorNone])
      ++ loadedCommand ::
        ([Call.OMX_GetParameter_PortDefinition (portQuery 1) rTO dTO]
          ++ tO ++ [Call.OMX_GetParameter_PortDefinition (portQuery 0) rTI dTI] ++ tI) := by
    rw [hsk]
    simp [loadedCommand, List.append_assoc]
  obtain ⟨A, B, hAB, hLA, hskA, _⟩ := split_at_skeleton_call T _ _ loadedCommand rfl hsk2
    (by simp [loadedCommand, OMX_StateLoaded, OMX_StateIdle, OMX_StateExecuting,
      OMX_CommandStateSet])
  refine ⟨A, B, by rw [hT, hAB], hLA, ?_⟩
  rw [← freedBufs_skeleton, hskA]
  simp only [freedBufs_append, freedBufs_map_alloc]
  simp [freedBufs, Call.freed]

/-- C19 (the claim fails): in the simulated runs of the decoder and of the
encoder, which return, the frees of the teardown all come after the request
for `OMX_StateLoaded`.  Before it the decoder has freed only the first output
pool (headers 3, 4, 5, in the filled callback) and the encoder nothing; after
it `main` frees the output pool and then the input pool. -/
theorem teardown_frees_after_loaded_command :
    (Decode.returned (Decode.main (sim ⟨20, 20, 3⟩) simSched 5 simWorld simSamples) = true ∧
      freedBufs (beforeLoaded
        (Decode.mainCalls (sim ⟨20, 20, 3⟩) simSched 5 simWorld simSamples))
          = [(1, 3), (1, 4), (1, 5)] ∧
      freedBufs (afterLoaded
        (Decode.mainCalls (sim ⟨20, 20, 3⟩) simSched 5 simWorld simSamples))
          = [(1, 6), (1, 7), (1, 8), (0, 1), (0, 2)]) ∧
    (Encode.returned (Encode.main (sim ⟨20, 20, 3⟩) simSchedEnc 5 simWorldEnc
        (some (zeroFile 921600))) = true ∧
      freedBufs (beforeLoaded (Encode.mainCalls (sim ⟨20, 20, 3⟩) simSchedEnc 5 simWorldEnc
        (some (zeroFile 921600)))) = [] ∧
      freedBufs (afterLoaded (Encode.mainCalls (sim ⟨20, 20, 3⟩) simSchedEnc 5 simWorldEnc
        (some (zeroFile 921600)))) = [(1, 3), (1, 4), (0, 1), (0, 2)]) := by
  decide

/-- C19 (amended): in every run of the decoder's or of the encoder's `main` that
returns, the request for `OMX_StateLoaded` is made and accepted, and `main`
frees no buffer before it.  Decoder: the `OMX_FreeBuffer` calls that precede
the request are exactly those made before the port-disabled marker was set
(the ones of the filled callback), and all other frees of the run, those of
the teardown, follow the request.  Encoder: no `OMX_FreeBuffer` call precedes
the request; every free of the run follows it. -/
theorem teardown_frees_follow_loaded_command (C : Component σ)
    (schedD : Nat → List Decode.Event) (schedE : Nat → List Encode.Event) (fuel : Nat)
    (wD wE : World σ) (samples : List (List Nat)) (p_in_file : Option FILE) :
    (Decode.returned (Decode.main C schedD fuel wD samples) = true →
      loadedCommand ∈ Decode.mainCalls C schedD fuel wD samples ∧
      freedBufs (beforeLoaded (Decode.mainCalls C schedD fuel wD samples)) =
        freedBufs (beforeMarker (Decode.mainCalls C schedD fuel wD samples)) ∧
      freedBufs (Decode.mainCalls C schedD fuel wD samples) =
        freedBufs (beforeMarker (Decode.mainCalls C schedD fuel wD samples)) ++
          freedBufs (afterLoaded (Decode.mainCalls C schedD fuel wD samples))) ∧
    (Encode.returned (Encode.main C schedE fuel wE p_in_file) = true →
      loadedCommand ∈ Encode.mainCalls C schedE fuel wE p_in_file ∧
      freedBufs (beforeLoaded (Encode.mainCalls C schedE fuel wE p_in_file)) = [] ∧
      freedBufs (afterLoaded (Encode.mainCalls C schedE fuel wE p_in_file)) =
        freedBufs (Encode.mainCalls C schedE fuel wE p_in_file)) := by
  constructor
  · intro hret
    obtain ⟨T1, A, B, hT, hbm, hL, hfA⟩ :=
      Decode.main_teardown_split C schedD fuel wD samples hret
    obtain ⟨hb, ha⟩ := beforeLoaded_split _ B hL
    have hsplit : T1 ++ Call.store_port_disabled true :: A =
        T1 ++ ([Call.store_port_disabled true] ++ A) := rfl
    have hfb : freedBufs (T1 ++ Call.store_port_disabled true :: A) = freedBufs T1 := by
      rw [hsplit, freedBufs_append, freedBufs_append, hfA]
      simp [freedBufs, Call.freed]
    have hsplit2 : ∀ (P : List Call), P ++ loadedCommand :: B =
        P ++ ([loadedCommand] ++ B) := fun _ => rfl
    refine ⟨?_, ?_, ?_⟩
    · rw [hT]
      exact List.mem_append_right _ (List.mem_cons_self _ _)
    · rw [hbm, hT, hb, hfb]
    · rw [hbm, hT, ha, hsplit2, freedBufs_append, hfb, freedBufs_append]
      simp [freedBufs, Call.freed, loadedCommand]
  · intro hret
    obtain ⟨A, B, hT, hL, hfA⟩ :=
      Encode.encoder_main_teardown_split C schedE fuel wE p_in_file hret
    obtain ⟨hb, ha⟩ := beforeLoaded_split A B hL
    have hsplit2 : A ++ loadedCommand :: B = A ++ ([loadedCommand] ++ B) := rfl
    refine ⟨?_, ?_, ?_⟩
    · rw [hT]
      exact List.mem_append_right _ (List.mem_cons_self _ _)
    · rw [hT, hb, hfA]
    · rw [hT, ha, hsplit2, freedBufs_append, hfA, freedBufs_append]
      simp [freedBufs, Call.freed, loadedCommand]

/-- C19 (amended, witness): the simulated decoder and encoder runs return. -/
theorem teardown_frees_follow_loaded_command_witness :
    (Decode.returned (Decode.main (sim ⟨20, 20, 3⟩) simSched 5 simWorld simSamples) = true ∧
      Encode.returned (Encode.main (sim ⟨20, 20, 3⟩) simSchedEnc 5 simWorldEnc
        (some (zeroFile 921600))) = true) ∧
    freedBufs (beforeLoaded
        (Decode.mainCalls (sim ⟨20, 20, 3⟩) simSched 5 simWorld simSamples)) =
      freedBufs (beforeMarker
        (Decode.mainCalls (sim ⟨20, 20, 3⟩) simSched 5 simWorld simSamples)) ∧
    freedBufs (beforeLoaded (Encode.mainCalls (sim ⟨20, 20, 3⟩) simSchedEnc 5 simWorldEnc
        (some (zeroFile 921600)))) = [] :=
  ⟨⟨by decide, by decide⟩,
    ((teardown_frees_follow_loaded_command (sim ⟨20, 20, 3⟩) simSched simSchedEnc 5
      simWorld simWorldEnc simSamples (some (zeroFile 921600))).1 (by decide)).2.1,
    ((teardown_frees_follow_loaded_command (sim ⟨20, 20, 3⟩) simSched simSchedEnc 5
      simWorld simWorldEnc simSamples (some (zeroFile 921600))).2 (by decide)).2.1⟩

/-! ## The encoder's output-format setter -/

theorem setResults_append (a b : List Call) :
    setResults (a ++ b) = setResults a ++ setResults b := by
  simp [setResults, List.filterMap_append]

/-- The port-definition query of `omx_get_port` is one call, which sets no
parameter. -/
theorem Decode.omx_get_port_trace (C : Component σ) (w : World σ) (port_idx : OMX_U32)
    (u : OMX_PARAM_PORTDEFINITIONTYPE) :
    ∃ c, (Decode.omx_get_port C w port_idx u).2.2.trace = w.trace ++ [c] ∧
      setResults [c] = [] := by
  by_cases hq : (C.getPortDefinition w.comp (portQuery port_idx)).1 = OMX_ErrorNone
  · rw [Decode.omx_get_port_ok C w port_idx u hq]
    exact ⟨_, rfl, rfl⟩
  · refine ⟨Call.OMX_GetParameter_PortDefinition (portQuery port_idx)
      (C.getPortDefinition w.comp (portQuery port_idx)).1
      (C.getPortDefinition w.comp (portQuery port_idx)).2.1, ?_, rfl⟩
    rw [Decode.omx_get_port_fail C w port_idx u hq]

/-- The bitrate query of `omx_get_bitrate_ctrl` is one call, which sets no
parameter. -/
theorem Encode.omx_get_bitrate_ctrl_trace (C : Component σ) (w : World σ)
    (port_idx : OMX_U32) (uc : OMX_VIDEO_PARAM_BITRATETYPE) :
    ∃ c, (Encode.omx_get_bitrate_ctrl C w port_idx uc).2.2.trace = w.trace ++ [c] ∧
      setResults [c] = [] := by
  simp only [Encode.omx_get_bitrate_ctrl, OMX_GetParameter_VideoBitrate]
  split_ifs <;> exact ⟨_, rfl, rfl⟩

/-- C20 (the code, in general): with `bitrate > 0`, `omx_set_out_port_fmt` of
the encoder returns `true` exactly when the component accepted the
port-definition set and the bitrate set; the AVC VUI (frame-rate) set is always
made, and its result does not enter the returned value. -/
theorem omx_set_out_port_fmt_ignores_framerate_result (C : Component σ) (w : World σ)
    (bitrate : OMX_U32) (fmt : Nat) (framerate : OMX_U32)
    (u : OMX_PARAM_PORTDEFINITIONTYPE) (uc : OMX_VIDEO_PARAM_BITRATETYPE)
    (hb : bitrate > 0) :
    ∃ (b : Bool) (t : List Call),
      (Encode.omx_set_out_port_fmt C w bitrate fmt framerate u uc).1 = .ok b ∧
      (Encode.omx_set_out_port_fmt C w bitrate fmt framerate u uc).2.trace = w.trace ++ t ∧
      (b = true ↔
        (OMX_INDEXTYPE.OMX_IndexParamPortDefinition, OMX_ErrorNone) ∈ setResults t ∧
        (OMX_INDEXTYPE.OMX_IndexParamVideoBitrate, OMX_ErrorNone) ∈ setResults t) ∧
      ∃ v, (OMX_INDEXTYPE.OMXR_MC_IndexParamVideoAVCVuiProperty, v) ∈ setResults t := by
  have hite : ∀ (c : Prop) [Decidable c] (x : World σ),
      (if c then x.printf "Error: Failed to set output port\n" [] else x).trace = x.trace := by
    intro c _ x
    split_ifs <;> rfl
  have tPD : ∀ (x : World σ) (d : OMX_PARAM_PORTDEFINITIONTYPE),
      (OMX_SetParameter_PortDefinition C x d).2.trace = x.trace ++
        [Call.OMX_SetParameter_PortDefinition d (OMX_SetParameter_PortDefinition C x d).1] :=
    fun _ _ => rfl
  have tBR : ∀ (x : World σ) (d : OMX_VIDEO_PARAM_BITRATETYPE),
      (OMX_SetParameter_VideoBitrate C x d).2.trace = x.trace ++
        [Call.OMX_SetParameter_VideoBitrate d (OMX_SetParameter_VideoBitrate C x d).1] :=
    fun _ _ => rfl
  have tVU : ∀ (x : World σ) (d : OMXR_MC_VIDEO_PARAM_AVC_VUI_PROPERTY),
      (OMX_SetParameter_AVCVuiProperty C x d).2.trace = x.trace ++
        [Call.OMX_SetParameter_AVCVuiProperty d (OMX_SetParameter_AVCVuiProperty C x d).1] :=
    fun _ _ => rfl
  obtain ⟨c1, hc1, hs1⟩ := Decode.omx_get_port_trace C w 1 u
  simp only [Encode.omx_set_out_port_fmt, hb, not_true_eq_false, if_false,
    Encode.omx_get_port_eq_decode, hite]
  rcases hgp : Decode.omx_get_port C w 1 u with ⟨b1, out_port, w1⟩
  rw [hgp] at hc1
  simp only at hc1
  cases b1 with
  | true =>
    simp only
    obtain ⟨c2, hc2, hs2⟩ := Encode.omx_get_bitrate_ctrl_trace C
      (OMX_SetParameter_PortDefinition C w1 { out_port with eCompressionFormat := fmt }).2 1 uc
    split
    · rename_i ctrl w3 hgb
      rw [hgb] at hc2
      simp only at hc2
      refine ⟨_, [c1] ++
        [Call.OMX_SetParameter_PortDefinition { out_port with eCompressionFormat := fmt }
          (OMX_SetParameter_PortDefinition C w1 { out_port with eCompressionFormat := fmt }).1] ++
        [c2] ++
        [Call.OMX_SetParameter_VideoBitrate { ctrl with nTargetBitrate := bitrate, eControlRate := OMX_Video_ControlRateConstant }
          (OMX_SetParameter_VideoBitrate C w3 { ctrl with nTargetBitrate := bitrate, eControlRate := OMX_Video_ControlRateConstant }).1] ++
        [Call.OMX_SetParameter_AVCVuiProperty
          { Encode.OMX_INIT_VUI with
              nPortIndex := 1, u32TimeScale := (framerate * 2) % 2 ^ 32, u32NumUnitsInTick := 1,
              bFixedFrameRateFlag := true, bTimingInfoPresentFlag := true }
          (OMX_SetParameter_AVCVuiProperty C (OMX_SetParameter_VideoBitrate C w3 { ctrl with nTargetBitrate := bitrate, eControlRate := OMX_Video_ControlRateConstant }).2
            { Encode.OMX_INIT_VUI with
              nPortIndex := 1, u32TimeScale := (framerate * 2) % 2 ^ 32, u32NumUnitsInTick := 1,
              bFixedFrameRateFlag := true, bTimingInfoPresentFlag := true }).1], rfl, ?_, ?_, ?_⟩
      · simp only [tVU, tBR, hc2, tPD, hc1, List.append_assoc]
      · simp only [setResults_append, hs1, hs2, List.nil_append]
        simp [setResults]
      · simp only [setResults_append, hs1, hs2, List.nil_append]
        exact ⟨_, by simp [setResults]; rfl⟩
    · rename_i x w3 hgb
      rw [hgb] at hc2
      simp only at hc2
      refine ⟨_, [c1] ++
        [Call.OMX_SetParameter_PortDefinition { out_port with eCompressionFormat := fmt }
          (OMX_SetParameter_PortDefinition C w1 { out_port with eCompressionFormat := fmt }).1] ++
        [c2] ++
        [Call.OMX_SetParameter_AVCVuiProperty
          { Encode.OMX_INIT_VUI with
              nPortIndex := 1, u32TimeScale := (framerate * 2) % 2 ^ 32, u32NumUnitsInTick := 1,
              bFixedFrameRateFlag := true, bTimingInfoPresentFlag := true }
          (OMX_SetParameter_AVCVuiProperty C w3
            { Encode.OMX_INIT_VUI with
              nPortIndex := 1, u32TimeScale := (framerate * 2) % 2 ^ 32, u32NumUnitsInTick := 1,
              bFixedFrameRateFlag := true, bTimingInfoPresentFlag := true }).1], rfl, ?_, ?_, ?_⟩
      · simp only [tVU, tBR, hc2, tPD, hc1, List.append_assoc]
      · simp only [setResults_append, hs1, hs2, List.nil_append]
        simp [setResults]
      · simp only [setResults_append, hs1, hs2, List.nil_append]
        exact ⟨_, by simp [setResults]; rfl⟩
  | false =>
    simp only
    obtain ⟨c2, hc2, hs2⟩ := Encode.omx_get_bitrate_ctrl_trace C w1 1 uc
    split
    · rename_i ctrl w3 hgb
      rw [hgb] at hc2
      simp only at hc2
      refine ⟨_, [c1] ++
        [c2] ++
        [Call.OMX_SetParameter_VideoBitrate { ctrl with nTargetBitrate := bitrate, eControlRate := OMX_Video_ControlRateConstant }
          (OMX_SetParameter_VideoBitrate C w3 { ctrl with nTargetBitrate := bitrate, eControlRate := OMX_Video_ControlRateConstant }).1] ++
        [Call.OMX_SetParameter_AVCVuiProperty
          { Encode.OMX_INIT_VUI with
              nPortIndex := 1, u32TimeScale := (framerate * 2) % 2 ^ 32, u32NumUnitsInTick := 1,
              bFixedFrameRateFlag := true, bTimingInfoPresentFlag := true }
          (OMX_SetParameter_AVCVuiProperty C (OMX_SetParameter_VideoBitrate C w3 { ctrl with nTargetBitrate := bitrate, eControlRate := OMX_Video_ControlRateConstant }).2
            { Encode.OMX_INIT_VUI with
              nPortIndex := 1, u32TimeScale := (framerate * 2) % 2 ^ 32, u32NumUnitsInTick := 1,
              bFixedFrameRateFlag := true, bTimingInfoPresentFlag := true }).1], rfl, ?_, ?_, ?_⟩
      · simp only [tVU, tBR, hc2, tPD, hc1, List.append_assoc]
      · simp only [setResults_append, hs1, hs2, List.nil_append]
        simp [setResults]
      · simp only [setResults_append, hs1, hs2, List.nil_append]
        exact ⟨_, by simp [setResults]; rfl⟩
    · rename_i x w3 hgb
      rw [hgb] at hc2
      simp only at hc2
      refine ⟨_, [c1] ++
        [c2] ++
        [Call.OMX_SetParameter_AVCVuiProperty
          { Encode.OMX_INIT_VUI with
              nPortIndex := 1, u32TimeScale := (framerate * 2) % 2 ^ 32, u32NumUnitsInTick := 1,
              bFixedFrameRateFlag := true, bTimingInfoPresentFlag := true }
          (OMX_SetParameter_AVCVuiProperty C w3
            { Encode.OMX_INIT_VUI with
              nPortIndex := 1, u32TimeScale := (framerate * 2) % 2 ^ 32, u32NumUnitsInTick := 1,
              bFixedFrameRateFlag := true, bTimingInfoPresentFlag := true }).1], rfl, ?_, ?_, ?_⟩
      · simp only [tVU, tBR, hc2, tPD, hc1, List.append_assoc]
      · simp only [setResults_append, hs1, hs2, List.nil_append]
        simp [setResults]
      · simp only [setResults_append, hs1, hs2, List.nil_append]
        exact ⟨_, by simp [setResults]; rfl⟩

/-- C20 (witness): a component that accepts the port-definition set and the
bitrate set and rejects the AVC VUI property.  `omx_set_out_port_fmt`, called as
`main` calls it, returns `true` although the last of its three parameter sets
was rejected, and it prints its error line. -/
theorem omx_set_out_port_fmt_ignores_framerate_result_witness :
    Encode.H264_BITRATE > 0 ∧
    (∃ (b : Bool) (t : List Call),
      (Encode.omx_set_out_port_fmt simVuiRejected simWorldEnc Encode.H264_BITRATE
        OMX_VIDEO_CodingAVC Encode.FRAMERATE default default).1 = .ok b ∧
      (Encode.omx_set_out_port_fmt simVuiRejected simWorldEnc Encode.H264_BITRATE
        OMX_VIDEO_CodingAVC Encode.FRAMERATE default default).2.trace =
          simWorldEnc.trace ++ t ∧
      (b = true ↔
        (OMX_INDEXTYPE.OMX_IndexParamPortDefinition, OMX_ErrorNone) ∈ setResults t ∧
        (OMX_INDEXTYPE.OMX_IndexParamVideoBitrate, OMX_ErrorNone) ∈ setResults t) ∧
      ∃ v, (OMX_INDEXTYPE.OMXR_MC_IndexParamVideoAVCVuiProperty, v) ∈ setResults t) ∧
    (Encode.omx_set_out_port_fmt simVuiRejected simWorldEnc Encode.H264_BITRATE
      OMX_VIDEO_CodingAVC Encode.FRAMERATE default default).1.toOption = some true ∧
    setResults (Encode.omx_set_out_port_fmt simVuiRejected simWorldEnc Encode.H264_BITRATE
      OMX_VIDEO_CodingAVC Encode.FRAMERATE default default).2.trace =
        [(OMX_INDEXTYPE.OMX_IndexParamPortDefinition, OMX_ErrorNone),
         (OMX_INDEXTYPE.OMX_IndexParamVideoBitrate, OMX_ErrorNone),
         (OMX_INDEXTYPE.OMXR_MC_IndexParamVideoAVCVuiProperty, OMX_ErrorUnsupportedIndex)] ∧
    (Encode.omx_set_out_port_fmt simVuiRejected simWorldEnc Encode.H264_BITRATE
      OMX_VIDEO_CodingAVC Encode.FRAMERATE default default).2.stdout =
        [("Error: Failed to set output port\n", [])] :=
  ⟨by decide,
    omx_set_out_port_fmt_ignores_framerate_result simVuiRejected simWorldEnc
      Encode.H264_BITRATE OMX_VIDEO_CodingAVC Encode.FRAMERATE default default (by decide),
    by decide, by decide, by decide⟩

/-! ## The helper functions of `omx.c` against their descriptions -/

/-- C22: `omx_get_port(handle, port_idx, p_port)` (both copies) makes one call,
the port-definition query with a structure whose `nPortIndex` is `port_idx`;
it returns `true` exactly when the query succeeds; `*p_port` is then the
definition the component returned, and is unchanged when the query fails. -/
theorem omx_get_port_returns_queried_definition (C : Component σ) (w : World σ)
    (port_idx : OMX_U32) (p_port : OMX_PARAM_PORTDEFINITIONTYPE) :
    (portQuery port_idx).nPortIndex = port_idx ∧
    (Decode.omx_get_port C w port_idx p_port).2.2.trace = w.trace ++
      [Call.OMX_GetParameter_PortDefinition (portQuery port_idx)
        (C.getPortDefinition w.comp (portQuery port_idx)).1
        (C.getPortDefinition w.comp (portQuery port_idx)).2.1] ∧
    (Decode.omx_get_port C w port_idx p_port).2.2.comp =
      (C.getPortDefinition w.comp (portQuery port_idx)).2.2 ∧
    (Decode.omx_get_port C w port_idx p_port).1 =
      decide ((C.getPortDefinition w.comp (portQuery port_idx)).1 = OMX_ErrorNone) ∧
    (Decode.omx_get_port C w port_idx p_port).2.1 =
      (if (C.getPortDefinition w.comp (portQuery port_idx)).1 = OMX_ErrorNone then
        (C.getPortDefinition w.comp (portQuery port_idx)).2.1 else p_port) ∧
    Encode.omx_get_port C w port_idx p_port = Decode.omx_get_port C w port_idx p_port := by
  refine ⟨rfl, ?_, ?_, ?_, ?_, rfl⟩ <;>
    by_cases hq : (C.getPortDefinition w.comp (portQuery port_idx)).1 = OMX_ErrorNone <;>
    first
      | simp [Decode.omx_get_port_ok C w port_idx p_port hq, hq]
      | simp [Decode.omx_get_port_fail C w port_idx p_port hq, hq]

/-- C21: `omx_set_port_buf_cnt(handle, port_idx, n)` with `n > 0` (both copies)
returns `true` if and only if the port-definition query succeeds, `n` is not
less than the queried `nBufferCountMin` and the component accepts the set.  The
calls it makes are the query and, when the query succeeds and `n` is not below
the minimum, one `OMX_SetParameter` whose definition is the queried one with
only `nBufferCountActual` replaced by `n`; it makes no buffer allocation
call. -/
theorem omx_set_port_buf_cnt_true_iff (C : Component σ) (w : World σ)
    (port_idx n : OMX_U32) (u : OMX_PARAM_PORTDEFINITIONTYPE) (hn : 0 < n) :
    (Decode.omx_set_port_buf_cnt C w port_idx n u).1 = .ok (decide
      ((C.getPortDefinition w.comp (portQuery port_idx)).1 = OMX_ErrorNone ∧
        (C.getPortDefinition w.comp (portQuery port_idx)).2.1.nBufferCountMin ≤ n ∧
        (C.setPortDefinition (C.getPortDefinition w.comp (portQuery port_idx)).2.2
          { (C.getPortDefinition w.comp (portQuery port_idx)).2.1 with
              nBufferCountActual := n }).1 = OMX_ErrorNone)) ∧
    (Decode.omx_set_port_buf_cnt C w port_idx n u).2.trace = w.trace ++
      Call.OMX_GetParameter_PortDefinition (portQuery port_idx)
          (C.getPortDefinition w.comp (portQuery port_idx)).1
          (C.getPortDefinition w.comp (portQuery port_idx)).2.1 ::
        (if (C.getPortDefinition w.comp (portQuery port_idx)).1 = OMX_ErrorNone ∧
            (C.getPortDefinition w.comp (portQuery port_idx)).2.1.nBufferCountMin ≤ n then
          [Call.OMX_SetParameter_PortDefinition
            { (C.getPortDefinition w.comp (portQuery port_idx)).2.1 with
                nBufferCountActual := n }
            (C.setPortDefinition (C.getPortDefinition w.comp (portQuery port_idx)).2.2
              { (C.getPortDefinition w.comp (portQuery port_idx)).2.1 with
                  nBufferCountActual := n }).1]
        else []) ∧
    allocRequests ((Decode.omx_set_port_buf_cnt C w port_idx n u).2.trace.drop
      w.trace.length) = [] ∧
    Encode.omx_set_port_buf_cnt C w port_idx n u =
      Decode.omx_set_port_buf_cnt C w port_idx n u := by
  have hn2 : n > 0 := hn
  have key : (Decode.omx_set_port_buf_cnt C w port_idx n u).1 = .ok (decide
        ((C.getPortDefinition w.comp (portQuery port_idx)).1 = OMX_ErrorNone ∧
          (C.getPortDefinition w.comp (portQuery port_idx)).2.1.nBufferCountMin ≤ n ∧
          (C.setPortDefinition (C.getPortDefinition w.comp (portQuery port_idx)).2.2
            { (C.getPortDefinition w.comp (portQuery port_idx)).2.1 with
                nBufferCountActual := n }).1 = OMX_ErrorNone)) ∧
      (Decode.omx_set_port_buf_cnt C w port_idx n u).2.trace = w.trace ++
        Call.OMX_GetParameter_PortDefinition (portQuery port_idx)
            (C.getPortDefinition w.comp (portQuery port_idx)).1
            (C.getPortDefinition w.comp (portQuery port_idx)).2.1 ::
          (if (C.getPortDefinition w.comp (portQuery port_idx)).1 = OMX_ErrorNone ∧
              (C.getPortDefinition w.comp (portQuery port_idx)).2.1.nBufferCountMin ≤ n then
            [Call.OMX_SetParameter_PortDefinition
              { (C.getPortDefinition w.comp (portQuery port_idx)).2.1 with
                  nBufferCountActual := n }
              (C.setPortDefinition (C.getPortDefinition w.comp (portQuery port_idx)).2.2
                { (C.getPortDefinition w.comp (portQuery port_idx)).2.1 with
                    nBufferCountActual := n }).1]
          else []) := by
    by_cases hq : (C.getPortDefinition w.comp (portQuery port_idx)).1 = OMX_ErrorNone
    · by_cases hmin : n < (C.getPortDefinition w.comp (portQuery port_idx)).2.1.nBufferCountMin
      · have hmin2 : ¬ (C.getPortDefinition w.comp (portQuery port_idx)).2.1.nBufferCountMin ≤ n :=
          not_le.mpr hmin
        simp [Decode.omx_set_port_buf_cnt, Decode.omx_get_port_ok C w port_idx u hq, hmin,
          hmin2, hn2, World.printf, hq]
      · have hmin2 : (C.getPortDefinition w.comp (portQuery port_idx)).2.1.nBufferCountMin ≤ n :=
          not_lt.mp hmin
        by_cases hs : (C.setPortDefinition (C.getPortDefinition w.comp (portQuery port_idx)).2.2
            { (C.getPortDefinition w.comp (portQuery port_idx)).2.1 with
                nBufferCountActual := n }).1 = OMX_ErrorNone
        · simp [Decode.omx_set_port_buf_cnt, Decode.omx_get_port_ok C w port_idx u hq, hmin,
            hmin2, hn2, World.printf, hq, OMX_SetParameter_PortDefinition, World.log, hs]
        · have hs2 : ¬ OMX_ErrorNone = (C.setPortDefinition
              (C.getPortDefinition w.comp (portQuery port_idx)).2.2
              { (C.getPortDefinition w.comp (portQuery port_idx)).2.1 with
                  nBufferCountActual := n }).1 := fun e => hs e.symm
          simp [Decode.omx_set_port_buf_cnt, Decode.omx_get_port_ok C w port_idx u hq, hmin,
            hmin2, hn2, World.printf, hq, OMX_SetParameter_PortDefinition, World.log, hs, hs2]
    · simp [Decode.omx_set_port_buf_cnt, Decode.omx_get_port_fail C w port_idx u hq, hn2, hq]
  refine ⟨key.1, key.2, ?_, by rw [Encode.omx_set_port_buf_cnt_eq_decode]⟩
  rw [key.2, List.drop_left]
  split_ifs <;> simp [allocRequests, Call.allocRequest]

/-- C21 (witness): 3 buffers are set on port 1 of the simulated component,
which requires 1 at least: the query, then the set of the queried definition
with `nBufferCountActual = 3`. -/
theorem omx_set_port_buf_cnt_true_iff_witness :
    0 < 3 ∧
    (Decode.omx_set_port_buf_cnt (sim ⟨20, 20, 3⟩) simWorld 1 3 default).1.toOption
      = some true ∧
    (Decode.omx_set_port_buf_cnt (sim ⟨20, 20, 3⟩) simWorld 1 3 default).2.trace =
      [Call.OMX_GetParameter_PortDefinition (portQuery 1) OMX_ErrorNone (simPort 1 2 1 8192),
        Call.OMX_SetParameter_PortDefinition (simPort 1 3 1 8192) OMX_ErrorNone] ∧
    allocRequests ((Decode.omx_set_port_buf_cnt (sim ⟨20, 20, 3⟩) simWorld 1 3
      default).2.trace.drop simWorld.trace.length) = [] :=
  ⟨by decide, by decide, by decide,
    (omx_set_port_buf_cnt_true_iff (sim ⟨20, 20, 3⟩) simWorld 1 3 default (by decide)).2.2.1⟩

/-- The loop of `omx_dealloc_port_bufs` on slots that exist is one
`OMX_FreeBuffer` per slot, in index order. -/
theorem Decode.dealloc_loop_foldl (C : Component σ) (port : OMX_U32) (pp : List BufPtr) :
    ∀ (count index : Nat) (w : World σ), index + count ≤ pp.length →
      Decode.omx_dealloc_port_bufs_loop C port pp count index w =
        (.ok (), ((pp.drop index).take count).foldl
          (fun w1 b => (OMX_FreeBuffer C w1 port b).2) w) := by
  intro count
  induction count with
  | zero => intro index w _; simp [Decode.omx_dealloc_port_bufs_loop]
  | succ n ih =>
    intro index w h
    have hlt : index < pp.length := by omega
    have hd : pp.drop index = pp[index] :: pp.drop (index + 1) := by
      rw [List.drop_eq_getElem_cons hlt]
    simp only [Decode.omx_dealloc_port_bufs_loop, List.getElem?_eq_getElem hlt]
    rw [ih (index + 1) _ (by omega), hd, List.take_succ_cons, List.foldl_cons]

/-- Freeing a list of headers in turn: the trace grows by one call per header,
the frees of the headers in order. -/
theorem freedBufs_foldl_free (C : Component σ) (port : OMX_U32) :
    ∀ (bs : List BufPtr) (w : World σ),
      ∃ t, (bs.foldl (fun w1 b => (OMX_FreeBuffer C w1 port b).2) w).trace = w.trace ++ t ∧
        freedBufs t = bs.map (fun b => (port, b)) ∧ t.length = bs.length := by
  intro bs
  induction bs with
  | nil => intro w; exact ⟨[], by simp, by simp [freedBufs], by simp⟩
  | cons b rest ih =>
    intro w
    obtain ⟨t, h1, h2, h4⟩ := ih (OMX_FreeBuffer C w port b).2
    refine ⟨Call.OMX_FreeBuffer port b (C.freeBuffer w.comp port b).1 :: t, ?_, ?_, ?_⟩
    · rw [List.foldl_cons, h1]; simp [OMX_FreeBuffer, World.log]
    · simp [freedBufs, Call.freed] at h2 ⊢; exact h2
    · simp [h4]

/-- C23: `omx_dealloc_all_port_bufs(handle, port_idx, pool)` (both copies), on
a pool that holds at least the `nBufferCountActual` entries the re-query
reports, is `deallocate_all` of the specification.  When the query succeeds it
is `omx_dealloc_port_bufs(handle, port_idx, pool, nBufferCountActual)` run
after the query: the buffers freed are the first `nBufferCountActual` entries
of the pool, once each and in index order, and the pool array is released;
when the query fails no buffer is freed and the array is not released. -/
theorem omx_dealloc_all_port_bufs_refines_deallocate_all (C : Component σ) (w : World σ)
    (port_idx : OMX_U32) (pool : List BufPtr) (u : OMX_PARAM_PORTDEFINITIONTYPE)
    (hlen : (C.getPortDefinition w.comp (portQuery port_idx)).1 = OMX_ErrorNone →
      (C.getPortDefinition w.comp (portQuery port_idx)).2.1.nBufferCountActual ≤ pool.length) :
    Decode.omx_dealloc_all_port_bufs C w port_idx (some pool) u =
      (.ok (), deallocate_all_spec C w port_idx pool) ∧
    Encode.omx_dealloc_all_port_bufs C w port_idx (some pool) u =
      (.ok (), deallocate_all_spec C w port_idx pool) ∧
    ((C.getPortDefinition w.comp (portQuery port_idx)).1 = OMX_ErrorNone →
      Decode.omx_dealloc_all_port_bufs C w port_idx (some pool) u =
        Decode.omx_dealloc_port_bufs C (Decode.omx_get_port C w port_idx u).2.2 port_idx
          (some pool) (C.getPortDefinition w.comp (portQuery port_idx)).2.1.nBufferCountActual ∧
      freedBufs ((deallocate_all_spec C w port_idx pool).trace.drop w.trace.length) =
        (pool.take (C.getPortDefinition w.comp
          (portQuery port_idx)).2.1.nBufferCountActual).map (fun b => (port_idx, b)) ∧
      (deallocate_all_spec C w port_idx pool).trace.getLast? = some (Call.free pool) ∧
      (deallocate_all_spec C w port_idx pool).trace.length = w.trace.length +
        ((C.getPortDefinition w.comp (portQuery port_idx)).2.1.nBufferCountActual + 2)) ∧
    ((C.getPortDefinition w.comp (portQuery port_idx)).1 ≠ OMX_ErrorNone →
      (deallocate_all_spec C w port_idx pool).trace = w.trace ++
        [Call.OMX_GetParameter_PortDefinition (portQuery port_idx)
          (C.getPortDefinition w.comp (portQuery port_idx)).1
          (C.getPortDefinition w.comp (portQuery port_idx)).2.1]) := by
  have key : Decode.omx_dealloc_all_port_bufs C w port_idx (some pool) u =
      (.ok (), deallocate_all_spec C w port_idx pool) := by
    by_cases hq : (C.getPortDefinition w.comp (portQuery port_idx)).1 = OMX_ErrorNone
    · simp only [Decode.omx_dealloc_all_port_bufs, Decode.omx_get_port_ok C w port_idx u hq,
        Decode.omx_dealloc_port_bufs, deallocate_all_spec, OMX_GetParameter_PortDefinition,
        hq, if_true]
      rw [Decode.dealloc_loop_foldl C port_idx pool _ 0 _ (by simpa using hlen hq)]
      simp [World.log]
    · simp [Decode.omx_dealloc_all_port_bufs, Decode.omx_get_port_fail C w port_idx u hq,
        deallocate_all_spec, OMX_GetParameter_PortDefinition, hq, World.printf, World.log]
  refine ⟨key, by rw [Encode.omx_dealloc_all_port_bufs_eq_decode]; exact key, ?_, ?_⟩
  · intro hq
    refine ⟨?_, ?_, ?_, ?_⟩
    · simp [Decode.omx_dealloc_all_port_bufs, Decode.omx_get_port_ok C w port_idx u hq]
    · obtain ⟨t, h1, h2, _⟩ := freedBufs_foldl_free C port_idx
        (pool.take (C.getPortDefinition w.comp (portQuery port_idx)).2.1.nBufferCountActual)
        (OMX_GetParameter_PortDefinition C w (portQuery port_idx)).2.2
      simp only [deallocate_all_spec, hq, if_true, OMX_GetParameter_PortDefinition,
        World.log] at h1 ⊢
      rw [h1]
      simp only [freedBufs] at h2
      simp [freedBufs, List.filterMap_append, Call.freed, h2, List.map_take]
    · simp [deallocate_all_spec, OMX_GetParameter_PortDefinition, hq, World.log]
    · obtain ⟨t, h1, _, h3⟩ := freedBufs_foldl_free C port_idx
        (pool.take (C.getPortDefinition w.comp (portQuery port_idx)).2.1.nBufferCountActual)
        (OMX_GetParameter_PortDefinition C w (portQuery port_idx)).2.2
      simp only [deallocate_all_spec, hq, if_true, OMX_GetParameter_PortDefinition,
        World.log] at h1 ⊢
      rw [h1]
      have h5 : List.length (pool.take (C.getPortDefinition w.comp
          (portQuery port_idx)).2.1.nBufferCountActual) =
          (C.getPortDefinition w.comp (portQuery port_idx)).2.1.nBufferCountActual := by
        rw [List.length_take]
        exact Nat.min_eq_left (hlen hq)
      simp [h3, h5]
  · intro hq
    simp [deallocate_all_spec, OMX_GetParameter_PortDefinition, hq, World.printf, World.log]

/-- C23 (witness): port 1 of the simulated component has 2 buffers; the pool
`[3, 4]` is freed in index order and released. -/
theorem omx_dealloc_all_port_bufs_refines_deallocate_all_witness :
    (((sim ⟨20, 20, 3⟩).getPortDefinition simWorld.comp (portQuery 1)).1 = OMX_ErrorNone →
      ((sim ⟨20, 20, 3⟩).getPortDefinition simWorld.comp
        (portQuery 1)).2.1.nBufferCountActual ≤ [3, 4].length) ∧
    (Decode.omx_dealloc_all_port_bufs (sim ⟨20, 20, 3⟩) simWorld 1 (some [3, 4]) default).2.trace
      = (deallocate_all_spec (sim ⟨20, 20, 3⟩) simWorld 1 [3, 4]).trace ∧
    (deallocate_all_spec (sim ⟨20, 20, 3⟩) simWorld 1 [3, 4]).trace =
      [Call.OMX_GetParameter_PortDefinition (portQuery 1) OMX_ErrorNone (simPort 1 2 1 8192),
        Call.OMX_FreeBuffer 1 3 OMX_ErrorNone, Call.OMX_FreeBuffer 1 4 OMX_ErrorNone,
        Call.free [3, 4]] ∧
    (deallocate_all_spec (sim ⟨20, 0, 3⟩) simWorld 1 [3, 4]).trace =
      [Call.OMX_GetParameter_PortDefinition (portQuery 1) OMX_ErrorUndefined (portQuery 1)] :=
  ⟨by decide,
    congrArg (fun r => r.2.trace)
      (omx_dealloc_all_port_bufs_refines_deallocate_all (sim ⟨20, 20, 3⟩) simWorld 1 [3, 4]
        default (by decide)).1,
    by decide, by decide⟩

/-- The answers to a run of submissions depend on the heap only through the
reset headers. -/
theorem Component.fillAnswers_congr (C : Component σ)
    (h1 h2 : BufPtr → OMX_BUFFERHEADERTYPE) (hh : ∀ p, (h1 p).reset = (h2 p).reset) :
    ∀ (bufs : List BufPtr) (s : σ), C.fillAnswers h1 s bufs = C.fillAnswers h2 s bufs := by
  intro bufs
  induction bufs with
  | nil => intro s; rfl
  | cons p rest ih =>
    intro s
    simp only [Component.fillAnswers, hh p, ih]

/-- The answers to a run of submissions: the headers answered are a prefix of
the headers given, each was passed reset, every answer but the last is an
acceptance, and there is an answer as soon as there is a header. -/
theorem Component.fillAnswers_spec (C : Component σ) (heap : BufPtr → OMX_BUFFERHEADERTYPE) :
    ∀ (bufs : List BufPtr) (s : σ),
      (C.fillAnswers heap s bufs).map (fun a => a.1) <+: bufs ∧
      (∀ a ∈ C.fillAnswers heap s bufs, a.2.1 = (heap a.1).reset) ∧
      (∀ a ∈ (C.fillAnswers heap s bufs).dropLast, a.2.2 = OMX_ErrorNone) ∧
      (bufs ≠ [] → C.fillAnswers heap s bufs ≠ []) := by
  intro bufs
  induction bufs with
  | nil => intro s; simp [Component.fillAnswers]
  | cons p rest ih =>
    intro s
    by_cases hr : (C.fillThisBuffer s p (heap p).reset).1 = OMX_ErrorNone
    · obtain ⟨h1, h2, h3, _⟩ := ih (C.fillThisBuffer s p (heap p).reset).2
      simp only [Component.fillAnswers, hr, if_true]
      refine ⟨?_, ?_, ?_, by simp⟩
      · simpa using (List.prefix_cons_inj p).mpr h1
      · intro a ha
        rcases List.mem_cons.mp ha with rfl | ha
        · rfl
        · exact h2 a ha
      · intro a ha
        cases hA : C.fillAnswers heap (C.fillThisBuffer s p (heap p).reset).2 rest with
        | nil => rw [hA] at ha; simp at ha
        | cons b bs =>
          rw [hA, List.dropLast_cons₂] at ha
          rcases List.mem_cons.mp ha with rfl | ha
          · rfl
          · exact h3 a (by rw [hA]; exact ha)
    · simp only [Component.fillAnswers, hr, if_false]
      refine ⟨?_, ?_, ?_, by simp⟩
      · simp only [List.map_cons, List.map_nil]
        exact ⟨rest, rfl⟩
      · intro a ha
        rw [List.mem_singleton.mp ha]
      · simp

/-- The loop of `omx_fill_buffers` on slots that exist and hold non-null
headers: the result, the calls made and the heap afterwards, in terms of the
answers of the component. -/
theorem Decode.fill_loop_spec (C : Component σ) (pp : List BufPtr) :
    ∀ (remaining index : Nat) (w : World σ), index + remaining ≤ pp.length →
      (∀ p ∈ (pp.drop index).take remaining, p ≠ NULL) →
      (∃ b, (Decode.omx_fill_buffers_loop C pp remaining index w).1 = .ok b ∧
        (b = true ↔
          (C.fillAnswers w.heap w.comp ((pp.drop index).take remaining)).length = remaining ∧
          ∀ a ∈ C.fillAnswers w.heap w.comp ((pp.drop index).take remaining),
            a.2.2 = OMX_ErrorNone)) ∧
      (Decode.omx_fill_buffers_loop C pp remaining index w).2.trace = w.trace ++
        (C.fillAnswers w.heap w.comp ((pp.drop index).take remaining)).map fillCall ∧
      (∀ q,
        (q ∈ (C.fillAnswers w.heap w.comp ((pp.drop index).take remaining)).map
            (fun a => a.1) →
          (Decode.omx_fill_buffers_loop C pp remaining index w).2.heap q = (w.heap q).reset) ∧
        (q ∉ (C.fillAnswers w.heap w.comp ((pp.drop index).take remaining)).map
            (fun a => a.1) →
          (Decode.omx_fill_buffers_loop C pp remaining index w).2.heap q = w.heap q)) := by
  intro remaining
  induction remaining with
  | zero =>
    intro index w _ _
    simp [Decode.omx_fill_buffers_loop, Component.fillAnswers]
  | succ n ih =>
    intro index w hlen hnn
    have hlt : index < pp.length := by omega
    have hd : pp.drop index = pp[index] :: pp.drop (index + 1) := by
      rw [List.drop_eq_getElem_cons hlt]
    have hp : pp[index] ≠ NULL := hnn _ (by rw [hd, List.take_succ_cons]; simp)
    have hnn1 : ∀ p ∈ (pp.drop (index + 1)).take n, p ≠ NULL := by
      intro p hp1
      exact hnn p (by rw [hd, List.take_succ_cons]; exact List.mem_cons_of_mem _ hp1)
    have hhdr : (Decode.resetHeader w pp[index]).heap pp[index] = (w.heap pp[index]).reset := by
      simp [Decode.resetHeader, OMX_BUFFERHEADERTYPE.reset]
    rw [hd, List.take_succ_cons]
    by_cases hr : (C.fillThisBuffer w.comp pp[index] (w.heap pp[index]).reset).1 = OMX_ErrorNone
    · have hcongr := C.fillAnswers_congr (Decode.resetHeader w pp[index]).heap w.heap
        (by
          intro p
          by_cases hpe : p = pp[index]
          · subst hpe; simp [Decode.resetHeader, OMX_BUFFERHEADERTYPE.reset]
          · simp [Decode.resetHeader, Function.update_noteq hpe])
        ((pp.drop (index + 1)).take n)
        (C.fillThisBuffer w.comp pp[index] (w.heap pp[index]).reset).2
      obtain ⟨⟨b, h1, hb⟩, h2, h3⟩ := ih (index + 1)
        { (Decode.resetHeader w pp[index]) with
            trace := w.trace ++ [Call.OMX_FillThisBuffer pp[index] (w.heap pp[index]).reset
              OMX_ErrorNone],
            comp := (C.fillThisBuffer w.comp pp[index] (w.heap pp[index]).reset).2 }
        (by omega) hnn1
      have hstep : Decode.omx_fill_buffers_loop C pp (n + 1) index w =
          Decode.omx_fill_buffers_loop C pp n (index + 1)
            { (Decode.resetHeader w pp[index]) with
                trace := w.trace ++ [Call.OMX_FillThisBuffer pp[index]
                  (w.heap pp[index]).reset OMX_ErrorNone],
                comp := (C.fillThisBuffer w.comp pp[index] (w.heap pp[index]).reset).2 } := by
        simp only [Decode.omx_fill_buffers_loop, List.getElem?_eq_getElem hlt, hp, if_false,
          OMX_FillThisBuffer, hhdr, World.log]
        have hr2 : (C.fillThisBuffer (Decode.resetHeader w pp[index]).comp pp[index]
            (w.heap pp[index]).reset).1 = OMX_ErrorNone := hr
        simp only [hr2, ne_eq, not_true_eq_false, if_false]
        rfl
      dsimp only at h1 hb h2 h3
      rw [hcongr] at hb h2 h3
      rw [hstep]
      simp only [Component.fillAnswers, hr, if_true]
      refine ⟨?_, ?_, ?_⟩
      · refine ⟨b, h1, ?_⟩
        rw [hb]
        simp
      · rw [h2]
        simp [fillCall, hr]
      · intro q
        rw [List.map_cons]
        by_cases hq : q = pp[index]
        · have hh : (Decode.resetHeader w pp[index]).heap q = (w.heap q).reset := by
            rw [hq]; exact hhdr
          refine ⟨fun _ => ?_, fun hn => absurd (by rw [hq]; exact List.mem_cons_self _ _) hn⟩
          by_cases hm : q ∈ List.map (fun a => a.1) (C.fillAnswers w.heap
              (C.fillThisBuffer w.comp pp[index] (w.heap pp[index]).reset).2
              (List.take n (List.drop (index + 1) pp)))
          · rw [(h3 q).1 hm, hh]; rfl
          · rw [(h3 q).2 hm, hh]
        · have hh : (Decode.resetHeader w pp[index]).heap q = w.heap q := by
            simp [Decode.resetHeader, Function.update_noteq hq]
          refine ⟨fun hm => ?_, fun hn => ?_⟩
          · rcases List.mem_cons.mp hm with h | h
            · exact absurd h hq
            · rw [(h3 q).1 h, hh]
          · rw [(h3 q).2 (fun h => hn (List.mem_cons_of_mem _ h)), hh]
    · simp only [Decode.omx_fill_buffers_loop, List.getElem?_eq_getElem hlt, hp, if_false,
        OMX_FillThisBuffer, hhdr, World.log, Component.fillAnswers, hr]
      have hr2 : (C.fillThisBuffer (Decode.resetHeader w pp[index]).comp pp[index]
          (w.heap pp[index]).reset).1 ≠ OMX_ErrorNone := hr
      simp only [hr2, ne_eq, not_false_eq_true, if_true]
      refine ⟨⟨false, rfl, ?_⟩, ?_, ?_⟩
      · simp [hr]
      · simp [fillCall, World.printf, Decode.resetHeader]
      · intro q
        by_cases hq : q = pp[index]
        · refine ⟨fun _ => ?_, fun hn => absurd (by simp [hq]) hn⟩
          rw [hq]
          simp [World.printf, Decode.resetHeader, OMX_BUFFERHEADERTYPE.reset]
        · refine ⟨fun hm => absurd (by simpa using hm) hq, fun _ => ?_⟩
          simp [World.printf, Decode.resetHeader, Function.update_noteq hq]

/-- C24: `omx_fill_buffers(handle, pool, count)` with `count > 0` (both
copies), on a pool whose first `count` entries exist and are non-null.  With
`A` the answers of the component to the submissions of these entries in index
order, each with `nFlags` and `nFilledLen` reset, up to and including the
first rejection: the function returns `true` if and only if `A` has `count`
answers, all acceptances; the calls it makes are exactly the submissions of
`A` (headers in index order, each carrying `nFlags = 0` and `nFilledLen = 0`,
every answer but the last an acceptance, so it stops at the first rejection);
the headers submitted are left reset and every other header, in particular
every buffer after the rejected one, is left as it was. -/
theorem omx_fill_buffers_true_iff_all_accepted (C : Component σ) (w : World σ)
    (pool : List BufPtr) (count : Nat) (hc : 0 < count) (hlen : count ≤ pool.length)
    (hnn : ∀ p ∈ pool.take count, p ≠ NULL) :
    (∃ b, (Decode.omx_fill_buffers C w (some pool) count).1 = .ok b ∧
      (b = true ↔
        (C.fillAnswers w.heap w.comp (pool.take count)).length = count ∧
        ∀ a ∈ C.fillAnswers w.heap w.comp (pool.take count), a.2.2 = OMX_ErrorNone)) ∧
    (Decode.omx_fill_buffers C w (some pool) count).2.trace = w.trace ++
      (C.fillAnswers w.heap w.comp (pool.take count)).map fillCall ∧
    ((C.fillAnswers w.heap w.comp (pool.take count)).map (fun a => a.1) <+: pool ∧
      C.fillAnswers w.heap w.comp (pool.take count) ≠ [] ∧
      (∀ a ∈ C.fillAnswers w.heap w.comp (pool.take count),
        a.2.1 = (w.heap a.1).reset ∧ a.2.1.nFlags = 0 ∧ a.2.1.nFilledLen = 0) ∧
      (∀ a ∈ (C.fillAnswers w.heap w.comp (pool.take count)).dropLast,
        a.2.2 = OMX_ErrorNone)) ∧
    (∀ q,
      (q ∈ (C.fillAnswers w.heap w.comp (pool.take count)).map (fun a => a.1) →
        (Decode.omx_fill_buffers C w (some pool) count).2.heap q = (w.heap q).reset) ∧
      (q ∉ (C.fillAnswers w.heap w.comp (pool.take count)).map (fun a => a.1) →
        (Decode.omx_fill_buffers C w (some pool) count).2.heap q = w.heap q)) ∧
    Encode.omx_fill_buffers C w (some pool) count =
      Decode.omx_fill_buffers C w (some pool) count := by
  have hc2 : count > 0 := hc
  have e : Decode.omx_fill_buffers C w (some pool) count =
      Decode.omx_fill_buffers_loop C pool count 0 w := by
    simp [Decode.omx_fill_buffers, hc2]
  obtain ⟨h1, h2, h3⟩ := Decode.fill_loop_spec C pool count 0 w (by omega)
    (by simpa using hnn)
  simp only [List.drop_zero] at h1 h2 h3
  obtain ⟨s1, s2, s3, s4⟩ := C.fillAnswers_spec w.heap (pool.take count) w.comp
  have hne : pool.take count ≠ [] := by
    intro h0
    have := congrArg List.length h0
    rw [List.length_take, Nat.min_eq_left hlen] at this
    simp at this
    omega
  rw [e]
  refine ⟨h1, h2, ⟨s1.trans ( List.take_prefix _ _), s4 hne, ?_, s3⟩, h3,
    by rw [Encode.omx_fill_buffers_eq_decode, e]⟩
  intro a ha
  have := s2 a ha
  exact ⟨this, by rw [this]; rfl, by rw [this]; rfl⟩

/-- C24 (witness): headers 3, 4 and 5, each returned filled with two bytes, are
submitted to a component that rejects header 4: the function returns `false`
after two submissions, both of reset headers, and header 5 is left as it
was. -/
theorem omx_fill_buffers_true_iff_all_accepted_witness :
    (0 < 3 ∧ 3 ≤ [3, 4, 5].length ∧ ∀ p ∈ [3, 4, 5].take 3, p ≠ NULL) ∧
    (Decode.omx_fill_buffers (simFillRejects 4)
      { simWorld with heap := fun _ => filledHeader [7, 8] 1 } (some [3, 4, 5]) 3).2.trace =
      [Call.OMX_FillThisBuffer 3 (filledHeader [7, 8] 1).reset OMX_ErrorNone,
        Call.OMX_FillThisBuffer 4 (filledHeader [7, 8] 1).reset OMX_ErrorUndefined] ∧
    (Decode.omx_fill_buffers (simFillRejects 4)
      { simWorld with heap := fun _ => filledHeader [7, 8] 1 } (some [3, 4, 5]) 3).1.toOption
      = some false ∧
    (Decode.omx_fill_buffers (simFillRejects 4)
      { simWorld with heap := fun _ => filledHeader [7, 8] 1 } (some [3, 4, 5]) 3).2.heap 5
      = filledHeader [7, 8] 1 :=
  ⟨by decide,
    (omx_fill_buffers_true_iff_all_accepted (simFillRejects 4)
      { simWorld with heap := fun _ => filledHeader [7, 8] 1 } [3, 4, 5] 3
      (by decide) (by decide) (by decide)).2.1,
    by decide,
    ((omx_fill_buffers_true_iff_all_accepted (simFillRejects 4)
      { simWorld with heap := fun _ => filledHeader [7, 8] 1 } [3, 4, 5] 3
      (by decide) (by decide) (by decide)).2.2.2.1 5).2 (by decide)⟩

/-- C25: the encoder's `omx_empty_buffer(handle, file, buf, len)` with a
non-null buffer, an open file and `len ≤ buf.nAllocLen` makes exactly one call,
`OMX_EmptyThisBuffer` on `buf`, whatever the state of the input.  The header
it submits has `nFilledLen = 0` and `nFlags = EOS` if the end-of-file indicator
is set or `fread` returns fewer than `len` bytes, and `nFilledLen = len`,
`nFlags = ENDOFFRAME` and the bytes read as payload if `fread` returns `len`
bytes; the capacity is unchanged.  When the component accepts the buffer the
function returns the `nFlags` of the buffer (when it rejects it, the `assert`
on the submission fails). -/
theorem omx_empty_buffer_degrades_short_input_to_eos (C : Component σ) (w : World σ)
    (file : FILE) (p_buf : BufPtr) (len : Nat) (hp : p_buf ≠ NULL)
    (hlen : len ≤ (w.heap p_buf).nAllocLen) :
    ∃ (hdr : OMX_BUFFERHEADERTYPE) (file1 : FILE),
      (Encode.omx_empty_buffer C w (some file) p_buf len).2.trace = w.trace ++
        [Call.OMX_EmptyThisBuffer p_buf hdr (C.emptyThisBuffer w.comp p_buf hdr).1] ∧
      (Encode.omx_empty_buffer C w (some file) p_buf len).2.heap p_buf = hdr ∧
      hdr.nAllocLen = (w.heap p_buf).nAllocLen ∧
      (Encode.feof file = true ∨ (Encode.fread file len).2.1 < len →
        hdr.nFilledLen = 0 ∧ hdr.nFlags = OMX_BUFFERFLAG_EOS) ∧
      (Encode.feof file = false ∧ (Encode.fread file len).2.1 = len →
        hdr.nFilledLen = len ∧ hdr.nFlags = OMX_BUFFERFLAG_ENDOFFRAME ∧
        hdr.pBuffer.take len = (Encode.fread file len).1) ∧
      (Encode.omx_empty_buffer C w (some file) p_buf len).1 =
        (if (C.emptyThisBuffer w.comp p_buf hdr).1 = OMX_ErrorNone
          then .ok (hdr.nFlags, file1) else .error Fault.assertion) := by
  have hle : (Encode.fread file len).2.1 ≤ len := by
    simp only [Encode.fread]; exact Nat.min_le_left _ _
  have hbl : (Encode.fread file len).1.length = (Encode.fread file len).2.1 := by
    simp [Encode.fread]
  by_cases heof : Encode.feof file = true
  · refine ⟨{ w.heap p_buf with nFilledLen := 0, nFlags := OMX_BUFFERFLAG_EOS }, file,
      ?_, ?_, rfl, fun _ => ⟨rfl, rfl⟩, fun h => absurd heof (by simp [h.1]), ?_⟩
    · simp only [Encode.omx_empty_buffer, hp, hlen, heof, if_true, if_false,
        not_true_eq_false, OMX_EmptyThisBuffer, World.log, Function.update_same]
      split_ifs <;> rfl
    · simp only [Encode.omx_empty_buffer, hp, hlen, heof, if_true, if_false,
        not_true_eq_false, OMX_EmptyThisBuffer, World.log, Function.update_same]
      split_ifs <;> simp
    · simp only [Encode.omx_empty_buffer, hp, hlen, heof, if_true, if_false,
        not_true_eq_false, OMX_EmptyThisBuffer, World.log, Function.update_same]
      split_ifs <;> simp
  · have heof2 : Encode.feof file = false := by simpa using heof
    by_cases hread : (Encode.fread file len).2.1 = len
    · refine ⟨{ w.heap p_buf with
          pBuffer := (Encode.fread file len).1 ++
            (w.heap p_buf).pBuffer.drop (Encode.fread file len).2.1,
          nFilledLen := len, nFlags := OMX_BUFFERFLAG_ENDOFFRAME },
        (Encode.fread file len).2.2, ?_, ?_, rfl,
        fun h => ?_, fun _ => ⟨rfl, rfl, ?_⟩, ?_⟩
      · simp only [Encode.omx_empty_buffer, hp, hlen, heof2, hread, if_true, if_false,
          not_true_eq_false, OMX_EmptyThisBuffer, World.log, Function.update_same,
          Bool.false_eq_true]
        split_ifs <;> simp
      · simp only [Encode.omx_empty_buffer, hp, hlen, heof2, hread, if_true, if_false,
          not_true_eq_false, OMX_EmptyThisBuffer, World.log, Function.update_same,
          Bool.false_eq_true]
        split_ifs <;> simp
      · rcases h with h | h
        · exact absurd h heof
        · omega
      · rw [List.take_append_of_le_length (by omega)]
        exact List.take_of_length_le (by omega)
      · simp only [Encode.omx_empty_buffer, hp, hlen, heof2, hread, if_true, if_false,
          not_true_eq_false, OMX_EmptyThisBuffer, World.log, Function.update_same,
          Bool.false_eq_true]
        split_ifs <;> simp
    · refine ⟨{ w.heap p_buf with
          pBuffer := (Encode.fread file len).1 ++
            (w.heap p_buf).pBuffer.drop (Encode.fread file len).2.1,
          nFilledLen := 0, nFlags := OMX_BUFFERFLAG_EOS },
        (Encode.fread file len).2.2, ?_, ?_, rfl,
        fun _ => ⟨rfl, rfl⟩, fun h => absurd h.2 hread, ?_⟩
      · simp only [Encode.omx_empty_buffer, hp, hlen, heof2, hread, if_true, if_false,
          not_true_eq_false, OMX_EmptyThisBuffer, World.log, Function.update_same,
          Bool.false_eq_true]
        split_ifs <;> simp
      · simp only [Encode.omx_empty_buffer, hp, hlen, heof2, hread, if_true, if_false,
          not_true_eq_false, OMX_EmptyThisBuffer, World.log, Function.update_same,
          Bool.false_eq_true]
        split_ifs <;> simp
      · simp only [Encode.omx_empty_buffer, hp, hlen, heof2, hread, if_true, if_false,
          not_true_eq_false, OMX_EmptyThisBuffer, World.log, Function.update_same,
          Bool.false_eq_true]
        split_ifs <;> simp

/-- C25 (witness): a buffer of capacity 4 and a file of 6 bytes, read 4 bytes at
a time: the first read fills the buffer (`nFilledLen = 4`, ENDOFFRAME), the
second finds 2 bytes only and the buffer is submitted empty with the EOS flag,
as it is once the end-of-file indicator is set. -/
theorem omx_empty_buffer_degrades_short_input_to_eos_witness :
    ((1 : BufPtr) ≠ NULL ∧ 4 ≤ (simWorldSmall.heap 1).nAllocLen) ∧
    (∃ hdr, (Encode.omx_empty_buffer (sim ⟨20, 20, 3⟩) simWorldSmall
        (some { zeroFile 6 with pos := 4 }) 1 4).2.heap 1 = hdr ∧
      hdr.nFilledLen = 0 ∧ hdr.nFlags = OMX_BUFFERFLAG_EOS) ∧
    emptiedBufs (Encode.omx_empty_buffer (sim ⟨20, 20, 3⟩) simWorldSmall
        (some (zeroFile 6)) 1 4).2.trace = [(1, 4, OMX_BUFFERFLAG_ENDOFFRAME)] ∧
    emptiedBufs (Encode.omx_empty_buffer (sim ⟨20, 20, 3⟩) simWorldSmall
        (some { zeroFile 6 with pos := 4 }) 1 4).2.trace = [(1, 0, OMX_BUFFERFLAG_EOS)] ∧
    emptiedBufs (Encode.omx_empty_buffer (sim ⟨20, 20, 3⟩) simWorldSmall
        (some { zeroFile 6 with pos := 6, eof := true }) 1 4).2.trace
      = [(1, 0, OMX_BUFFERFLAG_EOS)] :=
  ⟨⟨by decide, by decide⟩,
    (let ⟨hdr, _, _, h2, _, h4, _, _⟩ :=
      omx_empty_buffer_degrades_short_input_to_eos (sim ⟨20, 20, 3⟩) simWorldSmall
        { zeroFile 6 with pos := 4 } 1 4 (by decide) (by decide)
     ⟨hdr, h2, h4 (Or.inr (by decide))⟩),
    by decide, by decide, by decide⟩

/-- `omx_state_to_str` finds no entry for a value above the six states. -/
theorem Decode.omx_state_to_str_above (state : Nat) (h : 6 ≤ state) :
    Decode.omx_state_to_str state = none := by
  have h0 : state ≠ 0 := by omega
  have h1 : state ≠ 1 := by omega
  have h2 : state ≠ 2 := by omega
  have h3 : state ≠ 3 := by omega
  have h4 : state ≠ 4 := by omega
  have h5 : state ≠ 5 := by omega
  simp [Decode.omx_state_to_str, List.find?, OMX_StateInvalid, OMX_StateLoaded, OMX_StateIdle,
    OMX_StateExecuting, OMX_StatePause, OMX_StateWaitForResources, h0, h1, h2, h3, h4, h5]

/-- C27: `omx_state_to_str` (both copies) returns the enumerator's own name for
each of the six states `OMX_StateInvalid`, `OMX_StateLoaded`, `OMX_StateIdle`,
`OMX_StateExecuting`, `OMX_StatePause` and `OMX_StateWaitForResources`, returns
`NULL` for every other value, and maps distinct states to distinct strings. -/
theorem omx_state_to_str_names_six_states :
    (Decode.omx_state_to_str OMX_StateInvalid = some "OMX_StateInvalid" ∧
      Decode.omx_state_to_str OMX_StateLoaded = some "OMX_StateLoaded" ∧
      Decode.omx_state_to_str OMX_StateIdle = some "OMX_StateIdle" ∧
      Decode.omx_state_to_str OMX_StateExecuting = some "OMX_StateExecuting" ∧
      Decode.omx_state_to_str OMX_StatePause = some "OMX_StatePause" ∧
      Decode.omx_state_to_str OMX_StateWaitForResources = some "OMX_StateWaitForResources") ∧
    (∀ state : Nat,
      state ∉ [OMX_StateInvalid, OMX_StateLoaded, OMX_StateIdle, OMX_StateExecuting,
        OMX_StatePause, OMX_StateWaitForResources] →
      Decode.omx_state_to_str state = none) ∧
    (∀ s1 s2 : Nat, Decode.omx_state_to_str s1 ≠ none →
      Decode.omx_state_to_str s1 = Decode.omx_state_to_str s2 → s1 = s2) ∧
    (∀ state : OMX_STATETYPE,
      Encode.omx_state_to_str state = Decode.omx_state_to_str state) := by
  refine ⟨by decide, ?_, ?_, fun _ => rfl⟩
  · intro state h
    apply Decode.omx_state_to_str_above
    simp only [List.mem_cons, List.mem_singleton, List.mem_nil_iff, or_false, not_or,
      OMX_StateInvalid, OMX_StateLoaded, OMX_StateIdle, OMX_StateExecuting, OMX_StatePause,
      OMX_StateWaitForResources] at h
    omega
  · intro s1 s2 hne heq
    by_cases h1 : 6 ≤ s1
    · exact absurd (Decode.omx_state_to_str_above s1 h1) hne
    · by_cases h2 : 6 ≤ s2
      · rw [Decode.omx_state_to_str_above s2 h2] at heq
        exact absurd heq hne
      · have h1' : s1 < 6 := by omega
        have h2' : s2 < 6 := by omega
        interval_cases s1 <;> interval_cases s2 <;> first | rfl | (exact absurd heq (by decide))

/-- C27 (witness): the value 6 has no name, and the state whose name is that of
`OMX_StateIdle` is `OMX_StateIdle`. -/
theorem omx_state_to_str_names_six_states_witness :
    ((6 : Nat) ∉ [OMX_StateInvalid, OMX_StateLoaded, OMX_StateIdle,
        OMX_StateExecuting, OMX_StatePause, OMX_StateWaitForResources] ∧
      Decode.omx_state_to_str OMX_StateIdle ≠ none ∧
      Decode.omx_state_to_str OMX_StateIdle = Decode.omx_state_to_str 2) ∧
    Decode.omx_state_to_str 6 = none ∧ OMX_StateIdle = 2 :=
  ⟨⟨by decide, by decide, by decide⟩,
    omx_state_to_str_names_six_states.2.1 6 (by decide),
    omx_state_to_str_names_six_states.2.2.1 OMX_StateIdle 2 (by decide) (by decide)⟩

/-! ## The payload of the buffers -/

/-- C28 (the code): `setup_in_buf` copies the whole access unit pulled from the
appsink into the buffer, whatever the capacity of the buffer: `memcpy` is given
`gst_map.size` and `nFilledLen` is set to it, and `nAllocLen` is not looked at.
With an access unit longer than `nAllocLen`, the bytes stored and `nFilledLen`
exceed the capacity, and the drained callback submits the buffer so.  The
encoder's `omx_empty_buffer` stops at its `assert(len <= p_buf->nAllocLen)`
before reading anything into the buffer. -/
theorem setup_in_buf_copies_without_bound (C : Component σ) (w : World σ)
    (sample : List Nat) (rest : List (List Nat)) (p : BufPtr) (file : FILE) (len : Nat)
    (d : Decode.omx_data_t) (hp : p ≠ NULL)
    (h : (w.heap p).nAllocLen < sample.length) (hl : (w.heap p).nAllocLen < len)
    (hd : d.eos = false) (hs : d.p_appsink = sample :: rest) :
    (((Decode.setup_in_buf w (sample :: rest) p).2.2.heap p).pBuffer.take sample.length
        = sample ∧
      ((Decode.setup_in_buf w (sample :: rest) p).2.2.heap p).nFilledLen = sample.length ∧
      ((Decode.setup_in_buf w (sample :: rest) p).2.2.heap p).nAllocLen
        = (w.heap p).nAllocLen ∧
      ((Decode.setup_in_buf w (sample :: rest) p).2.2.heap p).nAllocLen <
        ((Decode.setup_in_buf w (sample :: rest) p).2.2.heap p).nFilledLen) ∧
    emptiedBufs ((Decode.omx_empty_buffer_done C w (some d) p).2.trace.drop w.trace.length)
      = [(p, sample.length, OMX_BUFFERFLAG_ENDOFFRAME)] ∧
    Encode.omx_empty_buffer C w (some file) p len = (.error Fault.assertion, w) := by
  refine ⟨⟨?_, ?_, ?_, ?_⟩, ?_, ?_⟩
  · simp [Decode.setup_in_buf]
  · simp [Decode.setup_in_buf]
  · simp [Decode.setup_in_buf]
  · simpa [Decode.setup_in_buf] using h
  · simp only [Decode.omx_empty_buffer_done, hd, hs, hp, Decode.setup_in_buf,
      OMX_EmptyThisBuffer, World.log, Function.update_same, ne_eq, not_false_eq_true,
      and_self, if_true]
    split_ifs <;> simp [World.printf, emptiedBufs]
  · have hl2 : ¬ len ≤ (w.heap p).nAllocLen := not_le.mpr hl
    simp [Encode.omx_empty_buffer, hp, hl2]

/-- C28 (witness): an access unit of five bytes and a buffer of capacity four:
the drained callback of the decoder submits the buffer with `nFilledLen = 5`
and five bytes of payload. -/
theorem setup_in_buf_copies_without_bound_witness :
    ((1 : BufPtr) ≠ NULL ∧ (simWorldSmall.heap 1).nAllocLen < [1, 2, 3, 4, 5].length ∧
      (simWorldSmall.heap 1).nAllocLen < 5 ∧
      (Decode.omx_data_init [[1, 2, 3, 4, 5]]).eos = false) ∧
    ((Decode.setup_in_buf simWorldSmall [[1, 2, 3, 4, 5]] 1).2.2.heap 1).nAllocLen <
      ((Decode.setup_in_buf simWorldSmall [[1, 2, 3, 4, 5]] 1).2.2.heap 1).nFilledLen ∧
    (Decode.setup_in_buf simWorldSmall [[1, 2, 3, 4, 5]] 1).2.2.heap 1 =
      { pBuffer := [1, 2, 3, 4, 5], nAllocLen := 4, nFilledLen := 5,
        nFlags := OMX_BUFFERFLAG_ENDOFFRAME } ∧
    emptiedBufs (Decode.omx_empty_buffer_done (sim ⟨20, 20, 3⟩) simWorldSmall
        (some (Decode.omx_data_init [[1, 2, 3, 4, 5]])) 1).2.trace
      = [(1, 5, OMX_BUFFERFLAG_ENDOFFRAME)] :=
  ⟨⟨by decide, by decide, by decide, rfl⟩,
    (setup_in_buf_copies_without_bound (sim ⟨20, 20, 3⟩) simWorldSmall [1, 2, 3, 4, 5] [] 1
      (zeroFile 5) 5 (Decode.omx_data_init [[1, 2, 3, 4, 5]]) (by decide) (by decide)
      (by decide) rfl rfl).1.2.2.2,
    by decide, by decide⟩

/-- C29: a filled callback delivered while `eos` is true writes nothing to the
sink, whatever the buffer holds: in the decoder (whatever the port-disabled
marker) and in the encoder it returns `OMX_ErrorNone` with the shared data,
the sink included, and the buffer headers unchanged, and it submits nothing.
So when the end-of-stream buffer-flag event is handled first and the filled
callback of a picture after it, the sink is what it was before the two. -/
theorem fill_buffer_done_after_eos_discards_payload (C : Component σ) (w : World σ)
    (d : Decode.omx_data_t) (e : Encode.omx_data_t) (p : BufPtr) (nData2 : OMX_U32)
    (hd : d.eos = true) (he : e.eos = true) :
    ((Decode.omx_fill_buffer_done C w (some d) p).1 = .ok (OMX_ErrorNone, d) ∧
      (Decode.omx_fill_buffer_done C w (some d) p).2.heap = w.heap ∧
      filledBufs ((Decode.omx_fill_buffer_done C w (some d) p).2.trace.drop w.trace.length)
        = []) ∧
    ((Encode.omx_fill_buffer_done C w (some e) p).1 = .ok (OMX_ErrorNone, e) ∧
      (Encode.omx_fill_buffer_done C w (some e) p).2.heap = w.heap ∧
      (Encode.omx_fill_buffer_done C w (some e) p).2.trace = w.trace) ∧
    (∀ d0 : Decode.omx_data_t,
      (Decode.omx_event_handler w d0 OMX_EventBufferFlag OMX_BUFFERFLAG_EOS nData2).2.1.eos
        = true ∧
      ((Decode.omx_fill_buffer_done C
          (Decode.omx_event_handler w d0 OMX_EventBufferFlag OMX_BUFFERFLAG_EOS nData2).2.2
          (some (Decode.omx_event_handler w d0 OMX_EventBufferFlag OMX_BUFFERFLAG_EOS
            nData2).2.1) p).1.toOption.map (fun r => r.2.p_out_file))
        = some d0.p_out_file) ∧
    (∀ e0 : Encode.omx_data_t,
      (Encode.omx_event_handler w e0 OMX_EventBufferFlag OMX_BUFFERFLAG_EOS nData2).2.1.eos
        = true ∧
      ((Encode.omx_fill_buffer_done C
          (Encode.omx_event_handler w e0 OMX_EventBufferFlag OMX_BUFFERFLAG_EOS nData2).2.2
          (some (Encode.omx_event_handler w e0 OMX_EventBufferFlag OMX_BUFFERFLAG_EOS
            nData2).2.1) p).1.toOption.map (fun r => r.2.p_out_file))
        = some e0.p_out_file) := by
  have hD : ∀ (w0 : World σ) (d1 : Decode.omx_data_t), d1.eos = true →
      (Decode.omx_fill_buffer_done C w0 (some d1) p).1 = .ok (OMX_ErrorNone, d1) ∧
      (Decode.omx_fill_buffer_done C w0 (some d1) p).2.heap = w0.heap ∧
      filledBufs ((Decode.omx_fill_buffer_done C w0 (some d1) p).2.trace.drop w0.trace.length)
        = [] := by
    intro w0 d1 h1
    by_cases hm : d1.port_disabled = false
    · simp [Decode.omx_fill_buffer_done, hm, World.printf, OMX_FreeBuffer, World.log,
        filledBufs]
    · simp [Decode.omx_fill_buffer_done, hm, h1, World.printf, filledBufs]
  have hE : ∀ (w0 : World σ) (e1 : Encode.omx_data_t), e1.eos = true →
      (Encode.omx_fill_buffer_done C w0 (some e1) p).1 = .ok (OMX_ErrorNone, e1) ∧
      (Encode.omx_fill_buffer_done C w0 (some e1) p).2.heap = w0.heap ∧
      (Encode.omx_fill_buffer_done C w0 (some e1) p).2.trace = w0.trace := by
    intro w0 e1 h1
    simp [Encode.omx_fill_buffer_done, h1, World.printf]
  have hDe : ∀ d0 : Decode.omx_data_t,
      (Decode.omx_event_handler w d0 OMX_EventBufferFlag OMX_BUFFERFLAG_EOS nData2).2.1 =
        { d0 with smp_eos := d0.smp_eos + 1, eos := true } := by
    intro d0
    simp [Decode.omx_event_handler, OMX_EventBufferFlag, OMX_EventCmdComplete,
      OMX_EventPortSettingsChanged]
  have hEe : ∀ e0 : Encode.omx_data_t,
      (Encode.omx_event_handler w e0 OMX_EventBufferFlag OMX_BUFFERFLAG_EOS nData2).2.1 =
        { e0 with smp_eos := e0.smp_eos + 1, eos := true } := by
    intro e0
    simp [Encode.omx_event_handler, OMX_EventBufferFlag, OMX_EventCmdComplete]
  refine ⟨hD w d hd, hE w e he, ?_, ?_⟩
  · intro d0
    have h1 : (Decode.omx_event_handler w d0 OMX_EventBufferFlag OMX_BUFFERFLAG_EOS
        nData2).2.1.eos = true := by rw [hDe d0]
    refine ⟨h1, ?_⟩
    rw [(hD _ _ h1).1, hDe d0]
    rfl
  · intro e0
    have h1 : (Encode.omx_event_handler w e0 OMX_EventBufferFlag OMX_BUFFERFLAG_EOS
        nData2).2.1.eos = true := by rw [hEe e0]
    refine ⟨h1, ?_⟩
    rw [(hE _ _ h1).1, hEe e0]
    rfl

/-- C29 (witness): two encoder runs that differ only in the order in which the
component delivers the end-of-stream event and the filled callback of output
header 3, which holds two bytes.  Both runs return; the picture reaches the
sink when the callback comes first, and is lost when the event comes first. -/
theorem fill_buffer_done_after_eos_discards_payload_witness :
    (({ Decode.omx_data_init [] with eos := true, port_disabled := true } :
        Decode.omx_data_t).eos = true ∧
      ({ Encode.omx_data_init (zeroFile 4) with eos := true } : Encode.omx_data_t).eos
        = true) ∧
    (Encode.omx_fill_buffer_done (sim ⟨20, 20, 3⟩)
      { simWorld with heap := Function.update simWorld.heap 3 (filledHeader [9, 9] 0) }
      (some { Encode.omx_data_init (zeroFile 4) with eos := true }) 3).2.trace
        = simWorld.trace ∧
    (Encode.returned (Encode.main (sim ⟨20, 20, 3⟩) simSchedEnc 5 simWorldEnc
        (some (zeroFile 921600))) = true ∧
      (Encode.finalState (Encode.main (sim ⟨20, 20, 3⟩) simSchedEnc 5 simWorldEnc
        (some (zeroFile 921600)))).omx_data.p_out_file = [9, 9]) ∧
    (Encode.returned (Encode.main (sim ⟨20, 20, 3⟩) simSchedEncEosFirst 5 simWorldEnc
        (some (zeroFile 921600))) = true ∧
      (Encode.finalState (Encode.main (sim ⟨20, 20, 3⟩) simSchedEncEosFirst 5 simWorldEnc
        (some (zeroFile 921600)))).omx_data.p_out_file = []) :=
  ⟨⟨rfl, rfl⟩,
    (fill_buffer_done_after_eos_discards_payload (sim ⟨20, 20, 3⟩)
      { simWorld with heap := Function.update simWorld.heap 3 (filledHeader [9, 9] 0) }
      { Decode.omx_data_init [] with eos := true, port_disabled := true }
      { Encode.omx_data_init (zeroFile 4) with eos := true } 3 0 rfl rfl).2.1.2.2,
    by decide, by decide⟩

/-! ## `ROUND_UP`, `OMX_STRIDE`, `OMX_SLICE_HEIGHT` -/

/-- Masking a 32-bit value with `~(2^k - 1)` clears its `k` low bits. -/
theorem land_not_low_mask (k : Nat) (hk : k ≤ 32) (x : Nat) (hx : x < 2 ^ 32) :
    Nat.land x (2 ^ 32 - 1 - (2 ^ k - 1) % 2 ^ 32) = x / 2 ^ k * 2 ^ k := by
  have hpos : 0 < 2 ^ k := Nat.pos_pow_of_pos k (by norm_num)
  have hle : 2 ^ k ≤ 2 ^ 32 := Nat.pow_le_pow_right (by norm_num) hk
  have h1 : (2 ^ k - 1) % 2 ^ 32 = 2 ^ k - 1 := Nat.mod_eq_of_lt (by omega)
  have h3 : 2 ^ 32 = 2 ^ k * 2 ^ (32 - k) := by
    rw [← pow_add]; congr 1; omega
  have h2 : 2 ^ 32 - 1 - (2 ^ k - 1) = 2 ^ k * (2 ^ (32 - k) - 1) := by
    rw [Nat.mul_sub, mul_one, ← h3]; omega
  rw [h1, h2]
  apply Nat.eq_of_testBit_eq
  intro i
  show (x &&& (2 ^ k * (2 ^ (32 - k) - 1))).testBit i = _
  rw [Nat.testBit_land, mul_comm (x / 2 ^ k), Nat.testBit_mul_pow_two, Nat.testBit_mul_pow_two,
    Nat.testBit_two_pow_sub_one, ← Nat.shiftRight_eq_div_pow, Nat.testBit_shiftRight]
  by_cases hik : k ≤ i
  · have e : k + (i - k) = i := by omega
    by_cases h32 : i < 32
    · have : i - k < 32 - k := by omega
      simp [hik, e, this]
    · have hx2 : x.testBit i = false :=
        Nat.testBit_lt_two_pow (lt_of_lt_of_le hx (Nat.pow_le_pow_right (by norm_num) (by omega)))
      simp [hik, e, hx2]
  · simp [hik]

/-- Without overflow, and for a power of two `RND`, `ROUND_UP` is rounding up
by division. -/
theorem Encode.ROUND_UP_pow_two (k : Nat) (VAL : Nat) (h : VAL + 2 ^ k - 1 < 2 ^ 32) :
    Encode.ROUND_UP VAL (2 ^ k) = (VAL + 2 ^ k - 1) / 2 ^ k * 2 ^ k := by
  have hpos : 0 < 2 ^ k := Nat.pos_pow_of_pos k (by norm_num)
  have hk : k ≤ 32 := by
    by_contra hc
    have : 2 ^ 33 ≤ 2 ^ k := Nat.pow_le_pow_right (by norm_num) (by omega)
    omega
  unfold Encode.ROUND_UP
  rw [Nat.mod_eq_of_lt h]
  exact land_not_low_mask k hk _ h

/-- Rounding up by division gives the least multiple that is not less. -/
theorem div_mul_least_multiple (r VAL : Nat) (hr : 0 < r) :
    r ∣ (VAL + r - 1) / r * r ∧ VAL ≤ (VAL + r - 1) / r * r ∧
    (VAL + r - 1) / r * r < VAL + r ∧
    ∀ m, VAL ≤ m → r ∣ m → (VAL + r - 1) / r * r ≤ m := by
  have h1 := Nat.div_add_mod (VAL + r - 1) r
  have h2 := Nat.mod_lt (VAL + r - 1) hr
  rw [mul_comm] at h1
  refine ⟨Dvd.intro_left _ rfl, by omega, by omega, ?_⟩
  intro m hm hd
  obtain ⟨c, rfl⟩ := hd
  have h3 : (VAL + r - 1) / r < c + 1 := by
    apply Nat.div_lt_of_lt_mul
    rw [Nat.mul_add, mul_one]
    omega
  have h4 : (VAL + r - 1) / r ≤ c := by omega
  calc (VAL + r - 1) / r * r ≤ c * r := Nat.mul_le_mul_right r h4
    _ = r * c := mul_comm _ _

/-- C26 (the claim fails): `ROUND_UP(5, 3)` is `(5 + 3 - 1) & ~(3 - 1)`, that is
`7 & 0xFFFFFFFD = 5`, which is not divisible by 3 (the smallest multiple of 3
that is not less than 5 is 6); nothing overflows. -/
theorem ROUND_UP_of_five_by_three :
    5 + 3 - 1 < 2 ^ 32 ∧ Encode.ROUND_UP 5 3 = 5 ∧ ¬ 3 ∣ Encode.ROUND_UP 5 3 := by
  decide

/-- C26 (amended): for every value `VAL` and every `RND` that is a power of two
(with `VAL + RND - 1` not overflowing 32 bits), `ROUND_UP(VAL, RND)` is the
smallest integer that is not less than `VAL` and divisible by `RND`; and the
seven examples of `omx.h` hold. -/
theorem ROUND_UP_least_multiple_of_power_of_two (k VAL : Nat)
    (h : VAL + 2 ^ k - 1 < 2 ^ 32) :
    (2 ^ k ∣ Encode.ROUND_UP VAL (2 ^ k) ∧ VAL ≤ Encode.ROUND_UP VAL (2 ^ k) ∧
      ∀ m, VAL ≤ m → 2 ^ k ∣ m → Encode.ROUND_UP VAL (2 ^ k) ≤ m) ∧
    (Encode.ROUND_UP 359 2 = 360 ∧ Encode.ROUND_UP 480 2 = 480 ∧
      Encode.ROUND_UP 360 32 = 384 ∧ Encode.ROUND_UP 640 32 = 640 ∧
      Encode.ROUND_UP 720 32 = 736 ∧ Encode.ROUND_UP 1280 32 = 1280 ∧
      Encode.ROUND_UP 1920 32 = 1920) := by
  have hpos : 0 < 2 ^ k := Nat.pos_pow_of_pos k (by norm_num)
  obtain ⟨h1, h2, _, h4⟩ := div_mul_least_multiple (2 ^ k) VAL hpos
  rw [Encode.ROUND_UP_pow_two k VAL h]
  exact ⟨⟨h1, h2, h4⟩, by decide⟩

/-- C26 (amended, witness): `ROUND_UP(720, 32) = 736` is a multiple of 32, not
less than 720, and not greater than the multiple 768. -/
theorem ROUND_UP_least_multiple_of_power_of_two_witness :
    720 + 2 ^ 5 - 1 < 2 ^ 32 ∧
    2 ^ 5 ∣ Encode.ROUND_UP 720 (2 ^ 5) ∧ 720 ≤ Encode.ROUND_UP 720 (2 ^ 5) ∧
    Encode.ROUND_UP 720 (2 ^ 5) ≤ 768 :=
  ⟨by decide,
    (ROUND_UP_least_multiple_of_power_of_two 5 720 (by decide)).1.1,
    (ROUND_UP_least_multiple_of_power_of_two 5 720 (by decide)).1.2.1,
    (ROUND_UP_least_multiple_of_power_of_two 5 720 (by decide)).1.2.2 768 (by decide)
      (by decide)⟩

/-- `ROUND_UP` by a power of two, with the 32-bit wrap of the addition. -/
theorem Encode.ROUND_UP_wrapping (k : Nat) (hk : k ≤ 32) (VAL : Nat) :
    Encode.ROUND_UP VAL (2 ^ k) = (VAL + 2 ^ k - 1) % 2 ^ 32 / 2 ^ k * 2 ^ k :=
  land_not_low_mask k hk _ (Nat.mod_lt _ (by norm_num))

theorem Encode.OMX_STRIDE_eq (w : Nat) :
    Encode.OMX_STRIDE w = (w + 31) % 2 ^ 32 / 32 * 32 :=
  Encode.ROUND_UP_wrapping 5 (by norm_num) w

theorem Encode.OMX_SLICE_HEIGHT_eq (h : Nat) :
    Encode.OMX_SLICE_HEIGHT h = (h + 1) % 2 ^ 32 / 2 * 2 :=
  Encode.ROUND_UP_wrapping 1 (by norm_num) h

/-- C30: over 32-bit unsigned arithmetic, for every frame width
`w ≤ 2^32 - 32` the stride `OMX_STRIDE(w)` is a multiple of 32 with
`w ≤ OMX_STRIDE(w) < w + 32`, and `OMX_STRIDE` is idempotent and monotone on
that range; for every 32-bit `w > 2^32 - 32` the addition wraps and
`OMX_STRIDE(w) = 0 < w`; `OMX_SLICE_HEIGHT(h)` is the least even number not
less than `h` for every `h ≤ 2^32 - 2`; and these are the `nStride` and
`nSliceHeight` that a successful `omx_set_in_port_fmt` sends to the
component. -/
theorem OMX_STRIDE_and_OMX_SLICE_HEIGHT_over_u32 (C : Component σ) :
    (∀ w, w ≤ 2 ^ 32 - 32 →
      32 ∣ Encode.OMX_STRIDE w ∧ w ≤ Encode.OMX_STRIDE w ∧ Encode.OMX_STRIDE w < w + 32 ∧
      Encode.OMX_STRIDE w ≤ 2 ^ 32 - 32 ∧
      Encode.OMX_STRIDE (Encode.OMX_STRIDE w) = Encode.OMX_STRIDE w) ∧
    (∀ w1 w2, w1 ≤ w2 → w2 ≤ 2 ^ 32 - 32 → Encode.OMX_STRIDE w1 ≤ Encode.OMX_STRIDE w2) ∧
    (∀ w, 2 ^ 32 - 32 < w → w < 2 ^ 32 →
      Encode.OMX_STRIDE w = 0 ∧ Encode.OMX_STRIDE w < w) ∧
    (∀ h, h ≤ 2 ^ 32 - 2 →
      2 ∣ Encode.OMX_SLICE_HEIGHT h ∧ h ≤ Encode.OMX_SLICE_HEIGHT h ∧
      ∀ m, h ≤ m → 2 ∣ m → Encode.OMX_SLICE_HEIGHT h ≤ m) ∧
    (∀ (w : World σ) (fw fh : OMX_U32) (fmt : Nat) (u : OMX_PARAM_PORTDEFINITIONTYPE),
      (Encode.omx_set_in_port_fmt C w fw fh fmt u).1 = true →
      ∃ d, Call.OMX_SetParameter_PortDefinition d OMX_ErrorNone ∈
          (Encode.omx_set_in_port_fmt C w fw fh fmt u).2.trace ∧
        d.nFrameWidth = fw ∧ d.nFrameHeight = fh ∧
        d.nStride = Encode.OMX_STRIDE fw ∧ d.nSliceHeight = Encode.OMX_SLICE_HEIGHT fh) := by
  refine ⟨?_, ?_, ?_, ?_, ?_⟩
  · intro w hw
    have e1 := Encode.OMX_STRIDE_eq w
    have e2 := Encode.OMX_STRIDE_eq (Encode.OMX_STRIDE w)
    refine ⟨?_, ?_, ?_, ?_, ?_⟩ <;> omega
  · intro w1 w2 h12 h2
    have e1 := Encode.OMX_STRIDE_eq w1
    have e2 := Encode.OMX_STRIDE_eq w2
    omega
  · intro w h1 h2
    have e1 := Encode.OMX_STRIDE_eq w
    constructor <;> omega
  · intro h hh
    have e1 := Encode.OMX_SLICE_HEIGHT_eq h
    refine ⟨by omega, by omega, ?_⟩
    intro m hm hd
    omega
  · intro w fw fh fmt u h
    refine ⟨{ (C.getPortDefinition w.comp (portQuery 0)).2.1 with
        nFrameWidth := fw, nFrameHeight := fh, nStride := Encode.OMX_STRIDE fw,
        nSliceHeight := Encode.OMX_SLICE_HEIGHT fh, eColorFormat := fmt }, ?_, ?_⟩
    · rw [Encode.omx_set_in_port_fmt_true C w fw fh fmt u h]
      simp
    · exact ⟨rfl, rfl, rfl, rfl⟩

/-- C30 (witness): width 720 gives stride 736, the last width 4294967295 wraps
to stride 0, and height 359 gives slice height 360. -/
theorem OMX_STRIDE_and_OMX_SLICE_HEIGHT_over_u32_witness :
    (720 ≤ 2 ^ 32 - 32 ∧ 2 ^ 32 - 32 < 4294967295 ∧ 4294967295 < 2 ^ 32 ∧
      359 ≤ 2 ^ 32 - 2) ∧
    (32 ∣ Encode.OMX_STRIDE 720 ∧ 720 ≤ Encode.OMX_STRIDE 720 ∧
      Encode.OMX_STRIDE 720 < 720 + 32) ∧
    Encode.OMX_STRIDE 4294967295 = 0 ∧
    2 ∣ Encode.OMX_SLICE_HEIGHT 359 ∧
    Encode.OMX_STRIDE 720 = 736 ∧ Encode.OMX_SLICE_HEIGHT 359 = 360 :=
  ⟨by decide,
    ⟨((OMX_STRIDE_and_OMX_SLICE_HEIGHT_over_u32 (sim ⟨20, 20, 3⟩)).1 720 (by decide)).1,
      ((OMX_STRIDE_and_OMX_SLICE_HEIGHT_over_u32 (sim ⟨20, 20, 3⟩)).1 720 (by decide)).2.1,
      ((OMX_STRIDE_and_OMX_SLICE_HEIGHT_over_u32 (sim ⟨20, 20, 3⟩)).1 720
        (by decide)).2.2.1⟩,
    ((OMX_STRIDE_and_OMX_SLICE_HEIGHT_over_u32 (sim ⟨20, 20, 3⟩)).2.2.1 4294967295
      (by decide) (by decide)).1,
    ((OMX_STRIDE_and_OMX_SLICE_HEIGHT_over_u32 (sim ⟨20, 20, 3⟩)).2.2.2.1 359
      (by decide)).1,
    by decide, by decide⟩

end Omx
